import Mathlib

/-!
# Group signatures with pseudonyms: a shallow embedding of `core/group-sign.c`

The C file is written against a pairing library (big numbers, the curve groups,
the pairing, a hash and a random number generator) that is not part of the
repository.  The embedding takes that library as a parameter, `Lib`, and states
what it needs from it in `Lib.Laws`.  Everything below `Lib` follows the C code
function by function; byte strings are lists of naturals, a `BIG` is a natural,
C `int`s are integers.  What a local holds before it is assigned is
indeterminate in C; where the code reads such a local the content is an input
of the function (`Stack`).
-/

set_option autoImplicit false

namespace GroupSign

/-! ## The pairing library -/

/-- The pairing library the C code is compiled against.  `ECP`, `ECP2` and `FP12`
are the groups G1, G2 and GT of the specification; `ECP_add`, `ECP_copy`,
`ECP2_add`, `ECP2_copy`, `ECP2_equals`, `FP12_one` and `FP12_equals` are the
group operations and equality tests of these fields. -/
structure Lib where
  /-- Byte width of a field element or scalar. -/
  MODBYTES : Nat
  /-- The group order `q`. -/
  CURVE_Order : Nat
  /-- The field modulus. -/
  Modulus : Nat
  /-- Points of G1. -/
  ECP : Type
  /-- Points of G2. -/
  ECP2 : Type
  /-- Elements of the base field in the library's internal form. -/
  FP : Type
  /-- Elements of GT. -/
  FP12 : Type
  /-- State of the random number generator. -/
  csprng : Type
  /-- Group law of G1 (`ECP_add`, `ECP_inf`). -/
  ecpGroup : AddCommGroup ECP
  /-- Equality test of G1 points (`ECP_equals`, `ECP_isinf`). -/
  ecpDec : DecidableEq ECP
  /-- Group law of G2 (`ECP2_add`). -/
  ecp2Group : AddCommGroup ECP2
  /-- Equality test of G2 points (`ECP2_equals`). -/
  ecp2Dec : DecidableEq ECP2
  /-- Multiplication of GT (`FP12_mul`, `FP12_one`). -/
  fp12Group : CommGroup FP12
  /-- Equality test of GT (`FP12_equals`). -/
  fp12Dec : DecidableEq FP12
  /-- The generator `(CURVE_Gx, CURVE_Gy)` of G1. -/
  g1 : ECP
  /-- The generator `(CURVE_Pxa, CURVE_Pxb, CURVE_Pya, CURVE_Pyb)` of G2. -/
  g2 : ECP2
  /-- The value of the Miller loop on a pair of points. -/
  miller : ECP2 → ECP → FP12
  /-- `PAIR_fexp(r)`: the final exponentiation. -/
  fexp : FP12 → FP12
  /-- The hash `GPhash(MC_SHA2, HASH_TYPE, ...)` of a byte string. -/
  GPhash : List Nat → List Nat
  /-- `BIG_randomnum(x, order, RNG)`: the number drawn and the next state. -/
  BIG_randomnum : Nat → csprng → Nat × csprng
  /-- `RAND_seed(&rng, len, seed)`: the state after seeding. -/
  RAND_seed : List Nat → csprng
  /-- `ECP_toOctet(W, P, false)`: the bytes written. -/
  ECP_toOctet : ECP → List Nat
  /-- `ECP_fromOctet(P, W)`: the return value and the new content of `P`, from
  the old content of `P` and the bytes at `W->val`. -/
  ECP_fromOctet : ECP → List Nat → Bool × ECP
  /-- `ECP_setx(P, x, 0)`: the point with x-coordinate `x`, infinity if none. -/
  ECP_setx : Nat → ECP
  /-- `ECP_cfp(P)`: multiplication by the cofactor. -/
  ECP_cfp : ECP → ECP
  /-- `ECP2_get(x, y, P)`: the affine coordinates `(x.a, x.b, y.a, y.b)`;
  `none` stands for the return value `-1` at infinity, where the C function
  leaves its outputs untouched. -/
  ECP2_get : ECP2 → Option (FP × FP × FP × FP)
  /-- `ECP2_set(Q, x, y)`: the return value and the new content of `Q`, from
  the old content of `Q` and the coordinates. -/
  ECP2_set : ECP2 → FP × FP × FP × FP → Bool × ECP2
  /-- `FP_redc`: from the internal form to a `BIG`. -/
  FP_redc : FP → Nat
  /-- `FP_nres`: from a `BIG` to the internal form. -/
  FP_nres : Nat → FP

attribute [instance] Lib.ecpGroup Lib.ecpDec Lib.ecp2Group Lib.ecp2Dec Lib.fp12Group
  Lib.fp12Dec

variable (L : Lib)

/-! ## Big numbers -/

/-- Modelled from the spec: `BIG_toBytes(b, x)` of the library, the `n`
low-order bytes of `x`, most significant first. -/
def BIG_toBytes : Nat → Nat → List Nat
  | 0, _ => []
  | n + 1, x => (x / 256 ^ n) % 256 :: BIG_toBytes n x

/-- Modelled from the spec: `BIG_fromBytes(x, b)` of the library, the
big-endian value of the bytes of `b`. -/
def BIG_fromBytes (b : List Nat) : Nat :=
  b.foldl (fun acc c => 256 * acc + c % 256) 0

/-- Modelled from the spec: `BIG_modmul(r, a, b, m)` of the library. -/
def BIG_modmul (a b m : Nat) : Nat := ((a % m) * (b % m)) % m

/-- Modelled from the spec: `BIG_modneg(r, a, m)` of the library. -/
def BIG_modneg (a m : Nat) : Nat := (m - a % m) % m

/-- Modelled from the spec: `BIG_mod(x, m)` of the library. -/
def BIG_mod (x m : Nat) : Nat := x % m

/-! ## Octets -/

/-- The `octet` of the library: a cursor `len`, a capacity `max` and the bytes. -/
structure octet where
  len : Int
  max : Int
  val : List Nat
deriving DecidableEq, Repr

/-- The `n` bytes of `val` from offset `off` on (zeros past the end of the list). -/
def sliceBytes (val : List Nat) (off n : Nat) : List Nat :=
  (val.drop off ++ List.replicate n 0).take n

/-- The list `val` with `bs` stored from offset `off` on. -/
def pokeBytes (val : List Nat) (off : Nat) (bs : List Nat) : List Nat :=
  sliceBytes val 0 off ++ bs ++ val.drop (off + bs.length)

/-- `ECPSIZE`. -/
def ECPSIZE : Nat := 2 * L.MODBYTES + 1

/-- `ECP2SIZE`. -/
def ECP2SIZE : Nat := 4 * L.MODBYTES

/-- `BIGSIZE`. -/
def BIGSIZE : Nat := L.MODBYTES

/-- `myhash(data, len, output)`: the bytes written to `output`. -/
def myhash (data : List Nat) : List Nat := L.GPhash data

/-- Modelled from the spec: `ECP_isinf(P)` of the library. -/
def ECP_isinf (P : L.ECP) : Bool := decide (P = 0)

/-- Modelled from the spec: `PAIR_G1mul(P, e)` of the library, the multiple
`e P` in G1. -/
def PAIR_G1mul (P : L.ECP) (e : Nat) : L.ECP := e • P

/-- Modelled from the spec: `PAIR_G2mul(P, e)` of the library, the multiple
`e P` in G2. -/
def PAIR_G2mul (P : L.ECP2) (e : Nat) : L.ECP2 := e • P

/-- Modelled from the spec: the pairing `e` of the library, the Miller loop
followed by the final exponentiation. -/
def Lib.pair (P : L.ECP2) (Q : L.ECP) : L.FP12 := L.fexp (L.miller P Q)

/-- Modelled from the spec: `PAIR_initmp(rr)` of the library; the accumulator
of the multi-pairing is kept as the product of the Miller values entered. -/
def PAIR_initmp : L.FP12 := 1

/-- Modelled from the spec: `PAIR_another(rr, P, Q)` of the library. -/
def PAIR_another (rr : L.FP12) (P : L.ECP2) (Q : L.ECP) : L.FP12 := rr * L.miller P Q

/-- Modelled from the spec: `PAIR_miller(r, rr)` of the library. -/
def PAIR_miller (rr : L.FP12) : L.FP12 := rr

/-- `PAIR_normalized_triple_ate(r, P, Q, R, S, T, U)`. -/
def PAIR_normalized_triple_ate (P : L.ECP2) (Q : L.ECP) (R : L.ECP2) (S : L.ECP)
    (T : L.ECP2) (U : L.ECP) : L.FP12 :=
  let rr := PAIR_initmp L
  let rr := PAIR_another L rr P Q
  let rr := PAIR_another L rr R S
  let rr := PAIR_another L rr T U
  let r := PAIR_miller L rr
  L.fexp r

/-- `serialize_BIG(in, out)`. -/
def serialize_BIG (x : Nat) (out : octet) : Bool × octet :=
  let len := out.len
  let out := { out with len := out.len + (BIGSIZE L : Nat) }
  if out.len ≤ out.max then
    (true, { out with val := pokeBytes out.val len.toNat (BIG_toBytes L.MODBYTES x) })
  else (false, out)

/-- `deserialize_BIG(in, out)`: return value, cursor and the new content of `out`. -/
def deserialize_BIG (inp : octet) (out : Nat) : Bool × octet × Nat :=
  let len := inp.len
  let inp := { inp with len := inp.len + (BIGSIZE L : Nat) }
  if inp.len ≤ inp.max then
    (true, inp, BIG_fromBytes (sliceBytes inp.val len.toNat L.MODBYTES))
  else (false, inp, out)

/-- `ECP2_toOctet_compatibility(W, Q)`: the `4 * MODBYTES` bytes written.  The
locals `qx`, `qy` are declared without a value and the return value of
`ECP2_get` is not looked at.  At infinity `ECP2_get` returns `-1` and assigns
neither, and the function writes out what the two locals held on entry.  That
content is indeterminate in C, so it is an input here, `qxy`: the four field
elements `(qx.a, qx.b, qy.a, qy.b)` before the call of `ECP2_get`. -/
def ECP2_toOctet_compatibility (qxy : L.FP × L.FP × L.FP × L.FP) (Q : L.ECP2) : List Nat :=
  let q := match L.ECP2_get Q with
    | some c => c
    | none => qxy
  BIG_toBytes L.MODBYTES (L.FP_redc q.1)
    ++ BIG_toBytes L.MODBYTES (L.FP_redc q.2.1)
    ++ BIG_toBytes L.MODBYTES (L.FP_redc q.2.2.1)
    ++ BIG_toBytes L.MODBYTES (L.FP_redc q.2.2.2)

/-- `ECP2_fromOctet_compatibility(Q, W)`, `W` being the bytes at `W->val`. -/
def ECP2_fromOctet_compatibility (Q : L.ECP2) (W : List Nat) : Bool × L.ECP2 :=
  let qxa := L.FP_nres (BIG_fromBytes (sliceBytes W 0 L.MODBYTES))
  let qxb := L.FP_nres (BIG_fromBytes (sliceBytes W L.MODBYTES L.MODBYTES))
  let qya := L.FP_nres (BIG_fromBytes (sliceBytes W (2 * L.MODBYTES) L.MODBYTES))
  let qyb := L.FP_nres (BIG_fromBytes (sliceBytes W (3 * L.MODBYTES) L.MODBYTES))
  L.ECP2_set Q (qxa, qxb, qya, qyb)

/-- `serialize_ECP2(in, out)`; `qxy` is what the unassigned locals of
`ECP2_toOctet_compatibility` hold at its call. -/
def serialize_ECP2 (qxy : L.FP × L.FP × L.FP × L.FP) (P : L.ECP2) (out : octet) :
    Bool × octet :=
  let len := out.len
  let out := { out with len := out.len + (ECP2SIZE L : Nat) }
  if out.len ≤ out.max then
    (true, { out with val := pokeBytes out.val len.toNat (ECP2_toOctet_compatibility L qxy P) })
  else (false, out)

/-- `deserialize_ECP2(in, out)`. -/
def deserialize_ECP2 (inp : octet) (out : L.ECP2) : Bool × octet × L.ECP2 :=
  let len := inp.len
  let inp := { inp with len := inp.len + (ECP2SIZE L : Nat) }
  if inp.len ≤ inp.max then
    let r := ECP2_fromOctet_compatibility L out (inp.val.drop len.toNat)
    (r.1, inp, r.2)
  else (false, inp, out)

/-- `serialize_ECP(in, out)`. -/
def serialize_ECP (P : L.ECP) (out : octet) : Bool × octet :=
  let len := out.len
  let out := { out with len := out.len + (ECPSIZE L : Nat) }
  if out.len ≤ out.max then
    (true, { out with val := pokeBytes out.val len.toNat (L.ECP_toOctet P) })
  else (false, out)

/-- `deserialize_ECP(in, out)`. -/
def deserialize_ECP (inp : octet) (out : L.ECP) : Bool × octet × L.ECP :=
  let len := inp.len
  let inp := { inp with len := inp.len + (ECPSIZE L : Nat) }
  if inp.len ≤ inp.max then
    let r := L.ECP_fromOctet out (inp.val.drop len.toNat)
    (r.1, inp, r.2)
  else (false, inp, out)

/-! ## Hash to G1, generators, randomness -/

/-- The inner loop of `ECP_mapit_compatibility`: `ECP_setx`, then `BIG_inc` and
`BIG_norm`, until the point is not infinity.  Returns the point and the
incremented `x`; `none` when the fuel runs out. -/
def mapit_inner : Nat → Nat → Option (L.ECP × Nat)
  | 0, _ => none
  | fuel + 1, x =>
    let P := L.ECP_setx x
    let x := x + 1
    if !ECP_isinf L P then some (P, x) else mapit_inner fuel x

/-- The outer loop of `ECP_mapit_compatibility`: the inner loop, then `ECP_cfp`,
until the point is not infinity. -/
def mapit_outer : Nat → Nat → Option L.ECP
  | 0, _ => none
  | fuel + 1, x =>
    match mapit_inner L (fuel + 1) x with
    | none => none
    | some (P, x) =>
      let P := L.ECP_cfp P
      if !ECP_isinf L P then some P else mapit_outer fuel x

/-- `ECP_mapit_compatibility(P, W)`, `W` being the bytes at `W->val`. -/
def ECP_mapit_compatibility (fuel : Nat) (W : List Nat) : Option L.ECP :=
  let x := BIG_fromBytes (sliceBytes W 0 L.MODBYTES)
  let q := L.Modulus
  let x := BIG_mod x q
  mapit_outer L fuel x

/-- `mapit(h, P)`. -/
def mapit (fuel : Nat) (h : List Nat) : Option L.ECP :=
  ECP_mapit_compatibility L fuel h

/-- `setG1(X)`. -/
def setG1 : L.ECP := L.g1

/-- `setG2(X)`. -/
def setG2 : L.ECP2 := L.g2

/-- `randomModOrder(x, RNG)`. -/
def randomModOrder (RNG : L.csprng) : Nat × L.csprng :=
  L.BIG_randomnum L.CURVE_Order RNG

/-! ## Challenges and proofs -/

/-- An empty octet of capacity `max` over a fresh local array. -/
def freshOctet (max : Nat) : octet := { len := 0, max := max, val := [] }

/-- The tail of the three challenge functions: hash the first `TMP.len` bytes,
read the digest as a `BIG` and reduce it modulo the group order. -/
def challengeOf (TMP : octet) : Nat :=
  let hh := myhash L (sliceBytes TMP.val 0 TMP.len.toNat)
  let c := BIG_fromBytes (sliceBytes hh 0 L.MODBYTES)
  BIG_mod c L.CURVE_Order

/-- The indeterminate stack content a piece of code meets: `stack i` is what
the unassigned locals `qx`, `qy` of `ECP2_toOctet_compatibility` hold at the
`i`-th call of that function the code makes, counted from zero.  Every function
below that reaches `ECP2_toOctet_compatibility` takes a `stack`; it matters
only for the calls that serialize the point at infinity. -/
abbrev Stack : Type := Nat → L.FP × L.FP × L.FP × L.FP

/-- `ECP2challenge(Y, G, GR, c)`: three calls of `ECP2_toOctet_compatibility`. -/
def ECP2challenge (stack : Stack L) (Y G GR : L.ECP2) : Nat :=
  let TMP := freshOctet (3 * ECP2SIZE L)
  let TMP := (serialize_ECP2 L (stack 0) Y TMP).2
  let TMP := (serialize_ECP2 L (stack 1) G TMP).2
  let TMP := (serialize_ECP2 L (stack 2) GR TMP).2
  challengeOf L TMP

/-- The start of `ECPchallenge` and `ECPchallengeEquals`: the transcript buffer
of capacity `max`, holding the `MODBYTES` bytes of the message when there is one. -/
def messageOctet (max : Nat) (message : Option (List Nat)) : octet :=
  match message with
  | some m => { len := L.MODBYTES, max := max, val := sliceBytes m 0 L.MODBYTES }
  | none => freshOctet max

/-- `ECPchallenge(message, Y, G, GR, c)`. -/
def ECPchallenge (message : Option (List Nat)) (Y G GR : L.ECP) : Nat :=
  let TMP := messageOctet L (L.MODBYTES + 3 * ECPSIZE L) message
  let TMP := (serialize_ECP L Y TMP).2
  let TMP := (serialize_ECP L G TMP).2
  let TMP := (serialize_ECP L GR TMP).2
  challengeOf L TMP

/-- `makeECPProof(RNG, G, Y, x, message, c, s)`: `(c, s)` and the next RNG state. -/
def makeECPProof (RNG : L.csprng) (G Y : L.ECP) (x : Nat) (message : Option (List Nat)) :
    Nat × Nat × L.csprng :=
  let order := L.CURVE_Order
  let (r, RNG) := randomModOrder L RNG
  let GR := PAIR_G1mul L G r
  let c := ECPchallenge L message Y G GR
  let s := BIG_modmul c x order
  let s := s + r
  let s := BIG_mod s order
  (c, s, RNG)

/-- `ECPchallengeEquals(message, Y, Z, A, B, AR, BR, c)`. -/
def ECPchallengeEquals (message : Option (List Nat)) (Y Z A B AR BR : L.ECP) : Nat :=
  let TMP := messageOctet L (L.MODBYTES + 6 * ECPSIZE L) message
  let TMP := (serialize_ECP L Y TMP).2
  let TMP := (serialize_ECP L Z TMP).2
  let TMP := (serialize_ECP L A TMP).2
  let TMP := (serialize_ECP L B TMP).2
  let TMP := (serialize_ECP L AR TMP).2
  let TMP := (serialize_ECP L BR TMP).2
  challengeOf L TMP

/-- `makeECPProofEquals(RNG, A, B, Y, Z, x, message, c, s)`. -/
def makeECPProofEquals (RNG : L.csprng) (A B Y Z : L.ECP) (x : Nat)
    (message : Option (List Nat)) : Nat × Nat × L.csprng :=
  let order := L.CURVE_Order
  let (r, RNG) := randomModOrder L RNG
  let AR := PAIR_G1mul L A r
  let BR := PAIR_G1mul L B r
  let c := ECPchallengeEquals L message Y Z A B AR BR
  let s := BIG_modmul c x order
  let s := s + r
  let s := BIG_mod s order
  (c, s, RNG)

/-- `verifyECPProof(G, Y, message, c, s)`. -/
def verifyECPProof (G Y : L.ECP) (message : Option (List Nat)) (c s : Nat) : Bool :=
  let order := L.CURVE_Order
  let cn := BIG_modneg c order
  let GS := PAIR_G1mul L G s
  let YC := PAIR_G1mul L Y cn
  let GS := GS + YC
  let cc := ECPchallenge L message Y G GS
  decide (c = cc)

/-- `verifyECPProofEquals(A, B, Y, Z, message, c, s)`. -/
def verifyECPProofEquals (A B Y Z : L.ECP) (message : Option (List Nat)) (c s : Nat) : Bool :=
  let order := L.CURVE_Order
  let cn := BIG_modneg c order
  let AS := PAIR_G1mul L A s
  let YC := PAIR_G1mul L Y cn
  let BS := PAIR_G1mul L B s
  let ZC := PAIR_G1mul L Z cn
  let AS := AS + YC
  let BS := BS + ZC
  let cc := ECPchallengeEquals L message Y Z A B AS BS
  decide (c = cc)

/-- `makeECP2Proof(RNG, G, Y, x, c, s)`. -/
def makeECP2Proof (stack : Stack L) (RNG : L.csprng) (G Y : L.ECP2) (x : Nat) :
    Nat × Nat × L.csprng :=
  let order := L.CURVE_Order
  let (r, RNG) := randomModOrder L RNG
  let GR := PAIR_G2mul L G r
  let c := ECP2challenge L stack Y G GR
  let s := BIG_modmul c x order
  let s := s + r
  let s := BIG_mod s order
  (c, s, RNG)

/-- `verifyECP2Proof(G, Y, c, s)`. -/
def verifyECP2Proof (stack : Stack L) (G Y : L.ECP2) (c s : Nat) : Bool :=
  let order := L.CURVE_Order
  let cn := BIG_modneg c order
  let GS := PAIR_G2mul L G s
  let YC := PAIR_G2mul L Y cn
  let GS := GS + YC
  let cc := ECP2challenge L stack Y G GS
  decide (c = cc)

/-- `verifyAuxFast(A, B, C, D, X, Y, RNG)`: the verdict and the next RNG state. -/
def verifyAuxFast (A B C D : L.ECP) (X Y : L.ECP2) (RNG : L.csprng) : Bool × L.csprng :=
  if ECP_isinf L A then (false, RNG)
  else
    let order := L.CURVE_Order
    let G2 := setG2 L
    let (e1, RNG) := randomModOrder L RNG
    let (e2, RNG) := randomModOrder L RNG
    let ne1 := BIG_modneg e1 order
    let ne2 := BIG_modneg e2 order
    let AA := PAIR_G1mul L A e1
    let BB := PAIR_G1mul L B ne1
    let CC := PAIR_G1mul L C ne2
    let BB := BB + CC
    let CC := A + D
    let CC := PAIR_G1mul L CC e2
    let w := PAIR_normalized_triple_ate L Y AA G2 BB X CC
    let y : L.FP12 := 1
    if !decide (w = y) then (false, RNG) else (true, RNG)

/-! ## Records -/

/-- `struct GroupPublicKey`. -/
structure GroupPublicKey where
  X : L.ECP2
  Y : L.ECP2
  cx : Nat
  sx : Nat
  cy : Nat
  sy : Nat

/-- `struct GroupPrivateKey`. -/
structure GroupPrivateKey where
  pub : GroupPublicKey L
  x : Nat
  y : Nat

/-- `struct JoinMessage`. -/
structure JoinMessage where
  Q : L.ECP
  c : Nat
  s : Nat

/-- `struct UserCredentials`. -/
structure UserCredentials where
  A : L.ECP
  B : L.ECP
  C : L.ECP
  D : L.ECP

/-- `struct UserPrivateKey`. -/
structure UserPrivateKey where
  cred : UserCredentials L
  gsk : Nat

/-- `struct JoinResponse`. -/
structure JoinResponse where
  cred : UserCredentials L
  c : Nat
  s : Nat

/-- `struct Signature`. -/
structure Signature where
  A : L.ECP
  B : L.ECP
  C : L.ECP
  D : L.ECP
  NYM : L.ECP
  c : Nat
  s : Nat

/-- The C operator `&&` on serializer calls: the right operand runs on the
octet the left one leaves, and only when the left one returned non-zero. -/
def andThen (r : Bool × octet) (f : octet → Bool × octet) : Bool × octet :=
  if r.1 then f r.2 else r

/-- `serialize_group_public_key(in, out)`: two calls of
`ECP2_toOctet_compatibility`. -/
def serialize_group_public_key (stack : Stack L) (inp : GroupPublicKey L) (out : octet) :
    Bool × octet :=
  andThen (andThen (andThen (andThen (andThen
    (serialize_ECP2 L (stack 0) inp.X out)
    (serialize_ECP2 L (stack 1) inp.Y))
    (serialize_BIG L inp.cx))
    (serialize_BIG L inp.sx))
    (serialize_BIG L inp.cy))
    (serialize_BIG L inp.sy)

/-- `verifyGroupPublicKey(pub)`: the second check meets the stack from its
fourth entry on. -/
def verifyGroupPublicKey (stack : Stack L) (pub : GroupPublicKey L) : Bool :=
  let W := setG2 L
  verifyECP2Proof L stack W pub.X pub.cx pub.sx
    && verifyECP2Proof L (fun i => stack (i + 3)) W pub.Y pub.cy pub.sy

/-- `deserialize_group_public_key(in, out)`: return value, cursor and the new
content of `out` (fields read before a failure stay written). -/
def deserialize_group_public_key (stack : Stack L) (inp : octet) (out : GroupPublicKey L) :
    Bool × octet × GroupPublicKey L :=
  match deserialize_ECP2 L inp out.X with
  | (false, inp, X) => (false, inp, { out with X := X })
  | (true, inp, X) =>
  let out := { out with X := X }
  match deserialize_ECP2 L inp out.Y with
  | (false, inp, Y) => (false, inp, { out with Y := Y })
  | (true, inp, Y) =>
  let out := { out with Y := Y }
  match deserialize_BIG L inp out.cx with
  | (false, inp, cx) => (false, inp, { out with cx := cx })
  | (true, inp, cx) =>
  let out := { out with cx := cx }
  match deserialize_BIG L inp out.sx with
  | (false, inp, sx) => (false, inp, { out with sx := sx })
  | (true, inp, sx) =>
  let out := { out with sx := sx }
  match deserialize_BIG L inp out.cy with
  | (false, inp, cy) => (false, inp, { out with cy := cy })
  | (true, inp, cy) =>
  let out := { out with cy := cy }
  match deserialize_BIG L inp out.sy with
  | (false, inp, sy) => (false, inp, { out with sy := sy })
  | (true, inp, sy) =>
  let out := { out with sy := sy }
  (verifyGroupPublicKey L stack out, inp, out)

/-- `serialize_group_private_key(in, out)`. -/
def serialize_group_private_key (stack : Stack L) (inp : GroupPrivateKey L) (out : octet) :
    Bool × octet :=
  andThen (andThen
    (serialize_group_public_key L stack inp.pub out)
    (serialize_BIG L inp.x))
    (serialize_BIG L inp.y)

/-- `_checkPrivateKey(key)`. -/
def _checkPrivateKey (key : GroupPrivateKey L) : Bool :=
  let X := setG2 L
  let Y := setG2 L
  let X := PAIR_G2mul L X key.x
  let Y := PAIR_G2mul L Y key.y
  decide (X = key.pub.X) && decide (Y = key.pub.Y)

/-- `deserialize_group_private_key(in, out)`. -/
def deserialize_group_private_key (stack : Stack L) (inp : octet) (out : GroupPrivateKey L) :
    Bool × octet × GroupPrivateKey L :=
  match deserialize_group_public_key L stack inp out.pub with
  | (false, inp, pub) => (false, inp, { out with pub := pub })
  | (true, inp, pub) =>
  let out := { out with pub := pub }
  match deserialize_BIG L inp out.x with
  | (false, inp, x) => (false, inp, { out with x := x })
  | (true, inp, x) =>
  let out := { out with x := x }
  match deserialize_BIG L inp out.y with
  | (false, inp, y) => (false, inp, { out with y := y })
  | (true, inp, y) =>
  let out := { out with y := y }
  (_checkPrivateKey L out, inp, out)

/-- `serialize_join_message(in, out)`. -/
def serialize_join_message (inp : JoinMessage L) (out : octet) : Bool × octet :=
  andThen (andThen
    (serialize_ECP L inp.Q out)
    (serialize_BIG L inp.c))
    (serialize_BIG L inp.s)

/-- `deserialize_join_message(in, out)`. -/
def deserialize_join_message (inp : octet) (out : JoinMessage L) :
    Bool × octet × JoinMessage L :=
  match deserialize_ECP L inp out.Q with
  | (false, inp, Q) => (false, inp, { out with Q := Q })
  | (true, inp, Q) =>
  let out := { out with Q := Q }
  match deserialize_BIG L inp out.c with
  | (false, inp, c) => (false, inp, { out with c := c })
  | (true, inp, c) =>
  let out := { out with c := c }
  match deserialize_BIG L inp out.s with
  | (r, inp, s) => (r, inp, { out with s := s })

/-- `serialize_user_credentials(in, out)`. -/
def serialize_user_credentials (inp : UserCredentials L) (out : octet) : Bool × octet :=
  andThen (andThen (andThen
    (serialize_ECP L inp.A out)
    (serialize_ECP L inp.B))
    (serialize_ECP L inp.C))
    (serialize_ECP L inp.D)

/-- `deserialize_user_credentials(in, out)`. -/
def deserialize_user_credentials (inp : octet) (out : UserCredentials L) :
    Bool × octet × UserCredentials L :=
  match deserialize_ECP L inp out.A with
  | (false, inp, A) => (false, inp, { out with A := A })
  | (true, inp, A) =>
  let out := { out with A := A }
  match deserialize_ECP L inp out.B with
  | (false, inp, B) => (false, inp, { out with B := B })
  | (true, inp, B) =>
  let out := { out with B := B }
  match deserialize_ECP L inp out.C with
  | (false, inp, C) => (false, inp, { out with C := C })
  | (true, inp, C) =>
  let out := { out with C := C }
  match deserialize_ECP L inp out.D with
  | (r, inp, D) => (r, inp, { out with D := D })

/-- `serialize_join_response(in, out)`. -/
def serialize_join_response (inp : JoinResponse L) (out : octet) : Bool × octet :=
  andThen (andThen
    (serialize_user_credentials L inp.cred out)
    (serialize_BIG L inp.c))
    (serialize_BIG L inp.s)

/-- `deserialize_join_response(in, out)`. -/
def deserialize_join_response (inp : octet) (out : JoinResponse L) :
    Bool × octet × JoinResponse L :=
  match deserialize_user_credentials L inp out.cred with
  | (false, inp, cred) => (false, inp, { out with cred := cred })
  | (true, inp, cred) =>
  let out := { out with cred := cred }
  match deserialize_BIG L inp out.c with
  | (false, inp, c) => (false, inp, { out with c := c })
  | (true, inp, c) =>
  let out := { out with c := c }
  match deserialize_BIG L inp out.s with
  | (r, inp, s) => (r, inp, { out with s := s })

/-- `serialize_user_private_key(in, out)`. -/
def serialize_user_private_key (inp : UserPrivateKey L) (out : octet) : Bool × octet :=
  andThen
    (serialize_user_credentials L inp.cred out)
    (serialize_BIG L inp.gsk)

/-- `deserialize_user_private_key(in, out)`. -/
def deserialize_user_private_key (inp : octet) (out : UserPrivateKey L) :
    Bool × octet × UserPrivateKey L :=
  match deserialize_user_credentials L inp out.cred with
  | (false, inp, cred) => (false, inp, { out with cred := cred })
  | (true, inp, cred) =>
  let out := { out with cred := cred }
  match deserialize_BIG L inp out.gsk with
  | (r, inp, gsk) => (r, inp, { out with gsk := gsk })

/-- `serialize_signature(in, out)`. -/
def serialize_signature (inp : Signature L) (out : octet) : Bool × octet :=
  andThen (andThen (andThen (andThen (andThen (andThen
    (serialize_ECP L inp.A out)
    (serialize_ECP L inp.B))
    (serialize_ECP L inp.C))
    (serialize_ECP L inp.D))
    (serialize_ECP L inp.NYM))
    (serialize_BIG L inp.c))
    (serialize_BIG L inp.s)

/-- `deserialize_signature(in, out)`. -/
def deserialize_signature (inp : octet) (out : Signature L) :
    Bool × octet × Signature L :=
  match deserialize_ECP L inp out.A with
  | (false, inp, A) => (false, inp, { out with A := A })
  | (true, inp, A) =>
  let out := { out with A := A }
  match deserialize_ECP L inp out.B with
  | (false, inp, B) => (false, inp, { out with B := B })
  | (true, inp, B) =>
  let out := { out with B := B }
  match deserialize_ECP L inp out.C with
  | (false, inp, C) => (false, inp, { out with C := C })
  | (true, inp, C) =>
  let out := { out with C := C }
  match deserialize_ECP L inp out.D with
  | (false, inp, D) => (false, inp, { out with D := D })
  | (true, inp, D) =>
  let out := { out with D := D }
  match deserialize_ECP L inp out.NYM with
  | (false, inp, NYM) => (false, inp, { out with NYM := NYM })
  | (true, inp, NYM) =>
  let out := { out with NYM := NYM }
  match deserialize_BIG L inp out.c with
  | (false, inp, c) => (false, inp, { out with c := c })
  | (true, inp, c) =>
  let out := { out with c := c }
  match deserialize_BIG L inp out.s with
  | (r, inp, s) => (r, inp, { out with s := s })

/-- `serialize_signature_tag(in, out)`. -/
def serialize_signature_tag (inp : Signature L) (out : octet) : Bool × octet :=
  serialize_ECP L inp.NYM out

/-! ## The protocol -/

/-- `join_client(RNG, challenge, challenge_len, j, priv)`: the join message,
`priv` with its `gsk` set, and the next RNG state. -/
def join_client (RNG : L.csprng) (challenge : List Nat) (priv : UserPrivateKey L) :
    JoinMessage L × UserPrivateKey L × L.csprng :=
  let G := setG1 L
  let (gsk, RNG) := randomModOrder L RNG
  let priv := { priv with gsk := gsk }
  let Q := PAIR_G1mul L G priv.gsk
  let h := myhash L challenge
  let (c, s, RNG) := makeECPProof L RNG G Q priv.gsk (some h)
  ({ Q := Q, c := c, s := s }, priv, RNG)

/-- `join_server(RNG, priv, j, challenge, challenge_len, resp)`: the return
value, the new content of `resp` and the next RNG state. -/
def join_server (RNG : L.csprng) (priv : GroupPrivateKey L) (j : JoinMessage L)
    (challenge : List Nat) (resp : JoinResponse L) : Bool × JoinResponse L × L.csprng :=
  let order := L.CURVE_Order
  let G := setG1 L
  let h := myhash L challenge
  let ok := verifyECPProof L G j.Q (some h) j.c j.s
  if ok then
    let Q := j.Q
    let (r, RNG) := randomModOrder L RNG
    let A := PAIR_G1mul L G r
    let B := PAIR_G1mul L A priv.y
    let tmp := BIG_modmul r priv.y order
    let D := PAIR_G1mul L Q tmp
    let C := PAIR_G1mul L (A + D) priv.x
    let (c, s, RNG) := makeECPProofEquals L RNG G Q B D tmp none
    (ok, { cred := { A := A, B := B, C := C, D := D }, c := c, s := s }, RNG)
  else (ok, resp, RNG)

/-- `setup(RNG, priv)`: the group private key written and the next RNG state;
the second proof meets the stack from its fourth entry on. -/
def setup (stack : Stack L) (RNG : L.csprng) : GroupPrivateKey L × L.csprng :=
  let W := setG2 L
  let (x, RNG) := randomModOrder L RNG
  let (y, RNG) := randomModOrder L RNG
  let X := PAIR_G2mul L W x
  let Y := PAIR_G2mul L W y
  let (cx, sx, RNG) := makeECP2Proof L stack RNG W X x
  let (cy, sy, RNG) := makeECP2Proof L (fun i => stack (i + 3)) RNG W Y y
  ({ pub := { X := X, Y := Y, cx := cx, sx := sx, cy := cy, sy := sy }, x := x, y := y }, RNG)

/-- `join_finish_client(pub, priv, resp, RNG)`: the return value, the new
content of `priv` and the next RNG state. -/
def join_finish_client (pub : GroupPublicKey L) (priv : UserPrivateKey L)
    (resp : JoinResponse L) (RNG : L.csprng) : Bool × UserPrivateKey L × L.csprng :=
  let G := setG1 L
  let Q := PAIR_G1mul L G priv.gsk
  if !verifyECPProofEquals L G Q resp.cred.B resp.cred.D none resp.c resp.s then
    (false, priv, RNG)
  else
    let r := verifyAuxFast L resp.cred.A resp.cred.B resp.cred.C resp.cred.D pub.X pub.Y RNG
    if !r.1 then (false, priv, r.2)
    else
      (true, { priv with cred := { A := resp.cred.A, B := resp.cred.B, C := resp.cred.C,
                                   D := resp.cred.D } }, r.2)

/-- `sign(RNG, priv, msg, msg_len, bsn, bsn_len, sig)`: the signature and the
next RNG state; `none` when the hash to G1 runs out of fuel. -/
def sign (fuel : Nat) (RNG : L.csprng) (priv : UserPrivateKey L) (msg bsn : List Nat) :
    Option (Signature L × L.csprng) :=
  let (r, RNG) := randomModOrder L RNG
  let A := PAIR_G1mul L priv.cred.A r
  let B := PAIR_G1mul L priv.cred.B r
  let C := PAIR_G1mul L priv.cred.C r
  let D := PAIR_G1mul L priv.cred.D r
  let h := myhash L bsn
  match mapit L fuel h with
  | none => none
  | some BSN =>
    let NYM := PAIR_G1mul L BSN priv.gsk
    let hh := pokeBytes (pokeBytes [] 0 (myhash L msg)) L.MODBYTES (myhash L bsn)
    let h := myhash L (sliceBytes hh 0 (2 * L.MODBYTES))
    let (c, s, RNG) := makeECPProofEquals L RNG B BSN D NYM priv.gsk (some h)
    some ({ A := A, B := B, C := C, D := D, NYM := NYM, c := c, s := s }, RNG)

/-- `verify(msg, msg_len, bsn, bsn_len, sig, pub, RNG)`: the verdict and the
next RNG state; `none` when the hash to G1 runs out of fuel. -/
def verify (fuel : Nat) (msg bsn : List Nat) (sig : Signature L) (pub : GroupPublicKey L)
    (RNG : L.csprng) : Option (Bool × L.csprng) :=
  let h := myhash L bsn
  match mapit L fuel h with
  | none => none
  | some BSN =>
    let hh := pokeBytes (pokeBytes [] 0 (myhash L msg)) L.MODBYTES (myhash L bsn)
    let h := myhash L (sliceBytes hh 0 (2 * L.MODBYTES))
    if verifyECPProofEquals L sig.B BSN sig.D sig.NYM (some h) sig.c sig.s
        && !ECP_isinf L sig.A && !ECP_isinf L sig.B then
      some (verifyAuxFast L sig.A sig.B sig.C sig.D pub.X pub.Y RNG)
    else some (false, RNG)

/-! ## The external interface -/

/-- `enum StateFlags`: `GS_SEEDED`. -/
def GS_SEEDED : Nat := 0

/-- `enum StateFlags`: `GS_GROUP_PRIVKEY`. -/
def GS_GROUP_PRIVKEY : Nat := 1

/-- `enum StateFlags`: `GS_GROUP_PUBKEY`. -/
def GS_GROUP_PUBKEY : Nat := 2

/-- `enum StateFlags`: `GS_USERCREDS`. -/
def GS_USERCREDS : Nat := 3

/-- `GS_State`; `state` is the bit pattern of the C `int`. -/
structure GS_State where
  _rng : L.csprng
  _priv : GroupPrivateKey L
  _userPriv : UserPrivateKey L
  state : Nat

/-- The return codes of the external interface. -/
inductive GS_Ret where
  | GS_RETURN_FAILURE
  | GS_RETURN_SUCCESS
  | GS_SEED_TOO_SMALL
  | GS_NOT_SEEDED
  | GS_INVALID_GROUP_PRIVATE_KEY
  | GS_INVALID_GROUP_PUBLIC_KEY
  | GS_OUTPUT_BUFFER_TOO_SMALL
  | GS_INVALID_USER_PRIVATE_KEY
  | GS_INVALID_JOIN_RESPONSE
  | GS_INVALID_USER_CREDENTIALS
  | GS_NOT_SET_GROUP_PRIVATE_KEY
  | GS_NOT_SET_GROUP_PUBLIC_KEY
  | GS_NOT_SET_USER_CREDENTIALS
  | GS_INVALID_JOIN_MESSAGE
  | GS_INVALID_SIGNATURE
deriving DecidableEq, Repr

open GS_Ret

/-- `state & (1 << flag)` is non-zero. -/
def flagSet (state flag : Nat) : Bool := (1 <<< flag) &&& state != 0

/-- `~(1 << flag)` as a 32-bit pattern. -/
def notFlag (flag : Nat) : Nat := 0xFFFFFFFF - (1 <<< flag)

/-- A local `struct UserCredentials` before anything is stored in it. -/
def localCred : UserCredentials L := { A := 0, B := 0, C := 0, D := 0 }

/-- A local `struct UserPrivateKey` before anything is stored in it. -/
def localUserPriv : UserPrivateKey L := { cred := localCred L, gsk := 0 }

/-- A local `struct GroupPublicKey` before anything is stored in it. -/
def localPub : GroupPublicKey L := { X := 0, Y := 0, cx := 0, sx := 0, cy := 0, sy := 0 }

/-- A local `struct JoinMessage` before anything is stored in it. -/
def localJoin : JoinMessage L := { Q := 0, c := 0, s := 0 }

/-- A local `struct JoinResponse` before anything is stored in it. -/
def localResp : JoinResponse L := { cred := localCred L, c := 0, s := 0 }

/-- A local `struct Signature` before anything is stored in it. -/
def localSig : Signature L := { A := 0, B := 0, C := 0, D := 0, NYM := 0, c := 0, s := 0 }

/-- `GS_initState(rawstate)`. -/
def GS_initState (st : GS_State L) : GS_State L := { st with state := 0 }

/-- `GS_seed(rawstate, seed, seed_length)`. -/
def GS_seed (st : GS_State L) (seed : List Nat) (seed_length : Int) : GS_Ret × GS_State L :=
  if seed_length < 128 then (GS_SEED_TOO_SMALL, st)
  else
    let st := { st with _rng := L.RAND_seed (sliceBytes seed 0 seed_length.toNat) }
    let st := { st with state := st.state ||| (1 <<< GS_SEEDED) }
    (GS_RETURN_SUCCESS, st)

/-- `GS_setupGroup(rawstate)`. -/
def GS_setupGroup (stack : Stack L) (st : GS_State L) : GS_Ret × GS_State L :=
  if !flagSet st.state GS_SEEDED then (GS_NOT_SEEDED, st)
  else
    let st := { st with state := st.state &&& (1 <<< GS_SEEDED) }
    let r := setup L stack st._rng
    let st := { st with _rng := r.2, _priv := r.1 }
    let st := { st with state := st.state ||| (1 <<< GS_GROUP_PRIVKEY) }
    let st := { st with state := st.state ||| (1 <<< GS_GROUP_PUBKEY) }
    (GS_RETURN_SUCCESS, st)

/-- `GS_loadGroupPrivKey(rawstate, data, len)`. -/
def GS_loadGroupPrivKey (stack : Stack L) (st : GS_State L) (data : List Nat) (len : Int) :
    GS_Ret × GS_State L :=
  let st := { st with state := st.state &&& (1 <<< GS_SEEDED) }
  let o : octet := { len := 0, max := len, val := data }
  let r := deserialize_group_private_key L stack o st._priv
  let st := { st with _priv := r.2.2 }
  if !r.1 then (GS_INVALID_GROUP_PRIVATE_KEY, st)
  else
    let st := { st with state := st.state ||| (1 <<< GS_GROUP_PRIVKEY) }
    let st := { st with state := st.state ||| (1 <<< GS_GROUP_PUBKEY) }
    (GS_RETURN_SUCCESS, st)

/-- `GS_loadGroupPubKey(rawstate, data, len)`. -/
def GS_loadGroupPubKey (stack : Stack L) (st : GS_State L) (data : List Nat) (len : Int) :
    GS_Ret × GS_State L :=
  let st := { st with state := st.state &&& (1 <<< GS_SEEDED) }
  let o : octet := { len := 0, max := len, val := data }
  let r := deserialize_group_public_key L stack o st._priv.pub
  let st := { st with _priv := { st._priv with pub := r.2.2 } }
  if !r.1 then (GS_INVALID_GROUP_PUBLIC_KEY, st)
  else
    let st := { st with state := st.state ||| (1 <<< GS_GROUP_PUBKEY) }
    (GS_RETURN_SUCCESS, st)

/-- The caller's view after `GS_startJoin`: return code, state, the `gsk`
buffer and `*len_gsk`, the `joinmsg` buffer and `*len`. -/
structure StartJoinResult where
  ret : GS_Ret
  st : GS_State L
  gsk : List Nat
  len_gsk : Int
  joinmsg : List Nat
  len : Int

/-- `GS_startJoin(rawstate, challenge, challenge_len, gsk, len_gsk, joinmsg, len)`. -/
def GS_startJoin (st : GS_State L) (challenge : List Nat) (gsk : List Nat) (len_gsk : Int)
    (joinmsg : List Nat) (len : Int) : StartJoinResult L :=
  if !flagSet st.state GS_SEEDED then
    { ret := GS_NOT_SEEDED, st := st, gsk := gsk, len_gsk := len_gsk, joinmsg := joinmsg,
      len := len }
  else
    let r := join_client L st._rng challenge (localUserPriv L)
    let j := r.1
    let userPriv := r.2.1
    let st := { st with _rng := r.2.2 }
    let o : octet := { len := 0, max := len, val := joinmsg }
    let so := serialize_join_message L j o
    if !so.1 then
      { ret := GS_OUTPUT_BUFFER_TOO_SMALL, st := st, gsk := gsk, len_gsk := len_gsk,
        joinmsg := so.2.val, len := len }
    else
      let len := so.2.len
      let o2 : octet := { len := 0, max := len_gsk, val := gsk }
      let so2 := serialize_BIG L userPriv.gsk o2
      if !so2.1 then
        { ret := GS_OUTPUT_BUFFER_TOO_SMALL, st := st, gsk := so2.2.val, len_gsk := len_gsk,
          joinmsg := so.2.val, len := len }
      else
        { ret := GS_RETURN_SUCCESS, st := st, gsk := so2.2.val, len_gsk := so2.2.len,
          joinmsg := so.2.val, len := len }

/-- `GS_finishJoin(publickey, len_publickey, gsk, len_gsk, joinresponse, len,
credentials, len_credentials)`: return code, the `credentials` buffer and
`*len_credentials`. -/
def GS_finishJoin (stack : Stack L) (publickey : List Nat) (len_publickey : Int)
    (gsk : List Nat) (len_gsk : Int) (joinresponse : List Nat) (len : Int)
    (credentials : List Nat) (len_credentials : Int) : GS_Ret × List Nat × Int :=
  let op : octet := { len := 0, max := len_publickey, val := publickey }
  let rp := deserialize_group_public_key L stack op (localPub L)
  if !rp.1 then (GS_INVALID_GROUP_PUBLIC_KEY, credentials, len_credentials)
  else
    let pub := rp.2.2
    let og : octet := { len := 0, max := len_gsk, val := gsk }
    let rg := deserialize_BIG L og (localUserPriv L).gsk
    if !rg.1 then (GS_INVALID_USER_PRIVATE_KEY, credentials, len_credentials)
    else
      let priv := { localUserPriv L with gsk := rg.2.2 }
      let rng := L.RAND_seed (sliceBytes gsk 0 len_gsk.toNat)
      let o : octet := { len := 0, max := len, val := joinresponse }
      let rr := deserialize_join_response L o (localResp L)
      if !rr.1 then (GS_INVALID_JOIN_RESPONSE, credentials, len_credentials)
      else
        let rf := join_finish_client L pub priv rr.2.2 rng
        if !rf.1 then (GS_INVALID_JOIN_RESPONSE, credentials, len_credentials)
        else
          let priv := rf.2.1
          let oc : octet := { len := 0, max := len_credentials, val := credentials }
          let sc := serialize_user_private_key L priv oc
          if !sc.1 then (GS_OUTPUT_BUFFER_TOO_SMALL, sc.2.val, len_credentials)
          else (GS_RETURN_SUCCESS, sc.2.val, sc.2.len)

/-- `GS_loadUserCredentials(rawstate, in, in_len)`. -/
def GS_loadUserCredentials (st : GS_State L) (inp : List Nat) (in_len : Int) :
    GS_Ret × GS_State L :=
  let st := { st with state := st.state &&& notFlag GS_USERCREDS }
  let o : octet := { len := 0, max := in_len, val := inp }
  let r := deserialize_user_private_key L o st._userPriv
  let st := { st with _userPriv := r.2.2 }
  if !r.1 then (GS_INVALID_USER_CREDENTIALS, st)
  else
    let st := { st with state := st.state ||| (1 <<< GS_USERCREDS) }
    (GS_RETURN_SUCCESS, st)

/-- `GS_exportGroupPrivKey(rawstate, out, out_len)`: return code, the `out`
buffer and `*out_len`. -/
def GS_exportGroupPrivKey (stack : Stack L) (st : GS_State L) (out : List Nat)
    (out_len : Int) :
    GS_Ret × List Nat × Int :=
  if !flagSet st.state GS_GROUP_PRIVKEY then (GS_NOT_SET_GROUP_PRIVATE_KEY, out, out_len)
  else
    let o : octet := { len := 0, max := out_len, val := out }
    let r := serialize_group_private_key L stack st._priv o
    if !r.1 then (GS_OUTPUT_BUFFER_TOO_SMALL, r.2.val, out_len)
    else (GS_RETURN_SUCCESS, r.2.val, r.2.len)

/-- `GS_exportGroupPubKey(rawstate, out, out_len)`. -/
def GS_exportGroupPubKey (stack : Stack L) (st : GS_State L) (out : List Nat)
    (out_len : Int) :
    GS_Ret × List Nat × Int :=
  if !flagSet st.state GS_GROUP_PUBKEY then (GS_NOT_SET_GROUP_PUBLIC_KEY, out, out_len)
  else
    let o : octet := { len := 0, max := out_len, val := out }
    let r := serialize_group_public_key L stack st._priv.pub o
    if !r.1 then (GS_OUTPUT_BUFFER_TOO_SMALL, r.2.val, out_len)
    else (GS_RETURN_SUCCESS, r.2.val, r.2.len)

/-- `GS_exportUserCredentials(rawstate, out, out_len)`. -/
def GS_exportUserCredentials (st : GS_State L) (out : List Nat) (out_len : Int) :
    GS_Ret × List Nat × Int :=
  if !flagSet st.state GS_USERCREDS then (GS_NOT_SET_USER_CREDENTIALS, out, out_len)
  else
    let o : octet := { len := 0, max := out_len, val := out }
    let r := serialize_user_private_key L st._userPriv o
    if !r.1 then (GS_OUTPUT_BUFFER_TOO_SMALL, r.2.val, out_len)
    else (GS_RETURN_SUCCESS, r.2.val, r.2.len)

/-- `GS_processJoin(rawstate, joinmsg, joinmsg_len, challenge, challenge_len,
out, out_len)`: return code, state, the `out` buffer and `*out_len`. -/
def GS_processJoin (st : GS_State L) (joinmsg : List Nat) (joinmsg_len : Int)
    (challenge : List Nat) (out : List Nat) (out_len : Int) :
    GS_Ret × GS_State L × List Nat × Int :=
  if !flagSet st.state GS_SEEDED then (GS_NOT_SEEDED, st, out, out_len)
  else if !flagSet st.state GS_GROUP_PRIVKEY then
    (GS_NOT_SET_GROUP_PRIVATE_KEY, st, out, out_len)
  else
    let o : octet := { len := 0, max := joinmsg_len, val := joinmsg }
    let oo : octet := { len := 0, max := out_len, val := out }
    let rj := deserialize_join_message L o (localJoin L)
    if !rj.1 then (GS_INVALID_JOIN_MESSAGE, st, out, out_len)
    else
      let rs := join_server L st._rng st._priv rj.2.2 challenge (localResp L)
      let st := { st with _rng := rs.2.2 }
      if !rs.1 then (GS_INVALID_JOIN_MESSAGE, st, out, out_len)
      else
        let so := serialize_join_response L rs.2.1 oo
        if !so.1 then (GS_OUTPUT_BUFFER_TOO_SMALL, st, so.2.val, out_len)
        else (GS_RETURN_SUCCESS, st, so.2.val, so.2.len)

/-- `GS_sign(rawstate, msg, msg_len, bsn, bsn_len, signature, len)`: return
code, state, the `signature` buffer and `*len`; `none` when the hash to G1
runs out of fuel. -/
def GS_sign (fuel : Nat) (st : GS_State L) (msg bsn : List Nat) (signature : List Nat)
    (len : Int) : Option (GS_Ret × GS_State L × List Nat × Int) :=
  if !flagSet st.state GS_SEEDED then some (GS_NOT_SEEDED, st, signature, len)
  else if !flagSet st.state GS_USERCREDS then
    some (GS_NOT_SET_USER_CREDENTIALS, st, signature, len)
  else
    match sign L fuel st._rng st._userPriv msg bsn with
    | none => none
    | some (sig, RNG) =>
      let st := { st with _rng := RNG }
      let o : octet := { len := 0, max := len, val := signature }
      let r := serialize_signature L sig o
      if !r.1 then some (GS_OUTPUT_BUFFER_TOO_SMALL, st, r.2.val, len)
      else some (GS_RETURN_SUCCESS, st, r.2.val, r.2.len)

/-- `GS_verify(rawstate, msg, msg_len, bsn, bsn_len, signature, len)`. -/
def GS_verify (fuel : Nat) (st : GS_State L) (msg bsn : List Nat) (signature : List Nat)
    (len : Int) : Option (GS_Ret × GS_State L) :=
  if !flagSet st.state GS_GROUP_PUBKEY then some (GS_NOT_SET_GROUP_PUBLIC_KEY, st)
  else
    let o : octet := { len := 0, max := len, val := signature }
    let rs := deserialize_signature L o (localSig L)
    if !rs.1 then some (GS_INVALID_SIGNATURE, st)
    else
      match verify L fuel msg bsn rs.2.2 st._priv.pub st._rng with
      | none => none
      | some (ok, RNG) =>
        let st := { st with _rng := RNG }
        if !ok then some (GS_RETURN_FAILURE, st) else some (GS_RETURN_SUCCESS, st)

/-- `GS_getSignatureTag(signature, sig_len, tag, tag_len)`: return code, the
`tag` buffer and `*tag_len`. -/
def GS_getSignatureTag (signature : List Nat) (sig_len : Int) (tag : List Nat)
    (tag_len : Int) : GS_Ret × List Nat × Int :=
  let o : octet := { len := 0, max := sig_len, val := signature }
  let oo : octet := { len := 0, max := tag_len, val := tag }
  let rs := deserialize_signature L o (localSig L)
  if !rs.1 then (GS_INVALID_SIGNATURE, tag, tag_len)
  else
    let r := serialize_signature_tag L rs.2.2 oo
    if !r.1 then (GS_OUTPUT_BUFFER_TOO_SMALL, r.2.val, tag_len)
    else (GS_RETURN_SUCCESS, r.2.val, r.2.len)

/-! ## What the embedding assumes of the library -/

/-- The properties of the pairing library the proofs rely on: G1 and G2 have
prime order `q`, the pairing is bilinear, random numbers are reduced, the hash
fills one block with bytes, the point encodings have the documented widths and decode to
the point they encode, and the hash to G1 finds a point. -/
structure Lib.Laws (L : Lib) : Prop where
  order_prime : Nat.Prime L.CURVE_Order
  order_le : L.CURVE_Order ≤ 256 ^ L.MODBYTES
  modulus_le : L.Modulus ≤ 256 ^ L.MODBYTES
  g1_ne : L.g1 ≠ 0
  order_ECP : ∀ P : L.ECP, L.CURVE_Order • P = 0
  order_ECP2 : ∀ P : L.ECP2, L.CURVE_Order • P = 0
  fexp_mul : ∀ a b : L.FP12, L.fexp (a * b) = L.fexp a * L.fexp b
  pair_add_left : ∀ (P P' : L.ECP2) (Q : L.ECP), L.pair (P + P') Q = L.pair P Q * L.pair P' Q
  pair_add_right : ∀ (P : L.ECP2) (Q Q' : L.ECP), L.pair P (Q + Q') = L.pair P Q * L.pair P Q'
  random_lt : ∀ (m : Nat) (RNG : L.csprng), 0 < m → (L.BIG_randomnum m RNG).1 < m
  hash_len : ∀ d : List Nat, (L.GPhash d).length = L.MODBYTES
  hash_byte : ∀ (d : List Nat) (b : Nat), b ∈ L.GPhash d → b < 256
  toOctet_len : ∀ P : L.ECP, (L.ECP_toOctet P).length = 2 * L.MODBYTES + 1
  fromOctet_toOctet : ∀ (P0 P : L.ECP) (rest : List Nat), P ≠ 0 →
    L.ECP_fromOctet P0 (L.ECP_toOctet P ++ rest) = (true, P)
  fromOctet_ne : ∀ (P0 P : L.ECP) (W : List Nat), L.ECP_fromOctet P0 W = (true, P) → P ≠ 0
  get_none : ∀ P : L.ECP2, L.ECP2_get P = none ↔ P = 0
  set_get : ∀ (Q P : L.ECP2) (c : L.FP × L.FP × L.FP × L.FP), L.ECP2_get P = some c →
    L.ECP2_set Q c = (true, P)
  set_ne : ∀ (Q P : L.ECP2) (c : L.FP × L.FP × L.FP × L.FP), L.ECP2_set Q c = (true, P) →
    P ≠ 0
  nres_redc : ∀ a : L.FP, L.FP_nres (L.FP_redc a) = a
  redc_lt : ∀ a : L.FP, L.FP_redc a < L.Modulus
  mapit_total : ∀ x : Nat, ∃ k : Nat, L.ECP_setx (x + k) ≠ 0 ∧ L.ECP_cfp (L.ECP_setx (x + k)) ≠ 0

/-! ## A small instance of the library -/

/-- The hash of the small library: one byte. -/
def toyHash (d : List Nat) : List Nat :=
  [d.foldl (fun acc b => 31 * acc + b + 7) 0 % 256]

/-- The generator of the small library: its state is the list of numbers still
to be drawn, each reduced modulo the bound; an exhausted list yields zero. -/
def toyRandom (m : Nat) (RNG : List Nat) : Nat × List Nat :=
  match RNG with
  | [] => (0, [])
  | x :: xs => (x % m, xs)

/-- G1 encoding of the small library: `v ≠ 0` is written `[4, v, 11 - v]`. -/
def toyToOctet (P : ZMod 11) : List Nat := [4, P.val, 11 - P.val]

/-- G1 decoding of the small library: accepts `4, x, 11 - x` with `0 < x < 11`. -/
def toyFromOctet (P0 : ZMod 11) (W : List Nat) : Bool × ZMod 11 :=
  match W with
  | 4 :: x :: y :: _ =>
    if 0 < x ∧ x < 11 ∧ y = 11 - x then (true, (x : ZMod 11)) else (false, 0)
  | _ => (false, P0)

/-- Lifting an x-coordinate in the small library: residues 0, 11 and 12 modulo
13 carry no point. -/
def toySetx (x : Nat) : ZMod 11 :=
  if 0 < x % 13 ∧ x % 13 < 11 then ((x % 13 : Nat) : ZMod 11) else 0

/-- G2 coordinates of the small library: `v ≠ 0` has coordinates `(v, 0, 0, 0)`. -/
def toyGet (P : ZMod 11) : Option (Fin 13 × Fin 13 × Fin 13 × Fin 13) :=
  if P = 0 then none else some (Fin.ofNat P.val, 0, 0, 0)

/-- G2 point from coordinates in the small library. -/
def toySet (_Q : ZMod 11) (c : Fin 13 × Fin 13 × Fin 13 × Fin 13) : Bool × ZMod 11 :=
  if 0 < c.1.val ∧ c.1.val < 11 ∧ c.2.1 = 0 ∧ c.2.2.1 = 0 ∧ c.2.2.2 = 0 then
    (true, (c.1.val : ZMod 11))
  else (false, 0)

/-- The Miller value of the small library; its final exponentiation is the
identity. -/
def toyPair (P Q : ZMod 11) : Multiplicative (ZMod 11) := Multiplicative.ofAdd (P * Q)

/-- A small library: `q = 11`, one-byte numbers, G1 = G2 = the integers modulo
11 with generator 1, GT written multiplicatively over the same integers, the
pairing `(P, Q) ↦ P * Q`.  Neither point encoding has a preimage for the point
at infinity. -/
@[reducible] def toy : Lib where
  MODBYTES := 1
  CURVE_Order := 11
  Modulus := 13
  ECP := ZMod 11
  ECP2 := ZMod 11
  FP := Fin 13
  FP12 := Multiplicative (ZMod 11)
  csprng := List Nat
  ecpGroup := inferInstance
  ecpDec := inferInstance
  ecp2Group := inferInstance
  ecp2Dec := inferInstance
  fp12Group := inferInstance
  fp12Dec := inferInstance
  g1 := 1
  g2 := 1
  miller := toyPair
  fexp := fun r => r
  GPhash := toyHash
  BIG_randomnum := toyRandom
  RAND_seed := fun seed => seed
  ECP_toOctet := toyToOctet
  ECP_fromOctet := toyFromOctet
  ECP_setx := toySetx
  ECP_cfp := fun P => P
  ECP2_get := toyGet
  ECP2_set := toySet
  FP_redc := fun a => a.val
  FP_nres := fun n => Fin.ofNat n

/-! ## Honest runs and the credential relation -/

/-- The relation a credential has to satisfy under a group public key:
`e(A, Y) = e(B, g2)` and `e(A + D, X) = e(C, g2)`. -/
def CredentialOK (pub : GroupPublicKey L) (cred : UserCredentials L) : Prop :=
  L.pair pub.Y cred.A = L.pair L.g2 cred.B ∧ L.pair pub.X (cred.A + cred.D) = L.pair L.g2 cred.C

/-- The join of `test.c`: `join_client`, `join_server` on its message with the
same challenge, `join_finish_client` on the response.  Returns the two return
values and the user private key. -/
def joinRun (gp : GroupPrivateKey L) (rngC rngS rngF : L.csprng) (challenge : List Nat) :
    Bool × Bool × UserPrivateKey L :=
  let jc := join_client L rngC challenge (localUserPriv L)
  let js := join_server L rngS gp jc.1 challenge (localResp L)
  let jf := join_finish_client L gp.pub jc.2.1 js.2.1 rngF
  (js.1, jf.1, jf.2.1)


/-! ## Sample values over the small library -/

/-- A stack of the small library whose unassigned locals all hold zeros. -/
def toyStack : Stack toy := fun _ => (0, 0, 0, 0)

/-- A stack of the small library whose unassigned locals all hold
`(1, 0, 0, 0)`, the coordinates of the generator. -/
def toyStackOne : Stack toy := fun _ => (1, 0, 0, 0)

/-- A group key of the small library: `setup` on the draws 3, 5, 2, 9. -/
def toyGroupKey : GroupPrivateKey toy := (setup toy toyStack [3, 5, 2, 9]).1

/-- A user key of the small library: an honest join under `toyGroupKey`. -/
def toyUserKey : UserPrivateKey toy := (joinRun toy toyGroupKey [4, 6] [2, 7] [1, 2] [110]).2.2


/-! ## Specifications of serializers and parsers -/

/-- The bytes an octet holds below its cursor. -/
def written (o : octet) : List Nat := sliceBytes o.val 0 o.len.toNat

/-- A serializer `f` appends `enc`: on an octet with room for `enc` it returns
non-zero, advances the cursor by the length of `enc` and leaves `enc` after
the bytes already written, all of them inside the buffer; on an octet without
room it returns zero. -/
def Appends (f : octet → Bool × octet) (enc : List Nat) : Prop :=
  ∀ o : octet, 0 ≤ o.len →
    (o.len + enc.length ≤ o.max →
      (f o).1 = true ∧ (f o).2.len = o.len + enc.length ∧ (f o).2.max = o.max
        ∧ written (f o).2 = written o ++ enc ∧ (f o).2.len.toNat ≤ (f o).2.val.length)
    ∧ (¬ o.len + enc.length ≤ o.max → (f o).1 = false)

/-- A parser `g` reads `v` from `enc`: on an octet that holds `enc` at its
cursor, within its capacity, it returns non-zero, advances the cursor by the
length of `enc` and stores `v`. -/
def Parses {α : Type} (g : octet → α → Bool × octet × α) (enc : List Nat) (v : α) : Prop :=
  ∀ (len max : Int) (val : List Nat) (out0 : α) (rest : List Nat), 0 ≤ len →
    val.drop len.toNat = enc ++ rest → len + enc.length ≤ max →
    g { len := len, max := max, val := val } out0
      = (true, { len := len + enc.length, max := max, val := val }, v)

/-! ## Wire formats -/

/-- Wire form of a scalar: `MODBYTES` bytes, most significant first. -/
def wire_BIG (x : Nat) : List Nat := BIG_toBytes L.MODBYTES x

/-- Wire form of a group public key: `X ‖ Y ‖ cx ‖ sx ‖ cy ‖ sy`. -/
def wire_group_public_key (stack : Stack L) (k : GroupPublicKey L) : List Nat :=
  ECP2_toOctet_compatibility L (stack 0) k.X ++ ECP2_toOctet_compatibility L (stack 1) k.Y
    ++ wire_BIG L k.cx
    ++ wire_BIG L k.sx ++ wire_BIG L k.cy ++ wire_BIG L k.sy

/-- Wire form of a group private key: `GroupPublicKey ‖ x ‖ y`. -/
def wire_group_private_key (stack : Stack L) (k : GroupPrivateKey L) : List Nat :=
  wire_group_public_key L stack k.pub ++ wire_BIG L k.x ++ wire_BIG L k.y

/-- Wire form of a join message: `Q ‖ c ‖ s`. -/
def wire_join_message (j : JoinMessage L) : List Nat :=
  L.ECP_toOctet j.Q ++ wire_BIG L j.c ++ wire_BIG L j.s

/-- Wire form of user credentials: `A ‖ B ‖ C ‖ D`. -/
def wire_user_credentials (c : UserCredentials L) : List Nat :=
  L.ECP_toOctet c.A ++ L.ECP_toOctet c.B ++ L.ECP_toOctet c.C ++ L.ECP_toOctet c.D

/-- Wire form of a join response: `UserCredentials ‖ c ‖ s`. -/
def wire_join_response (r : JoinResponse L) : List Nat :=
  wire_user_credentials L r.cred ++ wire_BIG L r.c ++ wire_BIG L r.s

/-- Wire form of a user private key: `UserCredentials ‖ gsk`. -/
def wire_user_private_key (k : UserPrivateKey L) : List Nat :=
  wire_user_credentials L k.cred ++ wire_BIG L k.gsk

/-- Wire form of a signature: `A ‖ B ‖ C ‖ D ‖ NYM ‖ c ‖ s`. -/
def wire_signature (g : Signature L) : List Nat :=
  L.ECP_toOctet g.A ++ L.ECP_toOctet g.B ++ L.ECP_toOctet g.C ++ L.ECP_toOctet g.D
    ++ L.ECP_toOctet g.NYM ++ wire_BIG L g.c ++ wire_BIG L g.s

/-- A scalar that fits the wire form. -/
def validBIG (x : Nat) : Prop := x < 256 ^ L.MODBYTES

/-- User credentials that have a wire form: no point is infinity. -/
def validCred (c : UserCredentials L) : Prop := c.A ≠ 0 ∧ c.B ≠ 0 ∧ c.C ≠ 0 ∧ c.D ≠ 0

/-- A group public key the parser accepts: no point is infinity, the scalars
fit and both proofs verify. -/
def validGroupPublicKey (stack : Stack L) (k : GroupPublicKey L) : Prop :=
  k.X ≠ 0 ∧ k.Y ≠ 0 ∧ validBIG L k.cx ∧ validBIG L k.sx ∧ validBIG L k.cy ∧ validBIG L k.sy
    ∧ verifyGroupPublicKey L stack k = true

/-- A group private key the parser accepts. -/
def validGroupPrivateKey (stack : Stack L) (k : GroupPrivateKey L) : Prop :=
  validGroupPublicKey L stack k.pub ∧ validBIG L k.x ∧ validBIG L k.y ∧ _checkPrivateKey L k = true

/-- A join message that has a wire form. -/
def validJoinMessage (j : JoinMessage L) : Prop := j.Q ≠ 0 ∧ validBIG L j.c ∧ validBIG L j.s

/-- A join response that has a wire form. -/
def validJoinResponse (r : JoinResponse L) : Prop :=
  validCred L r.cred ∧ validBIG L r.c ∧ validBIG L r.s

/-- A user private key that has a wire form. -/
def validUserPrivateKey (k : UserPrivateKey L) : Prop := validCred L k.cred ∧ validBIG L k.gsk

/-- A signature that has a wire form. -/
def validSignature (g : Signature L) : Prop :=
  g.A ≠ 0 ∧ g.B ≠ 0 ∧ g.C ≠ 0 ∧ g.D ≠ 0 ∧ g.NYM ≠ 0 ∧ validBIG L g.c ∧ validBIG L g.s


/-- Round trip of `v` through a serializer and a parser: written into an empty
octet of capacity at least `width` over any buffer, `v` takes `width` bytes,
and parsing the written bytes succeeds, stores `v` and moves the cursor by
the number of bytes written. -/
def RoundTrip {α : Type} (ser : α → octet → Bool × octet) (de : octet → α → Bool × octet × α)
    (width : Nat) (v : α) : Prop :=
  ∀ (buf : List Nat) (cap : Int) (out0 : α), (width : Int) ≤ cap →
    (ser v { len := 0, max := cap, val := buf }).1 = true
      ∧ (ser v { len := 0, max := cap, val := buf }).2.len = width
      ∧ (de { len := 0, max := (ser v { len := 0, max := cap, val := buf }).2.len,
              val := (ser v { len := 0, max := cap, val := buf }).2.val } out0).1 = true
      ∧ (de { len := 0, max := (ser v { len := 0, max := cap, val := buf }).2.len,
              val := (ser v { len := 0, max := cap, val := buf }).2.val } out0).2.2 = v
      ∧ (de { len := 0, max := (ser v { len := 0, max := cap, val := buf }).2.len,
              val := (ser v { len := 0, max := cap, val := buf }).2.val } out0).2.1.len
          = (ser v { len := 0, max := cap, val := buf }).2.len

/-- A join message of the small library. -/
def toyJoinMessage : JoinMessage toy := (join_client toy [4, 6] [110] (localUserPriv toy)).1

/-- A join response of the small library. -/
def toyJoinResponse : JoinResponse toy :=
  (join_server toy [2, 7] toyGroupKey toyJoinMessage [110] (localResp toy)).2.1

/-- A signature of the small library. -/
def toySignature : Signature toy :=
  { A := 1, B := 5, C := 8, D := 9, NYM := 4, c := 0, s := 5 }


/-- An engine of the small library before `GS_initState`. -/
def toyRaw : GS_State toy :=
  { _rng := [], _priv := { pub := localPub toy, x := 0, y := 0 }, _userPriv := localUserPriv toy,
    state := 0 }

/-- An issuer engine of the small library: `GS_initState`, `GS_seed` with 128
bytes, `GS_setupGroup`. -/
def toyIssuer : GS_State toy :=
  (GS_setupGroup toy toyStack
    (GS_seed toy (GS_initState toy toyRaw) (3 :: 5 :: 2 :: 9 :: List.replicate 124 1) 128).2).2


/-- A user engine of the small library: `GS_initState`, `GS_seed` with 128
bytes that start with `draws`, `GS_loadUserCredentials` with `toyUserKey`. -/
def toyUser (draws : List Nat) : GS_State toy :=
  (GS_loadUserCredentials toy
    (GS_seed toy (GS_initState toy toyRaw) (draws ++ List.replicate 128 1) 128).2
    (wire_user_private_key toy toyUserKey) 13).2


/-! ## Transcripts -/

/-- The scalar a challenge function derives from its transcript: the digest
read as a `BIG` and reduced modulo the group order. -/
def challengeHash (t : List Nat) : Nat :=
  BIG_mod (BIG_fromBytes (sliceBytes (myhash L t) 0 L.MODBYTES)) L.CURVE_Order

/-- The bytes `ECPchallengeEquals(message, Y, Z, A, B, AR, BR, c)` hashes. -/
def ECPtranscriptEquals (message : Option (List Nat)) (Y Z A B AR BR : L.ECP) : List Nat :=
  let TMP := messageOctet L (L.MODBYTES + 6 * ECPSIZE L) message
  let TMP := (serialize_ECP L Y TMP).2
  let TMP := (serialize_ECP L Z TMP).2
  let TMP := (serialize_ECP L A TMP).2
  let TMP := (serialize_ECP L B TMP).2
  let TMP := (serialize_ECP L AR TMP).2
  let TMP := (serialize_ECP L BR TMP).2
  sliceBytes TMP.val 0 TMP.len.toNat

/-- The two digests `sign` and `verify` hash into the message of the proof:
`H(msg) ‖ H(bsn)` as laid out in the local array `hh`. -/
def digestPair (msg bsn : List Nat) : List Nat :=
  sliceBytes (pokeBytes (pokeBytes [] 0 (myhash L msg)) L.MODBYTES (myhash L bsn)) 0
    (2 * L.MODBYTES)

/-- The transcript `sign` hashes for the signature it returns. -/
def signTranscript (RNG : L.csprng) (sig : Signature L) (BSN : L.ECP) (msg bsn : List Nat) :
    List Nat :=
  ECPtranscriptEquals L (some (myhash L (digestPair L msg bsn))) sig.D sig.NYM sig.B BSN
    (PAIR_G1mul L sig.B (randomModOrder L (randomModOrder L RNG).2).1)
    (PAIR_G1mul L BSN (randomModOrder L (randomModOrder L RNG).2).1)

/-- The transcript `verify` hashes for a signature. -/
def verifyTranscript (sig : Signature L) (BSN : L.ECP) (msg bsn : List Nat) : List Nat :=
  ECPtranscriptEquals L (some (myhash L (digestPair L msg bsn))) sig.D sig.NYM sig.B BSN
    (PAIR_G1mul L sig.B sig.s + PAIR_G1mul L sig.D (BIG_modneg sig.c L.CURVE_Order))
    (PAIR_G1mul L BSN sig.s + PAIR_G1mul L sig.NYM (BIG_modneg sig.c L.CURVE_Order))


/-- An engine of the small library that is seeded and holds no key. -/
def toySeeded : GS_State toy :=
  (GS_seed toy (GS_initState toy toyRaw) (3 :: 5 :: 2 :: 9 :: List.replicate 124 1) 128).2


/-- An issuer engine of the small library whose `GS_setupGroup` draws `x = 0`:
`GS_initState`, `GS_seed` with 128 bytes that start with 0, 5, 2, 9,
`GS_setupGroup`. -/
def toyIssuerZero : GS_State toy :=
  (GS_setupGroup toy toyStack
    (GS_seed toy (GS_initState toy toyRaw) (0 :: 5 :: 2 :: 9 :: List.replicate 124 1) 128).2).2


/-! ## Reachable states -/

/-- The engine states reachable from `GS_initState`: `GS_initState` on any
memory, then any call of an entry point that writes to the engine, with any
arguments and whatever it returns.  The other entry points (the three exports,
`GS_finishJoin`, `GS_getSignatureTag`) do not write to the engine. -/
inductive Reachable : GS_State L → Prop
  | initState (raw : GS_State L) : Reachable (GS_initState L raw)
  | seed (st : GS_State L) (seed : List Nat) (seed_length : Int) :
      Reachable st → Reachable (GS_seed L st seed seed_length).2
  | setupGroup (stack : Stack L) (st : GS_State L) :
      Reachable st → Reachable (GS_setupGroup L stack st).2
  | loadGroupPrivKey (stack : Stack L) (st : GS_State L) (data : List Nat) (len : Int) :
      Reachable st → Reachable (GS_loadGroupPrivKey L stack st data len).2
  | loadGroupPubKey (stack : Stack L) (st : GS_State L) (data : List Nat) (len : Int) :
      Reachable st → Reachable (GS_loadGroupPubKey L stack st data len).2
  | startJoin (st : GS_State L) (challenge gsk : List Nat) (len_gsk : Int)
      (joinmsg : List Nat) (len : Int) :
      Reachable st → Reachable (GS_startJoin L st challenge gsk len_gsk joinmsg len).st
  | loadUserCredentials (st : GS_State L) (inp : List Nat) (in_len : Int) :
      Reachable st → Reachable (GS_loadUserCredentials L st inp in_len).2
  | processJoin (st : GS_State L) (joinmsg : List Nat) (joinmsg_len : Int)
      (challenge out : List Nat) (out_len : Int) :
      Reachable st →
      Reachable (GS_processJoin L st joinmsg joinmsg_len challenge out out_len).2.1
  | sign (st : GS_State L) (fuel : Nat) (msg bsn signature : List Nat) (len : Int)
      (r : GS_Ret × GS_State L × List Nat × Int) :
      Reachable st → GS_sign L fuel st msg bsn signature len = some r → Reachable r.2.1
  | verify (st : GS_State L) (fuel : Nat) (msg bsn signature : List Nat) (len : Int)
      (r : GS_Ret × GS_State L) :
      Reachable st → GS_verify L fuel st msg bsn signature len = some r → Reachable r.2

/-- None of the six points `verifyGroupPublicKey(pub)` serializes is the
point at infinity: the base `g2` (twice), `X`, `Y` and the two commitments
`sx g2 + (q - cx) X` and `sy g2 + (q - cy) Y` that `verifyECP2Proof`
recomputes.  The verdict of `verifyGroupPublicKey` then reads no unassigned
local. -/
def NoInfinity (pub : GroupPublicKey L) : Prop :=
  setG2 L ≠ 0 ∧ pub.X ≠ 0 ∧ pub.Y ≠ 0
    ∧ PAIR_G2mul L (setG2 L) pub.sx + PAIR_G2mul L pub.X (BIG_modneg pub.cx L.CURVE_Order) ≠ 0
    ∧ PAIR_G2mul L (setG2 L) pub.sy + PAIR_G2mul L pub.Y (BIG_modneg pub.cy L.CURVE_Order) ≠ 0

/-- The invariant of the group key an engine holds: with `GS_GROUP_PRIVKEY`
set, `GS_GROUP_PUBKEY` is set and `x g2 = X`, `y g2 = Y`; with
`GS_GROUP_PUBKEY` set, the public key passes `verifyGroupPublicKey` on some
stack, and on every stack when none of the points the check serializes is the
point at infinity. -/
def KeyInvariant (st : GS_State L) : Prop :=
  (flagSet st.state GS_GROUP_PRIVKEY = true →
      flagSet st.state GS_GROUP_PUBKEY = true
        ∧ st._priv.x • L.g2 = st._priv.pub.X ∧ st._priv.y • L.g2 = st._priv.pub.Y)
    ∧ (flagSet st.state GS_GROUP_PUBKEY = true →
      (∃ stack : Stack L, verifyGroupPublicKey L stack st._priv.pub = true)
        ∧ (NoInfinity L st._priv.pub →
          ∀ stack : Stack L, verifyGroupPublicKey L stack st._priv.pub = true))


/-! ## An engine that was never seeded -/

/-- A verifier engine of the small library that was never seeded:
`GS_initState` on memory whose RNG would yield 4 and 1, then
`GS_loadGroupPubKey` with the public key of `toyGroupKey`. -/
def toyVerifier : GS_State toy :=
  (GS_loadGroupPubKey toy toyStack (GS_initState toy { toyRaw with _rng := [4, 1] })
    (wire_group_public_key toy toyStack toyGroupKey.pub) 12).2

/-- The bytes of a signature of the small library: `toyUserKey` signs the
message `[104, 105]` under the basename `[98]` with the draws 6 and 5. -/
def toySignatureBytes : List Nat :=
  match sign toy 8 [6, 5] toyUserKey [104, 105] [98] with
  | some (sig, _) => wire_signature toy sig
  | none => []


/-! ## Reading a prefix -/

/-- Modelled from the spec: `ECP_fromOctet` of the library consumes the
declared width of a G1 point, the format byte and the coordinates after it,
`2 * MODBYTES + 1` bytes at most, whatever the buffer holds after them. -/
def Lib.ReadsPrefix : Prop :=
  ∀ (P : L.ECP) (W : List Nat),
    L.ECP_fromOctet P W = L.ECP_fromOctet P (W.take (2 * L.MODBYTES + 1))

/-- Two octets that stand at the same cursor and hold the same `W` leading
bytes, within their capacities. -/
def SamePrefix (W : Nat) (o o' : octet) : Prop :=
  o.len = o'.len ∧ 0 ≤ o.len ∧ (W : Int) ≤ o.max ∧ (W : Int) ≤ o'.max
    ∧ o.val.take W = o'.val.take W ∧ W ≤ o.val.length ∧ W ≤ o'.val.length

/-- A parser `d` of width `w` reads only the `w` bytes at the cursor: on two
octets with the same `W` leading bytes, the cursor at least `w` before `W`, it
returns the same value, stores the same content and leaves the same cursor. -/
def ReadsOnly {α : Type} (d : octet → α → Bool × octet × α) (w : Nat) : Prop :=
  ∀ (W : Nat) (o o' : octet) (out : α), SamePrefix W o o' → o.len + (w : Int) ≤ (W : Int) →
    (d o out).1 = (d o' out).1 ∧ (d o out).2.2 = (d o' out).2.2
      ∧ SamePrefix W (d o out).2.1 (d o' out).2.1
      ∧ (d o out).2.1.len ≤ o.len + (w : Int)


/-! # Theorems -/

/-! ## The small instance satisfies the laws -/

theorem toy_order_smul (P : ZMod 11) : (11 : Nat) • P = 0 := by
  revert P; decide

theorem toy_cast_ne (x : Nat) (h0 : 0 < x) (h1 : x < 11) : ((x : Nat) : ZMod 11) ≠ 0 := by
  interval_cases x <;> decide

theorem toy_fromOctet_toOctet : ∀ P : ZMod 11, P ≠ 0 →
    ∀ (P0 : ZMod 11) (rest : List Nat), toyFromOctet P0 (toyToOctet P ++ rest) = (true, P) := by
  have key : ∀ P : ZMod 11, P ≠ 0 →
      (0 < P.val ∧ P.val < 11 ∧ 11 - P.val = 11 - P.val) ∧ ((P.val : Nat) : ZMod 11) = P := by
    decide
  intro P hP P0 rest
  show (if 0 < P.val ∧ P.val < 11 ∧ 11 - P.val = 11 - P.val then (true, ((P.val : Nat) : ZMod 11))
    else (false, 0)) = (true, P)
  rw [if_pos (key P hP).1, (key P hP).2]

theorem toy_fromOctet_ne (P0 P : ZMod 11) (W : List Nat) (h : toyFromOctet P0 W = (true, P)) :
    P ≠ 0 := by
  unfold toyFromOctet at h
  split at h
  · rename_i x y t
    split at h
    · rename_i hc
      rw [← (Prod.mk.inj h).2]
      exact toy_cast_ne x hc.1 hc.2.1
    · simp at h
  · simp at h

theorem toy_set_get : ∀ P : ZMod 11, ∀ c, toyGet P = some c → ∀ Q, toySet Q c = (true, P) := by
  have key : ∀ P : ZMod 11, P ≠ 0 → toySet 0 (Fin.ofNat P.val, 0, 0, 0) = (true, P) := by decide
  intro P c h Q
  unfold toyGet at h
  split at h
  · simp at h
  · rename_i hP
    rw [← Option.some.inj h]
    exact key P hP

theorem toy_get_none (P : ZMod 11) : toyGet P = none ↔ P = 0 := by
  unfold toyGet
  by_cases h : P = 0 <;> simp [h]

theorem toy_pair_add_left (P P' Q : ZMod 11) :
    toyPair (P + P') Q = toyPair P Q * toyPair P' Q := by
  unfold toyPair
  rw [← ofAdd_add, add_mul]

theorem toy_pair_add_right (P Q Q' : ZMod 11) :
    toyPair P (Q + Q') = toyPair P Q * toyPair P Q' := by
  unfold toyPair
  rw [← ofAdd_add, mul_add]

theorem toy_set_ne (Q P : ZMod 11) (c : Fin 13 × Fin 13 × Fin 13 × Fin 13)
    (h : toySet Q c = (true, P)) : P ≠ 0 := by
  unfold toySet at h
  split at h
  · rename_i hc
    rw [← (Prod.mk.inj h).2]
    exact toy_cast_ne _ hc.1 hc.2.1
  · simp at h

theorem toy_mapit_total (x : Nat) : ∃ k : Nat, toySetx (x + k) ≠ 0 := by
  have key : ∀ r : Fin 13, ∃ k : Fin 4,
      0 < (r.val + k.val) % 13 ∧ (r.val + k.val) % 13 < 11 := by
    decide
  obtain ⟨k, hk0, hk1⟩ := key ⟨x % 13, Nat.mod_lt _ (by norm_num)⟩
  have hmod : (x + k.val) % 13 = (x % 13 + k.val) % 13 := by omega
  refine ⟨k.val, ?_⟩
  unfold toySetx
  rw [hmod, if_pos ⟨hk0, hk1⟩]
  exact toy_cast_ne _ hk0 hk1

theorem toy_laws : toy.Laws where
  order_prime := by show Nat.Prime 11; norm_num
  order_le := by show 11 ≤ 256 ^ 1; norm_num
  modulus_le := by show 13 ≤ 256 ^ 1; norm_num
  g1_ne := by show (1 : ZMod 11) ≠ 0; decide
  order_ECP := toy_order_smul
  order_ECP2 := toy_order_smul
  fexp_mul := fun _ _ => rfl
  pair_add_left := toy_pair_add_left
  pair_add_right := toy_pair_add_right
  random_lt := by
    intro m RNG hm
    cases RNG with
    | nil => exact hm
    | cons x xs => exact Nat.mod_lt _ hm
  hash_len := fun _ => rfl
  hash_byte := fun d b hb => by
    have h : b ∈ toyHash d := hb
    unfold toyHash at h
    rw [List.mem_singleton] at h
    rw [h]
    exact Nat.mod_lt _ (by norm_num)
  toOctet_len := fun _ => rfl
  fromOctet_toOctet := fun P0 P rest hP => toy_fromOctet_toOctet P hP P0 rest
  fromOctet_ne := fun P0 P W h => toy_fromOctet_ne P0 P W h
  get_none := toy_get_none
  set_get := fun Q P c h => toy_set_get P c h Q
  set_ne := fun Q P c h => toy_set_ne Q P c h
  nres_redc := by
    show ∀ a : Fin 13, Fin.ofNat a.val = a
    decide
  redc_lt := fun a => a.isLt
  mapit_total := fun x => by
    obtain ⟨k, hk⟩ := toy_mapit_total x
    exact ⟨k, hk, hk⟩

/-! ## Scalars modulo the group order -/

section Algebra

variable {L}
variable {stack stack' : Stack L} {qxy : L.FP × L.FP × L.FP × L.FP}

theorem nsmul_congr_mod {G : Type} [AddCommGroup G] {q : Nat} (P : G) (hP : q • P = 0)
    {a b : Nat} (h : a % q = b % q) : a • P = b • P := by
  have key : ∀ n : Nat, n • P = (n % q) • P := by
    intro n
    conv_lhs => rw [← Nat.mod_add_div n q]
    rw [add_nsmul, mul_nsmul, hP, nsmul_zero, add_zero]
  rw [key a, key b, h]

theorem ecp_mul_congr (hL : L.Laws) (P : L.ECP) {a b : Nat}
    (h : a % L.CURVE_Order = b % L.CURVE_Order) : PAIR_G1mul L P a = PAIR_G1mul L P b :=
  nsmul_congr_mod P (hL.order_ECP P) h

theorem ecp2_mul_congr (hL : L.Laws) (P : L.ECP2) {a b : Nat}
    (h : a % L.CURVE_Order = b % L.CURVE_Order) : PAIR_G2mul L P a = PAIR_G2mul L P b :=
  nsmul_congr_mod P (hL.order_ECP2 P) h

theorem modneg_cast (q c : Nat) (hq : 0 < q) : ((BIG_modneg c q : Nat) : ZMod q) = -(c : ZMod q) := by
  unfold BIG_modneg
  have hc : c % q ≤ q := (Nat.mod_lt c hq).le
  rw [ZMod.natCast_mod, Nat.cast_sub hc, ZMod.natCast_mod, ZMod.natCast_self, zero_sub]

/-- The response `s = (c * x + r) mod q` and the negated challenge cancel:
`s + (-c) * x' = r` modulo `q` whenever `x' = x` modulo `q`. -/
theorem response_cancel (q c x x' r : Nat) (hq : 0 < q) (hx : x' % q = x % q) :
    (BIG_mod (BIG_modmul c x q + r) q + BIG_modneg c q * x') % q = r % q := by
  rw [← ZMod.natCast_eq_natCast_iff']
  have hx' : (x' : ZMod q) = (x : ZMod q) := (ZMod.natCast_eq_natCast_iff' _ _ _).mpr hx
  rw [Nat.cast_add, Nat.cast_mul, modneg_cast q c hq, hx']
  unfold BIG_mod BIG_modmul
  rw [ZMod.natCast_mod, Nat.cast_add, ZMod.natCast_mod, Nat.cast_mul, ZMod.natCast_mod,
    ZMod.natCast_mod]
  ring

/-- A scalar and its `BIG_modneg` cancel modulo `q`. -/
theorem modneg_cancel (q e : Nat) (hq : 0 < q) : (e + BIG_modneg e q) % q = 0 % q := by
  rw [← ZMod.natCast_eq_natCast_iff', Nat.cast_add, modneg_cast q e hq]
  simp

theorem commit_recover {G : Type} [AddCommGroup G] {q : Nat} (hq : 0 < q) (A : G)
    (hA : q • A = 0) (c x x' r : Nat) (hx : x' % q = x % q) :
    (BIG_mod (BIG_modmul c x q + r) q) • A + (BIG_modneg c q) • (x' • A) = r • A := by
  rw [← mul_nsmul, mul_comm x', ← add_nsmul]
  exact nsmul_congr_mod A hA (response_cancel q c x x' r hq hx)

/-! ## Completeness of the proofs of knowledge -/

theorem order_pos (hL : L.Laws) : 0 < L.CURVE_Order := hL.order_prime.pos

/-- A Schnorr proof made for `Y = x' • G` with a witness equal to `x'` modulo `q`
verifies. -/
theorem verifyECPProof_make (hL : L.Laws) (RNG : L.csprng) (G Y : L.ECP) (x x' : Nat)
    (m : Option (List Nat)) (hY : Y = PAIR_G1mul L G x')
    (hx : x' % L.CURVE_Order = x % L.CURVE_Order) :
    verifyECPProof L G Y m (makeECPProof L RNG G Y x m).1 (makeECPProof L RNG G Y x m).2.1
      = true := by
  simp only [verifyECPProof, makeECPProof, PAIR_G1mul, decide_eq_true_eq]
  rw [hY, PAIR_G1mul, commit_recover (order_pos hL) G (hL.order_ECP G) _ x x' _ hx]

/-- A Schnorr proof in G2 made for `Y = x' • G` with a witness equal to `x'`
modulo `q` verifies. -/
theorem verifyECP2Proof_make (hL : L.Laws) (RNG : L.csprng) (G Y : L.ECP2) (x x' : Nat)
    (hY : Y = PAIR_G2mul L G x') (hx : x' % L.CURVE_Order = x % L.CURVE_Order) :
    verifyECP2Proof L stack G Y (makeECP2Proof L stack RNG G Y x).1
      (makeECP2Proof L stack RNG G Y x).2.1
      = true := by
  simp only [verifyECP2Proof, makeECP2Proof, PAIR_G2mul, decide_eq_true_eq]
  rw [hY, PAIR_G2mul, commit_recover (order_pos hL) G (hL.order_ECP2 G) _ x x' _ hx]

/-- Away from infinity `ECP2_toOctet_compatibility` writes the coordinates of
the point, whatever its unassigned locals hold. -/
theorem ECP2_toOctet_of_ne (hL : L.Laws) (Q : L.ECP2) (hQ : Q ≠ 0)
    (a b : L.FP × L.FP × L.FP × L.FP) :
    ECP2_toOctet_compatibility L a Q = ECP2_toOctet_compatibility L b Q := by
  cases h : L.ECP2_get Q with
  | none => exact absurd ((hL.get_none Q).mp h) hQ
  | some c => simp only [ECP2_toOctet_compatibility, h]

/-- At infinity `ECP2_toOctet_compatibility` writes what its unassigned locals
hold. -/
theorem ECP2_toOctet_zero (hL : L.Laws) (a : L.FP × L.FP × L.FP × L.FP) :
    ECP2_toOctet_compatibility L a 0
      = BIG_toBytes L.MODBYTES (L.FP_redc a.1) ++ BIG_toBytes L.MODBYTES (L.FP_redc a.2.1)
        ++ BIG_toBytes L.MODBYTES (L.FP_redc a.2.2.1)
        ++ BIG_toBytes L.MODBYTES (L.FP_redc a.2.2.2) := by
  simp only [ECP2_toOctet_compatibility, (hL.get_none 0).mpr rfl]

/-- The challenge in G2 does not depend on the stack when none of its three
points is at infinity. -/
theorem ECP2challenge_of_ne (hL : L.Laws) (s s' : Stack L) (Y G GR : L.ECP2) (hY : Y ≠ 0)
    (hG : G ≠ 0) (hR : GR ≠ 0) : ECP2challenge L s Y G GR = ECP2challenge L s' Y G GR := by
  simp only [ECP2challenge, serialize_ECP2]
  rw [ECP2_toOctet_of_ne hL Y hY (s 0) (s' 0), ECP2_toOctet_of_ne hL G hG (s 1) (s' 1),
    ECP2_toOctet_of_ne hL GR hR (s 2) (s' 2)]

/-- The verdict of `verifyECP2Proof` does not depend on the stack when none of
the base, the public value and the recomputed commitment is at infinity. -/
theorem verifyECP2Proof_of_ne (hL : L.Laws) (s s' : Stack L) (G Y : L.ECP2) (c r : Nat)
    (hG : G ≠ 0) (hY : Y ≠ 0)
    (hS : PAIR_G2mul L G r + PAIR_G2mul L Y (BIG_modneg c L.CURVE_Order) ≠ 0) :
    verifyECP2Proof L s G Y c r = verifyECP2Proof L s' G Y c r := by
  simp only [verifyECP2Proof]
  rw [ECP2challenge_of_ne hL s s' Y G _ hY hG hS]

/-- The proof `makeECP2Proof` writes does not depend on the stack when none of
the base, the public value and the commitment is at infinity. -/
theorem makeECP2Proof_of_ne (hL : L.Laws) (s s' : Stack L) (RNG : L.csprng) (G Y : L.ECP2)
    (x : Nat) (hG : G ≠ 0) (hY : Y ≠ 0) (hR : PAIR_G2mul L G (randomModOrder L RNG).1 ≠ 0) :
    makeECP2Proof L s RNG G Y x = makeECP2Proof L s' RNG G Y x := by
  simp only [makeECP2Proof]
  rw [ECP2challenge_of_ne hL s s' Y G _ hY hG hR]

/-- The commitment `verifyECP2Proof` recomputes from a proof of
`makeECP2Proof` is the commitment of `makeECP2Proof`. -/
theorem makeECP2Proof_commit (hL : L.Laws) (s : Stack L) (RNG : L.csprng) (G Y : L.ECP2)
    (x x' : Nat) (hY : Y = PAIR_G2mul L G x')
    (hx : x' % L.CURVE_Order = x % L.CURVE_Order) :
    PAIR_G2mul L G (makeECP2Proof L s RNG G Y x).2.1
        + PAIR_G2mul L Y (BIG_modneg (makeECP2Proof L s RNG G Y x).1 L.CURVE_Order)
      = PAIR_G2mul L G (randomModOrder L RNG).1 := by
  simp only [makeECP2Proof, PAIR_G2mul]
  rw [hY, PAIR_G2mul, commit_recover (order_pos hL) G (hL.order_ECP2 G) _ x x' _ hx]

/-- A Schnorr proof in G2 made on one stack verifies on every other when none
of the base, the public value and the commitment is at infinity. -/
theorem verifyECP2Proof_make_of_ne (hL : L.Laws) (s s' : Stack L) (RNG : L.csprng)
    (G Y : L.ECP2) (x x' : Nat) (hYx : Y = PAIR_G2mul L G x')
    (hx : x' % L.CURVE_Order = x % L.CURVE_Order) (hG : G ≠ 0) (hY : Y ≠ 0)
    (hR : PAIR_G2mul L G (randomModOrder L RNG).1 ≠ 0) :
    verifyECP2Proof L s' G Y (makeECP2Proof L s RNG G Y x).1 (makeECP2Proof L s RNG G Y x).2.1
      = true := by
  rw [makeECP2Proof_of_ne hL s s' RNG G Y x hG hY hR]
  exact verifyECP2Proof_make hL RNG G Y x x' hYx hx

/-- A Chaum-Pedersen proof made for `Y = x' • A`, `Z = x'' • B` with a witness
equal to `x'` and `x''` modulo `q` verifies. -/
theorem verifyECPProofEquals_make (hL : L.Laws) (RNG : L.csprng) (A B Y Z : L.ECP)
    (x x' x'' : Nat) (m : Option (List Nat)) (hY : Y = PAIR_G1mul L A x')
    (hZ : Z = PAIR_G1mul L B x'') (hx : x' % L.CURVE_Order = x % L.CURVE_Order)
    (hx' : x'' % L.CURVE_Order = x % L.CURVE_Order) :
    verifyECPProofEquals L A B Y Z m (makeECPProofEquals L RNG A B Y Z x m).1
      (makeECPProofEquals L RNG A B Y Z x m).2.1 = true := by
  simp only [verifyECPProofEquals, makeECPProofEquals, PAIR_G1mul, decide_eq_true_eq]
  rw [hY, hZ, PAIR_G1mul, PAIR_G1mul,
    commit_recover (order_pos hL) A (hL.order_ECP A) _ x x' _ hx,
    commit_recover (order_pos hL) B (hL.order_ECP B) _ x x'' _ hx']

end Algebra

/-! ## The pairing and the fast credential check -/

section Pairing

variable {L}
variable {stack stack' : Stack L} {qxy : L.FP × L.FP × L.FP × L.FP}

theorem pair_zero_right (hL : L.Laws) (P : L.ECP2) : L.pair P 0 = 1 := by
  have h := hL.pair_add_right P 0 0
  rw [add_zero] at h
  exact (mul_right_eq_self.mp h.symm)

theorem pair_nsmul_right (hL : L.Laws) (P : L.ECP2) (Q : L.ECP) (n : Nat) :
    L.pair P (n • Q) = L.pair P Q ^ n := by
  induction n with
  | zero => rw [zero_nsmul, pow_zero]; exact pair_zero_right hL P
  | succ k ih => rw [succ_nsmul, hL.pair_add_right, ih, pow_succ]

theorem pair_pow_order (hL : L.Laws) (P : L.ECP2) (Q : L.ECP) :
    L.pair P Q ^ L.CURVE_Order = 1 := by
  rw [← pair_nsmul_right hL, hL.order_ECP, pair_zero_right hL]

theorem pow_congr_mod {G : Type} [CommGroup G] {q : Nat} (g : G) (hg : g ^ q = 1)
    {a b : Nat} (h : a % q = b % q) : g ^ a = g ^ b := by
  have key : ∀ n : Nat, g ^ n = g ^ (n % q) := by
    intro n
    conv_lhs => rw [← Nat.mod_add_div n q]
    rw [pow_add, pow_mul, hg, one_pow, mul_one]
  rw [key a, key b, h]

theorem pow_modneg {G : Type} [CommGroup G] {q : Nat} (hq : 0 < q) (g : G) (hg : g ^ q = 1)
    (e : Nat) : g ^ BIG_modneg e q = (g ^ e)⁻¹ := by
  have h : g ^ (e + BIG_modneg e q) = g ^ 0 := pow_congr_mod g hg (modneg_cancel q e hq)
  rw [pow_add, pow_zero] at h
  exact eq_inv_of_mul_eq_one_right h

theorem fexp_one (hL : L.Laws) : L.fexp 1 = 1 := by
  have h := hL.fexp_mul 1 1
  rw [mul_one] at h
  exact mul_right_eq_self.mp h.symm

/-- The multi-pairing of three pairs is the product of the three pairings. -/
theorem PAIR_normalized_triple_ate_eq (hL : L.Laws) (P : L.ECP2) (Q : L.ECP) (R : L.ECP2)
    (S : L.ECP) (T : L.ECP2) (U : L.ECP) :
    PAIR_normalized_triple_ate L P Q R S T U = L.pair P Q * L.pair R S * L.pair T U := by
  simp only [PAIR_normalized_triple_ate, PAIR_initmp, PAIR_another, PAIR_miller, Lib.pair,
    one_mul, hL.fexp_mul]

/-- The product of three pairings evaluated by `verifyAuxFast` is the
mask-weighted product of the two credential quotients. -/
theorem triple_ate_eq (hL : L.Laws) (A B C D : L.ECP) (X Y : L.ECP2) (e1 e2 : Nat) :
    PAIR_normalized_triple_ate L Y (PAIR_G1mul L A e1) (setG2 L)
        (PAIR_G1mul L B (BIG_modneg e1 L.CURVE_Order)
          + PAIR_G1mul L C (BIG_modneg e2 L.CURVE_Order))
        X (PAIR_G1mul L (A + D) e2)
      = (L.pair Y A / L.pair L.g2 B) ^ e1 * (L.pair X (A + D) / L.pair L.g2 C) ^ e2 := by
  rw [PAIR_normalized_triple_ate_eq hL]
  unfold PAIR_G1mul setG2
  rw [hL.pair_add_right, pair_nsmul_right hL, pair_nsmul_right hL, pair_nsmul_right hL,
    pair_nsmul_right hL,
    pow_modneg (order_pos hL) _ (pair_pow_order hL _ _),
    pow_modneg (order_pos hL) _ (pair_pow_order hL _ _), div_pow, div_pow]
  simp only [div_eq_mul_inv]
  ac_rfl

/-- What `verifyAuxFast` decides: `A` is not infinity and the mask-weighted
product of the credential quotients is one, for the masks it draws. -/
theorem verifyAuxFast_iff (hL : L.Laws) (A B C D : L.ECP) (X Y : L.ECP2) (RNG : L.csprng) :
    (verifyAuxFast L A B C D X Y RNG).1 = true ↔
      A ≠ 0 ∧ (L.pair Y A / L.pair L.g2 B) ^ (randomModOrder L RNG).1
        * (L.pair X (A + D) / L.pair L.g2 C) ^ (randomModOrder L (randomModOrder L RNG).2).1
        = 1 := by
  unfold verifyAuxFast ECP_isinf
  by_cases hA : A = 0
  · simp [hA]
  · simp only [hA, decide_False, Bool.false_eq_true, if_false]
    rw [triple_ate_eq hL]
    by_cases hw : (L.pair Y A / L.pair L.g2 B) ^ (randomModOrder L RNG).1
        * (L.pair X (A + D) / L.pair L.g2 C) ^ (randomModOrder L (randomModOrder L RNG).2).1 = 1
    · simp [hw, hA]
    · simp [hw]

/-- Completeness of `verifyAuxFast`: a credential that satisfies both pairing
equations passes for every pair of masks. -/
theorem verifyAuxFast_complete (hL : L.Laws) (A B C D : L.ECP) (X Y : L.ECP2)
    (RNG : L.csprng) (hA : A ≠ 0) (h1 : L.pair Y A = L.pair L.g2 B)
    (h2 : L.pair X (A + D) = L.pair L.g2 C) :
    (verifyAuxFast L A B C D X Y RNG).1 = true := by
  rw [verifyAuxFast_iff hL]
  refine ⟨hA, ?_⟩
  rw [h1, h2, div_self', div_self', one_pow, one_pow, one_mul]

end Pairing

/-! ## Termination of the hash to G1 -/

section Mapit

variable {L}
variable {stack stack' : Stack L} {qxy : L.FP × L.FP × L.FP × L.FP}

theorem mapit_inner_first (j : Nat) : ∀ (x fuel : Nat),
    (∀ i, i < j → L.ECP_setx (x + i) = 0) → L.ECP_setx (x + j) ≠ 0 → j + 1 ≤ fuel →
    mapit_inner L fuel x = some (L.ECP_setx (x + j), x + j + 1) := by
  induction j with
  | zero =>
    intro x fuel _ hj hf
    obtain ⟨f, rfl⟩ : ∃ f, fuel = f + 1 := ⟨fuel - 1, by omega⟩
    have hj' : L.ECP_setx x ≠ 0 := by simpa using hj
    simp [mapit_inner, ECP_isinf, hj']
  | succ j ih =>
    intro x fuel hlt hj hf
    obtain ⟨f, rfl⟩ : ∃ f, fuel = f + 1 := ⟨fuel - 1, by omega⟩
    have h0 : L.ECP_setx x = 0 := by simpa using hlt 0 (by omega)
    have hrec := ih (x + 1) f
      (fun i hi => by have := hlt (i + 1) (by omega); rwa [show x + 1 + i = x + (i + 1) by omega])
      (by rwa [show x + 1 + j = x + (j + 1) by omega]) (by omega)
    simp only [mapit_inner, ECP_isinf, h0, decide_True, Bool.not_true, Bool.false_eq_true,
      if_false]
    rw [hrec, show x + 1 + j = x + (j + 1) by omega]

/-- The loops of `ECP_mapit_compatibility` return the cofactor multiple of the
first liftable `x` at or after the start whose cofactor multiple is not
infinity, as soon as the fuel exceeds its distance from the start. -/
theorem mapit_outer_first (k : Nat) : ∀ (x fuel : Nat),
    (∀ i, i < k → ¬ (L.ECP_setx (x + i) ≠ 0 ∧ L.ECP_cfp (L.ECP_setx (x + i)) ≠ 0)) →
    L.ECP_setx (x + k) ≠ 0 → L.ECP_cfp (L.ECP_setx (x + k)) ≠ 0 → k + 1 ≤ fuel →
    mapit_outer L fuel x = some (L.ECP_cfp (L.ECP_setx (x + k))) := by
  induction k using Nat.strong_induction_on with
  | _ k ih =>
    intro x fuel hlt hk hc hf
    obtain ⟨f, rfl⟩ : ∃ f, fuel = f + 1 := ⟨fuel - 1, by omega⟩
    have hex : ∃ j, L.ECP_setx (x + j) ≠ 0 := ⟨k, hk⟩
    classical
    have hjs := Nat.find_spec hex
    have hjm : ∀ i, i < Nat.find hex → L.ECP_setx (x + i) = 0 := fun i hi =>
      not_not.mp (Nat.find_min hex hi)
    have hjk : Nat.find hex ≤ k := Nat.find_min' hex hk
    have hin := mapit_inner_first (Nat.find hex) x (f + 1) hjm hjs (by omega)
    rw [mapit_outer, hin]
    rcases Nat.lt_or_ge (Nat.find hex) k with hlt' | hge
    · have hbad : L.ECP_cfp (L.ECP_setx (x + Nat.find hex)) = 0 := by
        by_contra hne
        exact hlt (Nat.find hex) hlt' ⟨hjs, hne⟩
      simp only [ECP_isinf, hbad, decide_True, Bool.not_true, Bool.false_eq_true, if_false]
      have hrec := ih (k - Nat.find hex - 1) (by omega) (x + Nat.find hex + 1) f
        (fun i hi => by
          have := hlt (Nat.find hex + 1 + i) (by omega)
          rwa [show x + Nat.find hex + 1 + i = x + (Nat.find hex + 1 + i) by omega])
        (by rwa [show x + Nat.find hex + 1 + (k - Nat.find hex - 1) = x + k by omega])
        (by rwa [show x + Nat.find hex + 1 + (k - Nat.find hex - 1) = x + k by omega])
        (by omega)
      rw [hrec, show x + Nat.find hex + 1 + (k - Nat.find hex - 1) = x + k by omega]
    · have hjeq : Nat.find hex = k := by omega
      rw [hjeq]
      simp [ECP_isinf, hc]

/-- With enough fuel the hash to G1 returns a point, which is not infinity. -/
theorem mapit_returns (hL : L.Laws) (h : List Nat) :
    ∃ (N : Nat) (P : L.ECP), P ≠ 0 ∧ ∀ fuel, N ≤ fuel → mapit L fuel h = some P := by
  classical
  let x := BIG_mod (BIG_fromBytes (sliceBytes h 0 L.MODBYTES)) L.Modulus
  have hex : ∃ k, L.ECP_setx (x + k) ≠ 0 ∧ L.ECP_cfp (L.ECP_setx (x + k)) ≠ 0 :=
    hL.mapit_total x
  refine ⟨Nat.find hex + 1, L.ECP_cfp (L.ECP_setx (x + Nat.find hex)), (Nat.find_spec hex).2,
    fun fuel hf => ?_⟩
  exact mapit_outer_first (Nat.find hex) x fuel (fun i hi => Nat.find_min hex hi)
    (Nat.find_spec hex).1 (Nat.find_spec hex).2 hf

end Mapit

/-! ## The join protocol -/

section Join

variable {L}
variable {stack stack' : Stack L} {qxy : L.FP × L.FP × L.FP × L.FP}

theorem nsmul_ne_zero_of_prime {G : Type} [AddCommGroup G] {q : Nat} (hq : q.Prime) (P : G)
    (hP : q • P = 0) (hne : P ≠ 0) (r : Nat) (hr : r % q ≠ 0) : r • P ≠ 0 := by
  intro h
  have hd : addOrderOf P ∣ q := addOrderOf_dvd_of_nsmul_eq_zero hP
  rcases (Nat.dvd_prime hq).mp hd with h1 | h1
  · exact hne (AddMonoid.addOrderOf_eq_one_iff.mp h1)
  · have hr' : addOrderOf P ∣ r := addOrderOf_dvd_of_nsmul_eq_zero h
    rw [h1] at hr'
    exact hr (Nat.mod_eq_zero_of_dvd hr')

theorem pair_zero_left (hL : L.Laws) (Q : L.ECP) : L.pair 0 Q = 1 := by
  have h := hL.pair_add_left 0 0 Q
  rw [add_zero] at h
  exact (mul_right_eq_self.mp h.symm)

theorem pair_nsmul_left (hL : L.Laws) (P : L.ECP2) (Q : L.ECP) (n : Nat) :
    L.pair (n • P) Q = L.pair P Q ^ n := by
  induction n with
  | zero => rw [zero_nsmul, pow_zero]; exact pair_zero_left hL Q
  | succ k ih => rw [succ_nsmul, hL.pair_add_left, ih, pow_succ]

/-- The message of `join_client` is accepted by `join_server` under the same
challenge, whatever the issuer key. -/
theorem join_server_accepts (hL : L.Laws) (gp : GroupPrivateKey L) (rngC rngS : L.csprng)
    (challenge : List Nat) (priv0 : UserPrivateKey L) (resp0 : JoinResponse L) :
    (join_server L rngS gp (join_client L rngC challenge priv0).1 challenge resp0).1 = true := by
  have hv := verifyECPProof_make hL (randomModOrder L rngC).2 (setG1 L)
    (PAIR_G1mul L (setG1 L) (randomModOrder L rngC).1) (randomModOrder L rngC).1
    (randomModOrder L rngC).1 (some (myhash L challenge)) rfl rfl
  simp only [join_server, join_client]
  rw [hv]
  rfl

/-- The response of an honest issuer, field by field. -/
theorem join_server_cred (hL : L.Laws) (gp : GroupPrivateKey L) (rngC rngS : L.csprng)
    (challenge : List Nat) (priv0 : UserPrivateKey L) (resp0 : JoinResponse L) :
    let r := (randomModOrder L rngS).1
    let gsk := (randomModOrder L rngC).1
    let resp := (join_server L rngS gp (join_client L rngC challenge priv0).1 challenge resp0).2.1
    resp.cred.A = r • L.g1 ∧ resp.cred.B = gp.y • (r • L.g1)
      ∧ resp.cred.D = (BIG_modmul r gp.y L.CURVE_Order) • (gsk • L.g1)
      ∧ resp.cred.C = gp.x • (resp.cred.A + resp.cred.D)
      ∧ resp.c = (makeECPProofEquals L (randomModOrder L rngS).2 L.g1 (gsk • L.g1)
          resp.cred.B resp.cred.D (BIG_modmul r gp.y L.CURVE_Order) none).1
      ∧ resp.s = (makeECPProofEquals L (randomModOrder L rngS).2 L.g1 (gsk • L.g1)
          resp.cred.B resp.cred.D (BIG_modmul r gp.y L.CURVE_Order) none).2.1 := by
  have hv := verifyECPProof_make hL (randomModOrder L rngC).2 (setG1 L)
    (PAIR_G1mul L (setG1 L) (randomModOrder L rngC).1) (randomModOrder L rngC).1
    (randomModOrder L rngC).1 (some (myhash L challenge)) rfl rfl
  simp only [join_server, join_client]
  rw [hv]
  simp [PAIR_G1mul, setG1]

theorem join_client_gsk (rngC : L.csprng) (challenge : List Nat) (priv0 : UserPrivateKey L) :
    (join_client L rngC challenge priv0).2.1.gsk = (randomModOrder L rngC).1 := rfl

/-- An honest join succeeds when the scalar `r` drawn by the issuer is not
zero, and stores the issued credential, which satisfies both pairing equations
and `D = gsk • B`. -/
theorem joinRun_ok (hL : L.Laws) (gp : GroupPrivateKey L)
    (hX : gp.pub.X = gp.x • L.g2) (hY : gp.pub.Y = gp.y • L.g2)
    (rngC rngS rngF : L.csprng) (challenge : List Nat)
    (hr : (randomModOrder L rngS).1 ≠ 0) :
    (joinRun L gp rngC rngS rngF challenge).1 = true
      ∧ (joinRun L gp rngC rngS rngF challenge).2.1 = true
      ∧ (joinRun L gp rngC rngS rngF challenge).2.2.cred.A = (randomModOrder L rngS).1 • L.g1
      ∧ (joinRun L gp rngC rngS rngF challenge).2.2.cred.A ≠ 0
      ∧ (joinRun L gp rngC rngS rngF challenge).2.2.cred.B
          = gp.y • (joinRun L gp rngC rngS rngF challenge).2.2.cred.A
      ∧ (joinRun L gp rngC rngS rngF challenge).2.2.cred.D
          = (joinRun L gp rngC rngS rngF challenge).2.2.gsk
            • (joinRun L gp rngC rngS rngF challenge).2.2.cred.B
      ∧ CredentialOK L gp.pub (joinRun L gp rngC rngS rngF challenge).2.2.cred := by
  have hq := order_pos hL
  obtain ⟨hA, hB, hD, hC, hc, hs⟩ :=
    join_server_cred hL gp rngC rngS challenge (localUserPriv L) (localResp L)
  have hacc := join_server_accepts hL gp rngC rngS challenge (localUserPriv L) (localResp L)
  generalize hresp : (join_server L rngS gp (join_client L rngC challenge (localUserPriv L)).1
    challenge (localResp L)).2.1 = resp at hA hB hD hC hc hs
  have hrlt : (randomModOrder L rngS).1 < L.CURVE_Order := hL.random_lt _ _ hq
  have hrmod : (randomModOrder L rngS).1 % L.CURVE_Order ≠ 0 := by
    rw [Nat.mod_eq_of_lt hrlt]; exact hr
  have hAne : resp.cred.A ≠ 0 := by
    rw [hA]
    exact nsmul_ne_zero_of_prime hL.order_prime _ (hL.order_ECP _) hL.g1_ne _ hrmod
  -- the equality proof of the response verifies
  have hmodmul : BIG_modmul (randomModOrder L rngS).1 gp.y L.CURVE_Order % L.CURVE_Order
      = ((randomModOrder L rngS).1 * gp.y) % L.CURVE_Order := by
    unfold BIG_modmul
    rw [Nat.mod_mod, ← Nat.mul_mod]
  have hB' : resp.cred.B = PAIR_G1mul L L.g1 ((randomModOrder L rngS).1 * gp.y) := by
    rw [hB, PAIR_G1mul, mul_nsmul]
  have hD' : resp.cred.D = PAIR_G1mul L ((randomModOrder L rngC).1 • L.g1)
      (BIG_modmul (randomModOrder L rngS).1 gp.y L.CURVE_Order) := hD
  have hver := verifyECPProofEquals_make hL (randomModOrder L rngS).2 L.g1
    ((randomModOrder L rngC).1 • L.g1) resp.cred.B resp.cred.D
    (BIG_modmul (randomModOrder L rngS).1 gp.y L.CURVE_Order)
    ((randomModOrder L rngS).1 * gp.y)
    (BIG_modmul (randomModOrder L rngS).1 gp.y L.CURVE_Order) none hB' hD' hmodmul.symm rfl
  rw [← hc, ← hs] at hver
  -- the credential relation
  have hDB : resp.cred.D = (randomModOrder L rngC).1 • resp.cred.B := by
    have e1 : BIG_modmul (randomModOrder L rngS).1 gp.y L.CURVE_Order
        • (randomModOrder L rngC).1 • L.g1
        = ((randomModOrder L rngC).1
          * BIG_modmul (randomModOrder L rngS).1 gp.y L.CURVE_Order) • L.g1 :=
      (mul_nsmul _ _ _).symm
    have e2 : (randomModOrder L rngC).1 • gp.y • (randomModOrder L rngS).1 • L.g1
        = (((randomModOrder L rngS).1 * gp.y) * (randomModOrder L rngC).1) • L.g1 := by
      rw [← mul_nsmul, ← mul_nsmul, mul_assoc]
    rw [hD, hB, e1, e2]
    refine nsmul_congr_mod _ (hL.order_ECP _) ?_
    rw [Nat.mul_mod, hmodmul, ← Nat.mul_mod, mul_comm]
  have hok : CredentialOK L gp.pub resp.cred := by
    unfold CredentialOK
    have hB2 : resp.cred.B = gp.y • resp.cred.A := by rw [hB, hA]
    rw [hY, hX, pair_nsmul_left hL, pair_nsmul_left hL, hB2, hC, pair_nsmul_right hL,
      pair_nsmul_right hL]
    exact ⟨rfl, rfl⟩
  have haux := verifyAuxFast_complete hL resp.cred.A resp.cred.B resp.cred.C resp.cred.D
    gp.pub.X gp.pub.Y rngF hAne hok.1 hok.2
  have hrun : joinRun L gp rngC rngS rngF challenge
      = (true, true, { cred := resp.cred, gsk := (randomModOrder L rngC).1 }) := by
    simp only [joinRun, join_finish_client, hresp, hacc, join_client_gsk, PAIR_G1mul, setG1]
    rw [hver, haux]
    rfl
  rw [hrun]
  exact ⟨rfl, rfl, hA, hAne, hB.trans (by rw [hA]), hDB, hok⟩

end Join

/-! ## Signing and verifying -/

section SignVerify

variable {L}
variable {stack stack' : Stack L} {qxy : L.FP × L.FP × L.FP × L.FP}

/-- The signature `sign` builds once the hash to G1 has returned `BSN`. -/
theorem sign_eq (fuel : Nat) (RNG : L.csprng) (priv : UserPrivateKey L) (msg bsn : List Nat)
    (BSN : L.ECP) (hmap : mapit L fuel (myhash L bsn) = some BSN) :
    ∃ sig RNG', sign L fuel RNG priv msg bsn = some (sig, RNG')
      ∧ sig.A = (randomModOrder L RNG).1 • priv.cred.A
      ∧ sig.B = (randomModOrder L RNG).1 • priv.cred.B
      ∧ sig.C = (randomModOrder L RNG).1 • priv.cred.C
      ∧ sig.D = (randomModOrder L RNG).1 • priv.cred.D
      ∧ sig.NYM = priv.gsk • BSN
      ∧ sig.c = (makeECPProofEquals L (randomModOrder L RNG).2 sig.B BSN sig.D sig.NYM priv.gsk
          (some (myhash L (sliceBytes (pokeBytes (pokeBytes [] 0 (myhash L msg)) L.MODBYTES
            (myhash L bsn)) 0 (2 * L.MODBYTES))))).1
      ∧ sig.s = (makeECPProofEquals L (randomModOrder L RNG).2 sig.B BSN sig.D sig.NYM priv.gsk
          (some (myhash L (sliceBytes (pokeBytes (pokeBytes [] 0 (myhash L msg)) L.MODBYTES
            (myhash L bsn)) 0 (2 * L.MODBYTES))))).2.1 := by
  simp only [sign, hmap, PAIR_G1mul]
  exact ⟨_, _, rfl, rfl, rfl, rfl, rfl, rfl, rfl, rfl⟩

/-- A signature made with a non-zero blinding scalar from a key that carries a
valid credential with `B` not infinity and `D = gsk • B` is accepted. -/
theorem sign_verify_ok (hL : L.Laws) (pub : GroupPublicKey L) (sk : UserPrivateKey L)
    (hA : sk.cred.A ≠ 0) (hB : sk.cred.B ≠ 0) (hD : sk.cred.D = sk.gsk • sk.cred.B)
    (hok : CredentialOK L pub sk.cred) (rngSig rngV : L.csprng) (msg bsn : List Nat)
    (hr : (randomModOrder L rngSig).1 ≠ 0) :
    ∃ N, ∀ fuel, N ≤ fuel → ∃ sig rng1 rng2,
      sign L fuel rngSig sk msg bsn = some (sig, rng1)
        ∧ verify L fuel msg bsn sig pub rngV = some (true, rng2) := by
  obtain ⟨N, BSN, _, hmap⟩ := mapit_returns hL (myhash L bsn)
  refine ⟨N, fun fuel hf => ?_⟩
  obtain ⟨sig, rng1, hsign, sA, sB, sC, sD, sN, sc, ss⟩ :=
    sign_eq fuel rngSig sk msg bsn BSN (hmap fuel hf)
  have hq := order_pos hL
  have hrlt : (randomModOrder L rngSig).1 < L.CURVE_Order := hL.random_lt _ _ hq
  have hrmod : (randomModOrder L rngSig).1 % L.CURVE_Order ≠ 0 := by
    rw [Nat.mod_eq_of_lt hrlt]; exact hr
  have hA' : sig.A ≠ 0 := by
    rw [sA]; exact nsmul_ne_zero_of_prime hL.order_prime _ (hL.order_ECP _) hA _ hrmod
  have hB' : sig.B ≠ 0 := by
    rw [sB]; exact nsmul_ne_zero_of_prime hL.order_prime _ (hL.order_ECP _) hB _ hrmod
  have hD' : sig.D = PAIR_G1mul L sig.B sk.gsk := by
    rw [sD, sB, hD, PAIR_G1mul, smul_comm]
  have hN' : sig.NYM = PAIR_G1mul L BSN sk.gsk := sN
  have hver := verifyECPProofEquals_make hL (randomModOrder L rngSig).2 sig.B BSN sig.D sig.NYM
    sk.gsk sk.gsk sk.gsk (some (myhash L (sliceBytes (pokeBytes (pokeBytes [] 0 (myhash L msg))
      L.MODBYTES (myhash L bsn)) 0 (2 * L.MODBYTES)))) hD' hN' rfl rfl
  rw [← sc, ← ss] at hver
  have h1 : L.pair pub.Y sig.A = L.pair L.g2 sig.B := by
    rw [sA, sB, pair_nsmul_right hL, pair_nsmul_right hL, hok.1]
  have h2 : L.pair pub.X (sig.A + sig.D) = L.pair L.g2 sig.C := by
    rw [sA, sD, sC, ← smul_add, pair_nsmul_right hL, pair_nsmul_right hL, hok.2]
  have haux := verifyAuxFast_complete hL sig.A sig.B sig.C sig.D pub.X pub.Y rngV hA' h1 h2
  refine ⟨sig, rng1, (verifyAuxFast L sig.A sig.B sig.C sig.D pub.X pub.Y rngV).2, hsign, ?_⟩
  simp only [verify, hmap fuel hf, hver, ECP_isinf, hA', hB', decide_False, Bool.not_false,
    Bool.and_self, if_true]
  rw [← haux]

end SignVerify

/-! ## Setup, join and signature correctness -/

section Claims

variable {L}
variable {stack stack' : Stack L} {qxy : L.FP × L.FP × L.FP × L.FP}

theorem setup_keys (RNG : L.csprng) :
    (setup L stack RNG).1.pub.X = (setup L stack RNG).1.x • L.g2
      ∧ (setup L stack RNG).1.pub.Y = (setup L stack RNG).1.y • L.g2
      ∧ (setup L stack RNG).1.y = (randomModOrder L (randomModOrder L RNG).2).1 :=
  ⟨rfl, rfl, rfl⟩

/-- An honest join fails when the issuer draws `r = 0`: the credential then
has `A` at infinity. -/
theorem joinRun_fails (hL : L.Laws) (gp : GroupPrivateKey L) (rngC rngS rngF : L.csprng)
    (challenge : List Nat) (hr : (randomModOrder L rngS).1 = 0) :
    (joinRun L gp rngC rngS rngF challenge).2.1 = false := by
  obtain ⟨hA, -⟩ := join_server_cred hL gp rngC rngS challenge (localUserPriv L) (localResp L)
  rw [hr, zero_nsmul] at hA
  simp only [joinRun, join_finish_client, verifyAuxFast, ECP_isinf, hA]
  split <;> simp

/-- A non-zero draw of `randomModOrder` gives a multiple other than infinity
of a point other than infinity. -/
theorem draw_nsmul_ne (hL : L.Laws) (RNG : L.csprng) (P : L.ECP2) (hP : P ≠ 0)
    (hr : (randomModOrder L RNG).1 ≠ 0) : PAIR_G2mul L P (randomModOrder L RNG).1 ≠ 0 := by
  have hlt : (randomModOrder L RNG).1 < L.CURVE_Order := hL.random_lt _ _ (order_pos hL)
  exact nsmul_ne_zero_of_prime hL.order_prime P (hL.order_ECP2 P) hP _
    (by rw [Nat.mod_eq_of_lt hlt]; exact hr)

/-- C3 at the failing input: `setup` draws `x = 0`, so `X` is the point at
infinity and `ECP2_toOctet_compatibility` writes its unassigned locals into
the transcript of the proof for `X`.  The locals hold zeros while `setup`
runs and `(1, 0, 0, 0)` while `verifyGroupPublicKey` runs: the key `setup`
wrote is rejected. -/
theorem C3_counterexample :
    (setup toy toyStack [0, 5, 2, 9]).1.pub.X = 0
      ∧ verifyGroupPublicKey toy toyStackOne (setup toy toyStack [0, 5, 2, 9]).1.pub = false :=
  ⟨rfl, by decide⟩

/-- C3. Setup well-formedness.  For every RNG state the group public key
written by `setup` passes `verifyGroupPublicKey`, that is both G2 Schnorr
proofs verify against the base `g2`, when the locals that
`ECP2_toOctet_compatibility` leaves unassigned hold in `verifyGroupPublicKey`
what they held in `setup`.  Whatever these locals hold, the key passes when no
point at infinity is serialized: `g2` is not at infinity and none of the four
scalars `setup` draws, `x`, `y` and the nonces of the two proofs, is zero. -/
theorem C3_setup_passes_verifyGroupPublicKey (hL : L.Laws) (stack stack' : Stack L)
    (RNG : L.csprng) :
    verifyGroupPublicKey L stack (setup L stack RNG).1.pub = true
      ∧ (setG2 L ≠ 0 → (setup L stack RNG).1.x ≠ 0 → (setup L stack RNG).1.y ≠ 0 →
        (randomModOrder L (randomModOrder L (randomModOrder L RNG).2).2).1 ≠ 0 →
        (randomModOrder L
          (randomModOrder L (randomModOrder L (randomModOrder L RNG).2).2).2).1 ≠ 0 →
        verifyGroupPublicKey L stack' (setup L stack RNG).1.pub = true) := by
  refine ⟨?_, fun hg hx hy hrx hry => ?_⟩
  · simp only [verifyGroupPublicKey, setup, Bool.and_eq_true]
    exact ⟨verifyECP2Proof_make hL _ _ _ _ _ rfl rfl, verifyECP2Proof_make hL _ _ _ _ _ rfl rfl⟩
  · have hX := draw_nsmul_ne hL RNG (setG2 L) hg hx
    have hY := draw_nsmul_ne hL (randomModOrder L RNG).2 (setG2 L) hg hy
    have hRx := draw_nsmul_ne hL (randomModOrder L (randomModOrder L RNG).2).2 (setG2 L) hg hrx
    have hRy := draw_nsmul_ne hL
      (randomModOrder L (randomModOrder L (randomModOrder L RNG).2).2).2 (setG2 L) hg hry
    simp only [verifyGroupPublicKey, setup, Bool.and_eq_true]
    exact ⟨verifyECP2Proof_make_of_ne hL _ _ _ _ _ _ _ rfl rfl hg hX hRx,
      verifyECP2Proof_make_of_ne hL _ _ _ _ _ _ _ rfl rfl hg hY hRy⟩

/-- C3 at the small library, draws 3, 5, 2, 9: the key passes on a stack other
than the one `setup` met. -/
theorem C3_witness :
    (toy.Laws ∧ setG2 toy ≠ 0 ∧ (setup toy toyStack [3, 5, 2, 9]).1.x ≠ 0
        ∧ (setup toy toyStack [3, 5, 2, 9]).1.y ≠ 0
        ∧ (randomModOrder toy (randomModOrder toy (randomModOrder toy [3, 5, 2, 9]).2).2).1 ≠ 0
        ∧ (randomModOrder toy (randomModOrder toy (randomModOrder toy
            (randomModOrder toy [3, 5, 2, 9]).2).2).2).1 ≠ 0)
      ∧ verifyGroupPublicKey toy toyStackOne (setup toy toyStack [3, 5, 2, 9]).1.pub = true :=
  ⟨⟨toy_laws, show (1 : ZMod 11) ≠ 0 by decide, by decide, by decide, by decide, by decide⟩,
    (C3_setup_passes_verifyGroupPublicKey toy_laws toyStack toyStackOne [3, 5, 2, 9]).2
      (show (1 : ZMod 11) ≠ 0 by decide) (by decide) (by decide) (by decide) (by decide)⟩

/-- C2 as stated fails: when the issuer draws `r = 0` the join message is
accepted by `join_server`, and `join_finish_client` rejects the response. -/
theorem C2_counterexample :
    (joinRun toy (setup toy toyStack [3, 5, 2, 9]).1 [4, 6] [0, 7] [1, 2] [110]).1 = true
      ∧ (joinRun toy (setup toy toyStack [3, 5, 2, 9]).1 [4, 6] [0, 7] [1, 2] [110]).2.1 = false := by
  decide

/-- C2, amended. Join soundness: for every issuer key produced by `setup`,
every challenge and all RNG states of user and issuer in which the scalar `r`
drawn by `join_server` is not zero, the message of `join_client` is accepted by
`join_server`, the response is accepted by `join_finish_client` with the
user's `gsk`, and the stored credential satisfies `e(A,Y) = e(B,g2)` and
`e(A+D,X) = e(C,g2)`. -/
theorem C2_join_sound (hL : L.Laws) (stack : Stack L) (rng0 rngC rngS rngF : L.csprng)
    (challenge : List Nat)
    (hr : (randomModOrder L rngS).1 ≠ 0) :
    (joinRun L (setup L stack rng0).1 rngC rngS rngF challenge).1 = true
      ∧ (joinRun L (setup L stack rng0).1 rngC rngS rngF challenge).2.1 = true
      ∧ CredentialOK L (setup L stack rng0).1.pub
          (joinRun L (setup L stack rng0).1 rngC rngS rngF challenge).2.2.cred := by
  obtain ⟨h1, h2, -, -, -, -, h3⟩ := joinRun_ok hL (setup L stack rng0).1 rfl rfl rngC rngS rngF
    challenge hr
  exact ⟨h1, h2, h3⟩

/-- C2 (amended) at the small library, the issuer drawing `r = 2`. -/
theorem C2_witness :
    (toy.Laws ∧ (randomModOrder toy [2, 7]).1 ≠ 0)
      ∧ (joinRun toy (setup toy toyStack [3, 5, 2, 9]).1 [4, 6] [2, 7] [1, 2] [110]).1 = true
      ∧ (joinRun toy (setup toy toyStack [3, 5, 2, 9]).1 [4, 6] [2, 7] [1, 2] [110]).2.1 = true
      ∧ CredentialOK toy (setup toy toyStack [3, 5, 2, 9]).1.pub
          (joinRun toy (setup toy toyStack [3, 5, 2, 9]).1 [4, 6] [2, 7] [1, 2] [110]).2.2.cred :=
  ⟨⟨toy_laws, by decide⟩,
    C2_join_sound toy_laws toyStack [3, 5, 2, 9] [4, 6] [2, 7] [1, 2] [110] (by decide)⟩

/-- C1 as stated fails: the user key of an honest join signs with the blinding
scalar `r = 0`, the signature has `A` at infinity and `verify` rejects it. -/
theorem C1_counterexample :
    (joinRun toy toyGroupKey [4, 6] [2, 7] [1, 2] [110]).2.1 = true
      ∧ (sign toy 8 [0, 5] toyUserKey [104, 105] [98]).isSome = true
      ∧ ((sign toy 8 [0, 5] toyUserKey [104, 105] [98]).bind
          (fun p => verify toy 8 [104, 105] [98] p.1 toyGroupKey.pub [3, 8]))
        = some (false, [3, 8]) := by
  decide

/-- C1, amended. Signature correctness: for every user private key obtained
from a successful join with an honest issuer whose key has `y ≠ 0`, for all
byte strings `msg` and `bsn`, for every RNG state of the signer in which the
blinding scalar `r` drawn by `sign` is not zero and every RNG state of the
verifier, `sign` returns a signature and `verify` accepts it (given enough
fuel for the hash to G1). -/
theorem C1_sign_verify (hL : L.Laws) (stack : Stack L)
    (rng0 rngC rngS rngF rngSig rngV : L.csprng)
    (challenge msg bsn : List Nat)
    (hjoin : (joinRun L (setup L stack rng0).1 rngC rngS rngF challenge).2.1 = true)
    (hy : (setup L stack rng0).1.y ≠ 0) (hr : (randomModOrder L rngSig).1 ≠ 0) :
    ∃ N, ∀ fuel, N ≤ fuel → ∃ sig rng1 rng2,
      sign L fuel rngSig (joinRun L (setup L stack rng0).1 rngC rngS rngF challenge).2.2 msg bsn
          = some (sig, rng1)
        ∧ verify L fuel msg bsn sig (setup L stack rng0).1.pub rngV = some (true, rng2) := by
  have hrS : (randomModOrder L rngS).1 ≠ 0 := by
    intro h0
    rw [joinRun_fails hL _ rngC rngS rngF challenge h0] at hjoin
    exact Bool.false_ne_true hjoin
  obtain ⟨-, -, -, hA, hB, hD, hok⟩ := joinRun_ok hL (setup L stack rng0).1 rfl rfl rngC rngS rngF
    challenge hrS
  have hq := order_pos hL
  have hylt : (setup L stack rng0).1.y < L.CURVE_Order := hL.random_lt _ _ hq
  have hymod : (setup L stack rng0).1.y % L.CURVE_Order ≠ 0 := by
    rw [Nat.mod_eq_of_lt hylt]; exact hy
  have hBne : (joinRun L (setup L stack rng0).1 rngC rngS rngF challenge).2.2.cred.B ≠ 0 := by
    rw [hB]
    exact nsmul_ne_zero_of_prime hL.order_prime _ (hL.order_ECP _) hA _ hymod
  exact sign_verify_ok hL _ _ hA hBne hD hok rngSig rngV msg bsn hr

/-- C1 (amended) at the small library. -/
theorem C1_witness :
    (toy.Laws ∧ (joinRun toy (setup toy toyStack [3, 5, 2, 9]).1 [4, 6] [2, 7] [1, 2] [110]).2.1 = true
        ∧ (setup toy toyStack [3, 5, 2, 9]).1.y ≠ 0 ∧ (randomModOrder toy [6, 5]).1 ≠ 0)
      ∧ ∃ N, ∀ fuel, N ≤ fuel → ∃ sig rng1 rng2,
        sign toy fuel [6, 5] (joinRun toy (setup toy toyStack [3, 5, 2, 9]).1 [4, 6] [2, 7] [1, 2]
            [110]).2.2 [104, 105] [98] = some (sig, rng1)
          ∧ verify toy fuel [104, 105] [98] sig (setup toy toyStack [3, 5, 2, 9]).1.pub [3, 8]
            = some (true, rng2) :=
  ⟨⟨toy_laws, by decide, by decide, by decide⟩,
    C1_sign_verify toy_laws toyStack [3, 5, 2, 9] [4, 6] [2, 7] [1, 2] [6, 5] [3, 8] [110] [104, 105]
      [98] (by decide) (by decide) (by decide)⟩

end Claims

/-! ## Rejections -/

section Reject

variable {L}
variable {stack stack' : Stack L} {qxy : L.FP × L.FP × L.FP × L.FP}

/-- C7. Identity points are rejected: for every signature whose `A` or `B` is
the point at infinity, and for every `msg`, `bsn`, group public key and RNG
state, `verify` returns and rejects. -/
theorem C7_identity_rejected (hL : L.Laws) (sig : Signature L) (h : sig.A = 0 ∨ sig.B = 0)
    (msg bsn : List Nat) (pub : GroupPublicKey L) (RNG : L.csprng) :
    ∃ N, ∀ fuel, N ≤ fuel → ∃ RNG', verify L fuel msg bsn sig pub RNG = some (false, RNG') := by
  obtain ⟨N, BSN, _, hmap⟩ := mapit_returns hL (myhash L bsn)
  refine ⟨N, fun fuel hf => ⟨RNG, ?_⟩⟩
  simp only [verify, hmap fuel hf, ECP_isinf]
  rcases h with h | h <;> simp [h]

/-- C7 at the small library: a signature with `A` at infinity. -/
theorem C7_witness :
    (toy.Laws ∧ ((0 : ZMod 11) = 0 ∨ (5 : ZMod 11) = 0))
      ∧ ∃ N, ∀ fuel, N ≤ fuel → ∃ RNG',
        verify toy fuel [104, 105] [98]
          { A := 0, B := 5, C := 8, D := 9, NYM := 4, c := 0, s := 5 } toyGroupKey.pub [3, 8]
          = some (false, RNG') :=
  ⟨⟨toy_laws, Or.inl rfl⟩,
    C7_identity_rejected toy_laws { A := 0, B := 5, C := 8, D := 9, NYM := 4, c := 0, s := 5 }
      (Or.inl rfl) [104, 105] [98] toyGroupKey.pub [3, 8]⟩

/-- C8 as stated fails: with `X = 2 g2`, `Y = 3 g2` the tuple `A = B = C = D = g1`
violates both pairing equations, and `verifyAuxFast` accepts it for the masks
`e1 = 4`, `e2 = 1` (and for `e1 = e2 = 0`). -/
theorem C8_counterexample :
    (verifyAuxFast toy 1 1 1 1 2 3 [4, 1]).1 = true
      ∧ (verifyAuxFast toy 1 1 1 1 2 3 [0, 0]).1 = true
      ∧ toy.pair 3 1 ≠ toy.pair toy.g2 1
      ∧ toy.pair 2 (1 + 1) ≠ toy.pair toy.g2 1 := by
  refine ⟨by decide, by decide, ?_, ?_⟩
  · show toyPair 3 1 ≠ toyPair 1 1
    decide
  · show toyPair 2 (1 + 1) ≠ toyPair 1 1
    decide

theorem pow_inj_of_prime {G : Type} [CommGroup G] {q : Nat} (hq : q.Prime) (g : G)
    (hg : g ^ q = 1) (hne : g ≠ 1) {a b : Nat} (ha : a < q) (hb : b < q) (h : g ^ a = g ^ b) :
    a = b := by
  haveI : Fact q.Prime := ⟨hq⟩
  have ho : orderOf g = q := orderOf_eq_prime hg hne
  exact pow_injOn_Iio_orderOf (by rw [ho]; exact ha) (by rw [ho]; exact hb) h

/-- Of the `q * q` pairs of masks at most `q` make the weighted product of two
elements of order dividing `q` equal to one, unless both elements are one. -/
theorem mask_count {G : Type} [CommGroup G] [DecidableEq G] {q : Nat} (hq : q.Prime) (u v : G)
    (hu : u ^ q = 1) (hv : v ^ q = 1) (hne : u ≠ 1 ∨ v ≠ 1) :
    ((Finset.range q ×ˢ Finset.range q).filter (fun p : Nat × Nat => u ^ p.1 * v ^ p.2 = 1)).card ≤ q := by
  by_cases hv1 : v = 1
  · have hu1 : u ≠ 1 := hne.resolve_right (not_not.mpr hv1)
    calc _ ≤ (Finset.range q).card := by
          refine Finset.card_le_card_of_injOn (fun p => p.2) ?_ ?_
          · intro p hp
            exact (Finset.mem_product.mp (Finset.mem_filter.mp hp).1).2
          · intro p hp p' hp' h
            have hp1 := Finset.mem_filter.mp (Finset.mem_coe.mp hp)
            have hp1' := Finset.mem_filter.mp (Finset.mem_coe.mp hp')
            have e : u ^ p.1 = u ^ p'.1 := by
              have a1 := hp1.2
              have a2 := hp1'.2
              rw [hv1, one_pow, mul_one] at a1 a2
              rw [a1, a2]
            have := pow_inj_of_prime hq u hu hu1
              (Finset.mem_range.mp (Finset.mem_product.mp hp1.1).1)
              (Finset.mem_range.mp (Finset.mem_product.mp hp1'.1).1) e
            exact Prod.ext this h
      _ = q := Finset.card_range q
  · calc _ ≤ (Finset.range q).card := by
          refine Finset.card_le_card_of_injOn (fun p => p.1) ?_ ?_
          · intro p hp
            exact (Finset.mem_product.mp (Finset.mem_filter.mp hp).1).1
          · intro p hp p' hp' h
            have hp1 := Finset.mem_filter.mp (Finset.mem_coe.mp hp)
            have hp1' := Finset.mem_filter.mp (Finset.mem_coe.mp hp')
            have h' : p.1 = p'.1 := h
            have e : v ^ p.2 = v ^ p'.2 := by
              have a1 := hp1.2
              have a2 := hp1'.2
              rw [← h'] at a2
              exact mul_left_cancel (a1.trans a2.symm)
            have := pow_inj_of_prime hq v hv hv1
              (Finset.mem_range.mp (Finset.mem_product.mp hp1.1).2)
              (Finset.mem_range.mp (Finset.mem_product.mp hp1'.1).2) e
            exact Prod.ext h this
      _ = q := Finset.card_range q

theorem quotient_pow_order (hL : L.Laws) (P P' : L.ECP2) (Q Q' : L.ECP) :
    (L.pair P Q / L.pair P' Q') ^ L.CURVE_Order = 1 := by
  rw [div_pow, pair_pow_order hL, pair_pow_order hL, div_one]

/-- C8, amended. Soundness of the fast credential check: for every
`(A,B,C,D)`, every `(X,Y)` and every RNG state supplying the masks `e1`, `e2`,
if `verifyAuxFast` returns 1 then `A` is not infinity and the mask-weighted
product `(e(A,Y)/e(B,g2))^e1 * (e(A+D,X)/e(C,g2))^e2` is one; a tuple that
violates one of the two pairing equations satisfies this for at most `q` of the
`q * q` pairs of masks. -/
theorem C8_fast_check_sound (hL : L.Laws) (A B C D : L.ECP) (X Y : L.ECP2) (RNG : L.csprng)
    (hacc : (verifyAuxFast L A B C D X Y RNG).1 = true) :
    A ≠ 0
      ∧ (L.pair Y A / L.pair L.g2 B) ^ (randomModOrder L RNG).1
          * (L.pair X (A + D) / L.pair L.g2 C) ^ (randomModOrder L (randomModOrder L RNG).2).1
        = 1
      ∧ ((L.pair Y A ≠ L.pair L.g2 B ∨ L.pair X (A + D) ≠ L.pair L.g2 C) →
          ∀ S : Finset (Nat × Nat),
            (∀ p ∈ S, p.1 < L.CURVE_Order ∧ p.2 < L.CURVE_Order
              ∧ (L.pair Y A / L.pair L.g2 B) ^ p.1
                * (L.pair X (A + D) / L.pair L.g2 C) ^ p.2 = 1) →
            S.card ≤ L.CURVE_Order) := by
  obtain ⟨hA, hw⟩ := (verifyAuxFast_iff hL A B C D X Y RNG).mp hacc
  refine ⟨hA, hw, fun hbad S hS => ?_⟩
  have hne : L.pair Y A / L.pair L.g2 B ≠ 1 ∨ L.pair X (A + D) / L.pair L.g2 C ≠ 1 := by
    rcases hbad with h | h
    · exact Or.inl (fun e => h (div_eq_one.mp e))
    · exact Or.inr (fun e => h (div_eq_one.mp e))
  refine (Finset.card_le_card ?_).trans (mask_count hL.order_prime _ _
    (quotient_pow_order hL Y L.g2 A B) (quotient_pow_order hL X L.g2 (A + D) C) hne)
  intro p hp
  obtain ⟨h1, h2, h3⟩ := hS p hp
  exact Finset.mem_filter.mpr
    ⟨Finset.mem_product.mpr ⟨Finset.mem_range.mpr h1, Finset.mem_range.mpr h2⟩, h3⟩

/-- C8 (amended) at the small library: the tuple of the counterexample, which
the masks 4 and 1 let through. -/
theorem C8_witness :
    (toy.Laws ∧ (verifyAuxFast toy 1 1 1 1 2 3 [4, 1]).1 = true)
      ∧ (1 : ZMod 11) ≠ 0
      ∧ (toy.pair 3 1 / toy.pair toy.g2 1) ^ (randomModOrder toy [4, 1]).1
          * (toy.pair 2 (1 + 1) / toy.pair toy.g2 1)
            ^ (randomModOrder toy (randomModOrder toy [4, 1]).2).1 = 1
      ∧ ((toy.pair 3 1 ≠ toy.pair toy.g2 1 ∨ toy.pair 2 (1 + 1) ≠ toy.pair toy.g2 1) →
          ∀ S : Finset (Nat × Nat),
            (∀ p ∈ S, p.1 < toy.CURVE_Order ∧ p.2 < toy.CURVE_Order
              ∧ (toy.pair 3 1 / toy.pair toy.g2 1) ^ p.1
                * (toy.pair 2 (1 + 1) / toy.pair toy.g2 1) ^ p.2 = 1) →
            S.card ≤ toy.CURVE_Order) :=
  ⟨⟨toy_laws, by decide⟩, C8_fast_check_sound toy_laws 1 1 1 1 2 3 [4, 1] (by decide)⟩

end Reject

/-! ## Bytes -/

section Bytes

variable {L}
variable {stack stack' : Stack L} {qxy : L.FP × L.FP × L.FP × L.FP}

theorem BIG_toBytes_length (n x : Nat) : (BIG_toBytes n x).length = n := by
  induction n with
  | zero => rfl
  | succ k ih => simp [BIG_toBytes, ih]

theorem BIG_fromBytes_append (a b : List Nat) :
    BIG_fromBytes (a ++ b) = b.foldl (fun acc c => 256 * acc + c % 256) (BIG_fromBytes a) := by
  simp [BIG_fromBytes, List.foldl_append]

theorem foldl_bytes (b : List Nat) (init : Nat) :
    b.foldl (fun acc c => 256 * acc + c % 256) init
      = init * 256 ^ b.length + b.foldl (fun acc c => 256 * acc + c % 256) 0 := by
  induction b generalizing init with
  | nil => simp
  | cons c cs ih =>
    simp only [List.foldl_cons, List.length_cons]
    rw [ih (256 * init + c % 256), ih (256 * 0 + c % 256)]
    ring

theorem BIG_fromBytes_toBytes (n x : Nat) :
    BIG_fromBytes (BIG_toBytes n x) = x % 256 ^ n := by
  induction n with
  | zero => simp [BIG_toBytes, BIG_fromBytes, Nat.mod_one]
  | succ k ih =>
    have h : BIG_fromBytes (BIG_toBytes (k + 1) x)
        = (x / 256 ^ k % 256) * 256 ^ k + BIG_fromBytes (BIG_toBytes k x) := by
      simp only [BIG_toBytes, BIG_fromBytes, List.foldl_cons]
      rw [foldl_bytes, BIG_toBytes_length]
      simp
    rw [h, ih, pow_succ, Nat.mod_mul, Nat.mul_comm, Nat.add_comm]

theorem BIG_fromBytes_toBytes_of_lt (n x : Nat) (h : x < 256 ^ n) :
    BIG_fromBytes (BIG_toBytes n x) = x := by
  rw [BIG_fromBytes_toBytes, Nat.mod_eq_of_lt h]

theorem sliceBytes_length (val : List Nat) (off n : Nat) : (sliceBytes val off n).length = n := by
  simp [sliceBytes]

theorem sliceBytes_prefix (a rest : List Nat) : sliceBytes (a ++ rest) 0 a.length = a := by
  simp [sliceBytes, List.take_append_of_le_length]

theorem sliceBytes_drop (val : List Nat) (off n : Nat) :
    sliceBytes val off n = sliceBytes (val.drop off) 0 n := by
  simp [sliceBytes]

theorem sliceBytes_of_drop (val : List Nat) (off : Nat) (a rest : List Nat)
    (h : val.drop off = a ++ rest) : sliceBytes val off a.length = a := by
  rw [sliceBytes_drop, h, sliceBytes_prefix]

theorem drop_add_of_drop (val : List Nat) (off : Nat) (a rest : List Nat)
    (h : val.drop off = a ++ rest) : val.drop (off + a.length) = rest := by
  rw [← List.drop_drop, h, List.drop_left]

theorem sliceBytes_poke (val : List Nat) (off : Nat) (bs : List Nat) :
    sliceBytes (pokeBytes val off bs) 0 (off + bs.length) = sliceBytes val 0 off ++ bs := by
  unfold pokeBytes
  have h := sliceBytes_prefix (sliceBytes val 0 off ++ bs) (val.drop (off + bs.length))
  rwa [List.length_append, sliceBytes_length] at h

/-! ## Serializers append their encoding -/

theorem pokeBytes_length (val : List Nat) (off : Nat) (bs : List Nat) :
    off + bs.length ≤ (pokeBytes val off bs).length := by
  simp [pokeBytes, sliceBytes_length]

theorem appends_store (enc : List Nat) (size : Nat) (hsize : enc.length = size) :
    Appends (fun out : octet =>
      if out.len + (size : Int) ≤ out.max then
        (true, { len := out.len + (size : Int), max := out.max,
                 val := pokeBytes out.val out.len.toNat enc })
      else (false, { out with len := out.len + (size : Int) })) enc := by
  intro o ho
  subst hsize
  constructor
  · intro hfit
    simp only [hfit, if_true, written, true_and]
    have hl : (o.len + (enc.length : Int)).toNat = o.len.toNat + enc.length := by omega
    rw [hl, sliceBytes_poke]
    exact ⟨rfl, pokeBytes_length _ _ _⟩
  · intro hfit
    simp only [hfit, if_false]

theorem appends_BIG (x : Nat) : Appends (serialize_BIG L x) (BIG_toBytes L.MODBYTES x) :=
  appends_store (BIG_toBytes L.MODBYTES x) L.MODBYTES (BIG_toBytes_length _ _)

theorem appends_ECP (hL : L.Laws) (P : L.ECP) : Appends (serialize_ECP L P) (L.ECP_toOctet P) :=
  appends_store (L.ECP_toOctet P) (2 * L.MODBYTES + 1) (hL.toOctet_len P)

theorem ECP2_toOctet_length (P : L.ECP2) :
    (ECP2_toOctet_compatibility L qxy P).length = 4 * L.MODBYTES := by
  simp only [ECP2_toOctet_compatibility, List.length_append, BIG_toBytes_length]
  omega

theorem appends_ECP2 (P : L.ECP2) :
    Appends (serialize_ECP2 L qxy P) (ECP2_toOctet_compatibility L qxy P) :=
  appends_store (ECP2_toOctet_compatibility L qxy P) (4 * L.MODBYTES) (ECP2_toOctet_length P)

theorem appends_andThen (f g : octet → Bool × octet) (e1 e2 : List Nat) (hf : Appends f e1)
    (hg : Appends g e2) : Appends (fun o => andThen (f o) g) (e1 ++ e2) := by
  intro o ho
  have h1 := hf o ho
  by_cases hfit1 : o.len + (e1.length : Int) ≤ o.max
  · obtain ⟨t1, l1, m1, w1, -⟩ := h1.1 hfit1
    have h2 := hg (f o).2 (by rw [l1]; omega)
    constructor
    · intro hfit
      have hfit2 : (f o).2.len + (e2.length : Int) ≤ (f o).2.max := by
        rw [l1, m1]; rw [List.length_append] at hfit; push_cast at hfit; omega
      obtain ⟨t2, l2, m2, w2, b2⟩ := h2.1 hfit2
      simp only [andThen, t1, if_true]
      refine ⟨t2, ?_, by rw [m2, m1], by rw [w2, w1, List.append_assoc], b2⟩
      rw [l2, l1, List.length_append]; push_cast; omega
    · intro hfit
      have hfit2 : ¬ (f o).2.len + (e2.length : Int) ≤ (f o).2.max := by
        rw [l1, m1]; rw [List.length_append] at hfit; push_cast at hfit; omega
      simp only [andThen, t1, if_true]
      exact h2.2 hfit2
  · have hfalse := h1.2 hfit1
    constructor
    · intro hfit
      rw [List.length_append] at hfit; push_cast at hfit; omega
    · intro _
      simp only [andThen, hfalse]
      simp [hfalse]

theorem appends_group_public_key (k : GroupPublicKey L) :
    Appends (serialize_group_public_key L stack k) (wire_group_public_key L stack k) :=
  appends_andThen _ _ _ _ (appends_andThen _ _ _ _ (appends_andThen _ _ _ _
    (appends_andThen _ _ _ _ (appends_andThen _ _ _ _ (appends_ECP2 k.X) (appends_ECP2 k.Y))
      (appends_BIG k.cx)) (appends_BIG k.sx)) (appends_BIG k.cy)) (appends_BIG k.sy)

theorem appends_group_private_key (k : GroupPrivateKey L) :
    Appends (serialize_group_private_key L stack k) (wire_group_private_key L stack k) :=
  appends_andThen _ _ _ _ (appends_andThen _ _ _ _ (appends_group_public_key k.pub)
    (appends_BIG k.x)) (appends_BIG k.y)

theorem appends_join_message (hL : L.Laws) (j : JoinMessage L) :
    Appends (serialize_join_message L j) (wire_join_message L j) :=
  appends_andThen _ _ _ _ (appends_andThen _ _ _ _ (appends_ECP hL j.Q) (appends_BIG j.c))
    (appends_BIG j.s)

theorem appends_user_credentials (hL : L.Laws) (c : UserCredentials L) :
    Appends (serialize_user_credentials L c) (wire_user_credentials L c) :=
  appends_andThen _ _ _ _ (appends_andThen _ _ _ _ (appends_andThen _ _ _ _
    (appends_ECP hL c.A) (appends_ECP hL c.B)) (appends_ECP hL c.C)) (appends_ECP hL c.D)

theorem appends_join_response (hL : L.Laws) (r : JoinResponse L) :
    Appends (serialize_join_response L r) (wire_join_response L r) :=
  appends_andThen _ _ _ _ (appends_andThen _ _ _ _ (appends_user_credentials hL r.cred)
    (appends_BIG r.c)) (appends_BIG r.s)

theorem appends_user_private_key (hL : L.Laws) (k : UserPrivateKey L) :
    Appends (serialize_user_private_key L k) (wire_user_private_key L k) :=
  appends_andThen _ _ _ _ (appends_user_credentials hL k.cred) (appends_BIG k.gsk)

theorem appends_signature (hL : L.Laws) (g : Signature L) :
    Appends (serialize_signature L g) (wire_signature L g) :=
  appends_andThen _ _ _ _ (appends_andThen _ _ _ _ (appends_andThen _ _ _ _
    (appends_andThen _ _ _ _ (appends_andThen _ _ _ _ (appends_andThen _ _ _ _
      (appends_ECP hL g.A) (appends_ECP hL g.B)) (appends_ECP hL g.C)) (appends_ECP hL g.D))
      (appends_ECP hL g.NYM)) (appends_BIG g.c)) (appends_BIG g.s)

theorem appends_signature_tag (hL : L.Laws) (g : Signature L) :
    Appends (serialize_signature_tag L g) (L.ECP_toOctet g.NYM) :=
  appends_ECP hL g.NYM

/-! ## Widths of the wire forms -/

theorem wire_BIG_length (x : Nat) : (wire_BIG L x).length = L.MODBYTES :=
  BIG_toBytes_length _ _

theorem wire_group_public_key_length (k : GroupPublicKey L) :
    (wire_group_public_key L stack k).length = 12 * L.MODBYTES := by
  simp only [wire_group_public_key, List.length_append, ECP2_toOctet_length, wire_BIG_length]
  omega

theorem wire_group_private_key_length (k : GroupPrivateKey L) :
    (wire_group_private_key L stack k).length = 14 * L.MODBYTES := by
  simp only [wire_group_private_key, List.length_append, wire_group_public_key_length,
    wire_BIG_length]
  omega

theorem wire_join_message_length (hL : L.Laws) (j : JoinMessage L) :
    (wire_join_message L j).length = (2 * L.MODBYTES + 1) + 2 * L.MODBYTES := by
  simp only [wire_join_message, List.length_append, hL.toOctet_len, wire_BIG_length]
  omega

theorem wire_user_credentials_length (hL : L.Laws) (c : UserCredentials L) :
    (wire_user_credentials L c).length = 4 * (2 * L.MODBYTES + 1) := by
  simp only [wire_user_credentials, List.length_append, hL.toOctet_len]
  omega

theorem wire_join_response_length (hL : L.Laws) (r : JoinResponse L) :
    (wire_join_response L r).length = 4 * (2 * L.MODBYTES + 1) + 2 * L.MODBYTES := by
  simp only [wire_join_response, List.length_append, wire_user_credentials_length hL,
    wire_BIG_length]
  omega

theorem wire_user_private_key_length (hL : L.Laws) (k : UserPrivateKey L) :
    (wire_user_private_key L k).length = 4 * (2 * L.MODBYTES + 1) + L.MODBYTES := by
  simp only [wire_user_private_key, List.length_append, wire_user_credentials_length hL,
    wire_BIG_length]

theorem wire_signature_length (hL : L.Laws) (g : Signature L) :
    (wire_signature L g).length = 5 * (2 * L.MODBYTES + 1) + 2 * L.MODBYTES := by
  simp only [wire_signature, List.length_append, hL.toOctet_len, wire_BIG_length]
  omega

end Bytes

/-! ## Parsers read back what serializers wrote -/

section Parse

variable {L}
variable {stack stack' : Stack L} {qxy : L.FP × L.FP × L.FP × L.FP}

theorem parses_BIG (x : Nat) (hx : validBIG L x) : Parses (deserialize_BIG L) (wire_BIG L x) x := by
  intro len max val out0 rest h0 hdrop hcap
  have hlen : (wire_BIG L x).length = L.MODBYTES := BIG_toBytes_length _ _
  rw [hlen] at hcap
  have hs : sliceBytes val len.toNat L.MODBYTES = wire_BIG L x := by
    have := sliceBytes_of_drop val len.toNat (wire_BIG L x) rest hdrop
    rwa [hlen] at this
  simp only [deserialize_BIG, BIGSIZE, hcap, if_true, hs, hlen]
  rw [wire_BIG, BIG_fromBytes_toBytes_of_lt _ _ hx]

theorem parses_ECP (hL : L.Laws) (P : L.ECP) (hP : P ≠ 0) :
    Parses (deserialize_ECP L) (L.ECP_toOctet P) P := by
  intro len max val out0 rest h0 hdrop hcap
  rw [hL.toOctet_len] at hcap
  simp only [deserialize_ECP, ECPSIZE, hcap, if_true, hdrop, hL.fromOctet_toOctet out0 P rest hP,
    hL.toOctet_len]

theorem sliceBytes_append_mid (a b c : List Nat) :
    sliceBytes (a ++ b ++ c) a.length b.length = b := by
  rw [sliceBytes_drop, List.append_assoc, List.drop_left, sliceBytes_prefix]

theorem slice_at (val pre a post : List Nat) (off n : Nat) (hval : val = pre ++ a ++ post)
    (hoff : pre.length = off) (hn : a.length = n) : sliceBytes val off n = a := by
  subst hval hoff hn
  exact sliceBytes_append_mid pre a post

theorem ECP2_fromOctet_toOctet (hL : L.Laws) (P : L.ECP2) (hP : P ≠ 0) (Q : L.ECP2)
    (rest : List Nat) :
    ECP2_fromOctet_compatibility L Q (ECP2_toOctet_compatibility L qxy P ++ rest) = (true, P) := by
  obtain ⟨c, hc⟩ : ∃ c, L.ECP2_get P = some c := by
    cases h : L.ECP2_get P with
    | none => exact absurd ((hL.get_none P).mp h) hP
    | some c => exact ⟨c, rfl⟩
  have hlt : ∀ a : L.FP, L.FP_redc a < 256 ^ L.MODBYTES := fun a =>
    lt_of_lt_of_le (hL.redc_lt a) hL.modulus_le
  have hl : ∀ a : L.FP, (BIG_toBytes L.MODBYTES (L.FP_redc a)).length = L.MODBYTES := fun a =>
    BIG_toBytes_length _ _
  have rd : ∀ a : L.FP, L.FP_nres (BIG_fromBytes (BIG_toBytes L.MODBYTES (L.FP_redc a))) = a :=
    fun a => by rw [BIG_fromBytes_toBytes_of_lt _ _ (hlt a), hL.nres_redc]
  simp only [ECP2_fromOctet_compatibility, ECP2_toOctet_compatibility, hc]
  have s0 := slice_at (BIG_toBytes L.MODBYTES (L.FP_redc c.1)
      ++ BIG_toBytes L.MODBYTES (L.FP_redc c.2.1) ++ BIG_toBytes L.MODBYTES (L.FP_redc c.2.2.1)
      ++ BIG_toBytes L.MODBYTES (L.FP_redc c.2.2.2) ++ rest) []
    (BIG_toBytes L.MODBYTES (L.FP_redc c.1))
    (BIG_toBytes L.MODBYTES (L.FP_redc c.2.1) ++ BIG_toBytes L.MODBYTES (L.FP_redc c.2.2.1)
      ++ BIG_toBytes L.MODBYTES (L.FP_redc c.2.2.2) ++ rest) 0 L.MODBYTES
    (by simp [List.append_assoc]) rfl (hl _)
  have s1 := slice_at (BIG_toBytes L.MODBYTES (L.FP_redc c.1)
      ++ BIG_toBytes L.MODBYTES (L.FP_redc c.2.1) ++ BIG_toBytes L.MODBYTES (L.FP_redc c.2.2.1)
      ++ BIG_toBytes L.MODBYTES (L.FP_redc c.2.2.2) ++ rest)
    (BIG_toBytes L.MODBYTES (L.FP_redc c.1))
    (BIG_toBytes L.MODBYTES (L.FP_redc c.2.1))
    (BIG_toBytes L.MODBYTES (L.FP_redc c.2.2.1)
      ++ BIG_toBytes L.MODBYTES (L.FP_redc c.2.2.2) ++ rest) L.MODBYTES L.MODBYTES
    (by simp [List.append_assoc]) (hl _) (hl _)
  have s2 := slice_at (BIG_toBytes L.MODBYTES (L.FP_redc c.1)
      ++ BIG_toBytes L.MODBYTES (L.FP_redc c.2.1) ++ BIG_toBytes L.MODBYTES (L.FP_redc c.2.2.1)
      ++ BIG_toBytes L.MODBYTES (L.FP_redc c.2.2.2) ++ rest)
    (BIG_toBytes L.MODBYTES (L.FP_redc c.1) ++ BIG_toBytes L.MODBYTES (L.FP_redc c.2.1))
    (BIG_toBytes L.MODBYTES (L.FP_redc c.2.2.1))
    (BIG_toBytes L.MODBYTES (L.FP_redc c.2.2.2) ++ rest) (2 * L.MODBYTES) L.MODBYTES
    (by simp [List.append_assoc]) (by rw [List.length_append, hl, hl]; omega) (hl _)
  have s3 := slice_at (BIG_toBytes L.MODBYTES (L.FP_redc c.1)
      ++ BIG_toBytes L.MODBYTES (L.FP_redc c.2.1) ++ BIG_toBytes L.MODBYTES (L.FP_redc c.2.2.1)
      ++ BIG_toBytes L.MODBYTES (L.FP_redc c.2.2.2) ++ rest)
    (BIG_toBytes L.MODBYTES (L.FP_redc c.1) ++ BIG_toBytes L.MODBYTES (L.FP_redc c.2.1)
      ++ BIG_toBytes L.MODBYTES (L.FP_redc c.2.2.1))
    (BIG_toBytes L.MODBYTES (L.FP_redc c.2.2.2)) rest (3 * L.MODBYTES) L.MODBYTES
    rfl (by rw [List.length_append, List.length_append, hl, hl, hl]; omega) (hl _)
  rw [s0, s1, s2, s3, rd, rd, rd, rd]
  exact hL.set_get Q P c hc

theorem parses_ECP2 (hL : L.Laws) (P : L.ECP2) (hP : P ≠ 0) :
    Parses (deserialize_ECP2 L) (ECP2_toOctet_compatibility L qxy P) P := by
  intro len max val out0 rest h0 hdrop hcap
  rw [ECP2_toOctet_length] at hcap
  simp only [deserialize_ECP2, ECP2SIZE, hcap, if_true, hdrop,
    ECP2_fromOctet_toOctet hL P hP out0 rest, ECP2_toOctet_length]

theorem drop_shift (val : List Nat) (len : Int) (h0 : 0 ≤ len) (pre tail : List Nat)
    (h : val.drop len.toNat = pre ++ tail) :
    val.drop (len + (pre.length : Int)).toNat = tail := by
  have hl : (len + (pre.length : Int)).toNat = len.toNat + pre.length := by omega
  rw [hl]
  exact drop_add_of_drop val len.toNat pre tail h

theorem parses_join_message (hL : L.Laws) (j : JoinMessage L) (hj : validJoinMessage L j) :
    Parses (deserialize_join_message L) (wire_join_message L j) j := by
  obtain ⟨hQ, hc, hs⟩ := hj
  intro len max val out0 rest h0 hdrop hcap
  unfold wire_join_message at hdrop hcap ⊢
  simp only [List.length_append] at hcap ⊢
  push_cast at hcap ⊢
  simp only [List.append_assoc] at hdrop
  have hn1 := Int.natCast_nonneg (L.ECP_toOctet j.Q).length
  have hn2 := Int.natCast_nonneg (wire_BIG L j.c).length
  have hn3 := Int.natCast_nonneg (wire_BIG L j.s).length
  have d1 := drop_shift val len h0 _ _ hdrop
  have d2 := drop_shift val _ (by omega) _ _ d1
  have p1 := parses_ECP hL j.Q hQ len max val out0.Q _ h0 hdrop (by omega)
  have p2 := parses_BIG j.c hc _ max val out0.c _ (by omega) d1 (by omega)
  have p3 := parses_BIG j.s hs _ max val out0.s _ (by omega) d2 (by omega)
  simp only [deserialize_join_message, p1, p2, p3]
  simp only [Int.add_assoc]

theorem parses_user_credentials (hL : L.Laws) (c : UserCredentials L) (hc : validCred L c) :
    Parses (deserialize_user_credentials L) (wire_user_credentials L c) c := by
  obtain ⟨hA, hB, hC, hD⟩ := hc
  intro len max val out0 rest h0 hdrop hcap
  unfold wire_user_credentials at hdrop hcap ⊢
  simp only [List.length_append] at hcap ⊢
  push_cast at hcap ⊢
  simp only [List.append_assoc] at hdrop
  have hn1 := Int.natCast_nonneg (L.ECP_toOctet c.A).length
  have hn2 := Int.natCast_nonneg (L.ECP_toOctet c.B).length
  have hn3 := Int.natCast_nonneg (L.ECP_toOctet c.C).length
  have hn4 := Int.natCast_nonneg (L.ECP_toOctet c.D).length
  have d1 := drop_shift val len h0 _ _ hdrop
  have d2 := drop_shift val _ (by omega) _ _ d1
  have d3 := drop_shift val _ (by omega) _ _ d2
  have p1 := parses_ECP hL c.A hA len max val out0.A _ h0 hdrop (by omega)
  have p2 := parses_ECP hL c.B hB _ max val out0.B _ (by omega) d1 (by omega)
  have p3 := parses_ECP hL c.C hC _ max val out0.C _ (by omega) d2 (by omega)
  have p4 := parses_ECP hL c.D hD _ max val out0.D _ (by omega) d3 (by omega)
  simp only [deserialize_user_credentials, p1, p2, p3, p4]
  simp only [Int.add_assoc]

theorem parses_join_response (hL : L.Laws) (r : JoinResponse L) (hr : validJoinResponse L r) :
    Parses (deserialize_join_response L) (wire_join_response L r) r := by
  obtain ⟨hcred, hc, hs⟩ := hr
  intro len max val out0 rest h0 hdrop hcap
  unfold wire_join_response at hdrop hcap ⊢
  simp only [List.length_append] at hcap ⊢
  push_cast at hcap ⊢
  simp only [List.append_assoc] at hdrop
  have hn1 := Int.natCast_nonneg (wire_user_credentials L r.cred).length
  have hn2 := Int.natCast_nonneg (wire_BIG L r.c).length
  have hn3 := Int.natCast_nonneg (wire_BIG L r.s).length
  have d1 := drop_shift val len h0 _ _ hdrop
  have d2 := drop_shift val _ (by omega) _ _ d1
  have p1 := parses_user_credentials hL r.cred hcred len max val out0.cred _ h0 hdrop (by omega)
  have p2 := parses_BIG r.c hc _ max val out0.c _ (by omega) d1 (by omega)
  have p3 := parses_BIG r.s hs _ max val out0.s _ (by omega) d2 (by omega)
  simp only [deserialize_join_response, p1, p2, p3]
  simp only [Int.add_assoc]

theorem parses_user_private_key (hL : L.Laws) (k : UserPrivateKey L)
    (hk : validUserPrivateKey L k) :
    Parses (deserialize_user_private_key L) (wire_user_private_key L k) k := by
  obtain ⟨hcred, hg⟩ := hk
  intro len max val out0 rest h0 hdrop hcap
  unfold wire_user_private_key at hdrop hcap ⊢
  simp only [List.length_append] at hcap ⊢
  push_cast at hcap ⊢
  simp only [List.append_assoc] at hdrop
  have hn1 := Int.natCast_nonneg (wire_user_credentials L k.cred).length
  have hn2 := Int.natCast_nonneg (wire_BIG L k.gsk).length
  have d1 := drop_shift val len h0 _ _ hdrop
  have p1 := parses_user_credentials hL k.cred hcred len max val out0.cred _ h0 hdrop (by omega)
  have p2 := parses_BIG k.gsk hg _ max val out0.gsk _ (by omega) d1 (by omega)
  simp only [deserialize_user_private_key, p1, p2]
  simp only [Int.add_assoc]

theorem parses_signature (hL : L.Laws) (g : Signature L) (hg : validSignature L g) :
    Parses (deserialize_signature L) (wire_signature L g) g := by
  obtain ⟨hA, hB, hC, hD, hN, hc, hs⟩ := hg
  intro len max val out0 rest h0 hdrop hcap
  unfold wire_signature at hdrop hcap ⊢
  simp only [List.length_append] at hcap ⊢
  push_cast at hcap ⊢
  simp only [List.append_assoc] at hdrop
  have hn1 := Int.natCast_nonneg (L.ECP_toOctet g.A).length
  have hn2 := Int.natCast_nonneg (L.ECP_toOctet g.B).length
  have hn3 := Int.natCast_nonneg (L.ECP_toOctet g.C).length
  have hn4 := Int.natCast_nonneg (L.ECP_toOctet g.D).length
  have hn5 := Int.natCast_nonneg (L.ECP_toOctet g.NYM).length
  have hn6 := Int.natCast_nonneg (wire_BIG L g.c).length
  have hn7 := Int.natCast_nonneg (wire_BIG L g.s).length
  have d1 := drop_shift val len h0 _ _ hdrop
  have d2 := drop_shift val _ (by omega) _ _ d1
  have d3 := drop_shift val _ (by omega) _ _ d2
  have d4 := drop_shift val _ (by omega) _ _ d3
  have d5 := drop_shift val _ (by omega) _ _ d4
  have d6 := drop_shift val _ (by omega) _ _ d5
  have p1 := parses_ECP hL g.A hA len max val out0.A _ h0 hdrop (by omega)
  have p2 := parses_ECP hL g.B hB _ max val out0.B _ (by omega) d1 (by omega)
  have p3 := parses_ECP hL g.C hC _ max val out0.C _ (by omega) d2 (by omega)
  have p4 := parses_ECP hL g.D hD _ max val out0.D _ (by omega) d3 (by omega)
  have p5 := parses_ECP hL g.NYM hN _ max val out0.NYM _ (by omega) d4 (by omega)
  have p6 := parses_BIG g.c hc _ max val out0.c _ (by omega) d5 (by omega)
  have p7 := parses_BIG g.s hs _ max val out0.s _ (by omega) d6 (by omega)
  simp only [deserialize_signature, p1, p2, p3, p4, p5, p6, p7]
  simp only [Int.add_assoc]

theorem parses_group_public_key (hL : L.Laws) (k : GroupPublicKey L)
    (hk : validGroupPublicKey L stack k) :
    Parses (deserialize_group_public_key L stack) (wire_group_public_key L stack' k) k := by
  obtain ⟨hX, hY, hcx, hsx, hcy, hsy, hv⟩ := hk
  intro len max val out0 rest h0 hdrop hcap
  unfold wire_group_public_key at hdrop hcap ⊢
  simp only [List.length_append] at hcap ⊢
  push_cast at hcap ⊢
  simp only [List.append_assoc] at hdrop
  have hn1 := Int.natCast_nonneg (ECP2_toOctet_compatibility L (stack' 0) k.X).length
  have hn2 := Int.natCast_nonneg (ECP2_toOctet_compatibility L (stack' 1) k.Y).length
  have hn3 := Int.natCast_nonneg (wire_BIG L k.cx).length
  have hn4 := Int.natCast_nonneg (wire_BIG L k.sx).length
  have hn5 := Int.natCast_nonneg (wire_BIG L k.cy).length
  have hn6 := Int.natCast_nonneg (wire_BIG L k.sy).length
  have d1 := drop_shift val len h0 _ _ hdrop
  have d2 := drop_shift val _ (by omega) _ _ d1
  have d3 := drop_shift val _ (by omega) _ _ d2
  have d4 := drop_shift val _ (by omega) _ _ d3
  have d5 := drop_shift val _ (by omega) _ _ d4
  have p1 := parses_ECP2 hL k.X hX len max val out0.X _ h0 hdrop (by omega)
  have p2 := parses_ECP2 hL k.Y hY _ max val out0.Y _ (by omega) d1 (by omega)
  have p3 := parses_BIG k.cx hcx _ max val out0.cx _ (by omega) d2 (by omega)
  have p4 := parses_BIG k.sx hsx _ max val out0.sx _ (by omega) d3 (by omega)
  have p5 := parses_BIG k.cy hcy _ max val out0.cy _ (by omega) d4 (by omega)
  have p6 := parses_BIG k.sy hsy _ max val out0.sy _ (by omega) d5 (by omega)
  simp only [deserialize_group_public_key, p1, p2, p3, p4, p5, p6]
  simp only [Int.add_assoc, hv]

theorem parses_group_private_key (hL : L.Laws) (k : GroupPrivateKey L)
    (hk : validGroupPrivateKey L stack k) :
    Parses (deserialize_group_private_key L stack) (wire_group_private_key L stack' k) k := by
  obtain ⟨hpub, hx, hy, hv⟩ := hk
  intro len max val out0 rest h0 hdrop hcap
  unfold wire_group_private_key at hdrop hcap ⊢
  simp only [List.length_append] at hcap ⊢
  push_cast at hcap ⊢
  simp only [List.append_assoc] at hdrop
  have hn1 := Int.natCast_nonneg (wire_group_public_key L stack' k.pub).length
  have hn2 := Int.natCast_nonneg (wire_BIG L k.x).length
  have hn3 := Int.natCast_nonneg (wire_BIG L k.y).length
  have d1 := drop_shift val len h0 _ _ hdrop
  have d2 := drop_shift val _ (by omega) _ _ d1
  have p1 := parses_group_public_key hL k.pub hpub len max val out0.pub _ h0 hdrop (by omega)
  have p2 := parses_BIG k.x hx _ max val out0.x _ (by omega) d1 (by omega)
  have p3 := parses_BIG k.y hy _ max val out0.y _ (by omega) d2 (by omega)
  simp only [deserialize_group_private_key, p1, p2, p3]
  simp only [Int.add_assoc, hv]

end Parse

/-! ## Codec round trip and wire widths -/

section Codec

variable {L}
variable {stack stack' : Stack L} {qxy : L.FP × L.FP × L.FP × L.FP}

theorem sliceBytes_eq_take (val : List Nat) (n : Nat) (h : n ≤ val.length) :
    sliceBytes val 0 n = val.take n := by
  simp [sliceBytes, List.take_append_of_le_length h]

theorem written_fresh (cap : Int) (buf : List Nat) :
    written { len := 0, max := cap, val := buf } = [] := by
  simp [written, sliceBytes]

/-- What a serializer that appends `enc` leaves in an empty octet with room. -/
theorem appends_fresh (f : octet → Bool × octet) (enc : List Nat) (hf : Appends f enc)
    (buf : List Nat) (cap : Int) (hcap : (enc.length : Int) ≤ cap) :
    (f { len := 0, max := cap, val := buf }).1 = true
      ∧ (f { len := 0, max := cap, val := buf }).2.len = enc.length
      ∧ (f { len := 0, max := cap, val := buf }).2.val
        = enc ++ (f { len := 0, max := cap, val := buf }).2.val.drop enc.length := by
  obtain ⟨t1, l1, -, w1, b1⟩ := (hf { len := 0, max := cap, val := buf } (le_refl _)).1
    (by simpa using hcap)
  rw [written_fresh, List.nil_append] at w1
  have l1' : (f { len := 0, max := cap, val := buf }).2.len = enc.length := by
    rw [l1]; simp
  rw [l1'] at b1
  simp only [Int.toNat_ofNat] at b1
  refine ⟨t1, l1', ?_⟩
  unfold written at w1
  rw [l1', Int.toNat_ofNat, sliceBytes_eq_take _ _ b1] at w1
  conv_lhs => rw [← List.take_append_drop enc.length (f { len := 0, max := cap, val := buf }).2.val]
  rw [w1]

/-- What a serializer that appends `enc` does to an empty octet without room. -/
theorem appends_fresh_fail (f : octet → Bool × octet) (enc : List Nat) (hf : Appends f enc)
    (buf : List Nat) (cap : Int) (hcap : ¬ (enc.length : Int) ≤ cap) :
    (f { len := 0, max := cap, val := buf }).1 = false :=
  (hf { len := 0, max := cap, val := buf } (le_refl _)).2 (by simpa using hcap)

theorem roundTrip_of {α : Type} (ser : α → octet → Bool × octet)
    (de : octet → α → Bool × octet × α) (width : Nat) (v : α) (enc : List Nat)
    (hser : Appends (ser v) enc) (hde : Parses de enc v) (hw : enc.length = width) :
    RoundTrip ser de width v := by
  intro buf cap out0 hcap
  subst hw
  obtain ⟨t1, l1, v1⟩ := appends_fresh (ser v) enc hser buf cap hcap
  have hp := hde 0 (enc.length : Int) (ser v { len := 0, max := cap, val := buf }).2.val out0
    ((ser v { len := 0, max := cap, val := buf }).2.val.drop enc.length) (le_refl _)
    (by simpa using v1) (by simp)
  rw [l1, hp]
  simp [t1]

/-- C9. Codec round trip: for each wire record type (group public key, group
private key, join message, join response, user private key, signature) and
every valid value of it (no point at infinity, scalars below `256 ^ MODBYTES`,
and for the group keys the checks their parser runs), serializing into a
buffer of sufficient capacity and deserializing the written bytes succeeds,
returns the value field by field and consumes exactly the bytes written,
whatever the unassigned locals of `ECP2_toOctet_compatibility` hold in the
serializer (`stack'`) and in the check the parser runs (`stack`). -/
theorem C9_codec_round_trip (hL : L.Laws) (stack stack' : Stack L)
    (pk : GroupPublicKey L) (hpk : validGroupPublicKey L stack pk)
    (gk : GroupPrivateKey L) (hgk : validGroupPrivateKey L stack gk)
    (jm : JoinMessage L) (hjm : validJoinMessage L jm)
    (jr : JoinResponse L) (hjr : validJoinResponse L jr)
    (uk : UserPrivateKey L) (huk : validUserPrivateKey L uk)
    (sg : Signature L) (hsg : validSignature L sg) :
    RoundTrip (serialize_group_public_key L stack') (deserialize_group_public_key L stack)
        (12 * L.MODBYTES) pk
      ∧ RoundTrip (serialize_group_private_key L stack') (deserialize_group_private_key L stack)
        (14 * L.MODBYTES) gk
      ∧ RoundTrip (serialize_join_message L) (deserialize_join_message L)
        ((2 * L.MODBYTES + 1) + 2 * L.MODBYTES) jm
      ∧ RoundTrip (serialize_join_response L) (deserialize_join_response L)
        (4 * (2 * L.MODBYTES + 1) + 2 * L.MODBYTES) jr
      ∧ RoundTrip (serialize_user_private_key L) (deserialize_user_private_key L)
        (4 * (2 * L.MODBYTES + 1) + L.MODBYTES) uk
      ∧ RoundTrip (serialize_signature L) (deserialize_signature L)
        (5 * (2 * L.MODBYTES + 1) + 2 * L.MODBYTES) sg :=
  ⟨roundTrip_of _ _ _ pk _ (appends_group_public_key pk) (parses_group_public_key hL pk hpk)
      (wire_group_public_key_length pk),
    roundTrip_of _ _ _ gk _ (appends_group_private_key gk)
      (parses_group_private_key hL gk hgk) (wire_group_private_key_length gk),
    roundTrip_of _ _ _ jm _ (appends_join_message hL jm) (parses_join_message hL jm hjm)
      (wire_join_message_length hL jm),
    roundTrip_of _ _ _ jr _ (appends_join_response hL jr) (parses_join_response hL jr hjr)
      (wire_join_response_length hL jr),
    roundTrip_of _ _ _ uk _ (appends_user_private_key hL uk)
      (parses_user_private_key hL uk huk) (wire_user_private_key_length hL uk),
    roundTrip_of _ _ _ sg _ (appends_signature hL sg) (parses_signature hL sg hsg)
      (wire_signature_length hL sg)⟩

theorem toy_ne (P : ZMod 11) (h : decide (P = 0) = false) : P ≠ 0 := of_decide_eq_false h

theorem toy_valid_values :
    validGroupPublicKey toy toyStack toyGroupKey.pub
      ∧ validGroupPrivateKey toy toyStack toyGroupKey
      ∧ validJoinMessage toy toyJoinMessage ∧ validJoinResponse toy toyJoinResponse
      ∧ validUserPrivateKey toy toyUserKey ∧ validSignature toy toySignature := by
  have hpub : validGroupPublicKey toy toyStack toyGroupKey.pub :=
    ⟨toy_ne _ (by decide), toy_ne _ (by decide), by unfold validBIG; decide,
      by unfold validBIG; decide, by unfold validBIG; decide, by unfold validBIG; decide,
      by decide⟩
  exact ⟨hpub,
    ⟨hpub, by unfold validBIG; decide, by unfold validBIG; decide, by decide⟩,
    ⟨toy_ne _ (by decide), by unfold validBIG; decide, by unfold validBIG; decide⟩,
    ⟨⟨toy_ne _ (by decide), toy_ne _ (by decide), toy_ne _ (by decide), toy_ne _ (by decide)⟩,
      by unfold validBIG; decide, by unfold validBIG; decide⟩,
    ⟨⟨toy_ne _ (by decide), toy_ne _ (by decide), toy_ne _ (by decide), toy_ne _ (by decide)⟩,
      by unfold validBIG; decide⟩,
    ⟨toy_ne _ (by decide), toy_ne _ (by decide), toy_ne _ (by decide), toy_ne _ (by decide),
      toy_ne _ (by decide), by unfold validBIG; decide, by unfold validBIG; decide⟩⟩

/-- C9 at the small library: a key pair from `setup`, the messages of an
honest join and a signature. -/
theorem C9_witness :
    (toy.Laws ∧ validGroupPublicKey toy toyStack toyGroupKey.pub
        ∧ validGroupPrivateKey toy toyStack toyGroupKey
        ∧ validJoinMessage toy toyJoinMessage ∧ validJoinResponse toy toyJoinResponse
        ∧ validUserPrivateKey toy toyUserKey ∧ validSignature toy toySignature)
      ∧ (RoundTrip (serialize_group_public_key toy toyStackOne)
          (deserialize_group_public_key toy toyStack) (12 * toy.MODBYTES) toyGroupKey.pub
        ∧ RoundTrip (serialize_group_private_key toy toyStackOne)
          (deserialize_group_private_key toy toyStack) (14 * toy.MODBYTES) toyGroupKey
        ∧ RoundTrip (serialize_join_message toy) (deserialize_join_message toy)
          ((2 * toy.MODBYTES + 1) + 2 * toy.MODBYTES) toyJoinMessage
        ∧ RoundTrip (serialize_join_response toy) (deserialize_join_response toy)
          (4 * (2 * toy.MODBYTES + 1) + 2 * toy.MODBYTES) toyJoinResponse
        ∧ RoundTrip (serialize_user_private_key toy) (deserialize_user_private_key toy)
          (4 * (2 * toy.MODBYTES + 1) + toy.MODBYTES) toyUserKey
        ∧ RoundTrip (serialize_signature toy) (deserialize_signature toy)
          (5 * (2 * toy.MODBYTES + 1) + 2 * toy.MODBYTES) toySignature) :=
  ⟨⟨toy_laws, toy_valid_values⟩,
    C9_codec_round_trip toy_laws toyStack toyStackOne toyGroupKey.pub toy_valid_values.1 toyGroupKey
      toy_valid_values.2.1 toyJoinMessage toy_valid_values.2.2.1 toyJoinResponse
      toy_valid_values.2.2.2.1 toyUserKey toy_valid_values.2.2.2.2.1 toySignature
      toy_valid_values.2.2.2.2.2⟩

end Codec

/-! ## Output lengths of the external interface -/

section Widths

variable {L}
variable {stack stack' : Stack L} {qxy : L.FP × L.FP × L.FP × L.FP}

/-- A serializer that appends `enc` and returns non-zero on an empty octet has
left the cursor at the length of `enc` and `enc` at the start of the buffer. -/
theorem appends_success (f : octet → Bool × octet) (enc : List Nat) (hf : Appends f enc)
    (buf : List Nat) (cap : Int) (h : (f { len := 0, max := cap, val := buf }).1 = true) :
    (f { len := 0, max := cap, val := buf }).2.len = enc.length
      ∧ (f { len := 0, max := cap, val := buf }).2.val.take enc.length = enc := by
  by_cases hcap : (enc.length : Int) ≤ cap
  · obtain ⟨-, l1, v1⟩ := appends_fresh f enc hf buf cap hcap
    refine ⟨l1, ?_⟩
    rw [v1, List.take_left]
  · rw [appends_fresh_fail f enc hf buf cap hcap] at h
    exact absurd h Bool.false_ne_true

theorem exportGroupPubKey_width (st : GS_State L) (out : List Nat) (out_len : Int)
    (h : (GS_exportGroupPubKey L stack st out out_len).1 = GS_Ret.GS_RETURN_SUCCESS) :
    (GS_exportGroupPubKey L stack st out out_len).2.2 = ((12 * L.MODBYTES : Nat) : Int)
      ∧ (GS_exportGroupPubKey L stack st out out_len).2.1.take (12 * L.MODBYTES)
        = wire_group_public_key L stack st._priv.pub := by
  unfold GS_exportGroupPubKey at h ⊢
  by_cases hf : flagSet st.state GS_GROUP_PUBKEY = true
  · by_cases hs : (serialize_group_public_key L stack st._priv.pub
        { len := 0, max := out_len, val := out }).1 = true
    · obtain ⟨l, v⟩ := appends_success _ _ (appends_group_public_key st._priv.pub) out out_len hs
      rw [wire_group_public_key_length] at l v
      simp [hf, hs, l, v]
    · simp [hf, hs] at h
  · simp [hf] at h

theorem exportGroupPrivKey_width (st : GS_State L) (out : List Nat) (out_len : Int)
    (h : (GS_exportGroupPrivKey L stack st out out_len).1 = GS_Ret.GS_RETURN_SUCCESS) :
    (GS_exportGroupPrivKey L stack st out out_len).2.2 = ((14 * L.MODBYTES : Nat) : Int)
      ∧ (GS_exportGroupPrivKey L stack st out out_len).2.1.take (14 * L.MODBYTES)
        = wire_group_private_key L stack st._priv := by
  unfold GS_exportGroupPrivKey at h ⊢
  by_cases hf : flagSet st.state GS_GROUP_PRIVKEY = true
  · by_cases hs : (serialize_group_private_key L stack st._priv
        { len := 0, max := out_len, val := out }).1 = true
    · obtain ⟨l, v⟩ := appends_success _ _ (appends_group_private_key st._priv) out out_len hs
      rw [wire_group_private_key_length] at l v
      simp [hf, hs, l, v]
    · simp [hf, hs] at h
  · simp [hf] at h

theorem exportUserCredentials_width (hL : L.Laws) (st : GS_State L) (out : List Nat)
    (out_len : Int)
    (h : (GS_exportUserCredentials L st out out_len).1 = GS_Ret.GS_RETURN_SUCCESS) :
    (GS_exportUserCredentials L st out out_len).2.2
        = ((4 * (2 * L.MODBYTES + 1) + L.MODBYTES : Nat) : Int)
      ∧ (GS_exportUserCredentials L st out out_len).2.1.take
          (4 * (2 * L.MODBYTES + 1) + L.MODBYTES)
        = wire_user_private_key L st._userPriv := by
  unfold GS_exportUserCredentials at h ⊢
  by_cases hf : flagSet st.state GS_USERCREDS = true
  · by_cases hs : (serialize_user_private_key L st._userPriv
        { len := 0, max := out_len, val := out }).1 = true
    · obtain ⟨l, v⟩ := appends_success _ _ (appends_user_private_key hL st._userPriv) out
        out_len hs
      rw [wire_user_private_key_length hL] at l v
      simp [hf, hs, l, v]
    · simp [hf, hs] at h
  · simp [hf] at h

theorem startJoin_width (hL : L.Laws) (st : GS_State L) (challenge gsk : List Nat)
    (len_gsk : Int) (joinmsg : List Nat) (len : Int)
    (h : (GS_startJoin L st challenge gsk len_gsk joinmsg len).ret = GS_Ret.GS_RETURN_SUCCESS) :
    (GS_startJoin L st challenge gsk len_gsk joinmsg len).len
        = (((2 * L.MODBYTES + 1) + 2 * L.MODBYTES : Nat) : Int)
      ∧ (GS_startJoin L st challenge gsk len_gsk joinmsg len).joinmsg.take
          ((2 * L.MODBYTES + 1) + 2 * L.MODBYTES)
        = wire_join_message L (join_client L st._rng challenge (localUserPriv L)).1
      ∧ (GS_startJoin L st challenge gsk len_gsk joinmsg len).len_gsk = ((L.MODBYTES : Nat) : Int)
      ∧ (GS_startJoin L st challenge gsk len_gsk joinmsg len).gsk.take L.MODBYTES
        = wire_BIG L (join_client L st._rng challenge (localUserPriv L)).2.1.gsk := by
  unfold GS_startJoin at h ⊢
  by_cases hf : flagSet st.state GS_SEEDED = true
  · by_cases hs : (serialize_join_message L (join_client L st._rng challenge (localUserPriv L)).1
        { len := 0, max := len, val := joinmsg }).1 = true
    · by_cases hs2 : (serialize_BIG L (join_client L st._rng challenge (localUserPriv L)).2.1.gsk
          { len := 0, max := len_gsk, val := gsk }).1 = true
      · obtain ⟨l, v⟩ := appends_success _ _ (appends_join_message hL _) joinmsg len hs
        obtain ⟨l2, v2⟩ := appends_success _ _
          (appends_BIG (join_client L st._rng challenge (localUserPriv L)).2.1.gsk) gsk len_gsk hs2
        rw [wire_join_message_length hL] at l v
        rw [BIG_toBytes_length] at l2 v2
        simp [hf, hs, hs2, l, v, l2, v2, wire_BIG]
      · simp [hf, hs, hs2] at h
    · simp [hf, hs] at h
  · simp [hf] at h

theorem processJoin_width (hL : L.Laws) (st : GS_State L) (joinmsg : List Nat)
    (joinmsg_len : Int) (challenge out : List Nat) (out_len : Int)
    (h : (GS_processJoin L st joinmsg joinmsg_len challenge out out_len).1
      = GS_Ret.GS_RETURN_SUCCESS) :
    (GS_processJoin L st joinmsg joinmsg_len challenge out out_len).2.2.2
        = ((4 * (2 * L.MODBYTES + 1) + 2 * L.MODBYTES : Nat) : Int)
      ∧ (GS_processJoin L st joinmsg joinmsg_len challenge out out_len).2.2.1.take
          (4 * (2 * L.MODBYTES + 1) + 2 * L.MODBYTES)
        = wire_join_response L (join_server L st._rng st._priv
            (deserialize_join_message L { len := 0, max := joinmsg_len, val := joinmsg }
              (localJoin L)).2.2 challenge (localResp L)).2.1 := by
  unfold GS_processJoin at h ⊢
  by_cases hf : flagSet st.state GS_SEEDED = true
  · by_cases hf2 : flagSet st.state GS_GROUP_PRIVKEY = true
    · by_cases hd : (deserialize_join_message L { len := 0, max := joinmsg_len, val := joinmsg }
          (localJoin L)).1 = true
      · by_cases hj : (join_server L st._rng st._priv
            (deserialize_join_message L { len := 0, max := joinmsg_len, val := joinmsg }
              (localJoin L)).2.2 challenge (localResp L)).1 = true
        · by_cases hs : (serialize_join_response L (join_server L st._rng st._priv
              (deserialize_join_message L { len := 0, max := joinmsg_len, val := joinmsg }
                (localJoin L)).2.2 challenge (localResp L)).2.1
              { len := 0, max := out_len, val := out }).1 = true
          · obtain ⟨l, v⟩ := appends_success _ _ (appends_join_response hL _) out out_len hs
            rw [wire_join_response_length hL] at l v
            simp [hf, hf2, hd, hj, hs, l, v]
          · simp [hf, hf2, hd, hj, hs] at h
        · simp [hf, hf2, hd, hj] at h
      · simp [hf, hf2, hd] at h
    · simp [hf, hf2] at h
  · simp [hf] at h

theorem finishJoin_width (hL : L.Laws) (publickey : List Nat) (len_publickey : Int)
    (gsk : List Nat) (len_gsk : Int) (joinresponse : List Nat) (len : Int)
    (credentials : List Nat) (len_credentials : Int)
    (h : (GS_finishJoin L stack publickey len_publickey gsk len_gsk joinresponse len credentials
      len_credentials).1 = GS_Ret.GS_RETURN_SUCCESS) :
    (GS_finishJoin L stack publickey len_publickey gsk len_gsk joinresponse len credentials
        len_credentials).2.2 = ((4 * (2 * L.MODBYTES + 1) + L.MODBYTES : Nat) : Int)
      ∧ ∃ k : UserPrivateKey L,
        (GS_finishJoin L stack publickey len_publickey gsk len_gsk joinresponse len credentials
          len_credentials).2.1.take (4 * (2 * L.MODBYTES + 1) + L.MODBYTES)
        = wire_user_private_key L k := by
  unfold GS_finishJoin at h ⊢
  simp only at h ⊢
  split at h
  · simp at h
  · split at h
    · simp at h
    · split at h
      · simp at h
      · split at h
        · simp at h
        · split at h
          · simp at h
          · rename_i h1 h2 h3 h4 h5
            simp only [h1, h2, h3, h4, h5, if_false, Bool.false_eq_true]
            simp only [Bool.not_eq_true, Bool.not_eq_false'] at h5
            obtain ⟨l, v⟩ := appends_success _ _ (appends_user_private_key hL _) credentials
              len_credentials h5
            rw [wire_user_private_key_length hL] at l v
            exact ⟨l, _, v⟩

theorem sign_width (hL : L.Laws) (fuel : Nat) (st : GS_State L) (msg bsn signature : List Nat)
    (len : Int) (r : GS_Ret × GS_State L × List Nat × Int)
    (hr : GS_sign L fuel st msg bsn signature len = some r)
    (h : r.1 = GS_Ret.GS_RETURN_SUCCESS) :
    r.2.2.2 = ((5 * (2 * L.MODBYTES + 1) + 2 * L.MODBYTES : Nat) : Int)
      ∧ ∃ sig RNG, sign L fuel st._rng st._userPriv msg bsn = some (sig, RNG)
        ∧ r.2.2.1.take (5 * (2 * L.MODBYTES + 1) + 2 * L.MODBYTES) = wire_signature L sig := by
  unfold GS_sign at hr
  by_cases hf : flagSet st.state GS_SEEDED = true
  · by_cases hf2 : flagSet st.state GS_USERCREDS = true
    · cases hsig : sign L fuel st._rng st._userPriv msg bsn with
      | none => simp [hf, hf2, hsig] at hr
      | some p =>
        obtain ⟨sig, RNG⟩ := p
        by_cases hs : (serialize_signature L sig { len := 0, max := len, val := signature }).1
            = true
        · obtain ⟨l, v⟩ := appends_success _ _ (appends_signature hL sig) signature len hs
          rw [wire_signature_length hL] at l v
          simp [hf, hf2, hsig, hs] at hr
          subst hr
          exact ⟨l, sig, RNG, rfl, v⟩
        · simp [hf, hf2, hsig, hs] at hr
          subst hr
          simp at h
    · simp [hf, hf2] at hr
      subst hr
      simp at h
  · simp [hf] at hr
    subst hr
    simp at h

theorem getSignatureTag_width (hL : L.Laws) (signature : List Nat) (sig_len : Int)
    (tag : List Nat) (tag_len : Int)
    (h : (GS_getSignatureTag L signature sig_len tag tag_len).1 = GS_Ret.GS_RETURN_SUCCESS) :
    (GS_getSignatureTag L signature sig_len tag tag_len).2.2 = ((2 * L.MODBYTES + 1 : Nat) : Int)
      ∧ (GS_getSignatureTag L signature sig_len tag tag_len).2.1.take (2 * L.MODBYTES + 1)
        = L.ECP_toOctet (deserialize_signature L { len := 0, max := sig_len, val := signature }
            (localSig L)).2.2.NYM := by
  unfold GS_getSignatureTag at h ⊢
  by_cases hd : (deserialize_signature L { len := 0, max := sig_len, val := signature }
      (localSig L)).1 = true
  · by_cases hs : (serialize_signature_tag L
        (deserialize_signature L { len := 0, max := sig_len, val := signature }
          (localSig L)).2.2 { len := 0, max := tag_len, val := tag }).1 = true
    · obtain ⟨l, v⟩ := appends_success _ _ (appends_signature_tag hL _) tag tag_len hs
      rw [hL.toOctet_len] at l v
      simp [hd, hs, l, v]
    · simp [hd, hs] at h
  · simp [hd] at h

/-- C10 as stated fails: on an issuer engine after `GS_setupGroup` the export
of the group public key succeeds with `*out_len = 12 * MODBYTES`, not
`8 * MODBYTES`, and the export of the group private key with
`14 * MODBYTES`, not `10 * MODBYTES` (here `MODBYTES = 1`). -/
theorem C10_counterexample :
    (GS_exportGroupPubKey toy toyStack toyIssuer [] 100).1 = GS_Ret.GS_RETURN_SUCCESS
      ∧ (GS_exportGroupPubKey toy toyStack toyIssuer [] 100).2.2 = 12
      ∧ (GS_exportGroupPubKey toy toyStack toyIssuer [] 100).2.2 ≠ ((8 * toy.MODBYTES : Nat) : Int)
      ∧ (GS_exportGroupPrivKey toy toyStack toyIssuer [] 100).1 = GS_Ret.GS_RETURN_SUCCESS
      ∧ (GS_exportGroupPrivKey toy toyStack toyIssuer [] 100).2.2 = 14
      ∧ (GS_exportGroupPrivKey toy toyStack toyIssuer [] 100).2.2 ≠ ((10 * toy.MODBYTES : Nat) : Int) := by
  decide

/-- C10, amended. Wire widths: whenever a serializing entry point succeeds it
sets its output length to a constant independent of the value:
`12 * MODBYTES` for the group public key, `14 * MODBYTES` for the group private
key, `(2 * MODBYTES + 1) + 2 * MODBYTES` for the join message, `MODBYTES` for
`gsk`, `4 * (2 * MODBYTES + 1) + 2 * MODBYTES` for the join response,
`4 * (2 * MODBYTES + 1) + MODBYTES` for the user private key,
`5 * (2 * MODBYTES + 1) + 2 * MODBYTES` for the signature and
`2 * MODBYTES + 1` for the signature tag, and the bytes written are the fields
concatenated in the declared order. -/
theorem C10_wire_widths (hL : L.Laws) (stack : Stack L) (st : GS_State L) (fuel : Nat)
    (out challenge msg bsn gsk joinmsg publickey joinresponse signature : List Nat)
    (out_len len_gsk len joinmsg_len len_publickey : Int) :
    ((GS_exportGroupPubKey L stack st out out_len).1 = GS_Ret.GS_RETURN_SUCCESS →
        (GS_exportGroupPubKey L stack st out out_len).2.2 = ((12 * L.MODBYTES : Nat) : Int)
          ∧ (GS_exportGroupPubKey L stack st out out_len).2.1.take (12 * L.MODBYTES)
            = wire_group_public_key L stack st._priv.pub)
      ∧ ((GS_exportGroupPrivKey L stack st out out_len).1 = GS_Ret.GS_RETURN_SUCCESS →
        (GS_exportGroupPrivKey L stack st out out_len).2.2 = ((14 * L.MODBYTES : Nat) : Int)
          ∧ (GS_exportGroupPrivKey L stack st out out_len).2.1.take (14 * L.MODBYTES)
            = wire_group_private_key L stack st._priv)
      ∧ ((GS_startJoin L st challenge gsk len_gsk joinmsg len).ret = GS_Ret.GS_RETURN_SUCCESS →
        (GS_startJoin L st challenge gsk len_gsk joinmsg len).len
            = (((2 * L.MODBYTES + 1) + 2 * L.MODBYTES : Nat) : Int)
          ∧ (GS_startJoin L st challenge gsk len_gsk joinmsg len).joinmsg.take
              ((2 * L.MODBYTES + 1) + 2 * L.MODBYTES)
            = wire_join_message L (join_client L st._rng challenge (localUserPriv L)).1
          ∧ (GS_startJoin L st challenge gsk len_gsk joinmsg len).len_gsk
            = ((L.MODBYTES : Nat) : Int)
          ∧ (GS_startJoin L st challenge gsk len_gsk joinmsg len).gsk.take L.MODBYTES
            = wire_BIG L (join_client L st._rng challenge (localUserPriv L)).2.1.gsk)
      ∧ ((GS_processJoin L st joinmsg joinmsg_len challenge out out_len).1
          = GS_Ret.GS_RETURN_SUCCESS →
        (GS_processJoin L st joinmsg joinmsg_len challenge out out_len).2.2.2
            = ((4 * (2 * L.MODBYTES + 1) + 2 * L.MODBYTES : Nat) : Int)
          ∧ (GS_processJoin L st joinmsg joinmsg_len challenge out out_len).2.2.1.take
              (4 * (2 * L.MODBYTES + 1) + 2 * L.MODBYTES)
            = wire_join_response L (join_server L st._rng st._priv
                (deserialize_join_message L { len := 0, max := joinmsg_len, val := joinmsg }
                  (localJoin L)).2.2 challenge (localResp L)).2.1)
      ∧ ((GS_exportUserCredentials L st out out_len).1 = GS_Ret.GS_RETURN_SUCCESS →
        (GS_exportUserCredentials L st out out_len).2.2
            = ((4 * (2 * L.MODBYTES + 1) + L.MODBYTES : Nat) : Int)
          ∧ (GS_exportUserCredentials L st out out_len).2.1.take
              (4 * (2 * L.MODBYTES + 1) + L.MODBYTES)
            = wire_user_private_key L st._userPriv)
      ∧ ((GS_finishJoin L stack publickey len_publickey gsk len_gsk joinresponse len out out_len).1
          = GS_Ret.GS_RETURN_SUCCESS →
        (GS_finishJoin L stack publickey len_publickey gsk len_gsk joinresponse len out out_len).2.2
            = ((4 * (2 * L.MODBYTES + 1) + L.MODBYTES : Nat) : Int)
          ∧ ∃ k : UserPrivateKey L,
            (GS_finishJoin L stack publickey len_publickey gsk len_gsk joinresponse len out
              out_len).2.1.take (4 * (2 * L.MODBYTES + 1) + L.MODBYTES)
            = wire_user_private_key L k)
      ∧ (∀ r, GS_sign L fuel st msg bsn out out_len = some r →
          r.1 = GS_Ret.GS_RETURN_SUCCESS →
        r.2.2.2 = ((5 * (2 * L.MODBYTES + 1) + 2 * L.MODBYTES : Nat) : Int)
          ∧ ∃ sig RNG, sign L fuel st._rng st._userPriv msg bsn = some (sig, RNG)
            ∧ r.2.2.1.take (5 * (2 * L.MODBYTES + 1) + 2 * L.MODBYTES) = wire_signature L sig)
      ∧ ((GS_getSignatureTag L signature len out out_len).1 = GS_Ret.GS_RETURN_SUCCESS →
        (GS_getSignatureTag L signature len out out_len).2.2
            = ((2 * L.MODBYTES + 1 : Nat) : Int)
          ∧ (GS_getSignatureTag L signature len out out_len).2.1.take (2 * L.MODBYTES + 1)
            = L.ECP_toOctet (deserialize_signature L { len := 0, max := len, val := signature }
                (localSig L)).2.2.NYM) :=
  ⟨exportGroupPubKey_width st out out_len, exportGroupPrivKey_width st out out_len,
    startJoin_width hL st challenge gsk len_gsk joinmsg len,
    processJoin_width hL st joinmsg joinmsg_len challenge out out_len,
    exportUserCredentials_width hL st out out_len,
    finishJoin_width hL publickey len_publickey gsk len_gsk joinresponse len out out_len,
    fun r hr h => sign_width hL fuel st msg bsn out out_len r hr h,
    getSignatureTag_width hL signature len out out_len⟩

/-- C10 (amended) at the small library: the export of the group public key of
an issuer engine. -/
theorem C10_witness :
    (toy.Laws ∧ (GS_exportGroupPubKey toy toyStack toyIssuer [] 100).1 = GS_Ret.GS_RETURN_SUCCESS)
      ∧ (GS_exportGroupPubKey toy toyStack toyIssuer [] 100).2.2 = ((12 * toy.MODBYTES : Nat) : Int)
      ∧ (GS_exportGroupPubKey toy toyStack toyIssuer [] 100).2.1.take (12 * toy.MODBYTES)
        = wire_group_public_key toy toyStack toyIssuer._priv.pub :=
  ⟨⟨toy_laws, by decide⟩,
    (C10_wire_widths toy_laws toyStack toyIssuer 8 [] [] [] [] [] [] [] [] [] 100 0 0 0 0).1 (by decide)⟩

end Widths

/-! ## Pseudonyms -/

section Pseudonym

variable {L}
variable {stack stack' : Stack L} {qxy : L.FP × L.FP × L.FP × L.FP}

theorem challengeOf_lt (hL : L.Laws) (TMP : octet) : challengeOf L TMP < L.CURVE_Order :=
  Nat.mod_lt _ (order_pos hL)

theorem makeECPProofEquals_lt (hL : L.Laws) (RNG : L.csprng) (A B Y Z : L.ECP) (x : Nat)
    (m : Option (List Nat)) :
    (makeECPProofEquals L RNG A B Y Z x m).1 < L.CURVE_Order
      ∧ (makeECPProofEquals L RNG A B Y Z x m).2.1 < L.CURVE_Order :=
  ⟨challengeOf_lt hL _, Nat.mod_lt _ (order_pos hL)⟩

/-- The `NYM` field of a signature is `gsk` times the hash to G1 of `H(bsn)`:
it depends on nothing but `gsk` and `bsn`. -/
theorem sign_NYM (fuel : Nat) (RNG : L.csprng) (priv : UserPrivateKey L) (msg bsn : List Nat)
    (sig : Signature L) (RNG' : L.csprng) (h : sign L fuel RNG priv msg bsn = some (sig, RNG')) :
    ∃ BSN, mapit L fuel (myhash L bsn) = some BSN ∧ sig.NYM = PAIR_G1mul L BSN priv.gsk := by
  cases hmap : mapit L fuel (myhash L bsn) with
  | none => simp [sign, hmap] at h
  | some BSN =>
    obtain ⟨sig', RNG'', hs, -, -, -, -, hN, -⟩ := sign_eq fuel RNG priv msg bsn BSN hmap
    rw [hs] at h
    have := (Prod.mk.inj (Option.some.inj h)).1
    subst this
    exact ⟨BSN, rfl, hN⟩

/-- A signature made from credentials without a point at infinity, a secret
that is not zero modulo `q` and a non-zero blinding scalar has a wire form. -/
theorem sign_valid (hL : L.Laws) (fuel : Nat) (RNG : L.csprng) (priv : UserPrivateKey L)
    (msg bsn : List Nat) (BSN : L.ECP) (hmap : mapit L fuel (myhash L bsn) = some BSN)
    (hBSN : BSN ≠ 0) (hcred : validCred L priv.cred)
    (hgsk : priv.gsk % L.CURVE_Order ≠ 0) (hr : (randomModOrder L RNG).1 ≠ 0) :
    ∃ sig RNG', sign L fuel RNG priv msg bsn = some (sig, RNG') ∧ validSignature L sig
      ∧ sig.NYM = PAIR_G1mul L BSN priv.gsk := by
  obtain ⟨sig, RNG', hs, sA, sB, sC, sD, sN, sc, ss⟩ := sign_eq fuel RNG priv msg bsn BSN hmap
  obtain ⟨hA, hB, hC, hD⟩ := hcred
  have hq := order_pos hL
  have hrlt : (randomModOrder L RNG).1 < L.CURVE_Order := hL.random_lt _ _ hq
  have hrmod : (randomModOrder L RNG).1 % L.CURVE_Order ≠ 0 := by
    rw [Nat.mod_eq_of_lt hrlt]; exact hr
  have hlt := makeECPProofEquals_lt hL (randomModOrder L RNG).2 sig.B BSN sig.D sig.NYM priv.gsk
    (some (myhash L (sliceBytes (pokeBytes (pokeBytes [] 0 (myhash L msg)) L.MODBYTES
      (myhash L bsn)) 0 (2 * L.MODBYTES))))
  rw [← sc, ← ss] at hlt
  refine ⟨sig, RNG', hs, ⟨?_, ?_, ?_, ?_, ?_, ?_, ?_⟩, sN⟩
  · rw [sA]; exact nsmul_ne_zero_of_prime hL.order_prime _ (hL.order_ECP _) hA _ hrmod
  · rw [sB]; exact nsmul_ne_zero_of_prime hL.order_prime _ (hL.order_ECP _) hB _ hrmod
  · rw [sC]; exact nsmul_ne_zero_of_prime hL.order_prime _ (hL.order_ECP _) hC _ hrmod
  · rw [sD]; exact nsmul_ne_zero_of_prime hL.order_prime _ (hL.order_ECP _) hD _ hrmod
  · rw [sN]; exact nsmul_ne_zero_of_prime hL.order_prime _ (hL.order_ECP _) hBSN _ hgsk
  · exact lt_of_lt_of_le hlt.1 hL.order_le
  · exact lt_of_lt_of_le hlt.2 hL.order_le

/-- `GS_sign` followed by `GS_getSignatureTag` for a signature that has a
wire form: both succeed and the tag is the encoding of `NYM`. -/
theorem sign_then_tag (hL : L.Laws) (fuel : Nat) (st : GS_State L) (msg bsn : List Nat)
    (sig : Signature L) (RNG' : L.csprng)
    (hseed : flagSet st.state GS_SEEDED = true) (hflag : flagSet st.state GS_USERCREDS = true)
    (hs : sign L fuel st._rng st._userPriv msg bsn = some (sig, RNG'))
    (hv : validSignature L sig) (sigbuf tagbuf : List Nat) (cap tagcap : Int)
    (hcap : ((5 * (2 * L.MODBYTES + 1) + 2 * L.MODBYTES : Nat) : Int) ≤ cap)
    (htag : ((2 * L.MODBYTES + 1 : Nat) : Int) ≤ tagcap) :
    ∃ st' sigbytes tagbytes,
      GS_sign L fuel st msg bsn sigbuf cap
          = some (GS_Ret.GS_RETURN_SUCCESS, st', sigbytes,
              ((5 * (2 * L.MODBYTES + 1) + 2 * L.MODBYTES : Nat) : Int))
        ∧ GS_getSignatureTag L sigbytes
            ((5 * (2 * L.MODBYTES + 1) + 2 * L.MODBYTES : Nat) : Int) tagbuf tagcap
          = (GS_Ret.GS_RETURN_SUCCESS, tagbytes, ((2 * L.MODBYTES + 1 : Nat) : Int))
        ∧ tagbytes.take (2 * L.MODBYTES + 1) = L.ECP_toOctet sig.NYM := by
  have hw := wire_signature_length hL sig
  obtain ⟨t1, l1, v1⟩ := appends_fresh _ _ (appends_signature hL sig) sigbuf cap
    (by rw [hw]; exact hcap)
  rw [hw] at l1
  have hp := parses_signature hL sig hv 0
    ((5 * (2 * L.MODBYTES + 1) + 2 * L.MODBYTES : Nat) : Int)
    (serialize_signature L sig { len := 0, max := cap, val := sigbuf }).2.val (localSig L)
    ((serialize_signature L sig { len := 0, max := cap, val := sigbuf }).2.val.drop
      (wire_signature L sig).length) (le_refl _) (by simpa using v1) (by rw [hw]; simp)
  obtain ⟨t2, l2, v2⟩ := appends_fresh _ _ (appends_signature_tag hL sig) tagbuf tagcap
    (by rw [hL.toOctet_len]; exact htag)
  rw [hL.toOctet_len] at l2
  refine ⟨{ st with _rng := RNG' },
    (serialize_signature L sig { len := 0, max := cap, val := sigbuf }).2.val,
    (serialize_signature_tag L sig { len := 0, max := tagcap, val := tagbuf }).2.val, ?_, ?_, ?_⟩
  · simp [GS_sign, hseed, hflag, hs, t1, l1]
  · unfold GS_getSignatureTag
    simp only [hp]
    simp [t2, l2]
  · have := congrArg (List.take (2 * L.MODBYTES + 1)) v2
    rw [this, ← hL.toOctet_len sig.NYM, List.take_left]

/-- C4 as stated fails: the same engine key signs two messages under the same
basename; with the blinding scalar `r = 6` the tag is extracted, with `r = 0`
the signature carries the point at infinity, which has no encoding that
parses, and `GS_getSignatureTag` returns `GS_INVALID_SIGNATURE` and no tag. -/
theorem C4_counterexample :
    (toyUser [6, 5])._userPriv.gsk = (toyUser [0, 5])._userPriv.gsk
      ∧ (GS_sign toy 8 (toyUser [6, 5]) [104, 106] [98] [] 100).map
          (fun r => (r.1, GS_getSignatureTag toy r.2.2.1 r.2.2.2 [] 10))
        = some (GS_Ret.GS_RETURN_SUCCESS, GS_Ret.GS_RETURN_SUCCESS, [4, 4, 7], 3)
      ∧ (GS_sign toy 8 (toyUser [0, 5]) [104, 105] [98] [] 100).map
          (fun r => (r.1, GS_getSignatureTag toy r.2.2.1 r.2.2.2 [] 10))
        = some (GS_Ret.GS_RETURN_SUCCESS, GS_Ret.GS_INVALID_SIGNATURE, [], 10) := by
  decide

/-- C4, amended. Pseudonym linkability: for a fixed user private key whose
credential points are not the point at infinity and whose `gsk` is not zero
modulo `q`, loaded in a seeded engine, and a fixed basename `bsn`, for all
messages and all RNG states in which the blinding scalar `r` drawn by `sign`
is not zero, `GS_getSignatureTag` applied to the output of `GS_sign` returns
the same bytes, namely the G1 encoding of `NYM = hash_to_G1(H(bsn))^gsk`
(buffers large enough, fuel enough for the hash to G1); the `NYM` field of
the output of `sign` depends on nothing but `gsk` and `bsn`. -/
theorem C4_pseudonym_linkable (hL : L.Laws) (st : GS_State L)
    (hseed : flagSet st.state GS_SEEDED = true) (hflag : flagSet st.state GS_USERCREDS = true)
    (hcred : validCred L st._userPriv.cred) (hgsk : st._userPriv.gsk % L.CURVE_Order ≠ 0)
    (bsn : List Nat) :
    (∃ N BSN, (∀ fuel, N ≤ fuel → mapit L fuel (myhash L bsn) = some BSN)
      ∧ ∀ fuel, N ≤ fuel → ∀ (RNG : L.csprng) (msg sigbuf tagbuf : List Nat) (cap tagcap : Int),
        (randomModOrder L RNG).1 ≠ 0 →
        ((5 * (2 * L.MODBYTES + 1) + 2 * L.MODBYTES : Nat) : Int) ≤ cap →
        ((2 * L.MODBYTES + 1 : Nat) : Int) ≤ tagcap →
        ∃ st' sigbytes tagbytes,
          GS_sign L fuel { st with _rng := RNG } msg bsn sigbuf cap
              = some (GS_Ret.GS_RETURN_SUCCESS, st', sigbytes,
                  ((5 * (2 * L.MODBYTES + 1) + 2 * L.MODBYTES : Nat) : Int))
            ∧ GS_getSignatureTag L sigbytes
                ((5 * (2 * L.MODBYTES + 1) + 2 * L.MODBYTES : Nat) : Int) tagbuf tagcap
              = (GS_Ret.GS_RETURN_SUCCESS, tagbytes, ((2 * L.MODBYTES + 1 : Nat) : Int))
            ∧ tagbytes.take (2 * L.MODBYTES + 1)
              = L.ECP_toOctet (PAIR_G1mul L BSN st._userPriv.gsk))
      ∧ ∀ (fuel : Nat) (RNG : L.csprng) (priv : UserPrivateKey L) (msg : List Nat)
          (sig : Signature L) (RNG' : L.csprng),
          sign L fuel RNG priv msg bsn = some (sig, RNG') →
          ∃ BSN, mapit L fuel (myhash L bsn) = some BSN
            ∧ sig.NYM = PAIR_G1mul L BSN priv.gsk := by
  refine ⟨?_, fun fuel RNG priv msg sig RNG' h => sign_NYM fuel RNG priv msg bsn sig RNG' h⟩
  obtain ⟨N, BSN, hBSN, hmap⟩ := mapit_returns hL (myhash L bsn)
  refine ⟨N, BSN, hmap, fun fuel hf RNG msg sigbuf tagbuf cap tagcap hr hcap htag => ?_⟩
  obtain ⟨sig, RNG', hs, hv, hN⟩ := sign_valid hL fuel RNG st._userPriv msg bsn BSN (hmap fuel hf)
    hBSN hcred hgsk hr
  obtain ⟨st', sigbytes, tagbytes, h1, h2, h3⟩ := sign_then_tag hL fuel { st with _rng := RNG }
    msg bsn sig RNG' hseed hflag hs hv sigbuf tagbuf cap tagcap hcap htag
  exact ⟨st', sigbytes, tagbytes, h1, h2, by rw [h3, hN]⟩

theorem toyUser_ok :
    flagSet (toyUser [6, 5]).state GS_SEEDED = true
      ∧ flagSet (toyUser [6, 5]).state GS_USERCREDS = true
      ∧ validCred toy (toyUser [6, 5])._userPriv.cred
      ∧ (toyUser [6, 5])._userPriv.gsk % toy.CURVE_Order ≠ 0 :=
  ⟨by decide, by decide,
    ⟨toy_ne _ (by decide), toy_ne _ (by decide), toy_ne _ (by decide), toy_ne _ (by decide)⟩,
    by decide⟩

/-- C4 (amended) at the small library: a user engine holding `toyUserKey`. -/
theorem C4_witness :
    (toy.Laws ∧ flagSet (toyUser [6, 5]).state GS_SEEDED = true
        ∧ flagSet (toyUser [6, 5]).state GS_USERCREDS = true
        ∧ validCred toy (toyUser [6, 5])._userPriv.cred
        ∧ (toyUser [6, 5])._userPriv.gsk % toy.CURVE_Order ≠ 0)
      ∧ ∃ N BSN, (∀ fuel, N ≤ fuel → mapit toy fuel (myhash toy [98]) = some BSN)
        ∧ ∀ fuel, N ≤ fuel → ∀ (RNG : toy.csprng) (msg sigbuf tagbuf : List Nat)
            (cap tagcap : Int),
          (randomModOrder toy RNG).1 ≠ 0 →
          ((5 * (2 * toy.MODBYTES + 1) + 2 * toy.MODBYTES : Nat) : Int) ≤ cap →
          ((2 * toy.MODBYTES + 1 : Nat) : Int) ≤ tagcap →
          ∃ st' sigbytes tagbytes,
            GS_sign toy fuel { toyUser [6, 5] with _rng := RNG } msg [98] sigbuf cap
                = some (GS_Ret.GS_RETURN_SUCCESS, st', sigbytes,
                    ((5 * (2 * toy.MODBYTES + 1) + 2 * toy.MODBYTES : Nat) : Int))
              ∧ GS_getSignatureTag toy sigbytes
                  ((5 * (2 * toy.MODBYTES + 1) + 2 * toy.MODBYTES : Nat) : Int) tagbuf tagcap
                = (GS_Ret.GS_RETURN_SUCCESS, tagbytes, ((2 * toy.MODBYTES + 1 : Nat) : Int))
              ∧ tagbytes.take (2 * toy.MODBYTES + 1)
                = toy.ECP_toOctet (PAIR_G1mul toy BSN (toyUser [6, 5])._userPriv.gsk) :=
  ⟨⟨toy_laws, toyUser_ok⟩,
    (C4_pseudonym_linkable toy_laws (toyUser [6, 5]) toyUser_ok.1 toyUser_ok.2.1
      toyUser_ok.2.2.1 toyUser_ok.2.2.2 [98]).1⟩

end Pseudonym

/-! ## Wrong message or basename -/

section WrongMessage

variable {L}
variable {stack stack' : Stack L} {qxy : L.FP × L.FP × L.FP × L.FP}

theorem ECPchallengeEquals_eq (message : Option (List Nat)) (Y Z A B AR BR : L.ECP) :
    ECPchallengeEquals L message Y Z A B AR BR
      = challengeHash L (ECPtranscriptEquals L message Y Z A B AR BR) := rfl

/-- One store of a serializer that appends `enc`, on an octet with room. -/
theorem appends_step (f : octet → Bool × octet) (enc : List Nat) (hf : Appends f enc)
    (o : octet) (h0 : 0 ≤ o.len) (hfit : o.len + (enc.length : Int) ≤ o.max) :
    (f o).2.len = o.len + enc.length ∧ (f o).2.max = o.max
      ∧ written (f o).2 = written o ++ enc := by
  obtain ⟨-, l, m, w, -⟩ := (hf o h0).1 hfit
  exact ⟨l, m, w⟩

/-- Layout of the Chaum-Pedersen transcript with a message: the `MODBYTES`
bytes of the message, then the six points in the order of the arguments. -/
theorem ECPtranscriptEquals_some (hL : L.Laws) (m : List Nat) (Y Z A B AR BR : L.ECP) :
    ECPtranscriptEquals L (some m) Y Z A B AR BR
      = sliceBytes m 0 L.MODBYTES ++ L.ECP_toOctet Y ++ L.ECP_toOctet Z ++ L.ECP_toOctet A
        ++ L.ECP_toOctet B ++ L.ECP_toOctet AR ++ L.ECP_toOctet BR := by
  have hl := hL.toOctet_len
  have w0 : written (messageOctet L (L.MODBYTES + 6 * ECPSIZE L) (some m))
      = sliceBytes m 0 L.MODBYTES := by
    simp only [written, messageOctet, Int.toNat_ofNat]
    have := sliceBytes_prefix (sliceBytes m 0 L.MODBYTES) []
    rwa [List.append_nil, sliceBytes_length] at this
  have l0 : (messageOctet L (L.MODBYTES + 6 * ECPSIZE L) (some m)).len = L.MODBYTES := rfl
  have m0 : (messageOctet L (L.MODBYTES + 6 * ECPSIZE L) (some m)).max
      = ((L.MODBYTES + 6 * (2 * L.MODBYTES + 1) : Nat) : Int) := rfl
  obtain ⟨l1, m1, w1⟩ := appends_step _ _ (appends_ECP hL Y) _ (by rw [l0]; omega)
    (by rw [l0, m0, hl]; push_cast; omega)
  obtain ⟨l2, m2, w2⟩ := appends_step _ _ (appends_ECP hL Z) _ (by rw [l1, l0]; omega)
    (by rw [l1, l0, m1, m0, hl, hl]; push_cast; omega)
  obtain ⟨l3, m3, w3⟩ := appends_step _ _ (appends_ECP hL A) _ (by rw [l2, l1, l0]; omega)
    (by rw [l2, l1, l0, m2, m1, m0, hl, hl, hl]; push_cast; omega)
  obtain ⟨l4, m4, w4⟩ := appends_step _ _ (appends_ECP hL B) _ (by rw [l3, l2, l1, l0]; omega)
    (by rw [l3, l2, l1, l0, m3, m2, m1, m0, hl, hl, hl, hl]; push_cast; omega)
  obtain ⟨l5, m5, w5⟩ := appends_step _ _ (appends_ECP hL AR) _
    (by rw [l4, l3, l2, l1, l0]; omega)
    (by rw [l4, l3, l2, l1, l0, m4, m3, m2, m1, m0, hl, hl, hl, hl, hl]; push_cast; omega)
  obtain ⟨l6, m6, w6⟩ := appends_step _ _ (appends_ECP hL BR) _
    (by rw [l5, l4, l3, l2, l1, l0]; omega)
    (by rw [l5, l4, l3, l2, l1, l0, m5, m4, m3, m2, m1, m0, hl, hl, hl, hl, hl, hl]
        push_cast; omega)
  unfold ECPtranscriptEquals
  simp only
  change written _ = _
  rw [w6, w5, w4, w3, w2, w1, w0]

theorem digestPair_eq (hL : L.Laws) (msg bsn : List Nat) :
    digestPair L msg bsn = myhash L msg ++ myhash L bsn := by
  have h1 : (myhash L msg).length = L.MODBYTES := hL.hash_len msg
  have h2 : (myhash L bsn).length = L.MODBYTES := hL.hash_len bsn
  have p1 : pokeBytes [] 0 (myhash L msg) = myhash L msg := by
    simp [pokeBytes, sliceBytes]
  have s1 : sliceBytes (myhash L msg) 0 L.MODBYTES = myhash L msg := by
    have := sliceBytes_prefix (myhash L msg) []
    rwa [List.append_nil, h1] at this
  have p2 : pokeBytes (myhash L msg) L.MODBYTES (myhash L bsn) = myhash L msg ++ myhash L bsn := by
    unfold pokeBytes
    rw [s1, List.drop_of_length_le (by omega), List.append_nil]
  unfold digestPair
  rw [p1, p2]
  have := sliceBytes_prefix (myhash L msg ++ myhash L bsn) []
  rwa [List.append_nil, List.length_append, h1, h2, ← two_mul] at this

theorem digestPair_ne (hL : L.Laws) (msg bsn msg' bsn' : List Nat)
    (h : ¬ (myhash L msg' = myhash L msg ∧ myhash L bsn' = myhash L bsn)) :
    digestPair L msg' bsn' ≠ digestPair L msg bsn := by
  rw [digestPair_eq hL, digestPair_eq hL]
  intro e
  have hlen : (myhash L msg').length = (myhash L msg).length :=
    (hL.hash_len msg').trans (hL.hash_len msg).symm
  exact h (List.append_inj e hlen)

theorem transcript_ne (hL : L.Laws) (m m' : List Nat) (Y Z A B AR BR Y' Z' A' B' AR' BR' : L.ECP)
    (hm : m.length = L.MODBYTES) (hm' : m'.length = L.MODBYTES) (h : m' ≠ m) :
    ECPtranscriptEquals L (some m') Y' Z' A' B' AR' BR'
      ≠ ECPtranscriptEquals L (some m) Y Z A B AR BR := by
  rw [ECPtranscriptEquals_some hL, ECPtranscriptEquals_some hL]
  have s : ∀ x : List Nat, x.length = L.MODBYTES → sliceBytes x 0 L.MODBYTES = x := by
    intro x hx
    have := sliceBytes_prefix x []
    rwa [List.append_nil, hx] at this
  rw [s m hm, s m' hm']
  simp only [List.append_assoc]
  intro e
  exact h (List.append_inj e (by rw [hm, hm'])).1

/-- What `sign` puts in the field `c`: the challenge of its transcript. -/
theorem sign_challenge (fuel : Nat) (RNG : L.csprng) (priv : UserPrivateKey L)
    (msg bsn : List Nat) (sig : Signature L) (RNG' : L.csprng)
    (h : sign L fuel RNG priv msg bsn = some (sig, RNG')) :
    ∃ BSN, mapit L fuel (myhash L bsn) = some BSN
      ∧ sig.c = challengeHash L (signTranscript L RNG sig BSN msg bsn) := by
  cases hmap : mapit L fuel (myhash L bsn) with
  | none => simp [sign, hmap] at h
  | some BSN =>
    obtain ⟨sig', RNG'', hs, -, -, -, -, -, hc, -⟩ := sign_eq fuel RNG priv msg bsn BSN hmap
    rw [hs] at h
    have := (Prod.mk.inj (Option.some.inj h)).1
    subst this
    exact ⟨BSN, rfl, hc⟩

/-- What `verify` requires of the field `c` to accept: it is the challenge
of the verifier's transcript. -/
theorem verify_challenge (fuel : Nat) (msg bsn : List Nat) (sig : Signature L)
    (pub : GroupPublicKey L) (RNG RNG' : L.csprng)
    (h : verify L fuel msg bsn sig pub RNG = some (true, RNG')) :
    ∃ BSN, mapit L fuel (myhash L bsn) = some BSN
      ∧ sig.c = challengeHash L (verifyTranscript L sig BSN msg bsn) := by
  cases hmap : mapit L fuel (myhash L bsn) with
  | none => simp [verify, hmap] at h
  | some BSN =>
    refine ⟨BSN, rfl, ?_⟩
    by_cases hv : verifyECPProofEquals L sig.B BSN sig.D sig.NYM
        (some (myhash L (digestPair L msg bsn))) sig.c sig.s = true
    · simpa [verifyECPProofEquals, ECPchallengeEquals_eq, verifyTranscript] using hv
    · have hv' : verifyECPProofEquals L sig.B BSN sig.D sig.NYM
          (some (myhash L (sliceBytes (pokeBytes (pokeBytes [] 0 (myhash L msg)) L.MODBYTES
            (myhash L bsn)) 0 (2 * L.MODBYTES)))) sig.c sig.s = false := by
        simpa [digestPair] using hv
      simp [verify, hmap, hv'] at h

set_option maxRecDepth 16384 in
/-- C5 as stated fails: the messages `[1, 0]` and `[0, 31]` have the same
digest, and the signature made for `([1, 0], bsn)` is accepted for
`([0, 31], bsn)`. -/
theorem C5_counterexample :
    ([0, 31] : List Nat) ≠ [1, 0]
      ∧ (sign toy 8 [6, 5] toyUserKey [1, 0] [98]).isSome = true
      ∧ ((sign toy 8 [6, 5] toyUserKey [1, 0] [98]).bind
          (fun p => verify toy 8 [0, 31] [98] p.1 toyGroupKey.pub [3, 8])) = some (true, []) := by
  decide

/-- C5, amended. Wrong message or basename is rejected unless the hash
collides: for every signature produced by `sign` for `(msg, bsn)` and every
`(msg', bsn')` with `msg' ≠ msg` or `bsn' ≠ bsn`, if `verify` accepts it for
`(msg', bsn')` then two distinct inputs collide: `H(msg') = H(msg)` with
`msg' ≠ msg`, or `H(bsn') = H(bsn)` with `bsn' ≠ bsn`, or `H` agrees on the
distinct digest pairs
`H(msg') ‖ H(bsn')` and `H(msg) ‖ H(bsn)`, or the challenge hash agrees on the
distinct transcripts of verifier and signer. -/
theorem C5_wrong_message_rejected (hL : L.Laws) (fuel fuel' : Nat) (RNG RNG1 RNGV RNG2 : L.csprng)
    (priv : UserPrivateKey L) (pub : GroupPublicKey L) (msg bsn msg' bsn' : List Nat)
    (sig : Signature L) (hsign : sign L fuel RNG priv msg bsn = some (sig, RNG1))
    (hne : msg' ≠ msg ∨ bsn' ≠ bsn)
    (hacc : verify L fuel' msg' bsn' sig pub RNGV = some (true, RNG2)) :
    ∃ BSN BSN', mapit L fuel (myhash L bsn) = some BSN
      ∧ mapit L fuel' (myhash L bsn') = some BSN'
      ∧ ((msg' ≠ msg ∧ myhash L msg' = myhash L msg)
        ∨ (bsn' ≠ bsn ∧ myhash L bsn' = myhash L bsn)
        ∨ (digestPair L msg' bsn' ≠ digestPair L msg bsn
          ∧ myhash L (digestPair L msg' bsn') = myhash L (digestPair L msg bsn))
        ∨ (verifyTranscript L sig BSN' msg' bsn' ≠ signTranscript L RNG sig BSN msg bsn
          ∧ challengeHash L (verifyTranscript L sig BSN' msg' bsn')
            = challengeHash L (signTranscript L RNG sig BSN msg bsn))) := by
  obtain ⟨BSN, hmap, hc⟩ := sign_challenge fuel RNG priv msg bsn sig RNG1 hsign
  obtain ⟨BSN', hmap', hc'⟩ := verify_challenge fuel' msg' bsn' sig pub RNGV RNG2 hacc
  refine ⟨BSN, BSN', hmap, hmap', ?_⟩
  by_cases hd : myhash L msg' = myhash L msg ∧ myhash L bsn' = myhash L bsn
  · rcases hne with h | h
    · exact Or.inl ⟨h, hd.1⟩
    · exact Or.inr (Or.inl ⟨h, hd.2⟩)
  · have hdp := digestPair_ne hL msg bsn msg' bsn' hd
    by_cases hi : myhash L (digestPair L msg' bsn') = myhash L (digestPair L msg bsn)
    · exact Or.inr (Or.inr (Or.inl ⟨hdp, hi⟩))
    · refine Or.inr (Or.inr (Or.inr ⟨?_, by rw [← hc, ← hc']⟩))
      exact transcript_ne hL _ _ _ _ _ _ _ _ _ _ _ _ _ _ (hL.hash_len _) (hL.hash_len _) hi

set_option maxRecDepth 16384 in
/-- C5 (amended) at the small library: the accepted pair of the
counterexample; the digests of `[0, 31]` and `[1, 0]` collide. -/
theorem C5_witness :
    (toy.Laws ∧ sign toy 8 [6, 5] toyUserKey [1, 0] [98]
          = some ({ A := 1, B := 5, C := 8, D := 9, NYM := 4, c := 9, s := 8 }, [])
        ∧ (([0, 31] : List Nat) ≠ [1, 0] ∨ ([98] : List Nat) ≠ [98])
        ∧ verify toy 8 [0, 31] [98] { A := 1, B := 5, C := 8, D := 9, NYM := 4, c := 9, s := 8 }
            toyGroupKey.pub [3, 8] = some (true, []))
      ∧ ∃ BSN BSN', mapit toy 8 (myhash toy [98]) = some BSN
        ∧ mapit toy 8 (myhash toy [98]) = some BSN'
        ∧ ((([0, 31] : List Nat) ≠ [1, 0] ∧ myhash toy [0, 31] = myhash toy [1, 0])
          ∨ (([98] : List Nat) ≠ [98] ∧ myhash toy [98] = myhash toy [98])
          ∨ (digestPair toy [0, 31] [98] ≠ digestPair toy [1, 0] [98]
            ∧ myhash toy (digestPair toy [0, 31] [98]) = myhash toy (digestPair toy [1, 0] [98]))
          ∨ (verifyTranscript toy { A := 1, B := 5, C := 8, D := 9, NYM := 4, c := 9, s := 8 }
                BSN' [0, 31] [98]
              ≠ signTranscript toy [6, 5]
                { A := 1, B := 5, C := 8, D := 9, NYM := 4, c := 9, s := 8 } BSN [1, 0] [98]
            ∧ challengeHash toy (verifyTranscript toy
                { A := 1, B := 5, C := 8, D := 9, NYM := 4, c := 9, s := 8 } BSN' [0, 31] [98])
              = challengeHash toy (signTranscript toy [6, 5]
                { A := 1, B := 5, C := 8, D := 9, NYM := 4, c := 9, s := 8 } BSN [1, 0] [98]))) :=
  ⟨⟨toy_laws, rfl, Or.inl (by decide), by decide⟩,
    C5_wrong_message_rejected toy_laws 8 8 [6, 5] [] [3, 8] [] toyUserKey toyGroupKey.pub
      [1, 0] [98] [0, 31] [98] { A := 1, B := 5, C := 8, D := 9, NYM := 4, c := 9, s := 8 }
      rfl (Or.inl (by decide)) (by decide)⟩

end WrongMessage

/-! ## Collisions exist -/

section Collisions

variable {L}
variable {stack stack' : Stack L} {qxy : L.FP × L.FP × L.FP × L.FP}

/-- The digests of any library collide on two distinct messages: there are
more messages than blocks of `MODBYTES` bytes. -/
theorem hash_collision (hL : L.Laws) :
    ∃ m m' : List Nat, m ≠ m' ∧ myhash L m = myhash L m' := by
  let F : Nat → (Fin L.MODBYTES → Fin 256) := fun n i =>
    ⟨(myhash L (List.replicate n 0)).getD i.val 0 % 256, Nat.mod_lt _ (by norm_num)⟩
  obtain ⟨n, n', hne, heq⟩ := Finite.exists_ne_map_eq_of_infinite F
  refine ⟨List.replicate n 0, List.replicate n' 0, ?_, ?_⟩
  · intro e
    have := congrArg List.length e
    simp at this
    exact hne this
  · apply List.ext_getElem
    · rw [myhash, myhash, hL.hash_len, hL.hash_len]
    · intro i h1 h2
      have hi : i < L.MODBYTES := by rw [myhash, hL.hash_len] at h1; exact h1
      have e := congrArg Fin.val (congrFun heq ⟨i, hi⟩)
      simp only [F, List.getD_eq_getElem _ _ h1, List.getD_eq_getElem _ _ h2] at e
      have b1 := hL.hash_byte _ _ (List.getElem_mem h1)
      have b2 := hL.hash_byte _ _ (List.getElem_mem h2)
      rwa [Nat.mod_eq_of_lt b1, Nat.mod_eq_of_lt b2] at e

/-- The verdict of `verify` depends on the message through its digest only. -/
theorem verify_congr_msg (fuel : Nat) (msg msg' bsn : List Nat) (sig : Signature L)
    (pub : GroupPublicKey L) (RNG : L.csprng) (h : myhash L msg = myhash L msg') :
    verify L fuel msg bsn sig pub RNG = verify L fuel msg' bsn sig pub RNG := by
  unfold verify
  rw [h]

/-- For every library, two distinct messages are accepted for one and the
same signature whenever one of them is: `verify` cannot reject every wrong
message. -/
theorem verify_accepts_collision (hL : L.Laws) :
    ∃ m m' : List Nat, m ≠ m' ∧ ∀ (fuel : Nat) (bsn : List Nat) (sig : Signature L)
      (pub : GroupPublicKey L) (RNG : L.csprng),
      verify L fuel m bsn sig pub RNG = verify L fuel m' bsn sig pub RNG := by
  obtain ⟨m, m', hne, h⟩ := hash_collision hL
  exact ⟨m, m', hne, fun fuel bsn sig pub RNG => verify_congr_msg fuel m m' bsn sig pub RNG h⟩

end Collisions

/-! ## Proofs of knowledge and issuance -/

section Issuance

variable {L}
variable {stack stack' : Stack L} {qxy : L.FP × L.FP × L.FP × L.FP}

/-- C19 at the failing input: the witness is `x = 0`, so `Y = x G` is the
point at infinity and `ECP2_toOctet_compatibility` writes its unassigned
locals into the transcript.  The locals hold zeros while `makeECP2Proof` runs
and `(1, 0, 0, 0)` while `verifyECP2Proof` runs: the proof is rejected. -/
theorem C19_counterexample :
    PAIR_G2mul toy toy.g2 0 = 0
      ∧ verifyECP2Proof toy toyStackOne toy.g2 (PAIR_G2mul toy toy.g2 0)
          (makeECP2Proof toy toyStack [6, 1] toy.g2 (PAIR_G2mul toy toy.g2 0) 0).1
          (makeECP2Proof toy toyStack [6, 1] toy.g2 (PAIR_G2mul toy toy.g2 0) 0).2.1 = false :=
  ⟨rfl, by decide⟩

/-- C19. Schnorr completeness: for every base `G` of G1, every witness `x`
(below the group order or not), every RNG state and every optional message
`m`, the proof made by `makeECPProof` for `Y = x G` is accepted by
`verifyECPProof`.  For every base of G2 the proof made by `makeECP2Proof` is
accepted by `verifyECP2Proof` when the locals that
`ECP2_toOctet_compatibility` leaves unassigned hold in the verifier what they
held in the prover; whatever they hold, it is accepted when none of the base
`G`, the public value `x G` and the commitment `r G` is the point at
infinity. -/
theorem C19_schnorr_complete (hL : L.Laws) (RNG : L.csprng) (x : Nat) (m : Option (List Nat)) :
    (∀ G : L.ECP,
        verifyECPProof L G (PAIR_G1mul L G x) m
          (makeECPProof L RNG G (PAIR_G1mul L G x) x m).1
          (makeECPProof L RNG G (PAIR_G1mul L G x) x m).2.1 = true)
      ∧ (∀ (G : L.ECP2) (stack : Stack L),
        verifyECP2Proof L stack G (PAIR_G2mul L G x)
          (makeECP2Proof L stack RNG G (PAIR_G2mul L G x) x).1
          (makeECP2Proof L stack RNG G (PAIR_G2mul L G x) x).2.1 = true)
      ∧ ∀ (G : L.ECP2) (stack stack' : Stack L), G ≠ 0 → PAIR_G2mul L G x ≠ 0 →
        PAIR_G2mul L G (randomModOrder L RNG).1 ≠ 0 →
        verifyECP2Proof L stack' G (PAIR_G2mul L G x)
          (makeECP2Proof L stack RNG G (PAIR_G2mul L G x) x).1
          (makeECP2Proof L stack RNG G (PAIR_G2mul L G x) x).2.1 = true := by
  exact ⟨fun G => verifyECPProof_make hL RNG G _ x x m rfl rfl,
    fun G stack => @verifyECP2Proof_make L stack hL RNG G _ x x rfl rfl,
    fun G stack stack' hG hY hR =>
      verifyECP2Proof_make_of_ne hL stack stack' RNG G _ x x rfl rfl hG hY hR⟩

/-- C19 at the small library: witness 7, base `3 g1` with a message and
base `g2`, the verifier in G2 on a stack other than the one of the prover. -/
theorem C19_witness :
    toy.Laws
      ∧ verifyECPProof toy (3 : ZMod 11) (PAIR_G1mul toy (3 : ZMod 11) 7) (some [42])
          (makeECPProof toy [6, 1] (3 : ZMod 11) (PAIR_G1mul toy (3 : ZMod 11) 7) 7 (some [42])).1
          (makeECPProof toy [6, 1] (3 : ZMod 11) (PAIR_G1mul toy (3 : ZMod 11) 7) 7 (some [42])).2.1
          = true
      ∧ (toy.g2 ≠ 0 ∧ PAIR_G2mul toy toy.g2 7 ≠ 0
        ∧ PAIR_G2mul toy toy.g2 (randomModOrder toy [6, 1]).1 ≠ 0)
      ∧ verifyECP2Proof toy toyStackOne toy.g2 (PAIR_G2mul toy toy.g2 7)
          (makeECP2Proof toy toyStack [6, 1] toy.g2 (PAIR_G2mul toy toy.g2 7) 7).1
          (makeECP2Proof toy toyStack [6, 1] toy.g2 (PAIR_G2mul toy toy.g2 7) 7).2.1 = true :=
  ⟨toy_laws, (C19_schnorr_complete toy_laws [6, 1] 7 (some [42])).1 (3 : ZMod 11),
    ⟨toy_ne _ (by decide), toy_ne _ (by decide), toy_ne _ (by decide)⟩,
    (C19_schnorr_complete toy_laws [6, 1] 7 (some [42])).2.2 toy.g2 toyStack toyStackOne
      (toy_ne _ (by decide)) (toy_ne _ (by decide)) (toy_ne _ (by decide))⟩

/-- C20. Chaum-Pedersen completeness: for all points `A`, `B` of G1, every
witness `x` (below the group order or not), every RNG state and every optional
message `m`, the proof made by `makeECPProofEquals` for `Y = x A`, `Z = x B`
is accepted by `verifyECPProofEquals`. -/
theorem C20_chaum_pedersen_complete (hL : L.Laws) (RNG : L.csprng) (A B : L.ECP) (x : Nat)
    (m : Option (List Nat)) :
    verifyECPProofEquals L A B (PAIR_G1mul L A x) (PAIR_G1mul L B x) m
      (makeECPProofEquals L RNG A B (PAIR_G1mul L A x) (PAIR_G1mul L B x) x m).1
      (makeECPProofEquals L RNG A B (PAIR_G1mul L A x) (PAIR_G1mul L B x) x m).2.1 = true := by
  exact verifyECPProofEquals_make hL RNG A B _ _ x x x m rfl rfl rfl rfl

/-- C20 at the small library: bases `2 g1` and `5 g1`, witness 9, no message. -/
theorem C20_witness :
    toy.Laws
      ∧ verifyECPProofEquals toy (2 : ZMod 11) (5 : ZMod 11)
          (PAIR_G1mul toy (2 : ZMod 11) 9) (PAIR_G1mul toy (5 : ZMod 11) 9) none
          (makeECPProofEquals toy [4] (2 : ZMod 11) (5 : ZMod 11)
            (PAIR_G1mul toy (2 : ZMod 11) 9) (PAIR_G1mul toy (5 : ZMod 11) 9) 9 none).1
          (makeECPProofEquals toy [4] (2 : ZMod 11) (5 : ZMod 11)
            (PAIR_G1mul toy (2 : ZMod 11) 9) (PAIR_G1mul toy (5 : ZMod 11) 9) 9 none).2.1 = true :=
  ⟨toy_laws, C20_chaum_pedersen_complete toy_laws [4] (2 : ZMod 11) (5 : ZMod 11) 9 none⟩

/-- What `join_server` writes when it accepts, for any join message: with `r`
its draw and `t = r y mod q`, the credential and the proof made over it. -/
theorem join_server_post (RNG : L.csprng) (priv : GroupPrivateKey L) (j : JoinMessage L)
    (challenge : List Nat) (resp0 : JoinResponse L)
    (h : (join_server L RNG priv j challenge resp0).1 = true) :
    let r := (randomModOrder L RNG).1
    let t := BIG_modmul r priv.y L.CURVE_Order
    let resp := (join_server L RNG priv j challenge resp0).2.1
    resp.cred.A = PAIR_G1mul L (setG1 L) r
      ∧ resp.cred.B = PAIR_G1mul L resp.cred.A priv.y
      ∧ resp.cred.D = PAIR_G1mul L j.Q t
      ∧ resp.cred.C = PAIR_G1mul L (resp.cred.A + resp.cred.D) priv.x
      ∧ resp.c = (makeECPProofEquals L (randomModOrder L RNG).2 (setG1 L) j.Q
          resp.cred.B resp.cred.D t none).1
      ∧ resp.s = (makeECPProofEquals L (randomModOrder L RNG).2 (setG1 L) j.Q
          resp.cred.B resp.cred.D t none).2.1 := by
  have hv : verifyECPProof L (setG1 L) j.Q (some (myhash L challenge)) j.c j.s = true := by
    by_contra hne
    simp [join_server, hne] at h
  simp only [join_server, hv]
  simp

/-- C18. Issuance postcondition: whenever `join_server` accepts a join message
with commitment `Q`, for the scalar `r` it drew the response has `A = r g1`,
`B = y A`, `D = (r y mod q) Q` and `C = x (A + D)`, and `(c, s)` is the
Chaum-Pedersen proof made, with no message, for bases `(g1, Q)`, targets
`(B, D)` and witness `r y mod q`; that proof is accepted by
`verifyECPProofEquals`. -/
theorem C18_issuance_postcondition (hL : L.Laws) (RNG : L.csprng) (priv : GroupPrivateKey L)
    (j : JoinMessage L) (challenge : List Nat) (resp0 : JoinResponse L)
    (h : (join_server L RNG priv j challenge resp0).1 = true) :
    let r := (randomModOrder L RNG).1
    let t := (r * priv.y) % L.CURVE_Order
    let resp := (join_server L RNG priv j challenge resp0).2.1
    resp.cred.A = r • L.g1
      ∧ resp.cred.B = priv.y • resp.cred.A
      ∧ resp.cred.D = t • j.Q
      ∧ resp.cred.C = priv.x • (resp.cred.A + resp.cred.D)
      ∧ (resp.c, resp.s)
          = ((makeECPProofEquals L (randomModOrder L RNG).2 L.g1 j.Q
                resp.cred.B resp.cred.D t none).1,
             (makeECPProofEquals L (randomModOrder L RNG).2 L.g1 j.Q
                resp.cred.B resp.cred.D t none).2.1)
      ∧ verifyECPProofEquals L L.g1 j.Q resp.cred.B resp.cred.D none resp.c resp.s = true := by
  intro r t resp
  have ht : BIG_modmul r priv.y L.CURVE_Order = t := by
    simp only [BIG_modmul, t]
    exact (Nat.mul_mod _ _ _).symm
  obtain ⟨hA, hB, hD, hC, hc, hs⟩ := join_server_post RNG priv j challenge resp0 h
  simp only [ht, PAIR_G1mul, setG1] at hA hB hD hC hc hs
  refine ⟨hA, hB, hD, hC, by rw [hc, hs], ?_⟩
  rw [hc, hs]
  refine verifyECPProofEquals_make hL _ _ _ _ _ t (r * priv.y) t none ?_ hD ?_ rfl
  · rw [hB, hA, PAIR_G1mul, mul_nsmul]
  · exact (Nat.mod_mod _ _).symm

/-- C18 at the small library: the issuer `toyGroupKey` answers the join message
of an honest user. -/
theorem C18_witness :
    (toy.Laws ∧ (join_server toy [2, 7] toyGroupKey toyJoinMessage [110] (localResp toy)).1 = true)
      ∧ (let r := (randomModOrder toy [2, 7]).1
         let t := (r * toyGroupKey.y) % toy.CURVE_Order
         let resp := (join_server toy [2, 7] toyGroupKey toyJoinMessage [110] (localResp toy)).2.1
         resp.cred.A = r • toy.g1
           ∧ resp.cred.B = toyGroupKey.y • resp.cred.A
           ∧ resp.cred.D = t • toyJoinMessage.Q
           ∧ resp.cred.C = toyGroupKey.x • (resp.cred.A + resp.cred.D)
           ∧ (resp.c, resp.s)
               = ((makeECPProofEquals toy (randomModOrder toy [2, 7]).2 toy.g1 toyJoinMessage.Q
                     resp.cred.B resp.cred.D t none).1,
                  (makeECPProofEquals toy (randomModOrder toy [2, 7]).2 toy.g1 toyJoinMessage.Q
                     resp.cred.B resp.cred.D t none).2.1)
           ∧ verifyECPProofEquals toy toy.g1 toyJoinMessage.Q resp.cred.B resp.cred.D none
               resp.c resp.s = true) :=
  ⟨⟨toy_laws, by decide⟩,
    C18_issuance_postcondition toy_laws [2, 7] toyGroupKey toyJoinMessage [110] (localResp toy)
      (by decide)⟩

end Issuance

/-! ## The engine flags -/

section Flags

variable {L}
variable {stack stack' : Stack L} {qxy : L.FP × L.FP × L.FP × L.FP}

/-- A flag is set when its bit of the state is. -/
theorem flagSet_eq_testBit (s f : Nat) : flagSet s f = s.testBit f := by
  unfold flagSet
  rw [Nat.one_shiftLeft]
  cases h : s.testBit f
  · have h0 : 2 ^ f &&& s = 0 := by
      apply Nat.eq_of_testBit_eq
      intro i
      rw [Nat.testBit_and, Nat.testBit_two_pow, Nat.zero_testBit]
      by_cases hi : f = i
      · subst hi
        simp [h]
      · simp [hi]
    simp [h0]
  · have hb : (2 ^ f &&& s).testBit f = true := by
      rw [Nat.testBit_and, Nat.testBit_two_pow_self, h]
      rfl
    have hne : 2 ^ f &&& s ≠ 0 := by
      intro h0
      rw [h0] at hb
      simp at hb
    simp [hne]

/-- The flags after `state |= 1 << g`. -/
theorem flagSet_or (s g f : Nat) :
    flagSet (s ||| (1 <<< g)) f = (flagSet s f || decide (f = g)) := by
  rw [flagSet_eq_testBit, flagSet_eq_testBit, Nat.one_shiftLeft, Nat.testBit_or,
    Nat.testBit_two_pow]
  by_cases h : g = f
  · subst h
    simp
  · have h2 : ¬ f = g := fun e => h e.symm
    simp [h, h2]

/-- The flags after `state &= 1 << g`. -/
theorem flagSet_and (s g f : Nat) :
    flagSet (s &&& (1 <<< g)) f = (flagSet s f && decide (f = g)) := by
  rw [flagSet_eq_testBit, flagSet_eq_testBit, Nat.one_shiftLeft, Nat.testBit_and,
    Nat.testBit_two_pow]
  by_cases h : g = f
  · subst h
    simp
  · have h2 : ¬ f = g := fun e => h e.symm
    simp [h, h2]

/-- C12. Seed threshold: `GS_seed` returns `GS_SEED_TOO_SMALL` exactly when
`seed_length < 128`, and then the engine (flags, RNG, keys) is unchanged; for
`seed_length >= 128` it returns success, the RNG is seeded from the
`seed_length` bytes, the flags are the old ones with `GS_SEEDED` added, and the
loaded keys are unchanged. -/
theorem C12_seed_threshold (st : GS_State L) (seed : List Nat) (seed_length : Int) :
    ((GS_seed L st seed seed_length).1 = GS_SEED_TOO_SMALL ↔ seed_length < 128)
      ∧ (seed_length < 128 → (GS_seed L st seed seed_length).2 = st)
      ∧ (128 ≤ seed_length →
          (GS_seed L st seed seed_length).1 = GS_RETURN_SUCCESS
            ∧ (GS_seed L st seed seed_length).2._rng
                = L.RAND_seed (sliceBytes seed 0 seed_length.toNat)
            ∧ (∀ flag, flagSet (GS_seed L st seed seed_length).2.state flag
                = (flagSet st.state flag || decide (flag = GS_SEEDED)))
            ∧ (GS_seed L st seed seed_length).2._priv = st._priv
            ∧ (GS_seed L st seed seed_length).2._userPriv = st._userPriv) := by
  by_cases h : seed_length < 128
  · simp [GS_seed, h]
  · refine ⟨?_, fun h2 => absurd h2 h, fun _ => ?_⟩
    · simp [GS_seed, h]
    · unfold GS_seed
      rw [if_neg h]
      exact ⟨rfl, rfl, fun flag => flagSet_or _ _ _, rfl, rfl⟩

/-- C12 at the small library: a seed of 127 bytes and a seed of 128 bytes on
an engine holding user credentials. -/
theorem C12_witness :
    ((127 : Int) < 128 ∧ (128 : Int) ≤ 128)
      ∧ (GS_seed toy (toyUser [3, 8]) (List.replicate 127 1) 127).2 = toyUser [3, 8]
      ∧ (GS_seed toy (toyUser [3, 8]) (List.replicate 128 1) 128).1 = GS_RETURN_SUCCESS
      ∧ (∀ flag, flagSet (GS_seed toy (toyUser [3, 8]) (List.replicate 128 1) 128).2.state flag
          = (flagSet (toyUser [3, 8]).state flag || decide (flag = GS_SEEDED))) :=
  ⟨⟨by decide, by decide⟩,
    (C12_seed_threshold (toyUser [3, 8]) (List.replicate 127 1) 127).2.1 (by decide),
    ((C12_seed_threshold (toyUser [3, 8]) (List.replicate 128 1) 128).2.2 (by decide)).1,
    ((C12_seed_threshold (toyUser [3, 8]) (List.replicate 128 1) 128).2.2 (by decide)).2.2.1⟩

/-- C13. State sequencing: an operation whose required flag is unset returns
the matching precondition error and leaves the engine (flags, keys, RNG), the
output buffers and the output lengths as they were. `GS_setupGroup`,
`GS_startJoin`, `GS_processJoin` and `GS_sign` return `GS_NOT_SEEDED` without
`GS_SEEDED`; with it, `GS_processJoin` returns `GS_NOT_SET_GROUP_PRIVATE_KEY`
without `GS_GROUP_PRIVKEY` and `GS_sign` returns `GS_NOT_SET_USER_CREDENTIALS`
without `GS_USERCREDS`; `GS_verify` and `GS_exportGroupPubKey` return
`GS_NOT_SET_GROUP_PUBLIC_KEY` without `GS_GROUP_PUBKEY`; `GS_exportGroupPrivKey`
returns `GS_NOT_SET_GROUP_PRIVATE_KEY` and `GS_exportUserCredentials` returns
`GS_NOT_SET_USER_CREDENTIALS`. -/
theorem C13_state_sequencing (stack : Stack L) (fuel : Nat) (st : GS_State L)
    (challenge gsk joinmsg out msg bsn signature : List Nat)
    (len_gsk len joinmsg_len out_len : Int) :
    (flagSet st.state GS_SEEDED = false →
        GS_setupGroup L stack st = (GS_NOT_SEEDED, st)
          ∧ GS_startJoin L st challenge gsk len_gsk joinmsg len
              = { ret := GS_NOT_SEEDED, st := st, gsk := gsk, len_gsk := len_gsk,
                  joinmsg := joinmsg, len := len }
          ∧ GS_processJoin L st joinmsg joinmsg_len challenge out out_len
              = (GS_NOT_SEEDED, st, out, out_len)
          ∧ GS_sign L fuel st msg bsn signature len = some (GS_NOT_SEEDED, st, signature, len))
      ∧ (flagSet st.state GS_SEEDED = true → flagSet st.state GS_GROUP_PRIVKEY = false →
          GS_processJoin L st joinmsg joinmsg_len challenge out out_len
            = (GS_NOT_SET_GROUP_PRIVATE_KEY, st, out, out_len))
      ∧ (flagSet st.state GS_SEEDED = true → flagSet st.state GS_USERCREDS = false →
          GS_sign L fuel st msg bsn signature len
            = some (GS_NOT_SET_USER_CREDENTIALS, st, signature, len))
      ∧ (flagSet st.state GS_GROUP_PUBKEY = false →
          GS_verify L fuel st msg bsn signature len = some (GS_NOT_SET_GROUP_PUBLIC_KEY, st)
            ∧ GS_exportGroupPubKey L stack st out out_len
                = (GS_NOT_SET_GROUP_PUBLIC_KEY, out, out_len))
      ∧ (flagSet st.state GS_GROUP_PRIVKEY = false →
          GS_exportGroupPrivKey L stack st out out_len = (GS_NOT_SET_GROUP_PRIVATE_KEY, out, out_len))
      ∧ (flagSet st.state GS_USERCREDS = false →
          GS_exportUserCredentials L st out out_len
            = (GS_NOT_SET_USER_CREDENTIALS, out, out_len)) := by
  refine ⟨fun h => ⟨?_, ?_, ?_, ?_⟩, fun h h2 => ?_, fun h h2 => ?_, fun h => ⟨?_, ?_⟩,
    fun h => ?_, fun h => ?_⟩
  · simp [GS_setupGroup, h]
  · simp [GS_startJoin, h]
  · simp [GS_processJoin, h]
  · simp [GS_sign, h]
  · simp [GS_processJoin, h, h2]
  · simp [GS_sign, h, h2]
  · simp [GS_verify, h]
  · simp [GS_exportGroupPubKey, h]
  · simp [GS_exportGroupPrivKey, h]
  · simp [GS_exportUserCredentials, h]

/-- C13 at the small library: an engine after `GS_initState`, and an engine
that is seeded and holds no key. -/
theorem C13_witness :
    (flagSet (GS_initState toy toyRaw).state GS_SEEDED = false
        ∧ flagSet toySeeded.state GS_SEEDED = true
        ∧ flagSet toySeeded.state GS_GROUP_PRIVKEY = false
        ∧ flagSet toySeeded.state GS_USERCREDS = false
        ∧ flagSet toySeeded.state GS_GROUP_PUBKEY = false)
      ∧ GS_setupGroup toy toyStack (GS_initState toy toyRaw) = (GS_NOT_SEEDED, GS_initState toy toyRaw)
      ∧ GS_processJoin toy toySeeded [4, 5, 6, 0, 7] 5 [110] [] 100
          = (GS_NOT_SET_GROUP_PRIVATE_KEY, toySeeded, [], 100)
      ∧ GS_sign toy 0 toySeeded [104, 105] [98] [] 100
          = some (GS_NOT_SET_USER_CREDENTIALS, toySeeded, [], 100)
      ∧ GS_verify toy 0 toySeeded [104, 105] [98] [] 100
          = some (GS_NOT_SET_GROUP_PUBLIC_KEY, toySeeded)
      ∧ GS_exportGroupPrivKey toy toyStack toySeeded [] 100 = (GS_NOT_SET_GROUP_PRIVATE_KEY, [], 100)
      ∧ GS_exportUserCredentials toy toySeeded [] 100
          = (GS_NOT_SET_USER_CREDENTIALS, [], 100) :=
  ⟨⟨by decide, by decide, by decide, by decide, by decide⟩,
    ((C13_state_sequencing toyStack 0 (GS_initState toy toyRaw) [110] [] [4, 5, 6, 0, 7] [] [104, 105]
      [98] [] 100 100 5 100).1 (by decide)).1,
    (C13_state_sequencing toyStack 0 toySeeded [110] [] [4, 5, 6, 0, 7] [] [104, 105] [98] [] 100 100 5
      100).2.1 (by decide) (by decide),
    (C13_state_sequencing toyStack 0 toySeeded [110] [] [4, 5, 6, 0, 7] [] [104, 105] [98] [] 100 100 5
      100).2.2.1 (by decide) (by decide),
    ((C13_state_sequencing toyStack 0 toySeeded [110] [] [4, 5, 6, 0, 7] [] [104, 105] [98] [] 100 100 5
      100).2.2.2.1 (by decide)).1,
    (C13_state_sequencing toyStack 0 toySeeded [110] [] [4, 5, 6, 0, 7] [] [104, 105] [98] [] 100 100 5
      100).2.2.2.2.1 (by decide),
    (C13_state_sequencing toyStack 0 toySeeded [110] [] [4, 5, 6, 0, 7] [] [104, 105] [98] [] 100 100 5
      100).2.2.2.2.2 (by decide)⟩

/-- C14. Installing a group key resets downstream flags: after a successful
`GS_setupGroup` or `GS_loadGroupPrivKey` the flags are the old `GS_SEEDED`
plus `GS_GROUP_PRIVKEY` and `GS_GROUP_PUBKEY`; after a successful
`GS_loadGroupPubKey` they are the old `GS_SEEDED` plus `GS_GROUP_PUBKEY`; after
a failed load they are the old `GS_SEEDED` alone; and `GS_USERCREDS` is unset
after each of these calls. -/
theorem C14_install_resets_flags (stack : Stack L) (st : GS_State L) (data : List Nat)
    (len : Int) :
    ((GS_setupGroup L stack st).1 = GS_RETURN_SUCCESS →
        (∀ flag, flagSet (GS_setupGroup L stack st).2.state flag
          = ((flagSet st.state flag && decide (flag = GS_SEEDED))
              || decide (flag = GS_GROUP_PRIVKEY) || decide (flag = GS_GROUP_PUBKEY)))
          ∧ flagSet (GS_setupGroup L stack st).2.state GS_USERCREDS = false)
      ∧ ((GS_loadGroupPrivKey L stack st data len).1 = GS_RETURN_SUCCESS →
          ∀ flag, flagSet (GS_loadGroupPrivKey L stack st data len).2.state flag
            = ((flagSet st.state flag && decide (flag = GS_SEEDED))
                || decide (flag = GS_GROUP_PRIVKEY) || decide (flag = GS_GROUP_PUBKEY)))
      ∧ ((GS_loadGroupPubKey L stack st data len).1 = GS_RETURN_SUCCESS →
          ∀ flag, flagSet (GS_loadGroupPubKey L stack st data len).2.state flag
            = ((flagSet st.state flag && decide (flag = GS_SEEDED))
                || decide (flag = GS_GROUP_PUBKEY)))
      ∧ ((GS_loadGroupPrivKey L stack st data len).1 ≠ GS_RETURN_SUCCESS →
          ∀ flag, flagSet (GS_loadGroupPrivKey L stack st data len).2.state flag
            = (flagSet st.state flag && decide (flag = GS_SEEDED)))
      ∧ ((GS_loadGroupPubKey L stack st data len).1 ≠ GS_RETURN_SUCCESS →
          ∀ flag, flagSet (GS_loadGroupPubKey L stack st data len).2.state flag
            = (flagSet st.state flag && decide (flag = GS_SEEDED)))
      ∧ flagSet (GS_loadGroupPrivKey L stack st data len).2.state GS_USERCREDS = false
      ∧ flagSet (GS_loadGroupPubKey L stack st data len).2.state GS_USERCREDS = false := by
  refine ⟨fun h => ?_, fun h flag => ?_, fun h flag => ?_, fun h flag => ?_, fun h flag => ?_,
    ?_, ?_⟩
  · by_cases hs : flagSet st.state GS_SEEDED = true
    · simp only [GS_setupGroup, hs, Bool.not_true, Bool.false_eq_true, if_false]
      refine ⟨fun flag => ?_, ?_⟩
      · rw [flagSet_or, flagSet_or, flagSet_and]
      · rw [flagSet_or, flagSet_or, flagSet_and]
        simp [GS_USERCREDS, GS_SEEDED, GS_GROUP_PRIVKEY, GS_GROUP_PUBKEY]
    · simp [GS_setupGroup, hs] at h
  · by_cases hr : (deserialize_group_private_key L stack { len := 0, max := len, val := data }
        st._priv).1 = true
    · simp only [GS_loadGroupPrivKey, hr, Bool.not_true, Bool.false_eq_true, if_false]
      rw [flagSet_or, flagSet_or, flagSet_and]
    · simp [GS_loadGroupPrivKey, hr] at h
  · by_cases hr : (deserialize_group_public_key L stack { len := 0, max := len, val := data }
        st._priv.pub).1 = true
    · simp only [GS_loadGroupPubKey, hr, Bool.not_true, Bool.false_eq_true, if_false]
      rw [flagSet_or, flagSet_and]
    · simp [GS_loadGroupPubKey, hr] at h
  · by_cases hr : (deserialize_group_private_key L stack { len := 0, max := len, val := data }
        st._priv).1 = true
    · simp [GS_loadGroupPrivKey, hr] at h
    · simp only [GS_loadGroupPrivKey, hr, Bool.not_false, if_true]
      rw [flagSet_and]
  · by_cases hr : (deserialize_group_public_key L stack { len := 0, max := len, val := data }
        st._priv.pub).1 = true
    · simp [GS_loadGroupPubKey, hr] at h
    · simp only [GS_loadGroupPubKey, hr, Bool.not_false, if_true]
      rw [flagSet_and]
  · by_cases hr : (deserialize_group_private_key L stack { len := 0, max := len, val := data }
        st._priv).1 = true
    · simp only [GS_loadGroupPrivKey, hr, Bool.not_true, Bool.false_eq_true, if_false]
      rw [flagSet_or, flagSet_or, flagSet_and]
      simp [GS_USERCREDS, GS_SEEDED, GS_GROUP_PRIVKEY, GS_GROUP_PUBKEY]
    · simp only [GS_loadGroupPrivKey, hr, Bool.not_false, if_true]
      rw [flagSet_and]
      simp [GS_USERCREDS, GS_SEEDED]
  · by_cases hr : (deserialize_group_public_key L stack { len := 0, max := len, val := data }
        st._priv.pub).1 = true
    · simp only [GS_loadGroupPubKey, hr, Bool.not_true, Bool.false_eq_true, if_false]
      rw [flagSet_or, flagSet_and]
      simp [GS_USERCREDS, GS_SEEDED, GS_GROUP_PUBKEY]
    · simp only [GS_loadGroupPubKey, hr, Bool.not_false, if_true]
      rw [flagSet_and]
      simp [GS_USERCREDS, GS_SEEDED]

/-- C14 at the small library: an engine that is seeded and holds user
credentials runs `GS_setupGroup`, loads the private and the public key of
`toyGroupKey`, and loads a truncated public key. -/
theorem C14_witness :
    ((GS_setupGroup toy toyStack (toyUser [3, 8])).1 = GS_RETURN_SUCCESS
        ∧ (GS_loadGroupPrivKey toy toyStack (toyUser [3, 8])
            (wire_group_private_key toy toyStack toyGroupKey) 14).1 = GS_RETURN_SUCCESS
        ∧ (GS_loadGroupPubKey toy toyStack (toyUser [3, 8])
            (wire_group_public_key toy toyStack toyGroupKey.pub) 12).1 = GS_RETURN_SUCCESS
        ∧ (GS_loadGroupPubKey toy toyStack (toyUser [3, 8])
            (wire_group_public_key toy toyStack toyGroupKey.pub) 11).1 ≠ GS_RETURN_SUCCESS)
      ∧ flagSet (GS_setupGroup toy toyStack (toyUser [3, 8])).2.state GS_USERCREDS = false
      ∧ (∀ flag, flagSet (GS_loadGroupPrivKey toy toyStack (toyUser [3, 8])
            (wire_group_private_key toy toyStack toyGroupKey) 14).2.state flag
          = ((flagSet (toyUser [3, 8]).state flag && decide (flag = GS_SEEDED))
              || decide (flag = GS_GROUP_PRIVKEY) || decide (flag = GS_GROUP_PUBKEY)))
      ∧ (∀ flag, flagSet (GS_loadGroupPubKey toy toyStack (toyUser [3, 8])
            (wire_group_public_key toy toyStack toyGroupKey.pub) 12).2.state flag
          = ((flagSet (toyUser [3, 8]).state flag && decide (flag = GS_SEEDED))
              || decide (flag = GS_GROUP_PUBKEY)))
      ∧ (∀ flag, flagSet (GS_loadGroupPubKey toy toyStack (toyUser [3, 8])
            (wire_group_public_key toy toyStack toyGroupKey.pub) 11).2.state flag
          = (flagSet (toyUser [3, 8]).state flag && decide (flag = GS_SEEDED))) :=
  ⟨⟨by decide, by decide, by decide, by decide⟩,
    ((C14_install_resets_flags toyStack (toyUser [3, 8]) [] 0).1 (by decide)).2,
    (C14_install_resets_flags toyStack (toyUser [3, 8]) (wire_group_private_key toy toyStack toyGroupKey) 14).2.1
      (by decide),
    (C14_install_resets_flags toyStack (toyUser [3, 8]) (wire_group_public_key toy toyStack toyGroupKey.pub)
      12).2.2.1 (by decide),
    (C14_install_resets_flags toyStack (toyUser [3, 8]) (wire_group_public_key toy toyStack toyGroupKey.pub)
      11).2.2.2.2.1 (by decide)⟩

end Flags

/-! ## Loading keys and credentials -/

section Loads

variable {L}
variable {stack stack' : Stack L} {qxy : L.FP × L.FP × L.FP × L.FP}

/-- When `deserialize_user_credentials` returns non-zero: the four points fit
below the capacity and each of them decodes; the cursor then stands after the
four points. -/
theorem deserialize_user_credentials_iff (len max : Int) (val : List Nat)
    (out : UserCredentials L) :
    ((deserialize_user_credentials L { len := len, max := max, val := val } out).1 = true
        ↔ len + (ECPSIZE L : Nat) + (ECPSIZE L : Nat) + (ECPSIZE L : Nat) + (ECPSIZE L : Nat) ≤ max
          ∧ (L.ECP_fromOctet out.A (val.drop len.toNat)).1 = true
          ∧ (L.ECP_fromOctet out.B (val.drop (len + (ECPSIZE L : Nat)).toNat)).1 = true
          ∧ (L.ECP_fromOctet out.C
              (val.drop (len + (ECPSIZE L : Nat) + (ECPSIZE L : Nat)).toNat)).1 = true
          ∧ (L.ECP_fromOctet out.D
              (val.drop (len + (ECPSIZE L : Nat) + (ECPSIZE L : Nat)
                + (ECPSIZE L : Nat)).toNat)).1 = true)
      ∧ ((deserialize_user_credentials L { len := len, max := max, val := val } out).1 = true →
          (deserialize_user_credentials L { len := len, max := max, val := val } out).2.1
            = { len := len + (ECPSIZE L : Nat) + (ECPSIZE L : Nat) + (ECPSIZE L : Nat)
                  + (ECPSIZE L : Nat), max := max, val := val }) := by
  have hE : (0 : Int) ≤ (ECPSIZE L : Nat) := Int.natCast_nonneg _
  simp only [deserialize_user_credentials, deserialize_ECP]
  generalize ((ECPSIZE L : Nat) : Int) = E at hE ⊢
  by_cases h1 : len + E ≤ max
  swap
  · refine ⟨⟨fun h => ?_, fun h => absurd (by omega) h1⟩, fun h => ?_⟩ <;> simp [h1] at h
  by_cases hA : (L.ECP_fromOctet out.A (val.drop len.toNat)).1 = true
  swap
  · refine ⟨⟨fun h => ?_, fun h => absurd h.2.1 hA⟩, fun h => ?_⟩ <;> simp [h1, hA] at h
  by_cases h2 : len + E + E ≤ max
  swap
  · refine ⟨⟨fun h => ?_, fun h => absurd (by omega) h2⟩, fun h => ?_⟩ <;>
      simp [h1, hA, h2] at h
  by_cases hB : (L.ECP_fromOctet out.B (val.drop (len + E).toNat)).1 = true
  swap
  · refine ⟨⟨fun h => ?_, fun h => absurd h.2.2.1 hB⟩, fun h => ?_⟩ <;>
      simp [h1, hA, h2, hB] at h
  by_cases h3 : len + E + E + E ≤ max
  swap
  · refine ⟨⟨fun h => ?_, fun h => absurd (by omega) h3⟩, fun h => ?_⟩ <;>
      simp [h1, hA, h2, hB, h3] at h
  by_cases hC : (L.ECP_fromOctet out.C (val.drop (len + E + E).toNat)).1 = true
  swap
  · refine ⟨⟨fun h => ?_, fun h => absurd h.2.2.2.1 hC⟩, fun h => ?_⟩ <;>
      simp [h1, hA, h2, hB, h3, hC] at h
  by_cases h4 : len + E + E + E + E ≤ max
  swap
  · refine ⟨⟨fun h => ?_, fun h => absurd h.1 h4⟩, fun h => ?_⟩ <;>
      simp [h1, hA, h2, hB, h3, hC, h4] at h
  simp [h1, hA, h2, hB, h3, hC, h4]

/-- When `deserialize_user_private_key` returns non-zero: the four points and
the scalar fit below the capacity and each point decodes. -/
theorem deserialize_user_private_key_iff (len max : Int) (val : List Nat)
    (out : UserPrivateKey L) :
    (deserialize_user_private_key L { len := len, max := max, val := val } out).1 = true
      ↔ len + (ECPSIZE L : Nat) + (ECPSIZE L : Nat) + (ECPSIZE L : Nat) + (ECPSIZE L : Nat)
            + (BIGSIZE L : Nat) ≤ max
        ∧ (L.ECP_fromOctet out.cred.A (val.drop len.toNat)).1 = true
        ∧ (L.ECP_fromOctet out.cred.B (val.drop (len + (ECPSIZE L : Nat)).toNat)).1 = true
        ∧ (L.ECP_fromOctet out.cred.C
            (val.drop (len + (ECPSIZE L : Nat) + (ECPSIZE L : Nat)).toNat)).1 = true
        ∧ (L.ECP_fromOctet out.cred.D
            (val.drop (len + (ECPSIZE L : Nat) + (ECPSIZE L : Nat)
              + (ECPSIZE L : Nat)).toNat)).1 = true := by
  obtain ⟨hiff, hcur⟩ := deserialize_user_credentials_iff len max val out.cred
  have hB : (0 : Int) ≤ (BIGSIZE L : Nat) := Int.natCast_nonneg _
  unfold deserialize_user_private_key
  rcases hd : deserialize_user_credentials L { len := len, max := max, val := val } out.cred
    with ⟨r, o1, cred⟩
  rw [hd] at hiff hcur
  cases r
  · simp only [Bool.false_eq_true, false_iff] at hiff ⊢
    intro h
    exact hiff ⟨by omega, h.2⟩
  · have ho : o1 = _ := hcur rfl
    subst ho
    simp only [true_iff] at hiff
    simp only [deserialize_BIG]
    by_cases h5 : len + (ECPSIZE L : Nat) + (ECPSIZE L : Nat) + (ECPSIZE L : Nat)
        + (ECPSIZE L : Nat) + (BIGSIZE L : Nat) ≤ max
    · simp only [h5, if_true, true_and]
      exact ⟨fun _ => hiff.2, fun _ => trivial⟩
    · simp only [h5, if_false, false_and]
      simp

/-- When `deserialize_group_public_key` returns non-zero: the six fields fit
below the capacity, `X` and `Y` decode and the key read passes
`verifyGroupPublicKey`; the cursor then stands after the six fields and the
record holds the key read. -/
theorem deserialize_group_public_key_iff (len max : Int) (val : List Nat)
    (out : GroupPublicKey L) :
    let E : Int := (ECP2SIZE L : Nat)
    let B : Int := (BIGSIZE L : Nat)
    let X := ECP2_fromOctet_compatibility L out.X (val.drop len.toNat)
    let Y := ECP2_fromOctet_compatibility L out.Y (val.drop (len + E).toNat)
    let pk : GroupPublicKey L :=
      { X := X.2, Y := Y.2,
        cx := BIG_fromBytes (sliceBytes val (len + E + E).toNat L.MODBYTES),
        sx := BIG_fromBytes (sliceBytes val (len + E + E + B).toNat L.MODBYTES),
        cy := BIG_fromBytes (sliceBytes val (len + E + E + B + B).toNat L.MODBYTES),
        sy := BIG_fromBytes (sliceBytes val (len + E + E + B + B + B).toNat L.MODBYTES) }
    ((deserialize_group_public_key L stack { len := len, max := max, val := val } out).1 = true
        ↔ len + E + E + B + B + B + B ≤ max ∧ X.1 = true ∧ Y.1 = true
          ∧ verifyGroupPublicKey L stack pk = true)
      ∧ ((deserialize_group_public_key L stack { len := len, max := max, val := val } out).1 = true →
          (deserialize_group_public_key L stack { len := len, max := max, val := val } out).2
            = ({ len := len + E + E + B + B + B + B, max := max, val := val }, pk)) := by
  have hE : (0 : Int) ≤ (ECP2SIZE L : Nat) := Int.natCast_nonneg _
  have hB : (0 : Int) ≤ (BIGSIZE L : Nat) := Int.natCast_nonneg _
  simp only [deserialize_group_public_key, deserialize_ECP2, deserialize_BIG]
  generalize ((ECP2SIZE L : Nat) : Int) = E at hE ⊢
  generalize ((BIGSIZE L : Nat) : Int) = B at hB ⊢
  by_cases h1 : len + E ≤ max
  swap
  · refine ⟨⟨fun h => ?_, fun h => absurd (by omega) h1⟩, fun h => ?_⟩ <;> simp [h1] at h
  by_cases hX : (ECP2_fromOctet_compatibility L out.X (val.drop len.toNat)).1 = true
  swap
  · refine ⟨⟨fun h => ?_, fun h => absurd h.2.1 hX⟩, fun h => ?_⟩ <;>
      simp [h1, hX] at h
  by_cases h2 : len + E + E ≤ max
  swap
  · refine ⟨⟨fun h => ?_, fun h => absurd (by omega) h2⟩, fun h => ?_⟩ <;>
      simp [h1, hX, h2] at h
  by_cases hY : (ECP2_fromOctet_compatibility L out.Y (val.drop (len + E).toNat)).1 = true
  swap
  · refine ⟨⟨fun h => ?_, fun h => absurd h.2.2.1 hY⟩, fun h => ?_⟩ <;>
      simp [h1, hX, h2, hY] at h
  by_cases h3 : len + E + E + B ≤ max
  swap
  · refine ⟨⟨fun h => ?_, fun h => absurd (by omega) h3⟩, fun h => ?_⟩ <;>
      simp [h1, hX, h2, hY, h3] at h
  by_cases h4 : len + E + E + B + B ≤ max
  swap
  · refine ⟨⟨fun h => ?_, fun h => absurd (by omega) h4⟩, fun h => ?_⟩ <;>
      simp [h1, hX, h2, hY, h3, h4] at h
  by_cases h5 : len + E + E + B + B + B ≤ max
  swap
  · refine ⟨⟨fun h => ?_, fun h => absurd (by omega) h5⟩, fun h => ?_⟩ <;>
      simp [h1, hX, h2, hY, h3, h4, h5] at h
  by_cases h6 : len + E + E + B + B + B + B ≤ max
  swap
  · refine ⟨⟨fun h => ?_, fun h => absurd h.1 h6⟩, fun h => ?_⟩ <;>
      simp [h1, hX, h2, hY, h3, h4, h5, h6] at h
  simp [h1, hX, h2, hY, h3, h4, h5, h6]

/-- When `deserialize_group_private_key` returns non-zero: the eight fields
fit below the capacity, `X` and `Y` decode, the public key read passes
`verifyGroupPublicKey` and the key read passes `_checkPrivateKey`. -/
theorem deserialize_group_private_key_iff (len max : Int) (val : List Nat)
    (out : GroupPrivateKey L) :
    let E : Int := (ECP2SIZE L : Nat)
    let B : Int := (BIGSIZE L : Nat)
    let X := ECP2_fromOctet_compatibility L out.pub.X (val.drop len.toNat)
    let Y := ECP2_fromOctet_compatibility L out.pub.Y (val.drop (len + E).toNat)
    let pk : GroupPublicKey L :=
      { X := X.2, Y := Y.2,
        cx := BIG_fromBytes (sliceBytes val (len + E + E).toNat L.MODBYTES),
        sx := BIG_fromBytes (sliceBytes val (len + E + E + B).toNat L.MODBYTES),
        cy := BIG_fromBytes (sliceBytes val (len + E + E + B + B).toNat L.MODBYTES),
        sy := BIG_fromBytes (sliceBytes val (len + E + E + B + B + B).toNat L.MODBYTES) }
    let key : GroupPrivateKey L :=
      { pub := pk,
        x := BIG_fromBytes (sliceBytes val (len + E + E + B + B + B + B).toNat L.MODBYTES),
        y := BIG_fromBytes (sliceBytes val (len + E + E + B + B + B + B + B).toNat L.MODBYTES) }
    (deserialize_group_private_key L stack { len := len, max := max, val := val } out).1 = true
      ↔ len + E + E + B + B + B + B + B + B ≤ max ∧ X.1 = true ∧ Y.1 = true
        ∧ verifyGroupPublicKey L stack pk = true ∧ _checkPrivateKey L key = true := by
  obtain ⟨hiff, hcur⟩ := deserialize_group_public_key_iff len max val out.pub
  have hB : (0 : Int) ≤ (BIGSIZE L : Nat) := Int.natCast_nonneg _
  simp only [deserialize_group_private_key]
  rcases hd : deserialize_group_public_key L stack { len := len, max := max, val := val } out.pub
    with ⟨r, o1, pub⟩
  rw [hd] at hiff hcur
  cases r
  · simp only [Bool.false_eq_true, false_iff] at hiff ⊢
    intro h
    exact hiff ⟨by omega, h.2.1, h.2.2.1, h.2.2.2.1⟩
  · have ho := hcur rfl
    simp only [Prod.mk.injEq] at ho
    obtain ⟨ho1, ho2⟩ := ho
    subst ho1 ho2
    simp only [true_iff] at hiff
    simp only [deserialize_BIG]
    generalize ((BIGSIZE L : Nat) : Int) = B at hB hiff ⊢
    generalize ((ECP2SIZE L : Nat) : Int) = E at hiff ⊢
    by_cases h7 : len + E + E + B + B + B + B + B ≤ max
    swap
    · refine ⟨fun h => ?_, fun h => absurd (by omega) h7⟩
      simp [h7] at h
    by_cases h8 : len + E + E + B + B + B + B + B + B ≤ max
    swap
    · refine ⟨fun h => ?_, fun h => absurd h.1 h8⟩
      simp [h7, h8] at h
    simp [h7, h8, hiff.2.1, hiff.2.2.1, hiff.2.2.2]

/-- C11 as stated fails: the bytes of a group public key that
`GS_loadGroupPubKey` accepts at length `12 * MODBYTES` are rejected at every
length from `8 * MODBYTES` to `12 * MODBYTES - 1`, and the bytes of a group
private key that `GS_loadGroupPrivKey` accepts at length `14 * MODBYTES` are
rejected at lengths `10 * MODBYTES` and `14 * MODBYTES - 1`. -/
theorem C11_counterexample :
    (GS_loadGroupPubKey toy toyStack toySeeded (wire_group_public_key toy toyStack toyGroupKey.pub) 12).1
        = GS_RETURN_SUCCESS
      ∧ (((8 * toy.MODBYTES : Nat) : Int) ≤ 8
        ∧ (GS_loadGroupPubKey toy toyStack toySeeded (wire_group_public_key toy toyStack toyGroupKey.pub) 8).1
            = GS_INVALID_GROUP_PUBLIC_KEY)
      ∧ (((8 * toy.MODBYTES : Nat) : Int) ≤ 11
        ∧ (GS_loadGroupPubKey toy toyStack toySeeded (wire_group_public_key toy toyStack toyGroupKey.pub) 11).1
            = GS_INVALID_GROUP_PUBLIC_KEY)
      ∧ (GS_loadGroupPrivKey toy toyStack toySeeded (wire_group_private_key toy toyStack toyGroupKey) 14).1
          = GS_RETURN_SUCCESS
      ∧ (((10 * toy.MODBYTES : Nat) : Int) ≤ 10
        ∧ (GS_loadGroupPrivKey toy toyStack toySeeded (wire_group_private_key toy toyStack toyGroupKey) 10).1
            = GS_INVALID_GROUP_PRIVATE_KEY)
      ∧ (((10 * toy.MODBYTES : Nat) : Int) ≤ 13
        ∧ (GS_loadGroupPrivKey toy toyStack toySeeded (wire_group_private_key toy toyStack toyGroupKey) 13).1
            = GS_INVALID_GROUP_PRIVATE_KEY) := by
  decide

/-- C11, amended. Group key validation on load: `GS_loadGroupPrivKey` returns
success exactly when the buffer holds at least `14 * MODBYTES` bytes, `X` and
`Y` decode to points of G2, both Schnorr proofs `(cx, sx)` and `(cy, sy)`
verify against the base `g2`, and `x g2 = X`, `y g2 = Y`; in every other case
it returns `GS_INVALID_GROUP_PRIVATE_KEY`. `GS_loadGroupPubKey` returns success
exactly when the first three conditions hold with `12 * MODBYTES` bytes, and
otherwise returns `GS_INVALID_GROUP_PUBLIC_KEY`.  The two proofs are verified
on the stack the call meets, the second from its fourth entry on. -/
theorem C11_group_key_validation (stack : Stack L) (st : GS_State L) (data : List Nat)
    (len : Int) :
    let MB := L.MODBYTES
    let X := ECP2_fromOctet_compatibility L st._priv.pub.X data
    let Y := ECP2_fromOctet_compatibility L st._priv.pub.Y (data.drop (4 * MB))
    let big := fun k : Nat => BIG_fromBytes (sliceBytes data (k * MB) MB)
    let pubOK := X.1 = true ∧ Y.1 = true
      ∧ verifyECP2Proof L stack L.g2 X.2 (big 8) (big 9) = true
      ∧ verifyECP2Proof L (fun i => stack (i + 3)) L.g2 Y.2 (big 10) (big 11) = true
    ((GS_loadGroupPrivKey L stack st data len).1 = GS_RETURN_SUCCESS
        ↔ ((14 * MB : Nat) : Int) ≤ len ∧ pubOK ∧ big 12 • L.g2 = X.2 ∧ big 13 • L.g2 = Y.2)
      ∧ ((GS_loadGroupPrivKey L stack st data len).1 = GS_RETURN_SUCCESS
          ∨ (GS_loadGroupPrivKey L stack st data len).1 = GS_INVALID_GROUP_PRIVATE_KEY)
      ∧ ((GS_loadGroupPubKey L stack st data len).1 = GS_RETURN_SUCCESS
          ↔ ((12 * MB : Nat) : Int) ≤ len ∧ pubOK)
      ∧ ((GS_loadGroupPubKey L stack st data len).1 = GS_RETURN_SUCCESS
          ∨ (GS_loadGroupPubKey L stack st data len).1 = GS_INVALID_GROUP_PUBLIC_KEY) := by
  intro MB X Y big pubOK
  have hpriv := @deserialize_group_private_key_iff L stack 0 len data st._priv
  have hpub := (@deserialize_group_public_key_iff L stack 0 len data st._priv.pub).1
  have o1 : ((0 : Int) + (ECP2SIZE L : Nat)).toNat = 4 * MB := by
    simp only [ECP2SIZE, MB]
    omega
  have o2 : ((0 : Int) + (ECP2SIZE L : Nat) + (ECP2SIZE L : Nat)).toNat = 8 * MB := by
    simp only [ECP2SIZE, MB]
    omega
  have o3 : ((0 : Int) + (ECP2SIZE L : Nat) + (ECP2SIZE L : Nat) + (BIGSIZE L : Nat)).toNat
      = 9 * MB := by
    simp only [ECP2SIZE, BIGSIZE, MB]
    omega
  have o4 : ((0 : Int) + (ECP2SIZE L : Nat) + (ECP2SIZE L : Nat) + (BIGSIZE L : Nat)
      + (BIGSIZE L : Nat)).toNat = 10 * MB := by
    simp only [ECP2SIZE, BIGSIZE, MB]
    omega
  have o5 : ((0 : Int) + (ECP2SIZE L : Nat) + (ECP2SIZE L : Nat) + (BIGSIZE L : Nat)
      + (BIGSIZE L : Nat) + (BIGSIZE L : Nat)).toNat = 11 * MB := by
    simp only [ECP2SIZE, BIGSIZE, MB]
    omega
  have o6 : ((0 : Int) + (ECP2SIZE L : Nat) + (ECP2SIZE L : Nat) + (BIGSIZE L : Nat)
      + (BIGSIZE L : Nat) + (BIGSIZE L : Nat) + (BIGSIZE L : Nat)).toNat = 12 * MB := by
    simp only [ECP2SIZE, BIGSIZE, MB]
    omega
  have o7 : ((0 : Int) + (ECP2SIZE L : Nat) + (ECP2SIZE L : Nat) + (BIGSIZE L : Nat)
      + (BIGSIZE L : Nat) + (BIGSIZE L : Nat) + (BIGSIZE L : Nat)
      + (BIGSIZE L : Nat)).toNat = 13 * MB := by
    simp only [ECP2SIZE, BIGSIZE, MB]
    omega
  have c12 : (0 : Int) + (ECP2SIZE L : Nat) + (ECP2SIZE L : Nat) + (BIGSIZE L : Nat)
      + (BIGSIZE L : Nat) + (BIGSIZE L : Nat) + (BIGSIZE L : Nat) = ((12 * MB : Nat) : Int) := by
    simp only [ECP2SIZE, BIGSIZE, MB]
    omega
  have c14 : (0 : Int) + (ECP2SIZE L : Nat) + (ECP2SIZE L : Nat) + (BIGSIZE L : Nat)
      + (BIGSIZE L : Nat) + (BIGSIZE L : Nat) + (BIGSIZE L : Nat) + (BIGSIZE L : Nat)
      + (BIGSIZE L : Nat) = ((14 * MB : Nat) : Int) := by
    simp only [ECP2SIZE, BIGSIZE, MB]
    omega
  dsimp only at hpriv hpub
  rw [c14, o1, o2, o3, o4, o5, o6, o7] at hpriv
  rw [c12, o1, o2, o3, o4, o5] at hpub
  simp only [Int.toNat_zero, List.drop_zero, verifyGroupPublicKey, _checkPrivateKey, setG2,
    PAIR_G2mul, Bool.and_eq_true, decide_eq_true_eq] at hpriv hpub
  have hP : ((GS_loadGroupPrivKey L stack st data len).1 = GS_RETURN_SUCCESS
        ↔ (deserialize_group_private_key L stack { len := 0, max := len, val := data } st._priv).1
            = true)
      ∧ ((GS_loadGroupPrivKey L stack st data len).1 = GS_RETURN_SUCCESS
          ∨ (GS_loadGroupPrivKey L stack st data len).1 = GS_INVALID_GROUP_PRIVATE_KEY) := by
    by_cases hr : (deserialize_group_private_key L stack { len := 0, max := len, val := data }
        st._priv).1 = true
    · simp [GS_loadGroupPrivKey, hr]
    · simp [GS_loadGroupPrivKey, hr]
  have hQ : ((GS_loadGroupPubKey L stack st data len).1 = GS_RETURN_SUCCESS
        ↔ (deserialize_group_public_key L stack { len := 0, max := len, val := data }
            st._priv.pub).1 = true)
      ∧ ((GS_loadGroupPubKey L stack st data len).1 = GS_RETURN_SUCCESS
          ∨ (GS_loadGroupPubKey L stack st data len).1 = GS_INVALID_GROUP_PUBLIC_KEY) := by
    by_cases hr : (deserialize_group_public_key L stack { len := 0, max := len, val := data }
        st._priv.pub).1 = true
    · simp [GS_loadGroupPubKey, hr]
    · simp [GS_loadGroupPubKey, hr]
  refine ⟨hP.1.trans (hpriv.trans ?_), hP.2, hQ.1.trans (hpub.trans ?_), hQ.2⟩
  · simp only [pubOK, big, X, Y, MB, and_assoc]
  · simp only [pubOK, big, X, Y, MB, and_assoc]

/-- C11 (amended) at the small library: a seeded engine loads the fourteen
bytes of `toyGroupKey` and the twelve bytes of its public key. -/
theorem C11_witness :
    ((GS_loadGroupPrivKey toy toyStack toySeeded (wire_group_private_key toy toyStack toyGroupKey) 14).1
        = GS_RETURN_SUCCESS
      ∧ (GS_loadGroupPubKey toy toyStack toySeeded (wire_group_public_key toy toyStack toyGroupKey.pub) 12).1
        = GS_RETURN_SUCCESS)
      ∧ ((14 * toy.MODBYTES : Nat) : Int) ≤ 14 ∧ ((12 * toy.MODBYTES : Nat) : Int) ≤ 12 :=
  ⟨⟨by decide, by decide⟩,
    ((C11_group_key_validation toyStack toySeeded (wire_group_private_key toy toyStack toyGroupKey) 14).1.mp
      (by decide)).1,
    ((C11_group_key_validation toyStack toySeeded (wire_group_public_key toy toyStack toyGroupKey.pub)
      12).2.2.1.mp (by decide)).1⟩

/-- The flags after `state &= ~(1 << g)`, for a flag `g` of the 32-bit word. -/
theorem flagSet_and_not (s g f : Nat) (hg : g < 32) :
    flagSet (s &&& notFlag g) f = (flagSet s f && (decide (f < 32) && !decide (f = g))) := by
  have hlt : 2 ^ g < 2 ^ 32 := Nat.pow_lt_pow_right (by decide) hg
  have hn : notFlag g = 2 ^ 32 - (2 ^ g + 1) := by
    unfold notFlag
    rw [Nat.one_shiftLeft]
    omega
  rw [flagSet_eq_testBit, flagSet_eq_testBit, Nat.testBit_and, hn,
    Nat.testBit_two_pow_sub_succ hlt, Nat.testBit_two_pow]
  by_cases h : g = f
  · subst h
    simp
  · have h2 : ¬ f = g := fun e => h e.symm
    simp [h, h2]

/-- C15. `GS_loadUserCredentials` changes no flag of the state word other than
`GS_USERCREDS`; it returns success exactly when the buffer holds at least
`4 * (2 * MODBYTES + 1) + MODBYTES` bytes and the four encodings of `A`, `B`,
`C`, `D` decode, and then `GS_USERCREDS` is set; in every other case it returns
`GS_INVALID_USER_CREDENTIALS` and `GS_USERCREDS` is cleared. -/
theorem C15_load_user_credentials (st : GS_State L) (inp : List Nat) (in_len : Int) :
    (∀ flag, flag < 32 → flag ≠ GS_USERCREDS →
        flagSet (GS_loadUserCredentials L st inp in_len).2.state flag = flagSet st.state flag)
      ∧ ((GS_loadUserCredentials L st inp in_len).1 = GS_RETURN_SUCCESS
          ↔ ((4 * (2 * L.MODBYTES + 1) + L.MODBYTES : Nat) : Int) ≤ in_len
            ∧ (L.ECP_fromOctet st._userPriv.cred.A inp).1 = true
            ∧ (L.ECP_fromOctet st._userPriv.cred.B (inp.drop (2 * L.MODBYTES + 1))).1 = true
            ∧ (L.ECP_fromOctet st._userPriv.cred.C
                (inp.drop (2 * (2 * L.MODBYTES + 1)))).1 = true
            ∧ (L.ECP_fromOctet st._userPriv.cred.D
                (inp.drop (3 * (2 * L.MODBYTES + 1)))).1 = true)
      ∧ ((GS_loadUserCredentials L st inp in_len).1 = GS_RETURN_SUCCESS →
          flagSet (GS_loadUserCredentials L st inp in_len).2.state GS_USERCREDS = true)
      ∧ ((GS_loadUserCredentials L st inp in_len).1 ≠ GS_RETURN_SUCCESS →
          (GS_loadUserCredentials L st inp in_len).1 = GS_INVALID_USER_CREDENTIALS
            ∧ flagSet (GS_loadUserCredentials L st inp in_len).2.state GS_USERCREDS = false) := by
  have hiff := deserialize_user_private_key_iff 0 in_len inp st._userPriv
  have e1 : ((0 : Int) + (ECPSIZE L : Nat)).toNat = 2 * L.MODBYTES + 1 := by
    simp only [ECPSIZE]
    omega
  have e2 : ((0 : Int) + (ECPSIZE L : Nat) + (ECPSIZE L : Nat)).toNat
      = 2 * (2 * L.MODBYTES + 1) := by
    simp only [ECPSIZE]
    omega
  have e3 : ((0 : Int) + (ECPSIZE L : Nat) + (ECPSIZE L : Nat) + (ECPSIZE L : Nat)).toNat
      = 3 * (2 * L.MODBYTES + 1) := by
    simp only [ECPSIZE]
    omega
  have e4 : (0 : Int) + (ECPSIZE L : Nat) + (ECPSIZE L : Nat) + (ECPSIZE L : Nat)
      + (ECPSIZE L : Nat) + (BIGSIZE L : Nat)
      = ((4 * (2 * L.MODBYTES + 1) + L.MODBYTES : Nat) : Int) := by
    simp only [ECPSIZE, BIGSIZE]
    omega
  rw [e1, e2, e3, e4] at hiff
  simp only [Int.toNat_zero, List.drop_zero] at hiff
  by_cases hr : (deserialize_user_private_key L { len := 0, max := in_len, val := inp }
      st._userPriv).1 = true
  · have hc := hiff.mp hr
    simp only [GS_loadUserCredentials, hr, Bool.not_true, Bool.false_eq_true, if_false]
    refine ⟨fun flag hf hne => ?_, ⟨fun _ => hc, fun _ => trivial⟩, fun _ => ?_,
      fun h => absurd rfl h⟩
    · rw [flagSet_or, flagSet_and_not _ _ _ (by decide)]
      simp [hf, hne]
    · rw [flagSet_or]
      simp
  · have hc := fun h => hr (hiff.mpr h)
    simp only [GS_loadUserCredentials, hr, Bool.not_false, if_true]
    refine ⟨fun flag hf hne => ?_, ⟨fun h => by simp at h, fun h => absurd h hc⟩,
      fun h => by simp at h, fun _ => ⟨trivial, ?_⟩⟩
    · rw [flagSet_and_not _ _ _ (by decide)]
      simp [hf, hne]
    · rw [flagSet_and_not _ _ _ (by decide)]
      simp

/-- C15 at the small library: a seeded engine loads the thirteen bytes of
`toyUserKey`. -/
theorem C15_witness :
    ((1 : Nat) < 32 ∧ (1 : Nat) ≠ GS_USERCREDS
        ∧ (GS_loadUserCredentials toy toySeeded (wire_user_private_key toy toyUserKey) 13).1
            = GS_RETURN_SUCCESS
        ∧ (GS_loadUserCredentials toy toySeeded (wire_user_private_key toy toyUserKey) 12).1
            ≠ GS_RETURN_SUCCESS)
      ∧ flagSet (GS_loadUserCredentials toy toySeeded
            (wire_user_private_key toy toyUserKey) 13).2.state 1 = flagSet toySeeded.state 1
      ∧ flagSet (GS_loadUserCredentials toy toySeeded
            (wire_user_private_key toy toyUserKey) 13).2.state GS_USERCREDS = true
      ∧ ((GS_loadUserCredentials toy toySeeded (wire_user_private_key toy toyUserKey) 12).1
            = GS_INVALID_USER_CREDENTIALS
          ∧ flagSet (GS_loadUserCredentials toy toySeeded
              (wire_user_private_key toy toyUserKey) 12).2.state GS_USERCREDS = false) :=
  ⟨⟨by decide, by decide, by decide, by decide⟩,
    (C15_load_user_credentials toySeeded (wire_user_private_key toy toyUserKey) 13).1 1
      (by decide) (by decide),
    (C15_load_user_credentials toySeeded (wire_user_private_key toy toyUserKey) 13).2.2.1
      (by decide),
    (C15_load_user_credentials toySeeded (wire_user_private_key toy toyUserKey) 12).2.2.2
      (by decide)⟩

end Loads

/-! ## Output capacities -/

section Capacity

variable {L}
variable {stack stack' : Stack L} {qxy : L.FP × L.FP × L.FP × L.FP}

/-- Every serializing entry point other than `GS_startJoin` leaves the caller's
length as it was when it returns `GS_OUTPUT_BUFFER_TOO_SMALL`. -/
theorem too_small_keeps_length (fuel : Nat) (st : GS_State L)
    (out joinmsg challenge publickey gsk joinresponse msg bsn signature : List Nat)
    (out_len joinmsg_len len_publickey len_gsk len sig_len : Int) :
    ((GS_exportGroupPrivKey L stack st out out_len).1 = GS_OUTPUT_BUFFER_TOO_SMALL →
        (GS_exportGroupPrivKey L stack st out out_len).2.2 = out_len)
      ∧ ((GS_exportGroupPubKey L stack st out out_len).1 = GS_OUTPUT_BUFFER_TOO_SMALL →
        (GS_exportGroupPubKey L stack st out out_len).2.2 = out_len)
      ∧ ((GS_exportUserCredentials L st out out_len).1 = GS_OUTPUT_BUFFER_TOO_SMALL →
        (GS_exportUserCredentials L st out out_len).2.2 = out_len)
      ∧ ((GS_processJoin L st joinmsg joinmsg_len challenge out out_len).1
          = GS_OUTPUT_BUFFER_TOO_SMALL →
        (GS_processJoin L st joinmsg joinmsg_len challenge out out_len).2.2.2 = out_len)
      ∧ ((GS_finishJoin L stack publickey len_publickey gsk len_gsk joinresponse len out out_len).1
          = GS_OUTPUT_BUFFER_TOO_SMALL →
        (GS_finishJoin L stack publickey len_publickey gsk len_gsk joinresponse len out out_len).2.2
          = out_len)
      ∧ (∀ r, GS_sign L fuel st msg bsn out out_len = some r →
          r.1 = GS_OUTPUT_BUFFER_TOO_SMALL → r.2.2.2 = out_len)
      ∧ ((GS_getSignatureTag L signature sig_len out out_len).1 = GS_OUTPUT_BUFFER_TOO_SMALL →
        (GS_getSignatureTag L signature sig_len out out_len).2.2 = out_len) := by
  refine ⟨?_, ?_, ?_, ?_, ?_, ?_, ?_⟩
  · simp only [GS_exportGroupPrivKey]
    split_ifs <;> simp
  · simp only [GS_exportGroupPubKey]
    split_ifs <;> simp
  · simp only [GS_exportUserCredentials]
    split_ifs <;> simp
  · simp only [GS_processJoin]
    split_ifs <;> simp
  · simp only [GS_finishJoin]
    split_ifs <;> simp
  · intro r hr
    simp only [GS_sign] at hr
    split_ifs at hr
    · cases hr
      simp
    · cases hr
      simp
    · cases hsig : sign L fuel st._rng st._userPriv msg bsn with
      | none => simp [hsig] at hr
      | some p =>
        simp only [hsig] at hr
        split_ifs at hr
        · cases hr
          simp
        · cases hr
          simp
  · simp only [GS_getSignatureTag]
    split_ifs <;> simp

/-- A serializer that appends `enc` fails on an empty octet exactly when the
capacity is below the length of `enc`. -/
theorem appends_fail_iff (f : octet → Bool × octet) (enc : List Nat) (hf : Appends f enc)
    (buf : List Nat) (cap : Int) :
    (f { len := 0, max := cap, val := buf }).1 = false ↔ cap < (enc.length : Int) := by
  by_cases h : (enc.length : Int) ≤ cap
  · rw [(appends_fresh f enc hf buf cap h).1]
    exact ⟨fun e => Bool.noConfusion e, fun e => absurd h (not_le.mpr e)⟩
  · exact ⟨fun _ => not_le.mp h, fun _ => appends_fresh_fail f enc hf buf cap h⟩

/-- The entry points with one output buffer return `GS_OUTPUT_BUFFER_TOO_SMALL`,
once their preconditions and the validation of their inputs pass, exactly when
the capacity is below the width of the record they write. -/
theorem too_small_iff_capacity (hL : L.Laws) (fuel : Nat) (st : GS_State L)
    (out joinmsg challenge msg bsn signature : List Nat) (out_len joinmsg_len sig_len : Int) :
    (flagSet st.state GS_GROUP_PRIVKEY = true →
        ((GS_exportGroupPrivKey L stack st out out_len).1 = GS_OUTPUT_BUFFER_TOO_SMALL
          ↔ out_len < ((14 * L.MODBYTES : Nat) : Int)))
      ∧ (flagSet st.state GS_GROUP_PUBKEY = true →
        ((GS_exportGroupPubKey L stack st out out_len).1 = GS_OUTPUT_BUFFER_TOO_SMALL
          ↔ out_len < ((12 * L.MODBYTES : Nat) : Int)))
      ∧ (flagSet st.state GS_USERCREDS = true →
        ((GS_exportUserCredentials L st out out_len).1 = GS_OUTPUT_BUFFER_TOO_SMALL
          ↔ out_len < ((4 * (2 * L.MODBYTES + 1) + L.MODBYTES : Nat) : Int)))
      ∧ (flagSet st.state GS_SEEDED = true → flagSet st.state GS_GROUP_PRIVKEY = true →
        (deserialize_join_message L { len := 0, max := joinmsg_len, val := joinmsg }
          (localJoin L)).1 = true →
        (join_server L st._rng st._priv
          (deserialize_join_message L { len := 0, max := joinmsg_len, val := joinmsg }
            (localJoin L)).2.2 challenge (localResp L)).1 = true →
        ((GS_processJoin L st joinmsg joinmsg_len challenge out out_len).1
            = GS_OUTPUT_BUFFER_TOO_SMALL
          ↔ out_len < ((4 * (2 * L.MODBYTES + 1) + 2 * L.MODBYTES : Nat) : Int)))
      ∧ (flagSet st.state GS_SEEDED = true → flagSet st.state GS_USERCREDS = true →
        ∀ r, GS_sign L fuel st msg bsn out out_len = some r →
          (r.1 = GS_OUTPUT_BUFFER_TOO_SMALL
            ↔ out_len < ((5 * (2 * L.MODBYTES + 1) + 2 * L.MODBYTES : Nat) : Int)))
      ∧ ((deserialize_signature L { len := 0, max := sig_len, val := signature }
          (localSig L)).1 = true →
        ((GS_getSignatureTag L signature sig_len out out_len).1 = GS_OUTPUT_BUFFER_TOO_SMALL
          ↔ out_len < ((2 * L.MODBYTES + 1 : Nat) : Int))) := by
  refine ⟨fun hf => ?_, fun hf => ?_, fun hf => ?_, fun hf hf2 hj hs => ?_,
    fun hf hf2 r hr => ?_, fun hd => ?_⟩
  · have h := appends_fail_iff _ _ (@appends_group_private_key L stack st._priv) out out_len
    rw [wire_group_private_key_length] at h
    rw [← h]
    simp only [GS_exportGroupPrivKey, hf]
    cases (serialize_group_private_key L stack st._priv { len := 0, max := out_len, val := out }).1 <;>
      simp
  · have h := appends_fail_iff _ _ (@appends_group_public_key L stack st._priv.pub) out out_len
    rw [wire_group_public_key_length] at h
    rw [← h]
    simp only [GS_exportGroupPubKey, hf]
    cases (serialize_group_public_key L stack st._priv.pub
      { len := 0, max := out_len, val := out }).1 <;> simp
  · have h := appends_fail_iff _ _ (appends_user_private_key hL st._userPriv) out out_len
    rw [wire_user_private_key_length hL] at h
    rw [← h]
    simp only [GS_exportUserCredentials, hf]
    cases (serialize_user_private_key L st._userPriv
      { len := 0, max := out_len, val := out }).1 <;> simp
  · have h := appends_fail_iff _ _ (appends_join_response hL (join_server L st._rng st._priv
      (deserialize_join_message L { len := 0, max := joinmsg_len, val := joinmsg }
        (localJoin L)).2.2 challenge (localResp L)).2.1) out out_len
    rw [wire_join_response_length hL] at h
    rw [← h]
    simp only [GS_processJoin, hf, hf2, hj, hs]
    cases (serialize_join_response L (join_server L st._rng st._priv
      (deserialize_join_message L { len := 0, max := joinmsg_len, val := joinmsg }
        (localJoin L)).2.2 challenge (localResp L)).2.1
      { len := 0, max := out_len, val := out }).1 <;> simp
  · simp only [GS_sign, hf, hf2] at hr
    cases hsig : sign L fuel st._rng st._userPriv msg bsn with
    | none => simp [hsig] at hr
    | some p =>
      have h := appends_fail_iff _ _ (appends_signature hL p.1) out out_len
      rw [wire_signature_length hL] at h
      rw [← h]
      simp only [hsig, Bool.not_true, Bool.false_eq_true, if_false] at hr
      cases hser : (serialize_signature L p.1 { len := 0, max := out_len, val := out }).1
      · simp only [hser, Bool.not_false, if_true, Option.some.injEq] at hr
        subst hr
        simp
      · simp only [hser, Bool.not_true, Bool.false_eq_true, if_false, Option.some.injEq] at hr
        subst hr
        simp
  · have h := appends_fail_iff _ _ (appends_signature_tag hL
      (deserialize_signature L { len := 0, max := sig_len, val := signature }
        (localSig L)).2.2) out out_len
    rw [hL.toOctet_len] at h
    rw [← h]
    simp only [GS_getSignatureTag, hd]
    cases (serialize_signature_tag L
      (deserialize_signature L { len := 0, max := sig_len, val := signature } (localSig L)).2.2
      { len := 0, max := out_len, val := out }).1 <;> simp

/-- C16 fails for `GS_startJoin`. On a seeded engine the call returns
`GS_OUTPUT_BUFFER_TOO_SMALL` exactly when the `joinmsg` capacity is below
`(2 * MODBYTES + 1) + 2 * MODBYTES` or the `gsk` capacity is below `MODBYTES`;
when the `joinmsg` capacity is too small both lengths are as on entry, and when
only the `gsk` capacity is too small the call has stored the width of the join
message in `*len`. -/
theorem C16_startJoin_capacity (hL : L.Laws) (st : GS_State L) (challenge gsk joinmsg : List Nat)
    (len_gsk len : Int) (hs : flagSet st.state GS_SEEDED = true) :
    ((GS_startJoin L st challenge gsk len_gsk joinmsg len).ret = GS_OUTPUT_BUFFER_TOO_SMALL
        ↔ len < (((2 * L.MODBYTES + 1) + 2 * L.MODBYTES : Nat) : Int)
          ∨ len_gsk < ((L.MODBYTES : Nat) : Int))
      ∧ (len < (((2 * L.MODBYTES + 1) + 2 * L.MODBYTES : Nat) : Int) →
          (GS_startJoin L st challenge gsk len_gsk joinmsg len).len = len
            ∧ (GS_startJoin L st challenge gsk len_gsk joinmsg len).len_gsk = len_gsk)
      ∧ ((((2 * L.MODBYTES + 1) + 2 * L.MODBYTES : Nat) : Int) ≤ len →
          len_gsk < ((L.MODBYTES : Nat) : Int) →
          (GS_startJoin L st challenge gsk len_gsk joinmsg len).ret = GS_OUTPUT_BUFFER_TOO_SMALL
            ∧ (GS_startJoin L st challenge gsk len_gsk joinmsg len).len
                = (((2 * L.MODBYTES + 1) + 2 * L.MODBYTES : Nat) : Int)
            ∧ (GS_startJoin L st challenge gsk len_gsk joinmsg len).len_gsk = len_gsk) := by
  have hj := appends_join_message hL (join_client L st._rng challenge (localUserPriv L)).1
  have hg := appends_BIG (L := L) (join_client L st._rng challenge (localUserPriv L)).2.1.gsk
  have hwj := wire_join_message_length hL (join_client L st._rng challenge (localUserPriv L)).1
  have hwg := BIG_toBytes_length L.MODBYTES
    (join_client L st._rng challenge (localUserPriv L)).2.1.gsk
  unfold GS_startJoin
  by_cases h1 : (((2 * L.MODBYTES + 1) + 2 * L.MODBYTES : Nat) : Int) ≤ len
  · obtain ⟨s1, l1, -⟩ := appends_fresh _ _ hj joinmsg len (by rw [hwj]; exact h1)
    rw [hwj] at l1
    by_cases h2 : ((L.MODBYTES : Nat) : Int) ≤ len_gsk
    · obtain ⟨s2, l2, -⟩ := appends_fresh _ _ hg gsk len_gsk (by rw [hwg]; exact h2)
      simp only [hs, s1, s2, Bool.not_true, Bool.false_eq_true, if_false]
      refine ⟨⟨fun h => by simp at h, fun h => ?_⟩, fun h => ?_, fun _ h => ?_⟩ <;> omega
    · have s2 := appends_fresh_fail _ _ hg gsk len_gsk (by rw [hwg]; exact h2)
      simp only [hs, s1, s2, Bool.not_true, Bool.not_false, Bool.false_eq_true, if_false,
        if_true]
      refine ⟨⟨fun _ => Or.inr (not_le.mp h2), fun _ => trivial⟩, fun h => ?_,
        fun _ _ => ⟨trivial, l1, trivial⟩⟩
      omega
  · have s1 := appends_fresh_fail _ _ hj joinmsg len (by rw [hwj]; exact h1)
    simp only [hs, s1, Bool.not_true, Bool.not_false, Bool.false_eq_true, if_false, if_true]
    refine ⟨⟨fun _ => Or.inl (not_le.mp h1), fun _ => trivial⟩, fun _ => ⟨trivial, trivial⟩,
      fun h => absurd h h1⟩

/-- C16 at the small library: on a seeded engine, `GS_startJoin` with room for
the join message (capacity 100) and none for `gsk` (capacity 0) returns
`GS_OUTPUT_BUFFER_TOO_SMALL` and leaves 5, not 100, in `*len`. -/
theorem C16_witness :
    (toy.Laws ∧ flagSet toySeeded.state GS_SEEDED = true
        ∧ (((2 * toy.MODBYTES + 1) + 2 * toy.MODBYTES : Nat) : Int) ≤ 100
        ∧ (0 : Int) < ((toy.MODBYTES : Nat) : Int))
      ∧ (GS_startJoin toy toySeeded [110] [] 0 [] 100).ret = GS_OUTPUT_BUFFER_TOO_SMALL
      ∧ (GS_startJoin toy toySeeded [110] [] 0 [] 100).len = 5
      ∧ (GS_startJoin toy toySeeded [110] [] 0 [] 100).len_gsk = 0 :=
  ⟨⟨toy_laws, by decide, by decide, by decide⟩,
    (C16_startJoin_capacity toy_laws toySeeded [110] [] [] 0 100 (by decide)).2.2 (by decide)
      (by decide)⟩

end Capacity

/-! ## Finishing a join -/

section FinishJoin

variable {L}
variable {stack stack' : Stack L} {qxy : L.FP × L.FP × L.FP × L.FP}

theorem BIG_fromBytes_cons (b : Nat) (l : List Nat) :
    BIG_fromBytes (b :: l) = (b % 256) * 256 ^ l.length + BIG_fromBytes l := by
  simp only [BIG_fromBytes, List.foldl_cons]
  rw [foldl_bytes]
  simp

theorem BIG_fromBytes_lt (l : List Nat) : BIG_fromBytes l < 256 ^ l.length := by
  induction l with
  | nil => simp [BIG_fromBytes]
  | cons b l ih =>
    rw [BIG_fromBytes_cons, List.length_cons, pow_succ]
    have hb : b % 256 < 256 := Nat.mod_lt _ (by decide)
    nlinarith [ih, hb]

/-- The low `n` bytes of a number do not see multiples of `256 ^ n`. -/
theorem BIG_toBytes_add_mul (n m c y : Nat) (h : n ≤ m) :
    BIG_toBytes n (c * 256 ^ m + y) = BIG_toBytes n y := by
  induction n with
  | zero => rfl
  | succ k ih =>
    simp only [BIG_toBytes]
    rw [ih (by omega)]
    congr 1
    obtain ⟨d, rfl⟩ : ∃ d, m = k + 1 + d := ⟨m - (k + 1), by omega⟩
    have e : c * 256 ^ (k + 1 + d) + y = y + 256 ^ k * (256 * (c * 256 ^ d)) := by ring
    rw [e, Nat.add_mul_div_left _ _ (by positivity), Nat.add_mul_mod_self_left]

/-- Writing the bytes of the number read from `l` gives back `l`, byte by byte
modulo 256. -/
theorem BIG_toBytes_fromBytes (l : List Nat) :
    BIG_toBytes l.length (BIG_fromBytes l) = l.map (fun b => b % 256) := by
  induction l with
  | nil => rfl
  | cons b l ih =>
    rw [BIG_fromBytes_cons, List.length_cons, List.map_cons]
    simp only [BIG_toBytes]
    rw [BIG_toBytes_add_mul _ _ _ _ (le_refl _), ih]
    congr 1
    have hlt := BIG_fromBytes_lt l
    rw [Nat.add_comm, Nat.add_mul_div_right _ _ (by positivity), Nat.div_eq_of_lt hlt]
    simp

/-- The bytes `GS_finishJoin` appends for `gsk`: the first `MODBYTES` bytes of
the buffer it was read from. -/
theorem wire_BIG_read (gsk : List Nat) (hbytes : ∀ b ∈ gsk, b < 256)
    (hlen : L.MODBYTES ≤ gsk.length) :
    wire_BIG L (BIG_fromBytes (sliceBytes gsk 0 L.MODBYTES)) = gsk.take L.MODBYTES := by
  rw [sliceBytes_eq_take gsk _ hlen]
  have hl : (gsk.take L.MODBYTES).length = L.MODBYTES := by
    rw [List.length_take]
    omega
  have h := BIG_toBytes_fromBytes (gsk.take L.MODBYTES)
  rw [hl] at h
  rw [wire_BIG, h]
  refine (List.map_congr_left (g := id) fun b hb => ?_).trans (List.map_id _)
  exact Nat.mod_eq_of_lt (hbytes b (List.mem_of_mem_take hb))

/-- What `join_finish_client` returns: non-zero exactly when the
Chaum-Pedersen check and the credential check pass, and then the key holds the
credential of the response beside the `gsk` it had. -/
theorem join_finish_client_iff (pub : GroupPublicKey L) (priv : UserPrivateKey L)
    (resp : JoinResponse L) (RNG : L.csprng) :
    ((join_finish_client L pub priv resp RNG).1 = true
        ↔ verifyECPProofEquals L L.g1 (priv.gsk • L.g1) resp.cred.B resp.cred.D none
            resp.c resp.s = true
          ∧ (verifyAuxFast L resp.cred.A resp.cred.B resp.cred.C resp.cred.D pub.X pub.Y
              RNG).1 = true)
      ∧ ((join_finish_client L pub priv resp RNG).1 = true →
          (join_finish_client L pub priv resp RNG).2.1 = { cred := resp.cred, gsk := priv.gsk }) := by
  simp only [join_finish_client, setG1, PAIR_G1mul]
  by_cases h1 : verifyECPProofEquals L L.g1 (priv.gsk • L.g1) resp.cred.B resp.cred.D none
      resp.c resp.s = true
  · by_cases h2 : (verifyAuxFast L resp.cred.A resp.cred.B resp.cred.C resp.cred.D pub.X pub.Y
        RNG).1 = true
    · simp [h1, h2]
    · simp [h1, h2]
  · simp [h1]

/-- C17. `GS_finishJoin` stores all or nothing. Errors come in the order
`GS_INVALID_GROUP_PUBLIC_KEY`, `GS_INVALID_USER_PRIVATE_KEY`,
`GS_INVALID_JOIN_RESPONSE`, `GS_OUTPUT_BUFFER_TOO_SMALL`; with each of the
first three, and so when the Chaum-Pedersen check or the credential check
fails, the credentials buffer and its length are as on entry. When both checks
pass and the capacity is at least `4 * (2 * MODBYTES + 1) + MODBYTES` the call
returns success, the length is that width and the buffer starts with
`enc(A) ‖ enc(B) ‖ enc(C) ‖ enc(D)` of the join response followed by the first
`MODBYTES` bytes of the `gsk` buffer. -/
theorem C17_finishJoin_all_or_nothing (hL : L.Laws) (stack : Stack L)
    (publickey gsk joinresponse credentials : List Nat)
    (len_publickey len_gsk len len_credentials : Int) :
    let rp := deserialize_group_public_key L stack
      { len := 0, max := len_publickey, val := publickey } (localPub L)
    let rg := deserialize_BIG L { len := 0, max := len_gsk, val := gsk } (localUserPriv L).gsk
    let rr := deserialize_join_response L { len := 0, max := len, val := joinresponse }
      (localResp L)
    let resp := rr.2.2
    let cp := verifyECPProofEquals L L.g1 (rg.2.2 • L.g1) resp.cred.B resp.cred.D none
      resp.c resp.s
    let aux := (verifyAuxFast L resp.cred.A resp.cred.B resp.cred.C resp.cred.D rp.2.2.X
      rp.2.2.Y (L.RAND_seed (sliceBytes gsk 0 len_gsk.toNat))).1
    let W := 4 * (2 * L.MODBYTES + 1) + L.MODBYTES
    let out := GS_finishJoin L stack publickey len_publickey gsk len_gsk joinresponse len credentials
      len_credentials
    (rp.1 = false → out = (GS_INVALID_GROUP_PUBLIC_KEY, credentials, len_credentials))
      ∧ (rp.1 = true → rg.1 = false →
          out = (GS_INVALID_USER_PRIVATE_KEY, credentials, len_credentials))
      ∧ (rp.1 = true → rg.1 = true → (rr.1 = false ∨ cp = false ∨ aux = false) →
          out = (GS_INVALID_JOIN_RESPONSE, credentials, len_credentials))
      ∧ (rp.1 = true → rg.1 = true → rr.1 = true → cp = true → aux = true →
          (len_credentials < (W : Int) →
            out.1 = GS_OUTPUT_BUFFER_TOO_SMALL ∧ out.2.2 = len_credentials)
          ∧ ((W : Int) ≤ len_credentials →
            out.1 = GS_RETURN_SUCCESS ∧ out.2.2 = (W : Int)
              ∧ ((∀ b ∈ gsk, b < 256) → L.MODBYTES ≤ gsk.length →
                out.2.1.take W
                  = L.ECP_toOctet resp.cred.A ++ L.ECP_toOctet resp.cred.B
                    ++ L.ECP_toOctet resp.cred.C ++ L.ECP_toOctet resp.cred.D
                    ++ gsk.take L.MODBYTES))) := by
  intro rp rg rr resp cp aux W out
  have hjf := join_finish_client_iff rp.2.2 { localUserPriv L with gsk := rg.2.2 } resp
    (L.RAND_seed (sliceBytes gsk 0 len_gsk.toNat))
  refine ⟨fun h1 => ?_, fun h1 h2 => ?_, fun h1 h2 h3 => ?_, fun h1 h2 h3 h4 h5 => ?_⟩
  · simp only [out, GS_finishJoin]
    simp only [rp] at h1
    simp [h1]
  · simp only [out, GS_finishJoin]
    simp only [rp, rg] at h1 h2
    simp [h1, h2]
  · simp only [out, GS_finishJoin]
    by_cases hr : rr.1 = true
    · have hf : (join_finish_client L rp.2.2 { localUserPriv L with gsk := rg.2.2 } resp
          (L.RAND_seed (sliceBytes gsk 0 len_gsk.toNat))).1 = false := by
        rw [← Bool.not_eq_true]
        intro hf
        have hc := hjf.1.mp hf
        rcases h3 with h3 | h3 | h3
        · rw [hr] at h3
          exact Bool.noConfusion h3
        · exact Bool.noConfusion (hc.1.symm.trans h3)
        · exact Bool.noConfusion (hc.2.symm.trans h3)
      simp only [rp, rg, rr, resp] at h1 h2 hr hf
      simp [h1, h2, hr, hf]
    · simp only [rp, rg, rr] at h1 h2 hr
      simp [h1, h2, hr]
  · have hf := hjf.1.mpr ⟨h4, h5⟩
    have hk := hjf.2 hf
    have hap := appends_user_private_key hL
      ({ cred := resp.cred, gsk := rg.2.2 } : UserPrivateKey L)
    have hwl := wire_user_private_key_length hL
      ({ cred := resp.cred, gsk := rg.2.2 } : UserPrivateKey L)
    have hout : out = (if !(serialize_user_private_key L { cred := resp.cred, gsk := rg.2.2 }
          { len := 0, max := len_credentials, val := credentials }).1
        then (GS_OUTPUT_BUFFER_TOO_SMALL,
          (serialize_user_private_key L { cred := resp.cred, gsk := rg.2.2 }
            { len := 0, max := len_credentials, val := credentials }).2.val, len_credentials)
        else (GS_RETURN_SUCCESS,
          (serialize_user_private_key L { cred := resp.cred, gsk := rg.2.2 }
            { len := 0, max := len_credentials, val := credentials }).2.val,
          (serialize_user_private_key L { cred := resp.cred, gsk := rg.2.2 }
            { len := 0, max := len_credentials, val := credentials }).2.len)) := by
      simp only [out, GS_finishJoin]
      simp only [rp, rg, rr, resp] at h1 h2 h3 hf hk
      simp [h1, h2, h3, hf, hk, resp, rr, rg]
    refine ⟨fun hlt => ?_, fun hle => ?_⟩
    · have hfail := appends_fresh_fail _ _ hap credentials len_credentials
        (by rw [hwl]; exact not_le.mpr hlt)
      rw [hout, hfail]
      exact ⟨rfl, rfl⟩
    · obtain ⟨hs, hlen, hval⟩ := appends_fresh _ _ hap credentials len_credentials
        (by rw [hwl]; exact hle)
      have htake := (appends_success _ _ hap credentials len_credentials hs).2
      rw [hwl] at hlen htake
      rw [hout, hs]
      refine ⟨rfl, hlen, fun hbytes hlenb => ?_⟩
      have hg : rg.2.2 = BIG_fromBytes (sliceBytes gsk 0 L.MODBYTES) := by
        have hcap : ((BIGSIZE L : Nat) : Int) ≤ len_gsk := by
          by_contra hc
          simp [rg, deserialize_BIG, hc] at h2
        simp [rg, deserialize_BIG, hcap]
      simp only [Bool.not_true, Bool.false_eq_true, if_false]
      rw [htake, wire_user_private_key, wire_user_credentials, hg, wire_BIG_read gsk hbytes hlenb]

/-- C17 at the small library: the user of `toyUserKey` finishes the join with
the issuer of `toyGroupKey`; with the last byte of the response changed the
call fails and leaves the buffer and its length. -/
theorem C17_witness :
    (toy.Laws ∧ (∀ b ∈ [4], b < 256) ∧ toy.MODBYTES ≤ [4].length)
      ∧ (let resp := (deserialize_join_response toy
            { len := 0, max := 14, val := wire_join_response toy toyJoinResponse }
            (localResp toy)).2.2
         let out := GS_finishJoin toy toyStack (wire_group_public_key toy toyStack toyGroupKey.pub) 12 [4] 1
            (wire_join_response toy toyJoinResponse) 14 [] 100
         out.1 = GS_RETURN_SUCCESS ∧ out.2.2 = 13
           ∧ out.2.1.take 13
              = toy.ECP_toOctet resp.cred.A ++ toy.ECP_toOctet resp.cred.B
                ++ toy.ECP_toOctet resp.cred.C ++ toy.ECP_toOctet resp.cred.D ++ [4])
      ∧ GS_finishJoin toy toyStack (wire_group_public_key toy toyStack toyGroupKey.pub) 12 [4] 1
          ((wire_join_response toy toyJoinResponse).take 13 ++ [0]) 14 [7, 7] 100
        = (GS_INVALID_JOIN_RESPONSE, [7, 7], 100) :=
  ⟨⟨toy_laws, by decide, by decide⟩,
    ⟨(((C17_finishJoin_all_or_nothing toy_laws toyStack (wire_group_public_key toy toyStack toyGroupKey.pub) [4]
        (wire_join_response toy toyJoinResponse) [] 12 1 14 100).2.2.2 (by decide) (by decide)
        (by decide) (by decide) (by decide)).2 (by decide)).1,
      (((C17_finishJoin_all_or_nothing toy_laws toyStack (wire_group_public_key toy toyStack toyGroupKey.pub) [4]
        (wire_join_response toy toyJoinResponse) [] 12 1 14 100).2.2.2 (by decide) (by decide)
        (by decide) (by decide) (by decide)).2 (by decide)).2.1,
      (((C17_finishJoin_all_or_nothing toy_laws toyStack (wire_group_public_key toy toyStack toyGroupKey.pub) [4]
        (wire_join_response toy toyJoinResponse) [] 12 1 14 100).2.2.2 (by decide) (by decide)
        (by decide) (by decide) (by decide)).2 (by decide)).2.2 (by decide) (by decide)⟩,
    (C17_finishJoin_all_or_nothing toy_laws toyStack (wire_group_public_key toy toyStack toyGroupKey.pub) [4]
      ((wire_join_response toy toyJoinResponse).take 13 ++ [0]) [7, 7] 12 1 14 100).2.2.1
      (by decide) (by decide) (Or.inr (Or.inl (by decide)))⟩

end FinishJoin

/-! ## Layout of the challenge transcripts -/

section Layout

variable {L}
variable {stack stack' : Stack L} {qxy : L.FP × L.FP × L.FP × L.FP}

/-- Three stores in a row on an octet with room for all of them. -/
theorem appends_three (f1 f2 f3 : octet → Bool × octet) (e1 e2 e3 : List Nat)
    (h1 : Appends f1 e1) (h2 : Appends f2 e2) (h3 : Appends f3 e3) (o : octet)
    (h0 : 0 ≤ o.len)
    (hfit : o.len + (e1.length : Int) + (e2.length : Int) + (e3.length : Int) ≤ o.max) :
    (f1 o).1 = true ∧ (f2 (f1 o).2).1 = true ∧ (f3 (f2 (f1 o).2).2).1 = true
      ∧ (f3 (f2 (f1 o).2).2).2.len
          = o.len + (e1.length : Int) + (e2.length : Int) + (e3.length : Int)
      ∧ (f3 (f2 (f1 o).2).2).2.max = o.max
      ∧ written (f3 (f2 (f1 o).2).2).2 = written o ++ e1 ++ e2 ++ e3 := by
  have n1 := Int.natCast_nonneg e1.length
  have n2 := Int.natCast_nonneg e2.length
  have n3 := Int.natCast_nonneg e3.length
  obtain ⟨t1, l1, m1, w1, -⟩ := (h1 o h0).1 (by omega)
  obtain ⟨t2, l2, m2, w2, -⟩ := (h2 (f1 o).2 (by omega)).1 (by omega)
  obtain ⟨t3, l3, m3, w3, -⟩ := (h3 (f2 (f1 o).2).2 (by omega)).1 (by omega)
  refine ⟨t1, t2, t3, by omega, by omega, ?_⟩
  rw [w3, w2, w1]

/-- The bytes the message puts at the head of a transcript: its first
`MODBYTES` bytes when there is one, nothing otherwise. -/
theorem written_messageOctet (max : Nat) (m : Option (List Nat)) :
    written (messageOctet L max m)
        = (match m with
          | some b => sliceBytes b 0 L.MODBYTES
          | none => [])
      ∧ (messageOctet L max m).len
        = (((match m with
          | some b => sliceBytes b 0 L.MODBYTES
          | none => []) : List Nat).length : Int)
      ∧ (messageOctet L max m).max = (max : Int) := by
  cases m with
  | none => exact ⟨written_fresh _ _, rfl, rfl⟩
  | some b =>
    refine ⟨?_, ?_, rfl⟩
    · simp only [written, messageOctet, Int.toNat_ofNat]
      have := sliceBytes_prefix (sliceBytes b 0 L.MODBYTES) []
      rwa [List.append_nil, sliceBytes_length] at this
    · simp [messageOctet, sliceBytes_length]

/-- The scalar derived from an octet: the digest of the bytes written, read
big-endian and reduced modulo the group order. -/
theorem challengeOf_written (hL : L.Laws) (TMP : octet) :
    challengeOf L TMP = BIG_fromBytes (myhash L (written TMP)) % L.CURVE_Order := by
  have hl : (myhash L (written TMP)).length = L.MODBYTES := hL.hash_len _
  have hs : sliceBytes (myhash L (written TMP)) 0 L.MODBYTES = myhash L (written TMP) := by
    have := sliceBytes_prefix (myhash L (written TMP)) []
    rwa [List.append_nil, hl] at this
  simp only [challengeOf, BIG_mod]
  exact congrArg (fun t => BIG_fromBytes t % L.CURVE_Order) hs

theorem messagePrefix_length (m : Option (List Nat)) :
    ((match m with
      | some b => sliceBytes b 0 L.MODBYTES
      | none => []) : List Nat).length = (if m.isSome then L.MODBYTES else 0) := by
  cases m with
  | none => rfl
  | some b => simp [sliceBytes_length]

theorem messagePrefix_le (m : Option (List Nat)) :
    ((match m with
      | some b => sliceBytes b 0 L.MODBYTES
      | none => []) : List Nat).length ≤ L.MODBYTES := by
  cases m with
  | none => exact Nat.zero_le _
  | some b => exact (sliceBytes_length b 0 L.MODBYTES).le

/-- C21. Transcript layout: `ECPchallengeEquals(m, Y, Z, A, B, T1, T2)` is the
digest of `m ‖ enc(Y) ‖ enc(Z) ‖ enc(A) ‖ enc(B) ‖ enc(T1) ‖ enc(T2)` read
big-endian and reduced modulo `q`, where `m` contributes its first `MODBYTES`
bytes when given and nothing otherwise; `ECPchallenge` hashes
`m ‖ enc(Y) ‖ enc(G) ‖ enc(T)` and `ECP2challenge` hashes
`enc(Y) ‖ enc(G) ‖ enc(T)` in the same way, `enc` of a point of G2 being the
bytes `ECP2_toOctet_compatibility` writes at that call. Every field is in the
transcript and every challenge is below `q`. -/
theorem C21_transcript_layout (hL : L.Laws) (stack : Stack L) (m : Option (List Nat))
    (Y Z A B T1 T2 G T : L.ECP) (YY GG TT : L.ECP2) :
    let pre : List Nat :=
      match m with
      | some b => sliceBytes b 0 L.MODBYTES
      | none => []
    ECPchallengeEquals L m Y Z A B T1 T2
        = BIG_fromBytes (myhash L (pre ++ L.ECP_toOctet Y ++ L.ECP_toOctet Z ++ L.ECP_toOctet A
            ++ L.ECP_toOctet B ++ L.ECP_toOctet T1 ++ L.ECP_toOctet T2)) % L.CURVE_Order
      ∧ ECPchallenge L m Y G T
        = BIG_fromBytes (myhash L (pre ++ L.ECP_toOctet Y ++ L.ECP_toOctet G
            ++ L.ECP_toOctet T)) % L.CURVE_Order
      ∧ ECP2challenge L stack YY GG TT
        = BIG_fromBytes (myhash L (ECP2_toOctet_compatibility L (stack 0) YY
            ++ ECP2_toOctet_compatibility L (stack 1) GG
            ++ ECP2_toOctet_compatibility L (stack 2) TT)) % L.CURVE_Order
      ∧ pre.length = (if m.isSome then L.MODBYTES else 0)
      ∧ ECPchallengeEquals L m Y Z A B T1 T2 < L.CURVE_Order
      ∧ ECPchallenge L m Y G T < L.CURVE_Order
      ∧ ECP2challenge L stack YY GG TT < L.CURVE_Order := by
  have hl := hL.toOctet_len
  have hl2 : ∀ (q : L.FP × L.FP × L.FP × L.FP) (P : L.ECP2),
      (ECP2_toOctet_compatibility L q P).length = 4 * L.MODBYTES :=
    fun _ P => ECP2_toOctet_length P
  have hpre := messagePrefix_length (L := L) m
  have hple := messagePrefix_le (L := L) m
  intro pre
  refine ⟨?_, ?_, ?_, hpre, challengeOf_lt hL _, challengeOf_lt hL _, challengeOf_lt hL _⟩
  · obtain ⟨w0, l0, m0⟩ := written_messageOctet (L := L) (L.MODBYTES + 6 * ECPSIZE L) m
    have n0 : (0 : Int) ≤ (messageOctet L (L.MODBYTES + 6 * ECPSIZE L) m).len := by
      rw [l0]
      exact Int.natCast_nonneg _
    obtain ⟨-, -, -, la, ma, wa⟩ := appends_three _ _ _ _ _ _ (appends_ECP hL Y)
      (appends_ECP hL Z) (appends_ECP hL A) _ n0
      (by rw [l0, m0, hl, hl, hl]; simp only [ECPSIZE]; push_cast; omega)
    obtain ⟨-, -, -, -, -, wb⟩ := appends_three _ _ _ _ _ _ (appends_ECP hL B)
      (appends_ECP hL T1) (appends_ECP hL T2) _ (by rw [la, l0, hl, hl, hl]; omega)
      (by rw [la, ma, l0, m0, hl, hl, hl, hl, hl, hl]; simp only [ECPSIZE]; push_cast; omega)
    unfold ECPchallengeEquals
    simp only
    rw [challengeOf_written hL, wb, wa, w0]
  · obtain ⟨w0, l0, m0⟩ := written_messageOctet (L := L) (L.MODBYTES + 3 * ECPSIZE L) m
    have n0 : (0 : Int) ≤ (messageOctet L (L.MODBYTES + 3 * ECPSIZE L) m).len := by
      rw [l0]
      exact Int.natCast_nonneg _
    obtain ⟨-, -, -, -, -, wa⟩ := appends_three _ _ _ _ _ _ (appends_ECP hL Y)
      (appends_ECP hL G) (appends_ECP hL T) _ n0
      (by rw [l0, m0, hl, hl, hl]; simp only [ECPSIZE]; push_cast; omega)
    unfold ECPchallenge
    simp only
    rw [challengeOf_written hL, wa, w0]
  · obtain ⟨-, -, -, -, -, wa⟩ := appends_three _ _ _ _ _ _ (@appends_ECP2 L (stack 0) YY)
      (@appends_ECP2 L (stack 1) GG) (@appends_ECP2 L (stack 2) TT)
      (freshOctet (3 * ECP2SIZE L)) (le_refl _)
      (by rw [hl2, hl2, hl2]; simp only [freshOctet, ECP2SIZE]; push_cast; omega)
    have w0 : written (freshOctet (3 * ECP2SIZE L)) = [] := written_fresh _ _
    unfold ECP2challenge
    simp only
    rw [challengeOf_written hL, wa, w0, List.nil_append]

/-- C21 at the small library: a Chaum-Pedersen challenge with a message, a
Schnorr challenge without one and a challenge in G2. -/
theorem C21_witness :
    toy.Laws
      ∧ ECPchallengeEquals toy (some [42, 7]) (2 : ZMod 11) (3 : ZMod 11) (4 : ZMod 11)
          (5 : ZMod 11) (6 : ZMod 11) (7 : ZMod 11)
        = BIG_fromBytes (myhash toy ([42] ++ [4, 2, 9] ++ [4, 3, 8] ++ [4, 4, 7] ++ [4, 5, 6]
            ++ [4, 6, 5] ++ [4, 7, 4])) % 11
      ∧ ECPchallenge toy none (2 : ZMod 11) (3 : ZMod 11) (4 : ZMod 11)
        = BIG_fromBytes (myhash toy ([] ++ [4, 2, 9] ++ [4, 3, 8] ++ [4, 4, 7])) % 11
      ∧ ECP2challenge toy toyStack (2 : ZMod 11) (3 : ZMod 11) (4 : ZMod 11)
        = BIG_fromBytes (myhash toy ([2, 0, 0, 0] ++ [3, 0, 0, 0] ++ [4, 0, 0, 0])) % 11 :=
  ⟨toy_laws,
    (C21_transcript_layout toy_laws toyStack (some [42, 7]) (2 : ZMod 11) (3 : ZMod 11) (4 : ZMod 11)
      (5 : ZMod 11) (6 : ZMod 11) (7 : ZMod 11) (3 : ZMod 11) (4 : ZMod 11) (2 : ZMod 11)
      (3 : ZMod 11) (4 : ZMod 11)).1,
    (C21_transcript_layout toy_laws toyStack none (2 : ZMod 11) (3 : ZMod 11) (4 : ZMod 11)
      (5 : ZMod 11) (6 : ZMod 11) (7 : ZMod 11) (3 : ZMod 11) (4 : ZMod 11) (2 : ZMod 11)
      (3 : ZMod 11) (4 : ZMod 11)).2.1,
    (C21_transcript_layout toy_laws toyStack none (2 : ZMod 11) (3 : ZMod 11) (4 : ZMod 11)
      (5 : ZMod 11) (6 : ZMod 11) (7 : ZMod 11) (3 : ZMod 11) (4 : ZMod 11) (2 : ZMod 11)
      (3 : ZMod 11) (4 : ZMod 11)).2.2.1⟩

end Layout

/-! ## The triple pairing of the fast check -/

section TriplePairing

variable {L}
variable {stack stack' : Stack L} {qxy : L.FP × L.FP × L.FP × L.FP}

/-- The multiple by `BIG_modneg e q` is the negative of the multiple by `e`. -/
theorem modneg_nsmul (hL : L.Laws) (P : L.ECP) (e : Nat) :
    PAIR_G1mul L P (BIG_modneg e L.CURVE_Order) = -(e • P) := by
  have h : (e + BIG_modneg e L.CURVE_Order) • P = (0 : Nat) • P :=
    nsmul_congr_mod P (hL.order_ECP P) (modneg_cancel _ e (order_pos hL))
  rw [add_nsmul, zero_nsmul] at h
  exact eq_neg_of_add_eq_zero_right h

/-- C22. Triple-pairing refinement: for every `A` other than infinity, all
`B`, `C`, `D` in G1, all `X`, `Y` in G2 and all masks `e1`, `e2`, the value
`verifyAuxFast` computes is the product
`e(e1 A, Y) e(-e1 B - e2 C, g2) e(e2 (A + D), X)`, which equals
`(e(A, Y) / e(B, g2)) ^ e1 (e(A + D, X) / e(C, g2)) ^ e2`; `verifyAuxFast`
accepts exactly when that product is one for the masks it draws, and so accepts
for every RNG state whenever `e(A, Y) = e(B, g2)` and `e(A + D, X) = e(C, g2)`. -/
theorem C22_triple_pairing_refinement (hL : L.Laws) (A B C D : L.ECP) (X Y : L.ECP2)
    (hA : A ≠ 0) :
    (∀ e1 e2 : Nat,
        PAIR_normalized_triple_ate L Y (PAIR_G1mul L A e1) (setG2 L)
            (PAIR_G1mul L B (BIG_modneg e1 L.CURVE_Order)
              + PAIR_G1mul L C (BIG_modneg e2 L.CURVE_Order))
            X (PAIR_G1mul L (A + D) e2)
          = L.pair Y (e1 • A) * L.pair L.g2 (-(e1 • B) - e2 • C) * L.pair X (e2 • (A + D))
        ∧ L.pair Y (e1 • A) * L.pair L.g2 (-(e1 • B) - e2 • C) * L.pair X (e2 • (A + D))
          = (L.pair Y A / L.pair L.g2 B) ^ e1 * (L.pair X (A + D) / L.pair L.g2 C) ^ e2)
      ∧ (∀ RNG : L.csprng,
          ((verifyAuxFast L A B C D X Y RNG).1 = true
            ↔ (L.pair Y A / L.pair L.g2 B) ^ (randomModOrder L RNG).1
                * (L.pair X (A + D) / L.pair L.g2 C)
                  ^ (randomModOrder L (randomModOrder L RNG).2).1 = 1)
          ∧ (L.pair Y A = L.pair L.g2 B → L.pair X (A + D) = L.pair L.g2 C →
              (verifyAuxFast L A B C D X Y RNG).1 = true)) := by
  refine ⟨fun e1 e2 => ?_, fun RNG => ⟨?_, fun h1 h2 => ?_⟩⟩
  · have hcode := triple_ate_eq hL A B C D X Y e1 e2
    have hprod : PAIR_normalized_triple_ate L Y (PAIR_G1mul L A e1) (setG2 L)
          (PAIR_G1mul L B (BIG_modneg e1 L.CURVE_Order)
            + PAIR_G1mul L C (BIG_modneg e2 L.CURVE_Order))
          X (PAIR_G1mul L (A + D) e2)
        = L.pair Y (e1 • A) * L.pair L.g2 (-(e1 • B) - e2 • C) * L.pair X (e2 • (A + D)) := by
      rw [PAIR_normalized_triple_ate_eq hL, modneg_nsmul hL, modneg_nsmul hL, sub_eq_add_neg]
      rfl
    exact ⟨hprod, hprod.symm.trans hcode⟩
  · rw [verifyAuxFast_iff hL]
    exact ⟨fun h => h.2, fun h => ⟨hA, h⟩⟩
  · exact verifyAuxFast_complete hL A B C D X Y RNG hA h1 h2

/-- C22 at the small library: the credential of `toyUserKey` under the key of
`toyGroupKey`, masks 4 and 1. -/
theorem C22_witness :
    (toy.Laws ∧ toyUserKey.cred.A ≠ 0
        ∧ toy.pair toyGroupKey.pub.Y toyUserKey.cred.A = toy.pair toy.g2 toyUserKey.cred.B
        ∧ toy.pair toyGroupKey.pub.X (toyUserKey.cred.A + toyUserKey.cred.D)
          = toy.pair toy.g2 toyUserKey.cred.C)
      ∧ (verifyAuxFast toy toyUserKey.cred.A toyUserKey.cred.B toyUserKey.cred.C
          toyUserKey.cred.D toyGroupKey.pub.X toyGroupKey.pub.Y [4, 1]).1 = true :=
  ⟨⟨toy_laws, toy_ne _ (by decide),
      by show toyPair toyGroupKey.pub.Y toyUserKey.cred.A = toyPair 1 toyUserKey.cred.B; decide,
      by show toyPair toyGroupKey.pub.X (toyUserKey.cred.A + toyUserKey.cred.D)
            = toyPair 1 toyUserKey.cred.C; decide⟩,
    ((C22_triple_pairing_refinement toy_laws toyUserKey.cred.A toyUserKey.cred.B
      toyUserKey.cred.C toyUserKey.cred.D toyGroupKey.pub.X toyGroupKey.pub.Y
      (toy_ne _ (by decide))).2 [4, 1]).2
      (by show toyPair toyGroupKey.pub.Y toyUserKey.cred.A = toyPair 1 toyUserKey.cred.B; decide)
      (by show toyPair toyGroupKey.pub.X (toyUserKey.cred.A + toyUserKey.cred.D)
            = toyPair 1 toyUserKey.cred.C; decide)⟩

end TriplePairing

/-! ## What the hash to G1 returns -/

section MapitResult

variable {L}
variable {stack stack' : Stack L} {qxy : L.FP × L.FP × L.FP × L.FP}

/-- What the inner loop returns: the lift of the first liftable `x` at or
after the start, and the `x` after it. -/
theorem mapit_inner_some : ∀ (fuel x : Nat) (P : L.ECP) (x' : Nat),
    mapit_inner L fuel x = some (P, x') →
    ∃ j, P = L.ECP_setx (x + j) ∧ P ≠ 0 ∧ x' = x + j + 1
      ∧ ∀ i, i < j → L.ECP_setx (x + i) = 0 := by
  intro fuel
  induction fuel with
  | zero =>
    intro x P x' h
    simp [mapit_inner] at h
  | succ f ih =>
    intro x P x' h
    by_cases h0 : L.ECP_setx x = 0
    · simp only [mapit_inner, ECP_isinf, h0, decide_True, Bool.not_true, Bool.false_eq_true,
        if_false] at h
      obtain ⟨j, hP, hne, hx, hmin⟩ := ih (x + 1) P x' h
      refine ⟨j + 1, ?_, hne, ?_, fun i hi => ?_⟩
      · rw [hP, show x + 1 + j = x + (j + 1) by omega]
      · omega
      · rcases Nat.eq_zero_or_pos i with hi0 | hpos
        · rw [hi0, Nat.add_zero]
          exact h0
        · have := hmin (i - 1) (by omega)
          rwa [show x + 1 + (i - 1) = x + i by omega] at this
    · simp only [mapit_inner, ECP_isinf, h0, decide_False, Bool.not_false, if_true,
        Option.some.injEq, Prod.mk.injEq] at h
      obtain ⟨hP, hx⟩ := h
      refine ⟨0, ?_, ?_, ?_, fun i hi => absurd hi (Nat.not_lt_zero i)⟩
      · rw [← hP, Nat.add_zero]
      · rw [← hP]
        exact h0
      · omega

/-- What the outer loop returns: the cofactor multiple of the lift of the first
`x` at or after the start that is liftable with a cofactor multiple other than
infinity. -/
theorem mapit_outer_some : ∀ (fuel x : Nat) (P : L.ECP),
    mapit_outer L fuel x = some P →
    ∃ k, P = L.ECP_cfp (L.ECP_setx (x + k)) ∧ L.ECP_setx (x + k) ≠ 0 ∧ P ≠ 0
      ∧ ∀ i, i < k → ¬ (L.ECP_setx (x + i) ≠ 0 ∧ L.ECP_cfp (L.ECP_setx (x + i)) ≠ 0) := by
  intro fuel
  induction fuel with
  | zero =>
    intro x P h
    simp [mapit_outer] at h
  | succ f ih =>
    intro x P h
    rw [mapit_outer] at h
    cases hin : mapit_inner L (f + 1) x with
    | none => simp [hin] at h
    | some r =>
      obtain ⟨Q, x'⟩ := r
      obtain ⟨j, hQ, hQne, hx', hmin⟩ := mapit_inner_some (f + 1) x Q x' hin
      simp only [hin] at h
      by_cases hc : L.ECP_cfp Q = 0
      · simp only [ECP_isinf, hc, decide_True, Bool.not_true, Bool.false_eq_true,
          if_false] at h
        obtain ⟨k, hP, hk, hPne, hkmin⟩ := ih x' P h
        refine ⟨j + 1 + k, ?_, ?_, hPne, fun i hi => ?_⟩
        · rw [hP, hx', show x + j + 1 + k = x + (j + 1 + k) by omega]
        · rwa [hx', show x + j + 1 + k = x + (j + 1 + k) by omega] at hk
        · rcases Nat.lt_trichotomy i j with hlt | heq | hgt
          · exact fun hh => hh.1 (hmin i hlt)
          · rw [heq, ← hQ]
            exact fun hh => hh.2 hc
          · have := hkmin (i - (j + 1)) (by omega)
            rwa [hx', show x + j + 1 + (i - (j + 1)) = x + i by omega] at this
      · simp only [ECP_isinf, hc, decide_False, Bool.not_false, if_true,
          Option.some.injEq] at h
        refine ⟨j, ?_, ?_, ?_, fun i hi => ?_⟩
        · rw [← h, hQ]
        · rw [← hQ]
          exact hQne
        · rw [← h]
          exact hc
        · exact fun hh => hh.1 (hmin i hi)

/-- C23. Legacy hash to G1: whenever `ECP_mapit_compatibility` returns, its
result is not the point at infinity and is the cofactor multiple of the lift of
`x*`, where `x0` is the first `MODBYTES` input bytes read big-endian and
reduced modulo the field modulus and `x*` is the first value of
`x0, x0 + 1, x0 + 2, ...` that has a lift whose cofactor multiple is not
infinity; the result depends on no input byte beyond the first `MODBYTES`; and
in a library in which such an `x*` always exists the function returns once the
fuel suffices. -/
theorem C23_legacy_hash_to_G1 (W : List Nat) :
    (∀ (fuel : Nat) (P : L.ECP), ECP_mapit_compatibility L fuel W = some P →
        P ≠ 0
          ∧ ∃ k, P = L.ECP_cfp (L.ECP_setx
                (BIG_fromBytes (sliceBytes W 0 L.MODBYTES) % L.Modulus + k))
            ∧ L.ECP_setx (BIG_fromBytes (sliceBytes W 0 L.MODBYTES) % L.Modulus + k) ≠ 0
            ∧ ∀ i, i < k →
              ¬ (L.ECP_setx (BIG_fromBytes (sliceBytes W 0 L.MODBYTES) % L.Modulus + i) ≠ 0
                ∧ L.ECP_cfp (L.ECP_setx
                    (BIG_fromBytes (sliceBytes W 0 L.MODBYTES) % L.Modulus + i)) ≠ 0))
      ∧ (∀ (fuel : Nat) (W' : List Nat),
          sliceBytes W' 0 L.MODBYTES = sliceBytes W 0 L.MODBYTES →
          ECP_mapit_compatibility L fuel W' = ECP_mapit_compatibility L fuel W)
      ∧ (L.Laws → ∃ N, ∀ fuel, N ≤ fuel →
          (ECP_mapit_compatibility L fuel W).isSome = true) := by
  refine ⟨fun fuel P h => ?_, fun fuel W' hW => ?_, fun hL => ?_⟩
  · obtain ⟨k, hP, hk, hne, hmin⟩ := mapit_outer_some fuel _ P h
    exact ⟨hne, k, hP, hk, hmin⟩
  · simp only [ECP_mapit_compatibility, hW]
  · obtain ⟨N, P, -, hP⟩ := mapit_returns hL W
    refine ⟨N, fun fuel hf => ?_⟩
    have := hP fuel hf
    rw [mapit] at this
    rw [this]
    rfl

/-- C23 at the small library: from the byte 11 the search passes 11, 12 and 13,
which have no lift, and returns the lift of 14; a second byte changes nothing. -/
theorem C23_witness :
    ECP_mapit_compatibility toy 8 [11] = some (1 : ZMod 11)
      ∧ ((1 : ZMod 11) ≠ 0
        ∧ ∃ k, (1 : ZMod 11) = toy.ECP_cfp (toy.ECP_setx
              (BIG_fromBytes (sliceBytes [11] 0 toy.MODBYTES) % toy.Modulus + k))
          ∧ toy.ECP_setx (BIG_fromBytes (sliceBytes [11] 0 toy.MODBYTES) % toy.Modulus + k) ≠ 0
          ∧ ∀ i, i < k →
            ¬ (toy.ECP_setx (BIG_fromBytes (sliceBytes [11] 0 toy.MODBYTES) % toy.Modulus + i)
                  ≠ 0
              ∧ toy.ECP_cfp (toy.ECP_setx
                  (BIG_fromBytes (sliceBytes [11] 0 toy.MODBYTES) % toy.Modulus + i)) ≠ 0))
      ∧ ECP_mapit_compatibility toy 8 [11, 99] = ECP_mapit_compatibility toy 8 [11] :=
  ⟨rfl, (C23_legacy_hash_to_G1 (L := toy) [11]).1 8 (1 : ZMod 11) rfl,
    (C23_legacy_hash_to_G1 (L := toy) [11]).2.1 8 [11, 99] (by decide)⟩

end MapitResult

/-! ## Proof scalars at the verifier -/

section Scalars

variable {L}
variable {stack stack' : Stack L} {qxy : L.FP × L.FP × L.FP × L.FP}

theorem ECPchallenge_lt (hL : L.Laws) (m : Option (List Nat)) (Y G GR : L.ECP) :
    ECPchallenge L m Y G GR < L.CURVE_Order := challengeOf_lt hL _

theorem ECPchallengeEquals_lt (hL : L.Laws) (m : Option (List Nat)) (Y Z A B AR BR : L.ECP) :
    ECPchallengeEquals L m Y Z A B AR BR < L.CURVE_Order := challengeOf_lt hL _

theorem ECP2challenge_lt (hL : L.Laws) (Y G GR : L.ECP2) :
    ECP2challenge L stack Y G GR < L.CURVE_Order := challengeOf_lt hL _

/-- The three verifiers see the response through its residue modulo `q`. -/
theorem verify_congr_response (hL : L.Laws) (G Y A B Z : L.ECP) (GG YY : L.ECP2)
    (m : Option (List Nat)) (c s s' : Nat) (h : s % L.CURVE_Order = s' % L.CURVE_Order) :
    verifyECPProof L G Y m c s = verifyECPProof L G Y m c s'
      ∧ verifyECPProofEquals L A B Y Z m c s = verifyECPProofEquals L A B Y Z m c s'
      ∧ verifyECP2Proof L stack GG YY c s = verifyECP2Proof L stack GG YY c s' := by
  refine ⟨?_, ?_, ?_⟩
  · simp only [verifyECPProof, ecp_mul_congr hL G h]
  · simp only [verifyECPProofEquals, ecp_mul_congr hL A h, ecp_mul_congr hL B h]
  · simp only [verifyECP2Proof, ecp2_mul_congr hL GG h]

/-- C26. Canonical form of proof scalars at the verifier: `verifyECPProof`,
`verifyECPProofEquals` and `verifyECP2Proof` reject every proof whose challenge
`c` is not below `q`; their verdict depends on the response `s` through
`s mod q` only, so a proof `(c, s + q)` is accepted whenever `(c, s)` is. -/
theorem C26_proof_scalars (hL : L.Laws) (stack : Stack L) (G Y A B Z : L.ECP)
    (GG YY : L.ECP2)
    (m : Option (List Nat)) (c s : Nat) :
    (L.CURVE_Order ≤ c →
        verifyECPProof L G Y m c s = false
          ∧ verifyECPProofEquals L A B Y Z m c s = false
          ∧ verifyECP2Proof L stack GG YY c s = false)
      ∧ (∀ s' : Nat, s % L.CURVE_Order = s' % L.CURVE_Order →
          verifyECPProof L G Y m c s = verifyECPProof L G Y m c s'
            ∧ verifyECPProofEquals L A B Y Z m c s = verifyECPProofEquals L A B Y Z m c s'
            ∧ verifyECP2Proof L stack GG YY c s = verifyECP2Proof L stack GG YY c s')
      ∧ (verifyECPProof L G Y m c s = true →
          verifyECPProof L G Y m c (s + L.CURVE_Order) = true)
      ∧ (verifyECPProofEquals L A B Y Z m c s = true →
          verifyECPProofEquals L A B Y Z m c (s + L.CURVE_Order) = true)
      ∧ (verifyECP2Proof L stack GG YY c s = true →
          verifyECP2Proof L stack GG YY c (s + L.CURVE_Order) = true) := by
  have hq : s % L.CURVE_Order = (s + L.CURVE_Order) % L.CURVE_Order :=
    (Nat.add_mod_right s L.CURVE_Order).symm
  obtain ⟨e1, e2, e3⟩ := verify_congr_response hL G Y A B Z GG YY m c s (s + L.CURVE_Order) hq
  refine ⟨fun hc => ⟨?_, ?_, ?_⟩,
    fun s' h => verify_congr_response hL G Y A B Z GG YY m c s s' h,
    fun h => e1 ▸ h, fun h => e2 ▸ h, fun h => e3 ▸ h⟩
  · simp only [verifyECPProof, decide_eq_false_iff_not]
    exact fun e => absurd (e ▸ ECPchallenge_lt hL m Y G _) (not_lt.mpr hc)
  · simp only [verifyECPProofEquals, decide_eq_false_iff_not]
    exact fun e => absurd (e ▸ ECPchallengeEquals_lt hL m Y Z A B _ _) (not_lt.mpr hc)
  · simp only [verifyECP2Proof, decide_eq_false_iff_not]
    exact fun e => absurd (e ▸ ECP2challenge_lt hL YY GG _) (not_lt.mpr hc)

/-- C26 at the small library: the Schnorr proof made for `7 (3 g1)` with
response `s` is accepted with `s + 11`, and the Chaum-Pedersen proof `(c, s)`
of `toyJoinResponse` is rejected as `(c + 11, s)`. -/
theorem C26_witness :
    (toy.Laws
        ∧ verifyECPProof toy (3 : ZMod 11) (PAIR_G1mul toy (3 : ZMod 11) 7) (some [42])
            (makeECPProof toy [6, 1] (3 : ZMod 11) (PAIR_G1mul toy (3 : ZMod 11) 7) 7
              (some [42])).1
            (makeECPProof toy [6, 1] (3 : ZMod 11) (PAIR_G1mul toy (3 : ZMod 11) 7) 7
              (some [42])).2.1 = true
        ∧ toy.CURVE_Order ≤ toyJoinResponse.c + 11)
      ∧ verifyECPProof toy (3 : ZMod 11) (PAIR_G1mul toy (3 : ZMod 11) 7) (some [42])
          (makeECPProof toy [6, 1] (3 : ZMod 11) (PAIR_G1mul toy (3 : ZMod 11) 7) 7
            (some [42])).1
          ((makeECPProof toy [6, 1] (3 : ZMod 11) (PAIR_G1mul toy (3 : ZMod 11) 7) 7
            (some [42])).2.1 + toy.CURVE_Order) = true
      ∧ verifyECPProofEquals toy toy.g1 toyJoinMessage.Q toyJoinResponse.cred.B
          toyJoinResponse.cred.D none (toyJoinResponse.c + 11) toyJoinResponse.s = false :=
  ⟨⟨toy_laws, by decide, by decide⟩,
    (C26_proof_scalars toy_laws toyStack (3 : ZMod 11) (PAIR_G1mul toy (3 : ZMod 11) 7) toy.g1
      toyJoinMessage.Q (PAIR_G1mul toy (3 : ZMod 11) 7) toy.g2 toy.g2 (some [42])
      (makeECPProof toy [6, 1] (3 : ZMod 11) (PAIR_G1mul toy (3 : ZMod 11) 7) 7 (some [42])).1
      (makeECPProof toy [6, 1] (3 : ZMod 11) (PAIR_G1mul toy (3 : ZMod 11) 7) 7
        (some [42])).2.1).2.2.1 (by decide),
    ((C26_proof_scalars toy_laws toyStack toy.g1 toyJoinResponse.cred.B toy.g1 toyJoinMessage.Q
      toyJoinResponse.cred.D toy.g2 toy.g2 none (toyJoinResponse.c + 11)
      toyJoinResponse.s).1 (by decide)).2.1⟩

end Scalars

/-! ## The key invariant of reachable states -/

section Invariant

variable {L}
variable {stack stack' : Stack L} {qxy : L.FP × L.FP × L.FP × L.FP}

/-- The key invariant looks at the two key flags and the group key only. -/
theorem keyInvariant_frame (st st' : GS_State L)
    (h1 : flagSet st'.state GS_GROUP_PRIVKEY = flagSet st.state GS_GROUP_PRIVKEY)
    (h2 : flagSet st'.state GS_GROUP_PUBKEY = flagSet st.state GS_GROUP_PUBKEY)
    (hk : st'._priv = st._priv) (h : KeyInvariant L st) : KeyInvariant L st' := by
  unfold KeyInvariant at h ⊢
  rw [h1, h2, hk]
  exact h

/-- A public key that `deserialize_group_public_key` accepts passes
`verifyGroupPublicKey`. -/
theorem deserialize_group_public_key_sound (o : octet) (out : GroupPublicKey L)
    (h : (deserialize_group_public_key L stack o out).1 = true) :
    verifyGroupPublicKey L stack (deserialize_group_public_key L stack o out).2.2 = true := by
  obtain ⟨len, max, val⟩ := o
  obtain ⟨hiff, hval⟩ := deserialize_group_public_key_iff len max val out
  have hv := hval h
  rw [hv]
  exact (hiff.mp h).2.2.2

/-- A private key that `deserialize_group_private_key` accepts holds a public
key that passes `verifyGroupPublicKey` and passes `_checkPrivateKey`. -/
theorem deserialize_group_private_key_sound (o : octet) (out : GroupPrivateKey L)
    (h : (deserialize_group_private_key L stack o out).1 = true) :
    verifyGroupPublicKey L stack (deserialize_group_private_key L stack o out).2.2.pub = true
      ∧ _checkPrivateKey L (deserialize_group_private_key L stack o out).2.2 = true := by
  unfold deserialize_group_private_key at h ⊢
  have hs := @deserialize_group_public_key_sound L stack o out.pub
  rcases hd : deserialize_group_public_key L stack o out.pub with ⟨r, o1, pub⟩
  rw [hd] at hs
  cases r
  · simp [hd] at h
  · simp only [hd] at h ⊢
    have hp : verifyGroupPublicKey L stack pub = true := hs rfl
    rcases hx : deserialize_BIG L o1 out.x with ⟨rx, o2, x⟩
    cases rx
    · simp [hx] at h
    · simp only [hx] at h ⊢
      rcases hy : deserialize_BIG L o2 out.y with ⟨ry, o3, y⟩
      cases ry
      · simp [hy] at h
      · simp only [hy] at h ⊢
        exact ⟨hp, h⟩

/-- `GS_startJoin` writes neither the flags nor the group key. -/
theorem startJoin_frame (st : GS_State L) (challenge gsk : List Nat) (len_gsk : Int)
    (joinmsg : List Nat) (len : Int) :
    (GS_startJoin L st challenge gsk len_gsk joinmsg len).st.state = st.state
      ∧ (GS_startJoin L st challenge gsk len_gsk joinmsg len).st._priv = st._priv := by
  simp only [GS_startJoin]
  split_ifs <;> exact ⟨rfl, rfl⟩

/-- `GS_processJoin` writes neither the flags nor the group key. -/
theorem processJoin_frame (st : GS_State L) (joinmsg : List Nat) (joinmsg_len : Int)
    (challenge out : List Nat) (out_len : Int) :
    (GS_processJoin L st joinmsg joinmsg_len challenge out out_len).2.1.state = st.state
      ∧ (GS_processJoin L st joinmsg joinmsg_len challenge out out_len).2.1._priv
        = st._priv := by
  simp only [GS_processJoin]
  split_ifs <;> exact ⟨rfl, rfl⟩

/-- `GS_loadUserCredentials` writes neither the key flags nor the group key. -/
theorem loadUserCredentials_frame (st : GS_State L) (inp : List Nat) (in_len : Int) :
    flagSet (GS_loadUserCredentials L st inp in_len).2.state GS_GROUP_PRIVKEY
        = flagSet st.state GS_GROUP_PRIVKEY
      ∧ flagSet (GS_loadUserCredentials L st inp in_len).2.state GS_GROUP_PUBKEY
        = flagSet st.state GS_GROUP_PUBKEY
      ∧ (GS_loadUserCredentials L st inp in_len).2._priv = st._priv := by
  simp only [GS_loadUserCredentials]
  split_ifs
  · refine ⟨?_, ?_, rfl⟩
    · rw [flagSet_and_not _ _ _ (by decide)]
      simp [GS_GROUP_PRIVKEY, GS_USERCREDS]
    · rw [flagSet_and_not _ _ _ (by decide)]
      simp [GS_GROUP_PUBKEY, GS_USERCREDS]
  · refine ⟨?_, ?_, rfl⟩
    · rw [flagSet_or, flagSet_and_not _ _ _ (by decide)]
      simp [GS_GROUP_PRIVKEY, GS_USERCREDS]
    · rw [flagSet_or, flagSet_and_not _ _ _ (by decide)]
      simp [GS_GROUP_PUBKEY, GS_USERCREDS]

/-- `GS_sign` writes neither the flags nor the group key. -/
theorem sign_frame (fuel : Nat) (st : GS_State L) (msg bsn signature : List Nat) (len : Int)
    (r : GS_Ret × GS_State L × List Nat × Int)
    (hr : GS_sign L fuel st msg bsn signature len = some r) :
    r.2.1.state = st.state ∧ r.2.1._priv = st._priv := by
  simp only [GS_sign] at hr
  split_ifs at hr
  · cases hr
    exact ⟨rfl, rfl⟩
  · cases hr
    exact ⟨rfl, rfl⟩
  · cases hsig : sign L fuel st._rng st._userPriv msg bsn with
    | none => simp [hsig] at hr
    | some p =>
      simp only [hsig] at hr
      split_ifs at hr <;>
      · cases hr
        exact ⟨rfl, rfl⟩

/-- `GS_verify` writes neither the flags nor the group key. -/
theorem verify_frame (fuel : Nat) (st : GS_State L) (msg bsn signature : List Nat) (len : Int)
    (r : GS_Ret × GS_State L) (hr : GS_verify L fuel st msg bsn signature len = some r) :
    r.2.state = st.state ∧ r.2._priv = st._priv := by
  simp only [GS_verify] at hr
  split_ifs at hr
  · cases hr
    exact ⟨rfl, rfl⟩
  · cases hr
    exact ⟨rfl, rfl⟩
  · cases hv : verify L fuel msg bsn
        (deserialize_signature L { len := 0, max := len, val := signature }
          (localSig L)).2.2 st._priv.pub st._rng with
    | none => simp [hv] at hr
    | some p =>
      simp only [hv] at hr
      split_ifs at hr <;>
      · cases hr
        exact ⟨rfl, rfl⟩

/-- The flags of the state word an engine starts with. -/
theorem flagSet_zero (f : Nat) : flagSet 0 f = false := by
  rw [flagSet_eq_testBit, Nat.zero_testBit]

/-- The verdict of `verifyGroupPublicKey` does not depend on the stack when
none of the points it serializes is at infinity. -/
theorem verifyGroupPublicKey_of_noInfinity (hL : L.Laws) (pub : GroupPublicKey L)
    (h : NoInfinity L pub) (s s' : Stack L) :
    verifyGroupPublicKey L s pub = verifyGroupPublicKey L s' pub := by
  obtain ⟨hG, hX, hY, hSx, hSy⟩ := h
  simp only [verifyGroupPublicKey]
  rw [verifyECP2Proof_of_ne hL s s' _ _ _ _ hG hX hSx,
    verifyECP2Proof_of_ne hL (fun i => s (i + 3)) (fun i => s' (i + 3)) _ _ _ _ hG hY hSy]

/-- A key that passes `verifyGroupPublicKey` on one stack passes it on every
stack when none of the points the check serializes is at infinity. -/
theorem passes_every_stack (hL : L.Laws) (pub : GroupPublicKey L) (s : Stack L)
    (h : verifyGroupPublicKey L s pub = true) :
    (∃ stack : Stack L, verifyGroupPublicKey L stack pub = true)
      ∧ (NoInfinity L pub → ∀ stack : Stack L, verifyGroupPublicKey L stack pub = true) :=
  ⟨⟨s, h⟩, fun hn s' => (verifyGroupPublicKey_of_noInfinity hL pub hn s' s).trans h⟩

/-- C24 at the failing input: `GS_initState`, `GS_seed`, then a
`GS_setupGroup` that draws `x = 0`.  The engine has `GS_GROUP_PUBKEY` set and
holds a key with `X` at infinity; `verifyGroupPublicKey` rejects that key when
the unassigned locals of `ECP2_toOctet_compatibility` hold `(1, 0, 0, 0)`, not
the zeros they held in `GS_setupGroup`. -/
theorem C24_counterexample :
    Reachable toy toyIssuerZero ∧ flagSet toyIssuerZero.state GS_GROUP_PUBKEY = true
      ∧ toyIssuerZero._priv.pub.X = 0
      ∧ verifyGroupPublicKey toy toyStackOne toyIssuerZero._priv.pub = false :=
  ⟨Reachable.setupGroup _ _ (Reachable.seed _ _ _ (Reachable.initState toyRaw)),
    by decide, rfl, by decide⟩

/-- C24. Key invariant of reachable states: in every engine state reachable
from `GS_initState` by any sequence of calls, successful or failing,
`GS_GROUP_PRIVKEY` set implies `GS_GROUP_PUBKEY` set and `x g2 = X`,
`y g2 = Y` for the stored key, and `GS_GROUP_PUBKEY` set implies that the
stored public key passes `verifyGroupPublicKey` for some content of the locals
`ECP2_toOctet_compatibility` leaves unassigned, and for every content when
none of the points the check serializes (`g2`, `X`, `Y` and the two recomputed
commitments) is the point at infinity. -/
theorem C24_key_invariant (hL : L.Laws) (st : GS_State L) (h : Reachable L st) :
    (flagSet st.state GS_GROUP_PRIVKEY = true →
        flagSet st.state GS_GROUP_PUBKEY = true
          ∧ st._priv.x • L.g2 = st._priv.pub.X ∧ st._priv.y • L.g2 = st._priv.pub.Y)
      ∧ (flagSet st.state GS_GROUP_PUBKEY = true →
        (∃ stack : Stack L, verifyGroupPublicKey L stack st._priv.pub = true)
          ∧ (NoInfinity L st._priv.pub →
            ∀ stack : Stack L, verifyGroupPublicKey L stack st._priv.pub = true)) := by
  change KeyInvariant L st
  induction h with
  | initState raw =>
    refine ⟨fun h => ?_, fun h => ?_⟩
    · rw [GS_initState, flagSet_zero] at h
      exact Bool.noConfusion h
    · rw [GS_initState, flagSet_zero] at h
      exact Bool.noConfusion h
  | seed st seed n _ ih =>
    refine keyInvariant_frame st _ ?_ ?_ ?_ ih
    · unfold GS_seed
      split
      · rfl
      · rw [flagSet_or]
        simp [GS_GROUP_PRIVKEY, GS_SEEDED]
    · unfold GS_seed
      split
      · rfl
      · rw [flagSet_or]
        simp [GS_GROUP_PUBKEY, GS_SEEDED]
    · unfold GS_seed
      split <;> rfl
  | setupGroup stack st _ ih =>
    by_cases hs : flagSet st.state GS_SEEDED = true
    · have hst : GS_setupGroup L stack st
          = (GS_Ret.GS_RETURN_SUCCESS,
              { st with
                _rng := (setup L stack st._rng).2, _priv := (setup L stack st._rng).1,
                state := st.state &&& (1 <<< GS_SEEDED) ||| (1 <<< GS_GROUP_PRIVKEY)
                  ||| (1 <<< GS_GROUP_PUBKEY) }) := by
        simp [GS_setupGroup, hs]
      rw [hst]
      refine ⟨fun _ => ⟨?_, rfl, rfl⟩, fun _ => passes_every_stack hL _ stack ?_⟩
      · rw [flagSet_or]
        simp
      · simp only [verifyGroupPublicKey, setup, Bool.and_eq_true]
        exact ⟨verifyECP2Proof_make hL _ _ _ _ _ rfl rfl,
          verifyECP2Proof_make hL _ _ _ _ _ rfl rfl⟩
    · have hst : GS_setupGroup L stack st = (GS_Ret.GS_NOT_SEEDED, st) := by
        simp [GS_setupGroup, hs]
      rw [hst]
      exact ih
  | loadGroupPrivKey stack st data len _ _ =>
    by_cases hr : (deserialize_group_private_key L stack { len := 0, max := len, val := data }
        st._priv).1 = true
    · obtain ⟨hv, hc⟩ := deserialize_group_private_key_sound _ _ hr
      simp only [_checkPrivateKey, setG2, PAIR_G2mul, Bool.and_eq_true,
        decide_eq_true_eq] at hc
      simp only [GS_loadGroupPrivKey, hr, Bool.not_true, Bool.false_eq_true, if_false]
      refine ⟨fun _ => ⟨?_, hc.1, hc.2⟩, fun _ => passes_every_stack hL _ stack hv⟩
      rw [flagSet_or]
      simp
    · simp only [GS_loadGroupPrivKey, hr, Bool.not_false, if_true]
      refine ⟨fun h => ?_, fun h => ?_⟩
      · rw [flagSet_and] at h
        simp [GS_GROUP_PRIVKEY, GS_SEEDED] at h
      · rw [flagSet_and] at h
        simp [GS_GROUP_PUBKEY, GS_SEEDED] at h
  | loadGroupPubKey stack st data len _ _ =>
    by_cases hr : (deserialize_group_public_key L stack { len := 0, max := len, val := data }
        st._priv.pub).1 = true
    · have hv := deserialize_group_public_key_sound _ _ hr
      simp only [GS_loadGroupPubKey, hr, Bool.not_true, Bool.false_eq_true, if_false]
      refine ⟨fun h => ?_, fun _ => passes_every_stack hL _ stack hv⟩
      rw [flagSet_or, flagSet_and] at h
      simp [GS_GROUP_PRIVKEY, GS_GROUP_PUBKEY, GS_SEEDED] at h
    · simp only [GS_loadGroupPubKey, hr, Bool.not_false, if_true]
      refine ⟨fun h => ?_, fun h => ?_⟩
      · rw [flagSet_and] at h
        simp [GS_GROUP_PRIVKEY, GS_SEEDED] at h
      · rw [flagSet_and] at h
        simp [GS_GROUP_PUBKEY, GS_SEEDED] at h
  | startJoin st challenge gsk len_gsk joinmsg len _ ih =>
    obtain ⟨h1, h2⟩ := startJoin_frame st challenge gsk len_gsk joinmsg len
    exact keyInvariant_frame st _ (by rw [h1]) (by rw [h1]) h2 ih
  | loadUserCredentials st inp in_len _ ih =>
    obtain ⟨h1, h2, h3⟩ := loadUserCredentials_frame st inp in_len
    exact keyInvariant_frame st _ h1 h2 h3 ih
  | processJoin st joinmsg joinmsg_len challenge out out_len _ ih =>
    obtain ⟨h1, h2⟩ := processJoin_frame st joinmsg joinmsg_len challenge out out_len
    exact keyInvariant_frame st _ (by rw [h1]) (by rw [h1]) h2 ih
  | sign st fuel msg bsn signature len r _ hr ih =>
    obtain ⟨h1, h2⟩ := sign_frame fuel st msg bsn signature len r hr
    exact keyInvariant_frame st _ (by rw [h1]) (by rw [h1]) h2 ih
  | verify st fuel msg bsn signature len r _ hr ih =>
    obtain ⟨h1, h2⟩ := verify_frame fuel st msg bsn signature len r hr
    exact keyInvariant_frame st _ (by rw [h1]) (by rw [h1]) h2 ih

/-- C24 at the small library: the issuer engine `toyIssuer`, reached by
`GS_initState`, `GS_seed`, `GS_setupGroup` with the draws 3, 5, 2, 9; its key
passes on a stack other than the one `GS_setupGroup` met. -/
theorem C24_witness :
    (toy.Laws ∧ Reachable toy toyIssuer ∧ flagSet toyIssuer.state GS_GROUP_PRIVKEY = true
        ∧ flagSet toyIssuer.state GS_GROUP_PUBKEY = true ∧ NoInfinity toy toyIssuer._priv.pub)
      ∧ (flagSet toyIssuer.state GS_GROUP_PUBKEY = true
        ∧ toyIssuer._priv.x • toy.g2 = toyIssuer._priv.pub.X
        ∧ toyIssuer._priv.y • toy.g2 = toyIssuer._priv.pub.Y)
      ∧ verifyGroupPublicKey toy toyStackOne toyIssuer._priv.pub = true :=
  ⟨⟨toy_laws, Reachable.setupGroup _ _ (Reachable.seed _ _ _ (Reachable.initState toyRaw)),
      by decide, by decide,
      toy_ne _ (by decide), toy_ne _ (by decide), toy_ne _ (by decide), toy_ne _ (by decide),
      toy_ne _ (by decide)⟩,
    (C24_key_invariant toy_laws toyIssuer
      (Reachable.setupGroup _ _ (Reachable.seed _ _ _ (Reachable.initState toyRaw)))).1
      (by decide),
    ((C24_key_invariant toy_laws toyIssuer
      (Reachable.setupGroup _ _ (Reachable.seed _ _ _ (Reachable.initState toyRaw)))).2
      (by decide)).2
      ⟨toy_ne _ (by decide), toy_ne _ (by decide), toy_ne _ (by decide), toy_ne _ (by decide),
        toy_ne _ (by decide)⟩ toyStackOne⟩

end Invariant

/-! ## The engine RNG and the seeded flag -/

section Seeding

variable {L}
variable {stack stack' : Stack L} {qxy : L.FP × L.FP × L.FP × L.FP}

/-- Past the test of `A`, `verifyAuxFast` has drawn two numbers from the RNG. -/
theorem verifyAuxFast_rng (A B C D : L.ECP) (X Y : L.ECP2) (RNG : L.csprng) (hA : A ≠ 0) :
    (verifyAuxFast L A B C D X Y RNG).2 = (randomModOrder L (randomModOrder L RNG).2).2 := by
  simp only [verifyAuxFast, ECP_isinf, hA, decide_False, Bool.false_eq_true, if_false]
  split_ifs <;> rfl

/-- C25 fails for `GS_verify`: on an engine with `GS_GROUP_PUBKEY` set,
whether `GS_SEEDED` is set or not, for a signature that parses, whose
Chaum-Pedersen proof verifies and whose `A` and `B` are not infinity, the call
returns the verdict of `verifyAuxFast` run on the engine RNG and leaves that
RNG advanced by the two draws of the masks. -/
theorem C25_verify_draws_unseeded (st : GS_State L) (fuel : Nat)
    (msg bsn signature : List Nat) (len : Int) (BSN : L.ECP)
    (hpub : flagSet st.state GS_GROUP_PUBKEY = true)
    (hparse : (deserialize_signature L { len := 0, max := len, val := signature }
      (localSig L)).1 = true)
    (hmap : mapit L fuel (myhash L bsn) = some BSN)
    (hcp : verifyECPProofEquals L
      (deserialize_signature L { len := 0, max := len, val := signature } (localSig L)).2.2.B
      BSN
      (deserialize_signature L { len := 0, max := len, val := signature } (localSig L)).2.2.D
      (deserialize_signature L { len := 0, max := len, val := signature } (localSig L)).2.2.NYM
      (some (myhash L (digestPair L msg bsn)))
      (deserialize_signature L { len := 0, max := len, val := signature } (localSig L)).2.2.c
      (deserialize_signature L { len := 0, max := len, val := signature } (localSig L)).2.2.s
        = true)
    (hA : (deserialize_signature L { len := 0, max := len, val := signature }
      (localSig L)).2.2.A ≠ 0)
    (hB : (deserialize_signature L { len := 0, max := len, val := signature }
      (localSig L)).2.2.B ≠ 0) :
    GS_verify L fuel st msg bsn signature len
      = some
          (if (verifyAuxFast L
                (deserialize_signature L { len := 0, max := len, val := signature }
                  (localSig L)).2.2.A
                (deserialize_signature L { len := 0, max := len, val := signature }
                  (localSig L)).2.2.B
                (deserialize_signature L { len := 0, max := len, val := signature }
                  (localSig L)).2.2.C
                (deserialize_signature L { len := 0, max := len, val := signature }
                  (localSig L)).2.2.D
                st._priv.pub.X st._priv.pub.Y st._rng).1
            then GS_Ret.GS_RETURN_SUCCESS else GS_Ret.GS_RETURN_FAILURE,
           { st with _rng := (randomModOrder L (randomModOrder L st._rng).2).2 }) := by
  have hrng := verifyAuxFast_rng
    (deserialize_signature L { len := 0, max := len, val := signature } (localSig L)).2.2.A
    (deserialize_signature L { len := 0, max := len, val := signature } (localSig L)).2.2.B
    (deserialize_signature L { len := 0, max := len, val := signature } (localSig L)).2.2.C
    (deserialize_signature L { len := 0, max := len, val := signature } (localSig L)).2.2.D
    st._priv.pub.X st._priv.pub.Y st._rng hA
  have hv : verify L fuel msg bsn
      (deserialize_signature L { len := 0, max := len, val := signature } (localSig L)).2.2
      st._priv.pub st._rng
      = some (verifyAuxFast L
          (deserialize_signature L { len := 0, max := len, val := signature }
            (localSig L)).2.2.A
          (deserialize_signature L { len := 0, max := len, val := signature }
            (localSig L)).2.2.B
          (deserialize_signature L { len := 0, max := len, val := signature }
            (localSig L)).2.2.C
          (deserialize_signature L { len := 0, max := len, val := signature }
            (localSig L)).2.2.D
          st._priv.pub.X st._priv.pub.Y st._rng) := by
    unfold digestPair at hcp
    simp only [verify, hmap, hcp, ECP_isinf, hA, hB, decide_False, Bool.not_false,
      Bool.and_self, if_true]
  simp only [GS_verify, hpub, hparse, hv, Bool.not_true, Bool.false_eq_true, if_false]
  rw [← hrng]
  split_ifs with h1 h2 h2
  · rw [Bool.not_eq_true'] at h1
    rw [h1] at h2
    exact absurd h2 Bool.false_ne_true
  · rfl
  · rfl
  · rw [Bool.not_eq_true', Bool.not_eq_false] at h1
    exact absurd h1 h2

/-- C25 at the small library: the engine `toyVerifier` has never been seeded,
`GS_verify` accepts a signature on it with the masks 4 and 1 taken from its
RNG, and the RNG is left empty. -/
theorem C25_witness :
    (flagSet toyVerifier.state GS_SEEDED = false
        ∧ flagSet toyVerifier.state GS_GROUP_PUBKEY = true
        ∧ toyVerifier._rng = [4, 1]
        ∧ (randomModOrder toy (randomModOrder toy toyVerifier._rng).2).2 = [])
      ∧ GS_verify toy 8 toyVerifier [104, 105] [98] toySignatureBytes 17
        = some
            (if (verifyAuxFast toy
                  (deserialize_signature toy { len := 0, max := 17, val := toySignatureBytes }
                    (localSig toy)).2.2.A
                  (deserialize_signature toy { len := 0, max := 17, val := toySignatureBytes }
                    (localSig toy)).2.2.B
                  (deserialize_signature toy { len := 0, max := 17, val := toySignatureBytes }
                    (localSig toy)).2.2.C
                  (deserialize_signature toy { len := 0, max := 17, val := toySignatureBytes }
                    (localSig toy)).2.2.D
                  toyVerifier._priv.pub.X toyVerifier._priv.pub.Y toyVerifier._rng).1
              then GS_Ret.GS_RETURN_SUCCESS else GS_Ret.GS_RETURN_FAILURE,
             { toyVerifier with
               _rng := (randomModOrder toy (randomModOrder toy toyVerifier._rng).2).2 })
      ∧ (GS_verify toy 8 toyVerifier [104, 105] [98] toySignatureBytes 17).map
          (fun r => (r.1, r.2._rng)) = some (GS_Ret.GS_RETURN_SUCCESS, []) :=
  ⟨⟨by decide, by decide, by decide, by decide⟩,
    C25_verify_draws_unseeded toyVerifier 8 [104, 105] [98] toySignatureBytes 17
      ((mapit toy 8 (myhash toy [98])).getD 0) (by decide) (by decide) rfl (by decide)
      (toy_ne _ (by decide)) (toy_ne _ (by decide)),
    by decide⟩

end Seeding

/-! ## Trailing bytes -/

section Trailing

variable {L}
variable {stack stack' : Stack L} {qxy : L.FP × L.FP × L.FP × L.FP}

/-- The `s` bytes from offset `k` on are the same in two lists with the same
`W` leading bytes, when they lie below `W`. -/
theorem window_eq (W k s : Nat) (v v' : List Nat) (h : v.take W = v'.take W)
    (hk : k + s ≤ W) : (v.drop k).take s = (v'.drop k).take s := by
  have e : ∀ u : List Nat, (u.drop k).take s = ((u.take W).drop k).take s := by
    intro u
    rw [List.drop_take, List.take_take, Nat.min_eq_left (by omega)]
  rw [e v, e v', h]

/-- Reading `n` bytes at offset `a` sees the first `m` bytes only, when
`a + n ≤ m` and the list holds them. -/
theorem sliceBytes_take (v : List Nat) (m a n : Nat) (h : a + n ≤ m) (hm : m ≤ v.length) :
    sliceBytes (v.take m) a n = sliceBytes v a n := by
  have l1 : n ≤ (v.drop a).length := by
    rw [List.length_drop]
    omega
  have l2 : n ≤ ((v.take m).drop a).length := by
    rw [List.length_drop, List.length_take]
    omega
  simp only [sliceBytes]
  rw [List.take_append_of_le_length l1, List.take_append_of_le_length l2, List.drop_take,
    List.take_take, Nat.min_eq_left (by omega)]

/-- The offsets and lengths behind a cursor of two octets with the same
leading bytes. -/
theorem samePrefix_window (W : Nat) (o o' : octet) (s : Nat) (h : SamePrefix W o o')
    (hw : o.len + (s : Int) ≤ (W : Int)) :
    (o.val.drop o.len.toNat).take s = (o'.val.drop o'.len.toNat).take s
      ∧ s ≤ (o.val.drop o.len.toNat).length ∧ s ≤ (o'.val.drop o'.len.toNat).length
      ∧ o.len + (s : Int) ≤ o.max ∧ o'.len + (s : Int) ≤ o'.max := by
  obtain ⟨hl, h0, hm, hm', ht, hv, hv'⟩ := h
  rw [← hl]
  refine ⟨window_eq W o.len.toNat s _ _ ht (by omega), ?_, ?_, by omega, by omega⟩
  · rw [List.length_drop]
    omega
  · rw [List.length_drop]
    omega

/-- The cursor moved by `s` on both octets keeps the leading bytes the same. -/
theorem samePrefix_advance (W : Nat) (o o' : octet) (s : Nat) (h : SamePrefix W o o') :
    SamePrefix W { o with len := o.len + (s : Int) } { o' with len := o'.len + (s : Int) } := by
  obtain ⟨hl, h0, hm, hm', ht, hv, hv'⟩ := h
  have hs := Int.natCast_nonneg s
  exact ⟨by simp only [hl], by simp only; omega, hm, hm', ht, hv, hv'⟩

theorem readsOnly_BIG : ReadsOnly (deserialize_BIG L) L.MODBYTES := by
  intro W o o' out h hw
  obtain ⟨hwin, l1, l2, c1, c2⟩ := samePrefix_window W o o' L.MODBYTES h hw
  have hadv := samePrefix_advance W o o' L.MODBYTES h
  have e1 : sliceBytes o.val o.len.toNat L.MODBYTES
      = sliceBytes o'.val o'.len.toNat L.MODBYTES := by
    rw [sliceBytes_drop o.val, sliceBytes_drop o'.val,
      ← sliceBytes_take _ L.MODBYTES 0 L.MODBYTES (by omega) l1,
      ← sliceBytes_take _ L.MODBYTES 0 L.MODBYTES (by omega) l2, hwin]
  simp only [deserialize_BIG, BIGSIZE, c1, c2, if_true, e1]
  exact ⟨trivial, trivial, hadv, le_refl _⟩

theorem ECP2_fromOctet_take (Q : L.ECP2) (v : List Nat) (hv : 4 * L.MODBYTES ≤ v.length) :
    ECP2_fromOctet_compatibility L Q (v.take (4 * L.MODBYTES))
      = ECP2_fromOctet_compatibility L Q v := by
  simp only [ECP2_fromOctet_compatibility]
  rw [sliceBytes_take v _ 0 L.MODBYTES (by omega) hv,
    sliceBytes_take v _ L.MODBYTES L.MODBYTES (by omega) hv,
    sliceBytes_take v _ (2 * L.MODBYTES) L.MODBYTES (by omega) hv,
    sliceBytes_take v _ (3 * L.MODBYTES) L.MODBYTES (by omega) hv]

theorem readsOnly_ECP2 : ReadsOnly (deserialize_ECP2 L) (4 * L.MODBYTES) := by
  intro W o o' out h hw
  obtain ⟨hwin, l1, l2, c1, c2⟩ := samePrefix_window W o o' (4 * L.MODBYTES) h hw
  have hadv := samePrefix_advance W o o' (4 * L.MODBYTES) h
  have e1 : ECP2_fromOctet_compatibility L out (o.val.drop o.len.toNat)
      = ECP2_fromOctet_compatibility L out (o'.val.drop o'.len.toNat) := by
    rw [← ECP2_fromOctet_take out _ l1, ← ECP2_fromOctet_take out _ l2, hwin]
  simp only [deserialize_ECP2, ECP2SIZE, c1, c2, if_true, e1]
  exact ⟨trivial, trivial, hadv, le_refl _⟩

theorem readsOnly_ECP (hR : L.ReadsPrefix) :
    ReadsOnly (deserialize_ECP L) (2 * L.MODBYTES + 1) := by
  intro W o o' out h hw
  obtain ⟨hwin, l1, l2, c1, c2⟩ := samePrefix_window W o o' (2 * L.MODBYTES + 1) h hw
  have hadv := samePrefix_advance W o o' (2 * L.MODBYTES + 1) h
  have e1 : L.ECP_fromOctet out (o.val.drop o.len.toNat)
      = L.ECP_fromOctet out (o'.val.drop o'.len.toNat) := by
    rw [hR out (o.val.drop o.len.toNat), hR out (o'.val.drop o'.len.toNat), hwin]
  simp only [deserialize_ECP, ECPSIZE, c1, c2, if_true, e1]
  exact ⟨trivial, trivial, hadv, le_refl _⟩

theorem readsOnly_join_message (hR : L.ReadsPrefix) :
    ReadsOnly (deserialize_join_message L) ((2 * L.MODBYTES + 1) + 2 * L.MODBYTES) := by
  intro W o o' out h hw
  push_cast at hw
  have hM := Int.natCast_nonneg L.MODBYTES
  simp only [deserialize_join_message]
  obtain ⟨a1, b1, c1, d1⟩ := readsOnly_ECP hR W o o' out.Q h (by omega)
  rcases h1 : deserialize_ECP L o out.Q with ⟨r1, o1, v1⟩
  rcases h1' : deserialize_ECP L o' out.Q with ⟨r1', o1', v1'⟩
  rw [h1, h1'] at a1 b1 c1
  rw [h1] at d1
  have e1 : r1 = r1' := a1
  have f1 : v1 = v1' := b1
  have s1 : SamePrefix W o1 o1' := c1
  have l1 : o1.len ≤ o.len + (((2 * L.MODBYTES + 1) : Nat) : Int) := d1
  subst e1 f1
  push_cast at l1
  cases r1
  · exact ⟨rfl, rfl, s1, by push_cast; omega⟩
  simp only
  obtain ⟨a2, b2, c2, d2⟩ := readsOnly_BIG (L := L) W o1 o1' out.c s1 (by omega)
  rcases h2 : deserialize_BIG L o1 out.c with ⟨r2, o2, v2⟩
  rcases h2' : deserialize_BIG L o1' out.c with ⟨r2', o2', v2'⟩
  rw [h2, h2'] at a2 b2 c2
  rw [h2] at d2
  have e2 : r2 = r2' := a2
  have f2 : v2 = v2' := b2
  have s2 : SamePrefix W o2 o2' := c2
  have l2 : o2.len ≤ o1.len + ((L.MODBYTES : Nat) : Int) := d2
  subst e2 f2
  push_cast at l2
  cases r2
  · exact ⟨rfl, rfl, s2, by push_cast; omega⟩
  simp only
  obtain ⟨a3, b3, c3, d3⟩ := readsOnly_BIG (L := L) W o2 o2' out.s s2 (by omega)
  rcases h3 : deserialize_BIG L o2 out.s with ⟨r3, o3, v3⟩
  rcases h3' : deserialize_BIG L o2' out.s with ⟨r3', o3', v3'⟩
  rw [h3, h3'] at a3 b3 c3
  rw [h3] at d3
  have e3 : r3 = r3' := a3
  have f3 : v3 = v3' := b3
  have s3 : SamePrefix W o3 o3' := c3
  have l3 : o3.len ≤ o2.len + ((L.MODBYTES : Nat) : Int) := d3
  subst e3 f3
  push_cast at l3
  exact ⟨rfl, rfl, s3, by push_cast; omega⟩

theorem readsOnly_user_credentials (hR : L.ReadsPrefix) :
    ReadsOnly (deserialize_user_credentials L) (4 * (2 * L.MODBYTES + 1)) := by
  intro W o o' out h hw
  push_cast at hw
  have hM := Int.natCast_nonneg L.MODBYTES
  simp only [deserialize_user_credentials]
  obtain ⟨a1, b1, c1, d1⟩ := readsOnly_ECP hR W o o' out.A h (by omega)
  rcases h1 : deserialize_ECP L o out.A with ⟨r1, o1, v1⟩
  rcases h1' : deserialize_ECP L o' out.A with ⟨r1', o1', v1'⟩
  rw [h1, h1'] at a1 b1 c1
  rw [h1] at d1
  have e1 : r1 = r1' := a1
  have f1 : v1 = v1' := b1
  have s1 : SamePrefix W o1 o1' := c1
  have l1 : o1.len ≤ o.len + (((2 * L.MODBYTES + 1) : Nat) : Int) := d1
  subst e1 f1
  push_cast at l1
  cases r1
  · exact ⟨rfl, rfl, s1, by push_cast; omega⟩
  simp only
  obtain ⟨a2, b2, c2, d2⟩ := readsOnly_ECP hR W o1 o1' out.B s1 (by omega)
  rcases h2 : deserialize_ECP L o1 out.B with ⟨r2, o2, v2⟩
  rcases h2' : deserialize_ECP L o1' out.B with ⟨r2', o2', v2'⟩
  rw [h2, h2'] at a2 b2 c2
  rw [h2] at d2
  have e2 : r2 = r2' := a2
  have f2 : v2 = v2' := b2
  have s2 : SamePrefix W o2 o2' := c2
  have l2 : o2.len ≤ o1.len + (((2 * L.MODBYTES + 1) : Nat) : Int) := d2
  subst e2 f2
  push_cast at l2
  cases r2
  · exact ⟨rfl, rfl, s2, by push_cast; omega⟩
  simp only
  obtain ⟨a3, b3, c3, d3⟩ := readsOnly_ECP hR W o2 o2' out.C s2 (by omega)
  rcases h3 : deserialize_ECP L o2 out.C with ⟨r3, o3, v3⟩
  rcases h3' : deserialize_ECP L o2' out.C with ⟨r3', o3', v3'⟩
  rw [h3, h3'] at a3 b3 c3
  rw [h3] at d3
  have e3 : r3 = r3' := a3
  have f3 : v3 = v3' := b3
  have s3 : SamePrefix W o3 o3' := c3
  have l3 : o3.len ≤ o2.len + (((2 * L.MODBYTES + 1) : Nat) : Int) := d3
  subst e3 f3
  push_cast at l3
  cases r3
  · exact ⟨rfl, rfl, s3, by push_cast; omega⟩
  simp only
  obtain ⟨a4, b4, c4, d4⟩ := readsOnly_ECP hR W o3 o3' out.D s3 (by omega)
  rcases h4 : deserialize_ECP L o3 out.D with ⟨r4, o4, v4⟩
  rcases h4' : deserialize_ECP L o3' out.D with ⟨r4', o4', v4'⟩
  rw [h4, h4'] at a4 b4 c4
  rw [h4] at d4
  have e4 : r4 = r4' := a4
  have f4 : v4 = v4' := b4
  have s4 : SamePrefix W o4 o4' := c4
  have l4 : o4.len ≤ o3.len + (((2 * L.MODBYTES + 1) : Nat) : Int) := d4
  subst e4 f4
  push_cast at l4
  exact ⟨rfl, rfl, s4, by push_cast; omega⟩

theorem readsOnly_user_private_key (hR : L.ReadsPrefix) :
    ReadsOnly (deserialize_user_private_key L) (4 * (2 * L.MODBYTES + 1) + L.MODBYTES) := by
  intro W o o' out h hw
  push_cast at hw
  have hM := Int.natCast_nonneg L.MODBYTES
  simp only [deserialize_user_private_key]
  obtain ⟨a1, b1, c1, d1⟩ := readsOnly_user_credentials hR W o o' out.cred h (by omega)
  rcases h1 : deserialize_user_credentials L o out.cred with ⟨r1, o1, v1⟩
  rcases h1' : deserialize_user_credentials L o' out.cred with ⟨r1', o1', v1'⟩
  rw [h1, h1'] at a1 b1 c1
  rw [h1] at d1
  have e1 : r1 = r1' := a1
  have f1 : v1 = v1' := b1
  have s1 : SamePrefix W o1 o1' := c1
  have l1 : o1.len ≤ o.len + ((4 * (2 * L.MODBYTES + 1) : Nat) : Int) := d1
  subst e1 f1
  push_cast at l1
  cases r1
  · exact ⟨rfl, rfl, s1, by push_cast; omega⟩
  simp only
  obtain ⟨a2, b2, c2, d2⟩ := readsOnly_BIG (L := L) W o1 o1' out.gsk s1 (by omega)
  rcases h2 : deserialize_BIG L o1 out.gsk with ⟨r2, o2, v2⟩
  rcases h2' : deserialize_BIG L o1' out.gsk with ⟨r2', o2', v2'⟩
  rw [h2, h2'] at a2 b2 c2
  rw [h2] at d2
  have e2 : r2 = r2' := a2
  have f2 : v2 = v2' := b2
  have s2 : SamePrefix W o2 o2' := c2
  have l2 : o2.len ≤ o1.len + ((L.MODBYTES : Nat) : Int) := d2
  subst e2 f2
  push_cast at l2
  exact ⟨rfl, rfl, s2, by push_cast; omega⟩

theorem readsOnly_signature (hR : L.ReadsPrefix) :
    ReadsOnly (deserialize_signature L) (5 * (2 * L.MODBYTES + 1) + 2 * L.MODBYTES) := by
  intro W o o' out h hw
  push_cast at hw
  have hM := Int.natCast_nonneg L.MODBYTES
  simp only [deserialize_signature]
  obtain ⟨a1, b1, c1, d1⟩ := readsOnly_ECP hR W o o' out.A h (by omega)
  rcases h1 : deserialize_ECP L o out.A with ⟨r1, o1, v1⟩
  rcases h1' : deserialize_ECP L o' out.A with ⟨r1', o1', v1'⟩
  rw [h1, h1'] at a1 b1 c1
  rw [h1] at d1
  have e1 : r1 = r1' := a1
  have f1 : v1 = v1' := b1
  have s1 : SamePrefix W o1 o1' := c1
  have l1 : o1.len ≤ o.len + (((2 * L.MODBYTES + 1) : Nat) : Int) := d1
  subst e1 f1
  push_cast at l1
  cases r1
  · exact ⟨rfl, rfl, s1, by push_cast; omega⟩
  simp only
  obtain ⟨a2, b2, c2, d2⟩ := readsOnly_ECP hR W o1 o1' out.B s1 (by omega)
  rcases h2 : deserialize_ECP L o1 out.B with ⟨r2, o2, v2⟩
  rcases h2' : deserialize_ECP L o1' out.B with ⟨r2', o2', v2'⟩
  rw [h2, h2'] at a2 b2 c2
  rw [h2] at d2
  have e2 : r2 = r2' := a2
  have f2 : v2 = v2' := b2
  have s2 : SamePrefix W o2 o2' := c2
  have l2 : o2.len ≤ o1.len + (((2 * L.MODBYTES + 1) : Nat) : Int) := d2
  subst e2 f2
  push_cast at l2
  cases r2
  · exact ⟨rfl, rfl, s2, by push_cast; omega⟩
  simp only
  obtain ⟨a3, b3, c3, d3⟩ := readsOnly_ECP hR W o2 o2' out.C s2 (by omega)
  rcases h3 : deserialize_ECP L o2 out.C with ⟨r3, o3, v3⟩
  rcases h3' : deserialize_ECP L o2' out.C with ⟨r3', o3', v3'⟩
  rw [h3, h3'] at a3 b3 c3
  rw [h3] at d3
  have e3 : r3 = r3' := a3
  have f3 : v3 = v3' := b3
  have s3 : SamePrefix W o3 o3' := c3
  have l3 : o3.len ≤ o2.len + (((2 * L.MODBYTES + 1) : Nat) : Int) := d3
  subst e3 f3
  push_cast at l3
  cases r3
  · exact ⟨rfl, rfl, s3, by push_cast; omega⟩
  simp only
  obtain ⟨a4, b4, c4, d4⟩ := readsOnly_ECP hR W o3 o3' out.D s3 (by omega)
  rcases h4 : deserialize_ECP L o3 out.D with ⟨r4, o4, v4⟩
  rcases h4' : deserialize_ECP L o3' out.D with ⟨r4', o4', v4'⟩
  rw [h4, h4'] at a4 b4 c4
  rw [h4] at d4
  have e4 : r4 = r4' := a4
  have f4 : v4 = v4' := b4
  have s4 : SamePrefix W o4 o4' := c4
  have l4 : o4.len ≤ o3.len + (((2 * L.MODBYTES + 1) : Nat) : Int) := d4
  subst e4 f4
  push_cast at l4
  cases r4
  · exact ⟨rfl, rfl, s4, by push_cast; omega⟩
  simp only
  obtain ⟨a5, b5, c5, d5⟩ := readsOnly_ECP hR W o4 o4' out.NYM s4 (by omega)
  rcases h5 : deserialize_ECP L o4 out.NYM with ⟨r5, o5, v5⟩
  rcases h5' : deserialize_ECP L o4' out.NYM with ⟨r5', o5', v5'⟩
  rw [h5, h5'] at a5 b5 c5
  rw [h5] at d5
  have e5 : r5 = r5' := a5
  have f5 : v5 = v5' := b5
  have s5 : SamePrefix W o5 o5' := c5
  have l5 : o5.len ≤ o4.len + (((2 * L.MODBYTES + 1) : Nat) : Int) := d5
  subst e5 f5
  push_cast at l5
  cases r5
  · exact ⟨rfl, rfl, s5, by push_cast; omega⟩
  simp only
  obtain ⟨a6, b6, c6, d6⟩ := readsOnly_BIG (L := L) W o5 o5' out.c s5 (by omega)
  rcases h6 : deserialize_BIG L o5 out.c with ⟨r6, o6, v6⟩
  rcases h6' : deserialize_BIG L o5' out.c with ⟨r6', o6', v6'⟩
  rw [h6, h6'] at a6 b6 c6
  rw [h6] at d6
  have e6 : r6 = r6' := a6
  have f6 : v6 = v6' := b6
  have s6 : SamePrefix W o6 o6' := c6
  have l6 : o6.len ≤ o5.len + ((L.MODBYTES : Nat) : Int) := d6
  subst e6 f6
  push_cast at l6
  cases r6
  · exact ⟨rfl, rfl, s6, by push_cast; omega⟩
  simp only
  obtain ⟨a7, b7, c7, d7⟩ := readsOnly_BIG (L := L) W o6 o6' out.s s6 (by omega)
  rcases h7 : deserialize_BIG L o6 out.s with ⟨r7, o7, v7⟩
  rcases h7' : deserialize_BIG L o6' out.s with ⟨r7', o7', v7'⟩
  rw [h7, h7'] at a7 b7 c7
  rw [h7] at d7
  have e7 : r7 = r7' := a7
  have f7 : v7 = v7' := b7
  have s7 : SamePrefix W o7 o7' := c7
  have l7 : o7.len ≤ o6.len + ((L.MODBYTES : Nat) : Int) := d7
  subst e7 f7
  push_cast at l7
  exact ⟨rfl, rfl, s7, by push_cast; omega⟩

theorem readsOnly_group_public_key :
    ReadsOnly (deserialize_group_public_key L stack) (12 * L.MODBYTES) := by
  intro W o o' out h hw
  push_cast at hw
  have hM := Int.natCast_nonneg L.MODBYTES
  simp only [deserialize_group_public_key]
  obtain ⟨a1, b1, c1, d1⟩ := readsOnly_ECP2 (L := L) W o o' out.X h (by omega)
  rcases h1 : deserialize_ECP2 L o out.X with ⟨r1, o1, v1⟩
  rcases h1' : deserialize_ECP2 L o' out.X with ⟨r1', o1', v1'⟩
  rw [h1, h1'] at a1 b1 c1
  rw [h1] at d1
  have e1 : r1 = r1' := a1
  have f1 : v1 = v1' := b1
  have s1 : SamePrefix W o1 o1' := c1
  have l1 : o1.len ≤ o.len + (((4 * L.MODBYTES) : Nat) : Int) := d1
  subst e1 f1
  push_cast at l1
  cases r1
  · exact ⟨rfl, rfl, s1, by push_cast; omega⟩
  simp only
  obtain ⟨a2, b2, c2, d2⟩ := readsOnly_ECP2 (L := L) W o1 o1' out.Y s1 (by omega)
  rcases h2 : deserialize_ECP2 L o1 out.Y with ⟨r2, o2, v2⟩
  rcases h2' : deserialize_ECP2 L o1' out.Y with ⟨r2', o2', v2'⟩
  rw [h2, h2'] at a2 b2 c2
  rw [h2] at d2
  have e2 : r2 = r2' := a2
  have f2 : v2 = v2' := b2
  have s2 : SamePrefix W o2 o2' := c2
  have l2 : o2.len ≤ o1.len + (((4 * L.MODBYTES) : Nat) : Int) := d2
  subst e2 f2
  push_cast at l2
  cases r2
  · exact ⟨rfl, rfl, s2, by push_cast; omega⟩
  simp only
  obtain ⟨a3, b3, c3, d3⟩ := readsOnly_BIG (L := L) W o2 o2' out.cx s2 (by omega)
  rcases h3 : deserialize_BIG L o2 out.cx with ⟨r3, o3, v3⟩
  rcases h3' : deserialize_BIG L o2' out.cx with ⟨r3', o3', v3'⟩
  rw [h3, h3'] at a3 b3 c3
  rw [h3] at d3
  have e3 : r3 = r3' := a3
  have f3 : v3 = v3' := b3
  have s3 : SamePrefix W o3 o3' := c3
  have l3 : o3.len ≤ o2.len + ((L.MODBYTES : Nat) : Int) := d3
  subst e3 f3
  push_cast at l3
  cases r3
  · exact ⟨rfl, rfl, s3, by push_cast; omega⟩
  simp only
  obtain ⟨a4, b4, c4, d4⟩ := readsOnly_BIG (L := L) W o3 o3' out.sx s3 (by omega)
  rcases h4 : deserialize_BIG L o3 out.sx with ⟨r4, o4, v4⟩
  rcases h4' : deserialize_BIG L o3' out.sx with ⟨r4', o4', v4'⟩
  rw [h4, h4'] at a4 b4 c4
  rw [h4] at d4
  have e4 : r4 = r4' := a4
  have f4 : v4 = v4' := b4
  have s4 : SamePrefix W o4 o4' := c4
  have l4 : o4.len ≤ o3.len + ((L.MODBYTES : Nat) : Int) := d4
  subst e4 f4
  push_cast at l4
  cases r4
  · exact ⟨rfl, rfl, s4, by push_cast; omega⟩
  simp only
  obtain ⟨a5, b5, c5, d5⟩ := readsOnly_BIG (L := L) W o4 o4' out.cy s4 (by omega)
  rcases h5 : deserialize_BIG L o4 out.cy with ⟨r5, o5, v5⟩
  rcases h5' : deserialize_BIG L o4' out.cy with ⟨r5', o5', v5'⟩
  rw [h5, h5'] at a5 b5 c5
  rw [h5] at d5
  have e5 : r5 = r5' := a5
  have f5 : v5 = v5' := b5
  have s5 : SamePrefix W o5 o5' := c5
  have l5 : o5.len ≤ o4.len + ((L.MODBYTES : Nat) : Int) := d5
  subst e5 f5
  push_cast at l5
  cases r5
  · exact ⟨rfl, rfl, s5, by push_cast; omega⟩
  simp only
  obtain ⟨a6, b6, c6, d6⟩ := readsOnly_BIG (L := L) W o5 o5' out.sy s5 (by omega)
  rcases h6 : deserialize_BIG L o5 out.sy with ⟨r6, o6, v6⟩
  rcases h6' : deserialize_BIG L o5' out.sy with ⟨r6', o6', v6'⟩
  rw [h6, h6'] at a6 b6 c6
  rw [h6] at d6
  have e6 : r6 = r6' := a6
  have f6 : v6 = v6' := b6
  have s6 : SamePrefix W o6 o6' := c6
  have l6 : o6.len ≤ o5.len + ((L.MODBYTES : Nat) : Int) := d6
  subst e6 f6
  push_cast at l6
  cases r6
  · exact ⟨rfl, rfl, s6, by push_cast; omega⟩
  exact ⟨rfl, rfl, s6, by push_cast; omega⟩

theorem readsOnly_group_private_key :
    ReadsOnly (deserialize_group_private_key L stack) (14 * L.MODBYTES) := by
  intro W o o' out h hw
  push_cast at hw
  have hM := Int.natCast_nonneg L.MODBYTES
  simp only [deserialize_group_private_key]
  obtain ⟨a1, b1, c1, d1⟩ := readsOnly_group_public_key (L := L) W o o' out.pub h (by omega)
  rcases h1 : deserialize_group_public_key L stack o out.pub with ⟨r1, o1, v1⟩
  rcases h1' : deserialize_group_public_key L stack o' out.pub with ⟨r1', o1', v1'⟩
  rw [h1, h1'] at a1 b1 c1
  rw [h1] at d1
  have e1 : r1 = r1' := a1
  have f1 : v1 = v1' := b1
  have s1 : SamePrefix W o1 o1' := c1
  have l1 : o1.len ≤ o.len + ((12 * L.MODBYTES : Nat) : Int) := d1
  subst e1 f1
  push_cast at l1
  cases r1
  · exact ⟨rfl, rfl, s1, by push_cast; omega⟩
  simp only
  obtain ⟨a2, b2, c2, d2⟩ := readsOnly_BIG (L := L) W o1 o1' out.x s1 (by omega)
  rcases h2 : deserialize_BIG L o1 out.x with ⟨r2, o2, v2⟩
  rcases h2' : deserialize_BIG L o1' out.x with ⟨r2', o2', v2'⟩
  rw [h2, h2'] at a2 b2 c2
  rw [h2] at d2
  have e2 : r2 = r2' := a2
  have f2 : v2 = v2' := b2
  have s2 : SamePrefix W o2 o2' := c2
  have l2 : o2.len ≤ o1.len + ((L.MODBYTES : Nat) : Int) := d2
  subst e2 f2
  push_cast at l2
  cases r2
  · exact ⟨rfl, rfl, s2, by push_cast; omega⟩
  simp only
  obtain ⟨a3, b3, c3, d3⟩ := readsOnly_BIG (L := L) W o2 o2' out.y s2 (by omega)
  rcases h3 : deserialize_BIG L o2 out.y with ⟨r3, o3, v3⟩
  rcases h3' : deserialize_BIG L o2' out.y with ⟨r3', o3', v3'⟩
  rw [h3, h3'] at a3 b3 c3
  rw [h3] at d3
  have e3 : r3 = r3' := a3
  have f3 : v3 = v3' := b3
  have s3 : SamePrefix W o3 o3' := c3
  have l3 : o3.len ≤ o2.len + ((L.MODBYTES : Nat) : Int) := d3
  subst e3 f3
  push_cast at l3
  cases r3
  · exact ⟨rfl, rfl, s3, by push_cast; omega⟩
  exact ⟨rfl, rfl, s3, by push_cast; omega⟩

/-- Two input buffers with the same `W` leading bytes, passed with lengths of
at least `W`, give octets with the same prefix. -/
theorem samePrefix_start (W : Nat) (data data' : List Nat) (len len' : Int)
    (h1 : (W : Int) ≤ len) (h2 : (W : Int) ≤ len') (hd : W ≤ data.length)
    (hd' : W ≤ data'.length) (ht : data.take W = data'.take W) :
    SamePrefix W { len := 0, max := len, val := data } { len := 0, max := len', val := data' } :=
  ⟨rfl, le_refl _, h1, h2, ht, hd, hd'⟩

/-- C27. Trailing bytes are ignored: `GS_loadGroupPrivKey`,
`GS_loadGroupPubKey`, `GS_loadUserCredentials`, `GS_processJoin` (join
message), `GS_verify` and `GS_getSignatureTag` (signature) return the same code,
outputs and engine on two input buffers that hold the same first `width` bytes
and are passed with lengths of at least `width`, where `width` is the width of
the record read; so bytes appended to a buffer that holds the record change
nothing. The library decoder of G1 points is taken to read the bytes of one
encoding only. -/
theorem C27_trailing_bytes_ignored (stack : Stack L) (hR : L.ReadsPrefix) (fuel : Nat)
    (st : GS_State L)
    (data data' : List Nat) (len len' : Int) (challenge out msg bsn : List Nat)
    (out_len : Int) :
    (∀ W : Nat, W = 14 * L.MODBYTES → (W : Int) ≤ len → (W : Int) ≤ len' → W ≤ data.length →
        W ≤ data'.length → data.take W = data'.take W →
        GS_loadGroupPrivKey L stack st data len = GS_loadGroupPrivKey L stack st data' len')
      ∧ (∀ W : Nat, W = 12 * L.MODBYTES → (W : Int) ≤ len → (W : Int) ≤ len' →
        W ≤ data.length → W ≤ data'.length → data.take W = data'.take W →
        GS_loadGroupPubKey L stack st data len = GS_loadGroupPubKey L stack st data' len')
      ∧ (∀ W : Nat, W = 4 * (2 * L.MODBYTES + 1) + L.MODBYTES → (W : Int) ≤ len →
        (W : Int) ≤ len' → W ≤ data.length → W ≤ data'.length →
        data.take W = data'.take W →
        GS_loadUserCredentials L st data len = GS_loadUserCredentials L st data' len')
      ∧ (∀ W : Nat, W = (2 * L.MODBYTES + 1) + 2 * L.MODBYTES → (W : Int) ≤ len →
        (W : Int) ≤ len' → W ≤ data.length → W ≤ data'.length →
        data.take W = data'.take W →
        GS_processJoin L st data len challenge out out_len
          = GS_processJoin L st data' len' challenge out out_len)
      ∧ (∀ W : Nat, W = 5 * (2 * L.MODBYTES + 1) + 2 * L.MODBYTES → (W : Int) ≤ len →
        (W : Int) ≤ len' → W ≤ data.length → W ≤ data'.length →
        data.take W = data'.take W →
        GS_verify L fuel st msg bsn data len = GS_verify L fuel st msg bsn data' len')
      ∧ (∀ W : Nat, W = 5 * (2 * L.MODBYTES + 1) + 2 * L.MODBYTES → (W : Int) ≤ len →
        (W : Int) ≤ len' → W ≤ data.length → W ≤ data'.length →
        data.take W = data'.take W →
        GS_getSignatureTag L data len out out_len
          = GS_getSignatureTag L data' len' out out_len) := by
  refine ⟨?_, ?_, ?_, ?_, ?_, ?_⟩
  · intro W hW h1 h2 hd hd' ht
    obtain ⟨a, b, -, -⟩ := readsOnly_group_private_key (L := L) W _ _ st._priv
      (samePrefix_start W data data' len len' h1 h2 hd hd' ht) (by rw [hW]; simp)
    simp only [GS_loadGroupPrivKey]
    rw [a, b]
  · intro W hW h1 h2 hd hd' ht
    obtain ⟨a, b, -, -⟩ := readsOnly_group_public_key (L := L) W _ _ st._priv.pub
      (samePrefix_start W data data' len len' h1 h2 hd hd' ht) (by rw [hW]; simp)
    simp only [GS_loadGroupPubKey]
    rw [a, b]
  · intro W hW h1 h2 hd hd' ht
    obtain ⟨a, b, -, -⟩ := readsOnly_user_private_key hR W _ _ st._userPriv
      (samePrefix_start W data data' len len' h1 h2 hd hd' ht) (by rw [hW]; simp)
    simp only [GS_loadUserCredentials]
    rw [a, b]
  · intro W hW h1 h2 hd hd' ht
    obtain ⟨a, b, -, -⟩ := readsOnly_join_message hR W _ _ (localJoin L)
      (samePrefix_start W data data' len len' h1 h2 hd hd' ht) (by rw [hW]; simp)
    simp only [GS_processJoin]
    rw [a, b]
  · intro W hW h1 h2 hd hd' ht
    obtain ⟨a, b, -, -⟩ := readsOnly_signature hR W _ _ (localSig L)
      (samePrefix_start W data data' len len' h1 h2 hd hd' ht) (by rw [hW]; simp)
    simp only [GS_verify]
    rw [a, b]
  · intro W hW h1 h2 hd hd' ht
    obtain ⟨a, b, -, -⟩ := readsOnly_signature hR W _ _ (localSig L)
      (samePrefix_start W data data' len len' h1 h2 hd hd' ht) (by rw [hW]; simp)
    simp only [GS_getSignatureTag]
    rw [a, b]

/-- The G1 decoder of the small library reads three bytes. -/
theorem toy_readsPrefix : toy.ReadsPrefix := by
  intro P W
  show toyFromOctet P W = toyFromOctet P (W.take 3)
  rcases W with _ | ⟨a, _ | ⟨b, _ | ⟨c, rest⟩⟩⟩
  · rfl
  · rfl
  · rfl
  · simp only [List.take_succ_cons, List.take_zero]
    unfold toyFromOctet
    split
    · rename_i x y t heq
      simp only [List.cons.injEq] at heq
      obtain ⟨rfl, rfl, rfl, -⟩ := heq
      rfl
    · rename_i hne
      split
      · rename_i x y t heq
        simp only [List.cons.injEq] at heq
        obtain ⟨rfl, rfl, rfl, -⟩ := heq
        exact absurd rfl (hne _ _ _)
      · rfl

/-- C27 at the small library: three bytes appended to the seventeen bytes of a
signature change neither what `GS_getSignatureTag` returns nor what `GS_verify`
returns on the issuer engine. -/
theorem C27_witness :
    (toy.ReadsPrefix ∧ (17 : Nat) = 5 * (2 * toy.MODBYTES + 1) + 2 * toy.MODBYTES
        ∧ ((17 : Nat) : Int) ≤ 17 ∧ ((17 : Nat) : Int) ≤ 20
        ∧ 17 ≤ toySignatureBytes.length ∧ 17 ≤ (toySignatureBytes ++ [9, 9, 9]).length
        ∧ toySignatureBytes.take 17 = (toySignatureBytes ++ [9, 9, 9]).take 17)
      ∧ GS_verify toy 8 toyIssuer [104, 105] [98] toySignatureBytes 17
        = GS_verify toy 8 toyIssuer [104, 105] [98] (toySignatureBytes ++ [9, 9, 9]) 20
      ∧ GS_getSignatureTag toy toySignatureBytes 17 [] 10
        = GS_getSignatureTag toy (toySignatureBytes ++ [9, 9, 9]) 20 [] 10 :=
  ⟨⟨toy_readsPrefix, by decide, by decide, by decide, by decide, by decide, by decide⟩,
    (C27_trailing_bytes_ignored toyStack toy_readsPrefix 8 toyIssuer toySignatureBytes
      (toySignatureBytes ++ [9, 9, 9]) 17 20 [110] [] [104, 105] [98] 10).2.2.2.2.1 17
      (by decide) (by decide) (by decide) (by decide) (by decide) (by decide),
    (C27_trailing_bytes_ignored toyStack toy_readsPrefix 8 toyIssuer toySignatureBytes
      (toySignatureBytes ++ [9, 9, 9]) 17 20 [110] [] [104, 105] [98] 10).2.2.2.2.2 17
      (by decide) (by decide) (by decide) (by decide) (by decide) (by decide)⟩

end Trailing

end GroupSign
